import Mathlib

/-! Path probing and segment resolution of the gccrs type checker.

A shallow embedding of `gcc/rust/typecheck/rust-hir-path-probe.h` and of the
type resolver of `gcc/rust/typecheck/rust-hir-type-check-type.{h,cc}`: the root
walk, the segment walk, the visits of the type expressions and `Resolve`.

Conventions of the embedding:

* pointers to immutable front-end objects (`HIR::ImplBlock *`,
  `const TraitReference *`, `TyTy::BaseType *`) are values; a pointer that may be
  `nullptr` is an `Option`;
* `rust_assert`, `gcc_unreachable`, out-of-range container accesses and reads
  through a null pointer abort the compiler: the embedded function returns
  `none`;
* operations whose bodies live in other translation units (`can_eq`, the
  substitution mappers, the bound prober, the mapping tables) are fields of `Env`;
* the types declared in headers outside the translated files (`TyTy::BaseType`,
  the HIR nodes, `TraitReference`, `TraitItemReference`) are modelled from the
  data model of the spec, with the members that the translated code reads;
* the mutable tables of the type context and of the name resolver are fields of
  `State`, which also keeps the ordered list of observable calls
  (`State.trace`).
-/

set_option linter.unusedVariables false

namespace Rust

abbrev HirId := Nat
abbrev NodeId := Nat
abbrev DefId := Nat
abbrev Location := Nat
abbrev Identifier := String

/-- Modelled from the spec: `UNKNOWN_NODEID`, declared in the mapping headers,
is the node id that stands for "no resolved target identity". -/
def UNKNOWN_NODEID : NodeId := 0

/-- Modelled from the spec: the value of a default-constructed `Location`
(a location that names no source position). -/
def UNKNOWN_LOCATION : Location := 0

namespace TyTy

/-- Modelled from the spec: the kinds of a type node (`TyTy::TypeKind`). -/
inductive TypeKind where
  | INFER | ADT | STR | REF | POINTER | PARAM | ARRAY | FNDEF | FNPTR | TUPLE
  | BOOL | CHAR | INT | UINT | FLOAT | USIZE | ISIZE | NEVER
  | PLACEHOLDER | PROJECTION | DYNAMIC | CLOSURE | ERROR
  deriving DecidableEq, Repr

/-- Modelled from the spec: a bound written on a type, the `DefId` of the trait
and where it was written (`TyTy::TypeBoundPredicate`). -/
structure TypeBoundPredicate where
  reference : DefId
  locus : Location
  deriving DecidableEq, Repr

/-- Modelled from the spec: the declaration of a generic parameter
(`HIR::TypeParam`). -/
structure TypeParam where
  type_representation : String
  locus : Location
  deriving DecidableEq, Repr

/-- Modelled from the spec: one generic parameter of a type
(`TyTy::SubstitutionParamMapping`). -/
structure SubstitutionParamMapping where
  generic_param : TypeParam
  param_ty_symbol : String
  deriving DecidableEq, Repr

/-- Modelled from the spec: a type node (`TyTy::BaseType`). `ref` is the stable
identity of the node, `ty_ref` the identity of the type it stands for; `substs`
is the substitution parameter list; `subtypes` holds the references (`TyVar`)
to the component types of a function pointer, tuple, reference or pointer, and
`is_mut` the mutability of a reference or pointer. -/
structure BaseType where
  kind : TypeKind
  ref : HirId
  ty_ref : HirId
  specified_bounds : List TypeBoundPredicate
  substs : List SubstitutionParamMapping
  subtypes : List HirId := []
  is_mut : Bool := false
  deriving DecidableEq, Repr

/-- Modelled from the spec: the `Error` type node built by
`new TyTy::ErrorType (id)`. -/
def ErrorType (id : HirId) : BaseType :=
  { kind := TypeKind.ERROR, ref := id, ty_ref := id, specified_bounds := [], substs := [] }

/-- Modelled from the spec: the copy made by `clone ()`, a node of the same kind
and contents. -/
def BaseType.clone (t : BaseType) : BaseType := t

/-- Modelled from the spec: the effect of `set_ty_ref (id)`, the node with a
re-assigned identity. -/
def BaseType.set_ty_ref (t : BaseType) (id : HirId) : BaseType := { t with ty_ref := id }

/-- Modelled from the spec: the effect of `set_ref (id)`, the node under the
identity `id`. -/
def BaseType.set_ref (t : BaseType) (id : HirId) : BaseType := { t with ref := id }

/-- Modelled from the spec: one pair `(parameter, argument)` of a substitution
map (`TyTy::SubstitutionArg`). -/
structure SubstitutionArg where
  param : SubstitutionParamMapping
  argument : BaseType
  deriving DecidableEq, Repr

/-- Modelled from the spec: a substitution map, an ordered list of pairs with
the location they are reported at (`TyTy::SubstitutionArgumentMappings`). -/
structure SubstitutionArgumentMappings where
  mappings : List SubstitutionArg
  locus : Location
  deriving DecidableEq, Repr

/-- Modelled from the spec: a binding list "carries no usable bindings" when it
is the error list, which is the one without any binding. -/
def SubstitutionArgumentMappings.is_error (m : SubstitutionArgumentMappings) : Bool :=
  m.mappings.isEmpty

end TyTy

namespace HIR

/-- Modelled from the spec: the identities of a syntax node
(`Analysis::NodeMapping`), the part that the resolver reads. -/
structure NodeMapping where
  crate_num : Nat
  nodeid : NodeId
  hirid : HirId
  deriving DecidableEq, Repr

/-- Modelled from the spec: what the probe reads of an item declared in an impl
block, its name, identities and location. -/
structure ItemDecl where
  name : Identifier
  mappings : NodeMapping
  locus : Location
  deriving DecidableEq, Repr

/-- Modelled from the spec: the closed set of declaration variants of an impl
item (`HIR::ImplItem`), the three that the probe visits. -/
inductive ImplItem where
  | TypeAlias (type_alias : ItemDecl)
  | ConstantItem (constant : ItemDecl)
  | Function (function : ItemDecl)
  deriving DecidableEq, Repr

/-- Node mappings of an impl item, `get_impl_mappings ()`. -/
def ImplItem.get_impl_mappings : ImplItem → NodeMapping
  | .TypeAlias d => d.mappings
  | .ConstantItem d => d.mappings
  | .Function d => d.mappings

/-- Modelled from the spec: an impl block (`HIR::ImplBlock`), its own id, the id
of its Self type expression and whether it is tagged with a trait
(`has_trait_ref ()`). -/
structure ImplBlock where
  hirid : HirId
  type_hirid : HirId
  has_trait_ref : Bool
  deriving DecidableEq, Repr

/-- Modelled from the spec: the explicit generic arguments of a segment
(`HIR::GenericArgs`); each type argument is kept as the text `as_string ()`
gives for it. -/
structure GenericArgs where
  type_args : List String
  locus : Location
  lifetime_args : List String := []
  binding_args : List String := []
  deriving DecidableEq, Repr

/-- Modelled from the spec: "`args` is non-empty" is the negation of
`is_empty ()`, which holds when no argument of any sort is supplied. -/
def GenericArgs.is_empty (args : GenericArgs) : Bool :=
  args.lifetime_args.isEmpty && args.type_args.isEmpty && args.binding_args.isEmpty

/-- Modelled from the spec: the argument list without any argument,
`GenericArgs::create_empty (locus)`. -/
def GenericArgs.create_empty (locus : Location) : GenericArgs :=
  { type_args := [], locus := locus }

/-- Modelled from the spec: one segment of a path (`HIR::TypePathSegment`);
`generic_args` is present exactly for a generic segment
(`is_generic_segment ()`). -/
structure TypePathSegment where
  ident_segment : String
  locus : Location
  mappings : NodeMapping
  generic_args : Option GenericArgs
  deriving DecidableEq, Repr

/-- Modelled from the spec: `is_ident_only ()` holds of a segment that is a
bare identifier, without explicit generic arguments. -/
def TypePathSegment.is_ident_only (seg : TypePathSegment) : Bool :=
  seg.generic_args.isNone

/-- Modelled from the spec: the text of a segment that is a bare identifier is
the identifier. -/
def TypePathSegment.as_string (seg : TypePathSegment) : String :=
  seg.ident_segment

/-- Modelled from the spec: a path `A::B::C` in type position (`HIR::TypePath`),
its identities, location, segments and text. -/
structure TypePath where
  mappings : NodeMapping
  locus : Location
  segments : List TypePathSegment
  as_string : String
  deriving DecidableEq, Repr

/-- Modelled from the spec: what a qualified path `<Type as Trait>::Item::..`
holds besides `Type` (`HIR::QualifiedPathInType` with its
`HIR::QualifiedPathType`): its identities and location, the identities of the
qualifier, the trait of the `as` clause when there is one, the generic arguments
written on that trait when there are some, the segment `Item` and the segments
after it. -/
structure QualifiedPath where
  mappings : NodeMapping
  locus : Location
  qual_mappings : NodeMapping
  trait : Option TypePath
  trait_generic_args : Option GenericArgs
  associated_segment : TypePathSegment
  segments : List TypePathSegment
  deriving DecidableEq, Repr

/-- Modelled from the spec: a type expression (`HIR::Type`). The variants are
those that `TypeCheckType` visits; `Other` stands for every variant it has no
visit for. -/
inductive TypeExpr where
  | TypePath (path : TypePath)
  | QualifiedPathInType (path : QualifiedPath) (type : TypeExpr)
  | BareFunctionType (mappings : NodeMapping) (params : List TypeExpr)
      (return_type : Option TypeExpr)
  | TupleType (mappings : NodeMapping) (locus : Location) (elems : List TypeExpr)
  | ArrayType (mappings : NodeMapping)
  | ReferenceType (mappings : NodeMapping) (is_mut : Bool) (base_type : TypeExpr)
  | RawPointerType (mappings : NodeMapping) (is_mut : Bool) (base_type : TypeExpr)
  | InferredType (mappings : NodeMapping)
  | TraitObjectTypeOneBound (mappings : NodeMapping) (locus : Location)
      (bound_path : TypePath) (bound_locus : Location)
  | Other (mappings : NodeMapping)

/-- The identities of a type expression, `get_mappings ()`. -/
def TypeExpr.get_mappings : TypeExpr → NodeMapping
  | TypeExpr.TypePath path => path.mappings
  | TypeExpr.QualifiedPathInType path _ => path.mappings
  | TypeExpr.BareFunctionType mappings _ _ => mappings
  | TypeExpr.TupleType mappings _ _ => mappings
  | TypeExpr.ArrayType mappings => mappings
  | TypeExpr.ReferenceType mappings _ _ => mappings
  | TypeExpr.RawPointerType mappings _ _ => mappings
  | TypeExpr.InferredType mappings => mappings
  | TypeExpr.TraitObjectTypeOneBound mappings _ _ _ => mappings
  | TypeExpr.Other mappings => mappings

end HIR

namespace Resolver

open TyTy HIR

/-- Modelled from the spec: the kinds of items a trait declares
(`TraitItemReference::TraitItemType`). -/
inductive TraitItemType where
  | FN | CONST | TYPE | ERROR
  deriving DecidableEq, Repr

/-- Modelled from the spec: an item of a trait (`TraitItemReference`);
`optional` means that it has a default body, `tyty` is what `get_tyty ()` gives. -/
structure TraitItemReference where
  identifier : String
  optional : Bool
  type : TraitItemType
  tyty : BaseType
  locus : Location
  mappings : NodeMapping
  deriving DecidableEq, Repr

/-- Modelled from the spec: a trait descriptor (`TraitReference`), a named set
of trait items. -/
structure TraitReference where
  defid : DefId
  locus : Location
  item_refs : List TraitItemReference
  deriving DecidableEq, Repr

/-- Modelled from the spec: `TraitReference::lookup_trait_item` "looks up a
TraitItem named `name` in the trait descriptor"; the first item of that name is
the one found. -/
def TraitReference.lookup_trait_item (t : TraitReference) (ident : String) :
    Option TraitItemReference :=
  t.item_refs.find? (fun item => item.identifier == ident)


/-- Modelled from the spec: the record kept for a trait-implementing impl block
(`AssociatedImplTrait`), on which `setup_associated_types ()` is called. -/
structure AssociatedImplTrait where
  trait_defid : DefId
  impl_hirid : HirId
  deriving DecidableEq, Repr

/-- A diagnostic handed to `rust_error_at`: the anchor, the ranges added to the
rich location, and the message. -/
structure Diagnostic where
  locus : Location
  ranges : List Location
  message : String
  deriving DecidableEq, Repr

/-- Calls that are observable from outside the resolver, in the order made. -/
inductive Event where
  | Probe (receiver : BaseType) (segment_name : String)
      (probe_impls probe_bounds ignore_mandatory_trait_items : Bool)
  | setup_associated_types (assoc : AssociatedImplTrait)
  | SubstMapperInternal_Resolve (ty : BaseType) (args : SubstitutionArgumentMappings)
  | SubstMapper_Resolve (ty : BaseType) (locus : Location) (args : GenericArgs)
  | SubstMapper_InferSubst (ty : BaseType) (locus : Location)
  | rust_error_at (d : Diagnostic)
  deriving DecidableEq, Repr

/-- Modelled from the spec: what the name resolver keeps of a definition, the
node that declares it and its enclosing definition (`parent`). -/
structure Definition where
  node : NodeId
  parent : NodeId
  deriving DecidableEq, Repr

/-- Operations and tables declared outside the translated files. -/
structure Env where
  /-- the entries `mappings->iterate_impl_items` walks, in its order -/
  impl_items : List (HirId × ImplItem × ImplBlock)
  /-- the test `receiver->can_eq (other, emit_errors)` -/
  can_eq : BaseType → BaseType → Bool → Bool
  get_root : BaseType → BaseType
  needs_generic_substitutions : BaseType → Bool
  can_substitute : BaseType → Bool
  as_string : BaseType → String
  /-- the answer of `TypeBoundsProbe::Probe (receiver)` -/
  TypeBoundsProbe_Probe : BaseType → List (TraitReference × Option ImplBlock)
  /-- the trait a predicate refers to, `predicate.get ()` -/
  predicate_get : TypeBoundPredicate → TraitReference
  lookup_associated_trait_impl : HirId → Option AssociatedImplTrait
  SubstMapperInternal_Resolve : BaseType → SubstitutionArgumentMappings → BaseType
  SubstMapper_Resolve : BaseType → Location → GenericArgs → BaseType
  SubstMapper_InferSubst : BaseType → Location → BaseType
  GetUsedSubstArgs_From : BaseType → SubstitutionArgumentMappings
  /-- the reverse lookup `resolver->lookup_definition (id, &def)` -/
  lookup_definition : NodeId → Option Definition
  /-- the table `mappings->lookup_node_to_hir (crate, node, &hir)` -/
  lookup_node_to_hir : Nat → NodeId → Option HirId
  /-- the module table: `mappings->lookup_module (crate, hir)` is not null -/
  lookup_module : Nat → HirId → Bool
  /-- the node id `resolver->get_unit_type_node_id ()` -/
  unit_type_node_id : NodeId
  /-- the table `context->lookup_builtin (node, &ty)` -/
  lookup_builtin : NodeId → Option BaseType
  /-- the answer of `TraitResolver::Resolve (path)`; `none` is the error trait -/
  TraitResolver_Resolve : TypePath → Option TraitReference
  /-- the answer of `resolve_trait_path (path)` -/
  resolve_trait_path : TypePath → TraitReference
  /-- the oracle `TypeBoundsProbe::is_bound_satisfied_for_type (type, trait)` -/
  is_bound_satisfied_for_type : BaseType → TraitReference → Bool
  /-- the projection `lookup_associated->get_projected_type (..)` -/
  get_projected_type : AssociatedImplTrait → TraitItemReference → BaseType → HirId →
    GenericArgs → Location → BaseType
  /-- the test `can_resolve ()` of a placeholder -/
  placeholder_can_resolve : BaseType → Bool
  /-- the target `resolve ()` of a placeholder -/
  placeholder_resolve : BaseType → BaseType
  /-- the test `predicate.is_object_safe (emit_error, locus)` -/
  is_object_safe : TypeBoundPredicate → Bool → Location → Bool
  /-- what `visit (HIR::ArrayType &)`, defined in another file, leaves in
  `translated` -/
  visit_ArrayType : NodeMapping → Option BaseType

/-- The mutable tables: the type context, the name resolver records, the id
counter, the diagnostics emitted so far and the calls made so far. -/
structure State where
  types : List (HirId × BaseType)
  receivers : List (HirId × BaseType)
  resolved_names : List (NodeId × NodeId)
  resolved_types : List (NodeId × NodeId)
  next_hir_id : HirId
  diagnostics : List Diagnostic
  trace : List Event
  node_id_refs : List (NodeId × HirId) := []
  deriving DecidableEq, Repr

/-- The lookup `context->lookup_type (id, &ty)`; `none` when it answers false. -/
def State.lookup_type (st : State) (id : HirId) : Option BaseType :=
  st.types.lookup id

/-- Modelled from the spec: the lookup `context->lookup_type_by_node_id (node,
&hir)` in the index from node ids to the ids under which types are stored;
`none` when it answers false. -/
def State.lookup_type_by_node_id (st : State) (node : NodeId) : Option HirId :=
  st.node_id_refs.lookup node

/-- Modelled from the spec: the call `context->insert_type (mappings, type)`.
The type context is a key-value store: the node is stored under the id of
`mappings`, where the next `lookup_type` of that id finds it, and the node id of
`mappings` is indexed to that id. -/
def State.insert_type (st : State) (mappings : NodeMapping) (type : BaseType) : State :=
  { st with
    node_id_refs := (mappings.nodeid, mappings.hirid) :: st.node_id_refs
    types := (mappings.hirid, type) :: st.types }

/-- The tag of a candidate. -/
inductive CandidateType where
  | IMPL_CONST | IMPL_TYPE_ALIAS | IMPL_FUNC
  | TRAIT_ITEM_CONST | TRAIT_TYPE_ALIAS | TRAIT_FUNC
  deriving DecidableEq, Repr

structure ImplItemCandidate where
  impl_item : ImplItem
  parent : Option ImplBlock
  deriving DecidableEq, Repr

structure TraitItemCandidate where
  trait_ref : TraitReference
  item_ref : TraitItemReference
  impl : Option ImplBlock
  deriving DecidableEq, Repr

/-- The payload `union Candidate`. -/
inductive Candidate where
  | impl (impl : ImplItemCandidate)
  | trait (trait : TraitItemCandidate)
  deriving DecidableEq, Repr

structure PathProbeCandidate where
  type : CandidateType
  ty : BaseType
  locus : Location
  item : Candidate
  deriving DecidableEq, Repr

/-- The constructor taking an impl payload. Its initialiser list is
`type (type), ty (ty), item (impl)`: the member `locus` is default-constructed. -/
def PathProbeCandidate.of_impl (type : CandidateType) (ty : BaseType) (locus : Location)
    (impl : ImplItemCandidate) : PathProbeCandidate :=
  { type := type, ty := ty, locus := UNKNOWN_LOCATION, item := Candidate.impl impl }

/-- The constructor taking a trait payload. Its initialiser list is
`type (type), ty (ty), item (trait)`: the member `locus` is default-constructed. -/
def PathProbeCandidate.of_trait (type : CandidateType) (ty : BaseType) (locus : Location)
    (trait : TraitItemCandidate) : PathProbeCandidate :=
  { type := type, ty := ty, locus := UNKNOWN_LOCATION, item := Candidate.trait trait }

def PathProbeCandidate.is_impl_candidate (c : PathProbeCandidate) : Bool :=
  match c.type with
  | .IMPL_CONST => true
  | .IMPL_TYPE_ALIAS => true
  | .IMPL_FUNC => true
  | _ => false

def PathProbeCandidate.is_trait_candidate (c : PathProbeCandidate) : Bool :=
  match c.type with
  | .TRAIT_ITEM_CONST => true
  | .TRAIT_TYPE_ALIAS => true
  | .TRAIT_FUNC => true
  | _ => false

/-- The members of a `PathProbeType` object; `calls` lists the observable calls
the object has made. -/
structure PathProbeType where
  receiver : BaseType
  search : String
  candidates : List PathProbeCandidate
  current_impl : Option ImplBlock
  calls : List Event
  deriving DecidableEq, Repr

namespace PathProbeType

/-- The constructor: no candidate yet, `current_impl (nullptr)`. -/
def new (receiver : BaseType) (query : String) : PathProbeType :=
  { receiver := receiver, search := query, candidates := [], current_impl := none, calls := [] }

/-- Visit of `HIR::TypeAlias`. -/
def visit_TypeAlias (st : State) (p : PathProbeType) (type_alias : ItemDecl) :
    Option PathProbeType :=
  let name := type_alias.name
  if p.search = name then
    let tyid := type_alias.mappings.hirid
    match st.lookup_type tyid with
    | none => none
    | some ty =>
      let impl_item_candidate : ImplItemCandidate :=
        { impl_item := ImplItem.TypeAlias type_alias, parent := p.current_impl }
      let candidate := PathProbeCandidate.of_impl CandidateType.IMPL_TYPE_ALIAS ty
        type_alias.locus impl_item_candidate
      some { p with candidates := p.candidates ++ [candidate] }
  else some p

/-- Visit of `HIR::ConstantItem`. -/
def visit_ConstantItem (st : State) (p : PathProbeType) (constant : ItemDecl) :
    Option PathProbeType :=
  let name := constant.name
  if p.search = name then
    let tyid := constant.mappings.hirid
    match st.lookup_type tyid with
    | none => none
    | some ty =>
      let impl_item_candidate : ImplItemCandidate :=
        { impl_item := ImplItem.ConstantItem constant, parent := p.current_impl }
      let candidate := PathProbeCandidate.of_impl CandidateType.IMPL_CONST ty
        constant.locus impl_item_candidate
      some { p with candidates := p.candidates ++ [candidate] }
  else some p

/-- Visit of `HIR::Function`. -/
def visit_Function (st : State) (p : PathProbeType) (function : ItemDecl) :
    Option PathProbeType :=
  let name := function.name
  if p.search = name then
    let tyid := function.mappings.hirid
    match st.lookup_type tyid with
    | none => none
    | some ty =>
      let impl_item_candidate : ImplItemCandidate :=
        { impl_item := ImplItem.Function function, parent := p.current_impl }
      let candidate := PathProbeCandidate.of_impl CandidateType.IMPL_FUNC ty
        function.locus impl_item_candidate
      some { p with candidates := p.candidates ++ [candidate] }
  else some p

/-- The dispatch `item->accept_vis (*this)`. -/
def accept_vis (st : State) (p : PathProbeType) : ImplItem → Option PathProbeType
  | ImplItem.TypeAlias d => visit_TypeAlias st p d
  | ImplItem.ConstantItem d => visit_ConstantItem st p d
  | ImplItem.Function d => visit_Function st p d

def process_impl_item_candidate (env : Env) (st : State) (p : PathProbeType)
    (id : HirId) (item : ImplItem) (impl : ImplBlock) : Option PathProbeType :=
  let p := { p with current_impl := some impl }
  let impl_ty_id := impl.type_hirid
  match st.lookup_type impl_ty_id with
  | none => none
  | some impl_block_ty =>
    if env.can_eq p.receiver impl_block_ty false = false then some p
    else accept_vis st p item

/-- The callback is run on every entry (it always answers `true`). -/
def process_impl_items_for_candidates (env : Env) (st : State) (p : PathProbeType) :
    Option PathProbeType :=
  env.impl_items.foldlM
    (fun p entry => process_impl_item_candidate env st p entry.1 entry.2.1 entry.2.2) p

/-- The `switch` over the trait item's kind; `ERROR` is unreachable. -/
def candidate_type_of : TraitItemType → Option CandidateType
  | .FN => some CandidateType.TRAIT_FUNC
  | .CONST => some CandidateType.TRAIT_ITEM_CONST
  | .TYPE => some CandidateType.TRAIT_TYPE_ALIAS
  | .ERROR => none

/-- One turn of the loop of `process_traits_for_candidates`. -/
def process_trait_for_candidates (env : Env) (p : PathProbeType)
    (ignore_mandatory_trait_items : Bool) (ref : TraitReference × Option ImplBlock) :
    Option PathProbeType :=
  let trait_ref := ref.1
  let impl := ref.2
  match trait_ref.lookup_trait_item p.search with
  | none => some p
  | some trait_item_ref =>
    let trait_item_needs_implementation := !trait_item_ref.optional
    if (ignore_mandatory_trait_items && trait_item_needs_implementation) = true then some p
    else
      match candidate_type_of trait_item_ref.type with
      | none => none
      | some candidate_type =>
        let trait_item_tyty := trait_item_ref.tyty
        let root := env.get_root p.receiver
        let receiver_is_type_param := decide (root.kind = TypeKind.PARAM)
        let receiver_is_dyn := decide (root.kind = TypeKind.DYNAMIC)
        let receiver_is_generic := receiver_is_type_param || receiver_is_dyn
        let setup : List Event :=
          match impl with
          | none => []
          | some impl =>
            if receiver_is_generic = true then []
            else
              match env.lookup_associated_trait_impl impl.hirid with
              | none => []
              | some lookup_associated => [Event.setup_associated_types lookup_associated]
        if trait_item_tyty.kind = TypeKind.FNDEF then
          match trait_item_tyty.substs.find?
              (fun param_mapping => param_mapping.generic_param.type_representation = "Self") with
          | none => none
          | some param =>
            let mappings := [SubstitutionArg.mk param p.receiver.clone]
            let args : SubstitutionArgumentMappings :=
              { mappings := mappings, locus := UNKNOWN_LOCATION }
            let substituted := env.SubstMapperInternal_Resolve trait_item_tyty args
            let trait_item_candidate : TraitItemCandidate :=
              { trait_ref := trait_ref, item_ref := trait_item_ref, impl := impl }
            let candidate := PathProbeCandidate.of_trait candidate_type substituted
              trait_ref.locus trait_item_candidate
            some { p with
              candidates := p.candidates ++ [candidate]
              calls := p.calls ++ setup
                ++ [Event.SubstMapperInternal_Resolve trait_item_tyty args] }
        else
          let trait_item_candidate : TraitItemCandidate :=
            { trait_ref := trait_ref, item_ref := trait_item_ref, impl := impl }
          let candidate := PathProbeCandidate.of_trait candidate_type trait_item_tyty
            trait_ref.locus trait_item_candidate
          some { p with
            candidates := p.candidates ++ [candidate]
            calls := p.calls ++ setup }

def process_traits_for_candidates (env : Env) (p : PathProbeType)
    (traits : List (TraitReference × Option ImplBlock))
    (ignore_mandatory_trait_items : Bool) : Option PathProbeType :=
  traits.foldlM (fun p ref => process_trait_for_candidates env p ignore_mandatory_trait_items ref) p

/-- The member `std::map<DefId, V>::insert` on the entries of the map kept in
increasing key order: an entry whose key is already present is not replaced. -/
def map_insert {V : Type} : List (DefId × V) → DefId → V → List (DefId × V)
  | [], k, v => [(k, v)]
  | (k', v') :: rest, k, v =>
    if k < k' then (k, v) :: (k', v') :: rest
    else if k = k' then (k', v') :: rest
    else (k', v') :: map_insert rest k v

/-- The function `union_bounds (a, b)`: every entry of `a`, then every entry of
`b`, is inserted under its trait's `DefId`; the map is then read in key order. -/
def union_bounds (a : List (TraitReference × Option ImplBlock))
    (b : List (TraitReference × Option ImplBlock)) :
    List (TraitReference × Option ImplBlock) :=
  let mapper : List (DefId × (TraitReference × Option ImplBlock)) := []
  let mapper := a.foldl (fun m ref => map_insert m ref.1.defid ref) mapper
  let mapper := b.foldl (fun m ref => map_insert m ref.1.defid ref) mapper
  mapper.map (fun it => (it.2.1, it.2.2))

/-- The bounds written on the receiver, each paired with `nullptr`. -/
def specified_bounds (env : Env) (receiver : BaseType) :
    List (TraitReference × Option ImplBlock) :=
  receiver.specified_bounds.map (fun predicate => (env.predicate_get predicate, none))

/-- The static entry point `PathProbeType::Probe`: the candidates found and the
observable calls made while finding them. -/
def Probe (env : Env) (st : State) (receiver : BaseType) (segment_name : String)
    (probe_impls probe_bounds ignore_mandatory_trait_items : Bool) :
    Option (List PathProbeCandidate × List Event) :=
  let probe := PathProbeType.new receiver segment_name
  match (if probe_impls = true then process_impl_items_for_candidates env st probe
         else some probe) with
  | none => none
  | some probe =>
    if probe_bounds = false then some (probe.candidates, probe.calls)
    else
      let probed_bounds := env.TypeBoundsProbe_Probe receiver
      let union_type_bounds := union_bounds probed_bounds (specified_bounds env receiver)
      match process_traits_for_candidates env probe union_type_bounds
          ignore_mandatory_trait_items with
      | none => none
      | some probe => some (probe.candidates, probe.calls)

end PathProbeType


/-- The members of a `RichLocation` that are written: the anchor and the ranges
added with `add_range`. -/
structure RichLocation where
  locus : Location
  ranges : List Location
  deriving DecidableEq, Repr

def RichLocation.add_range (r : RichLocation) (l : Location) : RichLocation :=
  { r with ranges := r.ranges ++ [l] }

namespace ReportMultipleCandidateError

/-- The three visits: each adds the item's own location. -/
def accept_vis (r : RichLocation) : ImplItem → RichLocation
  | ImplItem.TypeAlias d => r.add_range d.locus
  | ImplItem.ConstantItem d => r.add_range d.locus
  | ImplItem.Function d => r.add_range d.locus

/-- The loop of `Report` over the candidates. Reading the member of the union
that the tag does not announce has no defined result (`none`). -/
def add_ranges : List PathProbeCandidate → RichLocation → Option RichLocation
  | [], r => some r
  | c :: rest, r =>
    match c.type, c.item with
    | CandidateType.IMPL_CONST, Candidate.impl i => add_ranges rest (accept_vis r i.impl_item)
    | CandidateType.IMPL_TYPE_ALIAS, Candidate.impl i => add_ranges rest (accept_vis r i.impl_item)
    | CandidateType.IMPL_FUNC, Candidate.impl i => add_ranges rest (accept_vis r i.impl_item)
    | CandidateType.TRAIT_ITEM_CONST, Candidate.trait t => add_ranges rest (r.add_range t.item_ref.locus)
    | CandidateType.TRAIT_TYPE_ALIAS, Candidate.trait t => add_ranges rest (r.add_range t.item_ref.locus)
    | CandidateType.TRAIT_FUNC, Candidate.trait t => add_ranges rest (r.add_range t.item_ref.locus)
    | _, _ => none

/-- The static `Report`: one diagnostic on the rich location built from the
query location and the candidates. -/
def Report (st : State) (candidates : List PathProbeCandidate) (query : String)
    (query_locus : Location) : Option State :=
  let r : RichLocation := { locus := query_locus, ranges := [] }
  match add_ranges candidates r with
  | none => none
  | some r =>
    let d : Diagnostic :=
      { locus := r.locus, ranges := r.ranges
        message := "multiple applicable items in scope for: " ++ query }
    some { st with diagnostics := st.diagnostics ++ [d], trace := st.trace ++ [Event.rust_error_at d] }

end ReportMultipleCandidateError

/-- The call `rust_error_at (locus, message)`. -/
def rust_error_at (st : State) (locus : Location) (message : String) : State :=
  let d : Diagnostic := { locus := locus, ranges := [], message := message }
  { st with diagnostics := st.diagnostics ++ [d], trace := st.trace ++ [Event.rust_error_at d] }

namespace TypeCheckType

/-- A call of `PathProbeType::Probe` made by the resolver: the call and the
calls made inside it are appended to the trace. -/
def call_Probe (env : Env) (st : State) (receiver : BaseType) (segment_name : String)
    (probe_impls probe_bounds ignore_mandatory_trait_items : Bool) :
    Option (List PathProbeCandidate × State) :=
  match PathProbeType.Probe env st receiver segment_name probe_impls probe_bounds
      ignore_mandatory_trait_items with
  | none => none
  | some (candidates, calls) =>
    some (candidates,
      { st with trace := st.trace
          ++ [Event.Probe receiver segment_name probe_impls probe_bounds
                ignore_mandatory_trait_items]
          ++ calls })

/-- How one turn of the loop of `resolve_segments` ends: with a `return`, or
with the values of `resolved_node_id`, `prev_segment` and `tyseg` for the next
turn. -/
inductive SegmentOutcome where
  | returned (result : BaseType) (st : State)
  | next (resolved_node_id : NodeId) (prev_segment : BaseType) (tyseg : BaseType) (st : State)
  deriving DecidableEq, Repr

/-- The part of a turn after the probing: the single candidate is taken. -/
def take_candidate (env : Env) (expr_id : HirId) (expr_locus : Location) (st : State)
    (tyseg : BaseType) (seg : TypePathSegment) (candidates : List PathProbeCandidate) :
    Option SegmentOutcome :=
  if candidates.length > 1 then
    match ReportMultipleCandidateError.Report st candidates seg.ident_segment seg.locus with
    | none => none
    | some st => some (SegmentOutcome.returned (ErrorType expr_id) st)
  else
    match candidates with
    | [] => none
    | candidate :: _ =>
      let prev_segment := tyseg
      let tyseg := candidate.ty
      let picked : Option (NodeId × BaseType × State) :=
        if candidate.is_impl_candidate = true then
          match candidate.item with
          | Candidate.impl i => some (i.impl_item.get_impl_mappings.nodeid, tyseg, st)
          | Candidate.trait _ => none
        else
          match candidate.item with
          | Candidate.impl _ => none
          | Candidate.trait t =>
            let resolved_node_id := t.item_ref.mappings.nodeid
            match t.impl with
            | none => some (resolved_node_id, tyseg, st)
            | some impl =>
              match env.lookup_associated_trait_impl impl.hirid with
              | none => none
              | some lookup_associated =>
                let st := { st with
                  trace := st.trace ++ [Event.setup_associated_types lookup_associated] }
                let tyseg := tyseg.clone
                let tyseg := tyseg.set_ty_ref st.next_hir_id
                let st := { st with next_hir_id := st.next_hir_id + 1 }
                some (resolved_node_id, tyseg, st)
      match picked with
      | none => none
      | some (resolved_node_id, tyseg, st) =>
        match seg.generic_args with
        | none => some (SegmentOutcome.next resolved_node_id prev_segment tyseg st)
        | some generic_args =>
          if env.can_substitute tyseg = false then
            let st := rust_error_at st expr_locus
              ("substitutions not supported for " ++ env.as_string tyseg)
            some (SegmentOutcome.returned (ErrorType expr_id) st)
          else
            let st := { st with
              trace := st.trace ++ [Event.SubstMapper_Resolve tyseg expr_locus generic_args] }
            let tyseg := env.SubstMapper_Resolve tyseg expr_locus generic_args
            if tyseg.kind = TypeKind.ERROR then
              some (SegmentOutcome.returned (ErrorType expr_id) st)
            else some (SegmentOutcome.next resolved_node_id prev_segment tyseg st)

/-- One turn of the loop of `resolve_segments`, for the segment `seg`. -/
def resolve_segment (env : Env) (expr_id : HirId) (expr_locus : Location) (st : State)
    (prev_segment : BaseType) (tyseg : BaseType) (seg : TypePathSegment) :
    Option SegmentOutcome :=
  let reciever_is_generic := decide (prev_segment.kind = TypeKind.PARAM)
  let probe_bounds := true
  let probe_impls := !reciever_is_generic
  let ignore_mandatory_trait_items := !reciever_is_generic
  match call_Probe env st prev_segment seg.ident_segment probe_impls false
      ignore_mandatory_trait_items with
  | none => none
  | some (candidates, st) =>
    if candidates.length = 0 then
      match call_Probe env st prev_segment seg.ident_segment false probe_bounds
          ignore_mandatory_trait_items with
      | none => none
      | some (candidates, st) =>
        if candidates.length = 0 then
          let st := rust_error_at st seg.locus
            "failed to resolve path segment using an impl Probe"
          some (SegmentOutcome.returned (ErrorType expr_id) st)
        else take_candidate env expr_id expr_locus st tyseg seg candidates
    else take_candidate env expr_id expr_locus st tyseg seg candidates

/-- The loop of `resolve_segments` over the segments that are left. -/
def resolve_segments_loop (env : Env) (expr_id : HirId) (expr_locus : Location) :
    List TypePathSegment → State → NodeId → BaseType → BaseType → Option SegmentOutcome
  | [], st, resolved_node_id, prev_segment, tyseg =>
    some (SegmentOutcome.next resolved_node_id prev_segment tyseg st)
  | seg :: rest, st, resolved_node_id, prev_segment, tyseg =>
    match resolve_segment env expr_id expr_locus st prev_segment tyseg seg with
    | none => none
    | some (SegmentOutcome.returned result st) => some (SegmentOutcome.returned result st)
    | some (SegmentOutcome.next resolved_node_id prev_segment tyseg st) =>
      resolve_segments_loop env expr_id expr_locus rest st resolved_node_id prev_segment tyseg

/-- The body of `if (tyseg->needs_generic_substitutions ())` that follows the
loop, up to the new value of `tyseg`; `none` where `segments.back ()` is read
on an empty vector. -/
def final_substitution (env : Env) (segments : List TypePathSegment) (st : State)
    (prev_segment : BaseType) (tyseg : BaseType) : Option (BaseType × State) :=
  match segments.getLast? with
  | none => none
  | some back =>
    let locus := back.locus
    if env.needs_generic_substitutions prev_segment = false then
      let used_args_in_prev_segment := env.GetUsedSubstArgs_From prev_segment
      if used_args_in_prev_segment.is_error = false then
        some (env.SubstMapperInternal_Resolve tyseg used_args_in_prev_segment,
          { st with trace := st.trace
              ++ [Event.SubstMapperInternal_Resolve tyseg used_args_in_prev_segment] })
      else some (tyseg, st)
    else
      some (env.SubstMapper_InferSubst tyseg locus,
        { st with trace := st.trace ++ [Event.SubstMapper_InferSubst tyseg locus] })

/-- The consistency check that ends `resolve_segments`: an earlier record must
agree (`none` when an assertion fails), a missing record is written. -/
def record_resolved (st : State) (expr_mappings : NodeMapping) (resolved_node_id : NodeId) :
    Option State :=
  if resolved_node_id = UNKNOWN_NODEID then none
  else
    match st.resolved_names.lookup expr_mappings.nodeid with
    | some path_resolved_id =>
      if path_resolved_id = resolved_node_id then some st else none
    | none =>
      match st.resolved_types.lookup expr_mappings.nodeid with
      | some path_resolved_id =>
        if path_resolved_id = resolved_node_id then some st else none
      | none =>
        some { st with
          resolved_names := (expr_mappings.nodeid, resolved_node_id) :: st.resolved_names }

/-- The end of `resolve_segments`: the check of the record, then `return tyseg`. -/
def finish (st : State) (expr_mappings : NodeMapping) (resolved_node_id : NodeId)
    (tyseg : BaseType) : Option (BaseType × State) :=
  match record_resolved st expr_mappings resolved_node_id with
  | none => none
  | some st => some (tyseg, st)

/-- The function `TypeCheckType::resolve_segments`: the type returned and the
state left, or `none` when the compiler aborts. -/
def resolve_segments (env : Env) (st : State) (root_resolved_node_id : NodeId)
    (expr_id : HirId) (segments : List TypePathSegment) (offset : Nat) (tyseg : BaseType)
    (expr_mappings : NodeMapping) (expr_locus : Location) : Option (BaseType × State) :=
  let resolved_node_id := root_resolved_node_id
  let prev_segment := tyseg
  match resolve_segments_loop env expr_id expr_locus (segments.drop offset) st
      resolved_node_id prev_segment tyseg with
  | none => none
  | some (SegmentOutcome.returned result st) => some (result, st)
  | some (SegmentOutcome.next resolved_node_id prev_segment tyseg st) =>
    let st := { st with receivers := (expr_mappings.hirid, prev_segment) :: st.receivers }
    if env.needs_generic_substitutions tyseg = true then
      match final_substitution env segments st prev_segment tyseg with
      | none => none
      | some (tyseg, st) =>
        if tyseg.kind = TypeKind.ERROR then some (ErrorType expr_id, st)
        else finish st expr_mappings resolved_node_id tyseg
    else finish st expr_mappings resolved_node_id tyseg

end TypeCheckType

namespace TypeCheckResolveGenericArguments

/-- The function `TypeCheckResolveGenericArguments::resolve`: the generic
arguments written on the segment, the empty list at the segment's location when
the segment has none. -/
def resolve (segment : TypePathSegment) : GenericArgs :=
  match segment.generic_args with
  | some args => args
  | none => GenericArgs.create_empty segment.locus

end TypeCheckResolveGenericArguments

namespace TypeCheckType

/-- The order of `std::string`, which a `std::set<std::string>` keeps its
elements in: lexicographic, by character code. -/
def string_lt (a b : String) : Bool := decide (a.toList < b.toList)

/-- The insertion into a `std::set<std::string>`, kept as a strictly increasing
list: an element that is there already is not inserted again. -/
def set_insert : List String → String → List String
  | [], s => [s]
  | x :: rest, s =>
    if string_lt s x then s :: x :: rest
    else if string_lt x s then x :: set_insert rest s
    else x :: rest

/-- The assignment `param_location_map[sym] = locus`: the entry of `sym` is
written, an earlier one replaced. -/
def map_assign (m : List (String × Location)) (sym : String) (locus : Location) :
    List (String × Location) :=
  (sym, locus) :: m.filter (fun e => e.1 != sym)

/-- The function `TypeCheckType::check_for_unconstrained`. `subst_mappings` is
the pointer given to `Resolve` (`none` for `nullptr`); `type_args` holds the
text `arg->as_string ()` of each type argument. `none` where
`param_location_map.at` throws. -/
def check_for_unconstrained (st : State)
    (subst_mappings : Option (List SubstitutionParamMapping)) (type_args : List String) :
    Option State :=
  let filled : List (String × Location) × List String :=
    match subst_mappings with
    | none => ([], [])
    | some mappings =>
      mappings.foldl (fun acc mapping =>
        let sym := mapping.param_ty_symbol
        (map_assign acc.1 sym mapping.generic_param.locus, set_insert acc.2 sym)) ([], [])
  let param_location_map := filled.1
  let param_tys := filled.2
  let args := type_args.foldl set_insert []
  param_tys.foldlM (fun st exp =>
    let used := decide (exp ∈ args)
    if !used then
      match param_location_map.lookup exp with
      | none => none
      | some locus => some (rust_error_at st locus "unconstrained type parameter")
    else some st) st

/-- How one turn of the loop of `resolve_root_path` ends: with a `return` of a
pointer (`none` for `nullptr`), `*offset` and `*root_resolved_node_id` being
what they were when the turn began, or with the values of `*offset`,
`*root_resolved_node_id` and `root_tyty` for the next turn. -/
inductive RootOutcome where
  | returned (root : Option BaseType) (offset : Nat) (root_resolved_node_id : NodeId)
      (st : State)
  | next (offset : Nat) (root_resolved_node_id : NodeId) (root_tyty : Option BaseType)
      (st : State)
  deriving DecidableEq, Repr

/-- The step of a turn of `resolve_root_path` that applies the arguments of
the previous segment: `if (root_tyty != nullptr && ..)`. -/
def substitute_from_root (env : Env) (st : State) (root_tyty : Option BaseType)
    (lookup : BaseType) : BaseType × State :=
  match root_tyty with
  | none => (lookup, st)
  | some root =>
    if env.needs_generic_substitutions lookup = true then
      if env.needs_generic_substitutions root = false then
        let used_args_in_prev_segment := env.GetUsedSubstArgs_From root
        (env.SubstMapperInternal_Resolve lookup used_args_in_prev_segment,
          { st with trace := st.trace
              ++ [Event.SubstMapperInternal_Resolve lookup used_args_in_prev_segment] })
      else (lookup, st)
    else (lookup, st)

/-- The end of a turn of `resolve_root_path`: the generic arguments written on
the segment are applied, and the segment becomes the root. -/
def resolve_root_generic_args (env : Env) (path : TypePath) (st : State) (offset : Nat)
    (root_resolved_node_id : NodeId) (seg : TypePathSegment) (ref_node_id : NodeId)
    (lookup : BaseType) : RootOutcome :=
  match seg.generic_args with
  | none => RootOutcome.next (offset + 1) ref_node_id (some lookup) st
  | some generic_args =>
    if env.can_substitute lookup = false then
      RootOutcome.returned (some (ErrorType lookup.ref)) offset root_resolved_node_id
        (rust_error_at st seg.locus
          ("substitutions not supported for " ++ env.as_string lookup))
    else
      let st := { st with
        trace := st.trace ++ [Event.SubstMapper_Resolve lookup path.locus generic_args] }
      let lookup := env.SubstMapper_Resolve lookup path.locus generic_args
      RootOutcome.next (offset + 1) ref_node_id (some lookup) st

/-- The part of a turn of the loop of `resolve_root_path` that follows the
computation of `ref_node_id`. -/
def resolve_root_reference (env : Env) (path : TypePath) (st : State) (offset : Nat)
    (root_resolved_node_id : NodeId) (root_tyty : Option BaseType) (seg : TypePathSegment)
    (have_more_segments : Bool) (ref_node_id : NodeId) : RootOutcome :=
  let is_root := decide (offset = 0)
  if ref_node_id = UNKNOWN_NODEID then
    if is_root then
      RootOutcome.returned (some (ErrorType path.mappings.hirid)) offset root_resolved_node_id
        (rust_error_at st seg.locus "failed to type resolve root segment")
    else RootOutcome.returned root_tyty offset root_resolved_node_id st
  else
    match env.lookup_node_to_hir path.mappings.crate_num ref_node_id with
    | none =>
      if is_root then
        RootOutcome.returned (some (ErrorType path.mappings.hirid)) offset
          root_resolved_node_id (rust_error_at st seg.locus "789 reverse lookup failure")
      else RootOutcome.returned root_tyty offset root_resolved_node_id st
    | some ref =>
      let seg_is_module := env.lookup_module path.mappings.crate_num ref
      if seg_is_module then
        if have_more_segments then
          RootOutcome.next (offset + 1) root_resolved_node_id root_tyty st
        else
          RootOutcome.returned (some (ErrorType path.mappings.hirid)) offset
            root_resolved_node_id (rust_error_at st seg.locus "expected value")
      else
        match st.lookup_type ref with
        | none =>
          if is_root then
            RootOutcome.returned (some (ErrorType path.mappings.hirid)) offset
              root_resolved_node_id
              (rust_error_at st seg.locus "failed to resolve root segment")
          else RootOutcome.returned root_tyty offset root_resolved_node_id st
        | some lookup =>
          let substituted := substitute_from_root env st root_tyty lookup
          resolve_root_generic_args env path substituted.2 offset root_resolved_node_id seg
            ref_node_id substituted.1

/-- One turn of the loop of `resolve_root_path`, for the segment `seg`;
`have_more_segments` tells whether `seg` is not the last segment of the path. -/
def resolve_root_segment (env : Env) (path : TypePath) (st : State) (offset : Nat)
    (root_resolved_node_id : NodeId) (root_tyty : Option BaseType) (seg : TypePathSegment)
    (have_more_segments : Bool) : RootOutcome :=
  let ast_node_id := seg.mappings.nodeid
  match st.resolved_names.lookup ast_node_id with
  | some ref_node_id =>
    match env.lookup_definition ref_node_id with
    | none =>
      RootOutcome.returned (some (ErrorType path.mappings.hirid)) offset root_resolved_node_id
        (rust_error_at st path.locus "unknown reference for resolved name")
    | some definition =>
      resolve_root_reference env path st offset root_resolved_node_id root_tyty seg
        have_more_segments definition.parent
  | none =>
    let ref_node_id := (st.resolved_types.lookup ast_node_id).getD UNKNOWN_NODEID
    resolve_root_reference env path st offset root_resolved_node_id root_tyty seg
      have_more_segments ref_node_id

/-- The loop of `resolve_root_path` over the segments `segs` that are left;
`more` tells whether segments of the path follow `segs` (it is `false` when
`segs` reaches the end of the path), so that a turn knows whether its segment
is the last one of the path. -/
def resolve_root_path_loop (env : Env) (path : TypePath) (more : Bool) :
    List TypePathSegment → State → Nat → NodeId → Option BaseType → RootOutcome
  | [], st, offset, root_resolved_node_id, root_tyty =>
    RootOutcome.next offset root_resolved_node_id root_tyty st
  | seg :: rest, st, offset, root_resolved_node_id, root_tyty =>
    match resolve_root_segment env path st offset root_resolved_node_id root_tyty seg
        (!rest.isEmpty || more) with
    | RootOutcome.returned root offset root_resolved_node_id st =>
      RootOutcome.returned root offset root_resolved_node_id st
    | RootOutcome.next offset root_resolved_node_id root_tyty st =>
      resolve_root_path_loop env path more rest st offset root_resolved_node_id root_tyty

/-- What `resolve_root_path` hands back: the pointer returned (`none` for
`nullptr`), the values left in `*offset` and `*root_resolved_node_id`, and the
state. -/
structure RootResult where
  root : Option BaseType
  offset : Nat
  root_resolved_node_id : NodeId
  st : State
  deriving DecidableEq, Repr

/-- The function `TypeCheckType::resolve_root_path`; `root_resolved_node_id`
is the value the caller left in `*root_resolved_node_id`. -/
def resolve_root_path (env : Env) (st : State) (path : TypePath)
    (root_resolved_node_id : NodeId) : RootResult :=
  match resolve_root_path_loop env path false path.segments st 0 root_resolved_node_id
      none with
  | RootOutcome.returned root offset root_resolved_node_id st =>
    { root := root, offset := offset, root_resolved_node_id := root_resolved_node_id, st := st }
  | RootOutcome.next offset root_resolved_node_id root_tyty st =>
    { root := root_tyty, offset := offset, root_resolved_node_id := root_resolved_node_id,
      st := st }

/-- The call of `resolve_segments` with a pointer `tyseg` that may be null
(`none`). The function reads through `tyseg` on every path: in the loop
`prev_segment->get_kind ()`, after it `tyseg->needs_generic_substitutions ()`;
a null pointer ends the run there. -/
def resolve_segments_at (env : Env) (st : State) (root_resolved_node_id : NodeId)
    (expr_id : HirId) (segments : List TypePathSegment) (offset : Nat)
    (tyseg : Option BaseType) (expr_mappings : NodeMapping) (expr_locus : Location) :
    Option (BaseType × State) :=
  match tyseg with
  | none => none
  | some tyseg =>
    resolve_segments env st root_resolved_node_id expr_id segments offset tyseg
      expr_mappings expr_locus

/-- The function `TypeCheckType::visit (HIR::TypePath &)`: the value left in
`translated` (`none` for `nullptr`) and the state, or `none` when the compiler
aborts. `subst_mappings` is the pointer the resolver was built with. The member
`mappings` tested before `check_for_unconstrained` is the table of node
mappings the resolver reads through (`mappings->lookup_node_to_hir`), which is
never null: the test is taken as true. -/
def visit_TypePath (env : Env) (st : State) (path : TypePath)
    (subst_mappings : Option (List SubstitutionParamMapping)) :
    Option (Option BaseType × State) :=
  match st.resolved_types.lookup path.mappings.nodeid with
  | none =>
    let r := resolve_root_path env st path UNKNOWN_NODEID
    match r.root with
    | none => none
    | some root =>
      if root.kind = TypeKind.ERROR then some (none, r.st)
      else
        match resolve_segments env r.st r.root_resolved_node_id path.mappings.hirid
            path.segments r.offset root path.mappings path.locus with
        | none => none
        | some (translated, st) => some (some translated, st)
  | some ref =>
    match st.lookup_type_by_node_id ref with
    | none =>
      some (none, rust_error_at st path.locus
        ("failed to lookup HIR " ++ toString ref ++ " for node \'" ++ path.as_string ++ "\'"))
    | some hir_lookup =>
      match st.lookup_type hir_lookup with
      | none => some (none, rust_error_at st path.locus "failed to lookup HIR TyTy")
      | some lookup =>
        let path_type := lookup.clone
        let path_type := path_type.set_ref path.mappings.hirid
        match path.segments.getLast? with
        | none => none
        | some final_seg =>
          let args := TypeCheckResolveGenericArguments.resolve final_seg
          let is_big_self := final_seg.is_ident_only && final_seg.as_string == "Self"
          if env.needs_generic_substitutions path_type = true then
            if is_big_self then some (some path_type, st)
            else
              let st := { st with
                trace := st.trace ++ [Event.SubstMapper_Resolve path_type path.locus args] }
              let translated := env.SubstMapper_Resolve path_type path.locus args
              if translated.kind ≠ TypeKind.ERROR then
                match check_for_unconstrained st subst_mappings args.type_args with
                | none => none
                | some st => some (some translated, st)
              else some (some translated, st)
          else if !args.is_empty then
            let translated : Option BaseType := none
            match translated with
            | none => none
            | some translated =>
              some (some translated, rust_error_at st path.locus
                ("TypePath " ++ path.as_string ++ " declares generic arguments but the type "
                  ++ env.as_string translated ++ " does not have any"))
          else some (some path_type, st)

/-- The function `TypeCheckType::visit (HIR::QualifiedPathInType &)` from the
test of `root` on, `root` being what `Resolve` gave for the type of the
qualifier, whose identities are `type_mappings`. The value left in `translated`
(`none` for `nullptr`) and the state, or `none` when the compiler aborts. The
segment `Item` is of the generic sort when it carries generic arguments, and
`has_generic_args ()` then tells that they are not empty. -/
def visit_QualifiedPathInType (env : Env) (st : State) (path : QualifiedPath)
    (type_mappings : NodeMapping) (root : BaseType) : Option (Option BaseType × State) :=
  let translated : Option BaseType := none
  if root.kind = TypeKind.ERROR then some (translated, st)
  else
    match path.trait with
    | none =>
      match st.resolved_types.lookup type_mappings.nodeid with
      | none => none
      | some root_resolved_node_id =>
        match resolve_segments_at env st root_resolved_node_id path.mappings.hirid
            path.segments 0 translated path.mappings path.locus with
        | none => none
        | some (translated, st) => some (some translated, st)
    | some trait =>
      match env.TraitResolver_Resolve trait with
      | none => some (translated, st)
      | some trait_ref =>
        if env.is_bound_satisfied_for_type root trait_ref = false then some (translated, st)
        else
          match st.resolved_names.lookup path.qual_mappings.nodeid with
          | none => none
          | some impl_resolved_id =>
            match env.lookup_node_to_hir path.mappings.crate_num impl_resolved_id with
            | none => none
            | some impl_block_id =>
              match env.lookup_associated_trait_impl impl_block_id with
              | none => none
              | some lookup_associated =>
                let item_seg := path.associated_segment
                match trait_ref.lookup_trait_item item_seg.ident_segment with
                | none =>
                  some (translated, rust_error_at st item_seg.locus "unknown associated item")
                | some trait_item_ref =>
                  let st := { st with
                    trace := st.trace ++ [Event.setup_associated_types lookup_associated] }
                  let trait_generics :=
                    match path.trait_generic_args with
                    | some args => args
                    | none => GenericArgs.create_empty UNKNOWN_LOCATION
                  let translated := env.get_projected_type lookup_associated trait_item_ref
                    root item_seg.mappings.hirid trait_generics item_seg.locus
                  let translated :=
                    if translated.kind = TypeKind.PLACEHOLDER then
                      if env.placeholder_can_resolve translated then
                        env.placeholder_resolve translated
                      else translated
                    else translated
                  let substituted : Option (BaseType × State) :=
                    match item_seg.generic_args with
                    | none => some (translated, st)
                    | some generic_args =>
                      if !generic_args.is_empty then
                        if env.can_substitute translated = false then none
                        else
                          some (env.SubstMapper_Resolve translated path.locus generic_args,
                            { st with trace := st.trace
                                ++ [Event.SubstMapper_Resolve translated path.locus
                                      generic_args] })
                      else some (translated, st)
                  match substituted with
                  | none =>
                    some (some (ErrorType path.mappings.hirid),
                      rust_error_at st item_seg.locus
                        ("substitutions not supported for " ++ env.as_string translated))
                  | some (translated, st) =>
                    let root_resolved_node_id := trait_item_ref.mappings.nodeid
                    let fully_resolved := path.segments.isEmpty
                    if fully_resolved then
                      some (some translated,
                        { st with
                          resolved_names :=
                            (path.mappings.nodeid, root_resolved_node_id) :: st.resolved_names
                          receivers := (path.mappings.hirid, root) :: st.receivers })
                    else
                      match resolve_segments_at env st root_resolved_node_id
                          path.mappings.hirid path.segments 0 (some translated)
                          path.mappings path.locus with
                      | none => none
                      | some (translated, st) => some (some translated, st)

/-- The end of `TypeCheckType::Resolve`, after `type->accept_vis (resolver)`
left `visited`: a null `translated` becomes the error type of the type
expression, the node is inserted into the type context and returned. -/
def resolve_result (mappings : NodeMapping) :
    Option (Option BaseType × State) → Option (BaseType × State)
  | none => none
  | some (translated, st) =>
    let translated :=
      match translated with
      | none => ErrorType mappings.hirid
      | some translated => translated
    some (translated, st.insert_type mappings translated)

mutual

/-- The call `type->accept_vis (resolver)` on a resolver built with
`subst_mappings`: the visit of `TypeCheckType` for the variant of `type`. The
value left in `translated` (`none` for `nullptr`) and the state, or `none` when
the compiler aborts. A function type `has_return_type ()` when its return type
is there; a tuple type `is_unit_type ()` when it has no element. The type nodes
built by the visits are modelled from the spec: a node of the kind of the
variant, carrying the id of the type expression and the references to its
component types. -/
def visit (env : Env) (st : State) :
    TypeExpr → Option (List SubstitutionParamMapping) → Option (Option BaseType × State)
  | TypeExpr.TypePath path, subst_mappings => visit_TypePath env st path subst_mappings
  | TypeExpr.QualifiedPathInType path type, _ =>
    match resolve_result type.get_mappings (visit env st type none) with
    | none => none
    | some (root, st) => visit_QualifiedPathInType env st path type.get_mappings root
  | TypeExpr.BareFunctionType mappings params return_type, _ =>
    let returned : Option (BaseType × State) :=
      match return_type with
      | some type => resolve_result type.get_mappings (visit env st type none)
      | none =>
        some ({ kind := TypeKind.TUPLE, ref := mappings.hirid, ty_ref := mappings.hirid,
                specified_bounds := [], substs := [] }, st)
    match returned with
    | none => none
    | some (return_type, st) =>
      match visit_each env st params with
      | none => none
      | some (params, st) =>
        some (some { kind := TypeKind.FNPTR, ref := mappings.hirid, ty_ref := mappings.hirid,
                     specified_bounds := [], substs := [],
                     subtypes := params ++ [return_type.ref] }, st)
  | TypeExpr.TupleType mappings locus elems, _ =>
    if elems.isEmpty then
      match env.lookup_builtin env.unit_type_node_id with
      | some translated => some (some translated, st)
      | none => some (none, rust_error_at st locus "failed to lookup builtin unit type")
    else
      match visit_each env st elems with
      | none => none
      | some (fields, st) =>
        some (some { kind := TypeKind.TUPLE, ref := mappings.hirid, ty_ref := mappings.hirid,
                     specified_bounds := [], substs := [], subtypes := fields }, st)
  | TypeExpr.ArrayType mappings, _ => some (env.visit_ArrayType mappings, st)
  | TypeExpr.ReferenceType mappings is_mut base_type, _ =>
    match resolve_result base_type.get_mappings (visit env st base_type none) with
    | none => none
    | some (base, st) =>
      some (some { kind := TypeKind.REF, ref := mappings.hirid, ty_ref := mappings.hirid,
                   specified_bounds := [], substs := [], subtypes := [base.ref],
                   is_mut := is_mut }, st)
  | TypeExpr.RawPointerType mappings is_mut base_type, _ =>
    match resolve_result base_type.get_mappings (visit env st base_type none) with
    | none => none
    | some (base, st) =>
      some (some { kind := TypeKind.POINTER, ref := mappings.hirid, ty_ref := mappings.hirid,
                   specified_bounds := [], substs := [], subtypes := [base.ref],
                   is_mut := is_mut }, st)
  | TypeExpr.InferredType mappings, _ =>
    some (some { kind := TypeKind.INFER, ref := mappings.hirid, ty_ref := mappings.hirid,
                 specified_bounds := [], substs := [] }, st)
  | TypeExpr.TraitObjectTypeOneBound mappings locus bound_path bound_locus, _ =>
    let trait := env.resolve_trait_path bound_path
    let predicate : TypeBoundPredicate := { reference := trait.defid, locus := bound_locus }
    if env.is_object_safe predicate true locus then
      some (some { kind := TypeKind.DYNAMIC, ref := mappings.hirid, ty_ref := mappings.hirid,
                   specified_bounds := [predicate], substs := [] }, st)
    else some (none, st)
  | TypeExpr.Other _, _ => some (none, st)

/-- The loops `for (auto &elem : ..)` of the visits: `Resolve` of each type
expression in turn, collecting `get_ref ()` of each result. -/
def visit_each (env : Env) (st : State) : List TypeExpr → Option (List HirId × State)
  | [] => some ([], st)
  | type :: rest =>
    match resolve_result type.get_mappings (visit env st type none) with
    | none => none
    | some (ty, st) =>
      match visit_each env st rest with
      | none => none
      | some (refs, st) => some (ty.ref :: refs, st)

end

/-- The function `TypeCheckType::Resolve (type, subst_mappings)`: the node
returned and the state left, or `none` when the compiler aborts. -/
def Resolve (env : Env) (st : State) (type : TypeExpr)
    (subst_mappings : Option (List SubstitutionParamMapping)) : Option (BaseType × State) :=
  resolve_result type.get_mappings (visit env st type subst_mappings)

end TypeCheckType

/-! ## Reading the probe -/

namespace PathProbeType

/-- The declaration inside an impl item, whatever its variant. -/
def item_decl : ImplItem → ItemDecl
  | ImplItem.TypeAlias d => d
  | ImplItem.ConstantItem d => d
  | ImplItem.Function d => d

/-- The tag that goes with each variant of impl item. -/
def impl_candidate_type : ImplItem → CandidateType
  | ImplItem.TypeAlias _ => CandidateType.IMPL_TYPE_ALIAS
  | ImplItem.ConstantItem _ => CandidateType.IMPL_CONST
  | ImplItem.Function _ => CandidateType.IMPL_FUNC

/-- An iterated impl item is a match for `receiver` and `name`: the Self type of
its block is in the context and `receiver->can_eq` accepts it, and the item's
identifier is `name`. -/
def impl_item_matches (env : Env) (st : State) (receiver : BaseType) (name : String)
    (e : HirId × ImplItem × ImplBlock) : Bool :=
  match st.lookup_type e.2.2.type_hirid with
  | none => false
  | some impl_block_ty =>
    env.can_eq receiver impl_block_ty false && decide (name = (item_decl e.2.1).name)

/-- The candidate `c` is the one built for the iterated entry `e`. -/
def IsImplCandidateOf (st : State) (e : HirId × ImplItem × ImplBlock)
    (c : PathProbeCandidate) : Prop :=
  c.type = impl_candidate_type e.2.1
    ∧ st.lookup_type (item_decl e.2.1).mappings.hirid = some c.ty
    ∧ c.item = Candidate.impl { impl_item := e.2.1, parent := some e.2.2 }
    ∧ c.locus = UNKNOWN_LOCATION

/-- What the assertions of the inherent probe need: the Self type of every
iterated block has a type in the context, and so has every matching item. -/
def ImplTypesKnown (env : Env) (st : State) (receiver : BaseType) (name : String) : Prop :=
  ∀ e ∈ env.impl_items,
    (st.lookup_type e.2.2.type_hirid).isSome = true
    ∧ (impl_item_matches env st receiver name e = true →
        (st.lookup_type (item_decl e.2.1).mappings.hirid).isSome = true)

/-- A unioned entry gives a candidate for `name`: its trait has an item of that
name, and the item is not a required one that the policy leaves out. -/
def trait_yields (name : String) (ignore_mandatory_trait_items : Bool)
    (ref : TraitReference × Option ImplBlock) : Bool :=
  match ref.1.lookup_trait_item name with
  | none => false
  | some item => !(ignore_mandatory_trait_items && !item.optional)

/-- The search for the parameter called `Self` in the substitutions of a
function type. -/
def find_self (fn : BaseType) : Option SubstitutionParamMapping :=
  fn.substs.find? (fun param_mapping => param_mapping.generic_param.type_representation = "Self")

/-- The single binding `Self := receiver->clone ()`. -/
def self_mapping (param : SubstitutionParamMapping) (receiver : BaseType) :
    SubstitutionArgumentMappings :=
  { mappings := [SubstitutionArg.mk param receiver.clone], locus := UNKNOWN_LOCATION }

/-- The candidate `c` is the one built for the unioned entry `ref`. -/
def IsTraitCandidateOf (env : Env) (receiver : BaseType) (name : String)
    (ref : TraitReference × Option ImplBlock) (c : PathProbeCandidate) : Prop :=
  ∃ item, ref.1.lookup_trait_item name = some item
    ∧ candidate_type_of item.type = some c.type
    ∧ c.item = Candidate.trait { trait_ref := ref.1, item_ref := item, impl := ref.2 }
    ∧ c.locus = UNKNOWN_LOCATION
    ∧ (item.tyty.kind = TypeKind.FNDEF →
        ∃ param, find_self item.tyty = some param
          ∧ c.ty = env.SubstMapperInternal_Resolve item.tyty (self_mapping param receiver))
    ∧ (item.tyty.kind ≠ TypeKind.FNDEF → c.ty = item.tyty)

/-- The first of two optional results that is present. -/
def first_of {α : Type} : Option α → Option α → Option α
  | some x, _ => some x
  | none, y => y

/-- The keys of the map are strictly increasing. -/
def KeysSorted {V : Type} (m : List (Nat × V)) : Prop :=
  (m.map Prod.fst).Pairwise (fun x y => x < y)

/-- Every entry of the map is stored under the `DefId` of its own trait. -/
def KeyedByDefId (m : List (DefId × (TraitReference × Option ImplBlock))) : Prop :=
  ∀ e ∈ m, e.1 = e.2.1.defid

/-- The map of `union_bounds` after both insertion loops. -/
def union_mapper (a b : List (TraitReference × Option ImplBlock)) :
    List (DefId × (TraitReference × Option ImplBlock)) :=
  b.foldl (fun m ref => map_insert m ref.1.defid ref)
    (a.foldl (fun m ref => map_insert m ref.1.defid ref) [])

/-- What one turn of the trait loop adds to a fresh probe object. -/
def trait_step (env : Env) (receiver : BaseType) (name : String) (ig : Bool)
    (ref : TraitReference × Option ImplBlock) :
    Option (List PathProbeCandidate × List Event) :=
  (process_trait_for_candidates env (PathProbeType.new receiver name) ig ref).map
    (fun q => (q.candidates, q.calls))

/-- What the whole trait loop adds to a fresh probe object. -/
def traits_steps (env : Env) (receiver : BaseType) (name : String) (ig : Bool) :
    List (TraitReference × Option ImplBlock) → Option (List PathProbeCandidate × List Event)
  | [] => some ([], [])
  | ref :: rest =>
    match trait_step env receiver name ig ref, traits_steps env receiver name ig rest with
    | some r, some rs => some (r.1 ++ rs.1, r.2 ++ rs.2)
    | _, _ => none

/-- The probe object `p` after candidates and calls have been added to it. -/
def extend (p : PathProbeType) (r : List PathProbeCandidate × List Event) : PathProbeType :=
  { p with candidates := p.candidates ++ r.1, calls := p.calls ++ r.2 }

/-- The bounds that `Probe` unions for a receiver. -/
def union_type_bounds (env : Env) (receiver : BaseType) :
    List (TraitReference × Option ImplBlock) :=
  union_bounds (env.TypeBoundsProbe_Probe receiver) (specified_bounds env receiver)

end PathProbeType

/-! ## A small program to run the embedding on

```
struct R;  struct A;
trait T { fn foo () {} }      // DefId 1, `foo` has a default body
trait U { fn bar (); }        // DefId 2, `bar` is required
```
-/

namespace Sample

def mapping (n : Nat) : NodeMapping := { crate_num := 0, nodeid := 1000 + n, hirid := n }

def adt (id : HirId) : BaseType :=
  { kind := TypeKind.ADT, ref := id, ty_ref := id, specified_bounds := [], substs := [] }

def self_param : SubstitutionParamMapping :=
  { generic_param := { type_representation := "Self", locus := 2 }, param_ty_symbol := "Self" }

def t_param : SubstitutionParamMapping :=
  { generic_param := { type_representation := "T", locus := 3 }, param_ty_symbol := "T" }

def fndef (id : HirId) (substs : List SubstitutionParamMapping) : BaseType :=
  { kind := TypeKind.FNDEF, ref := id, ty_ref := id, specified_bounds := [], substs := substs }

/-- The struct `R`. -/
def tyR : BaseType := adt 10

/-- The struct `A`. -/
def tyA : BaseType := adt 20

/-- A type parameter `P: T`. -/
def tyP : BaseType :=
  { kind := TypeKind.PARAM, ref := 30, ty_ref := 30
    specified_bounds := [{ reference := 1, locus := 4 }], substs := [] }

def trait_foo : TraitItemReference :=
  { identifier := "foo", optional := true, type := TraitItemType.FN
    tyty := fndef 200 [self_param], locus := 7, mappings := mapping 200 }

def trait_bar : TraitItemReference :=
  { identifier := "bar", optional := false, type := TraitItemType.FN
    tyty := fndef 210 [self_param], locus := 8, mappings := mapping 210 }

def traitT : TraitReference := { defid := 1, locus := 6, item_refs := [trait_foo] }

def traitU : TraitReference := { defid := 2, locus := 9, item_refs := [trait_bar] }

/-- The block `impl R { .. }`. -/
def implR : ImplBlock := { hirid := 50, type_hirid := 10, has_trait_ref := false }

/-- The block `impl A { .. }`. -/
def implA : ImplBlock := { hirid := 55, type_hirid := 20, has_trait_ref := false }

/-- The block `impl T for R { .. }`. -/
def implTforR : ImplBlock := { hirid := 60, type_hirid := 10, has_trait_ref := true }

def item (name : String) (id : HirId) (locus : Location) : ItemDecl :=
  { name := name, mappings := mapping id, locus := locus }

/-- A substitution for the sample program: the parameters that `args` binds
are no longer open. -/
def bind_params (t : BaseType) (args : SubstitutionArgumentMappings) : BaseType :=
  { t with
    substs := t.substs.filter (fun pm => !(args.mappings.any (fun a => decide (a.param = pm)))) }

/-- The externals of the sample program, for a choice of iterated impl items
and of probed bounds. -/
def env (impl_items : List (HirId × ImplItem × ImplBlock))
    (probed : BaseType → List (TraitReference × Option ImplBlock)) : Env :=
  { impl_items := impl_items
    can_eq := fun a b _ => decide (a.ref = b.ref)
    get_root := fun t => t
    needs_generic_substitutions := fun t => !t.substs.isEmpty
    can_substitute := fun t => !t.substs.isEmpty
    as_string := fun _ => "?"
    TypeBoundsProbe_Probe := probed
    predicate_get := fun p =>
      if p.reference = 1 then traitT
      else if p.reference = 2 then traitU
      else { defid := p.reference, locus := 0, item_refs := [] }
    lookup_associated_trait_impl := fun id =>
      if id = 60 then some { trait_defid := 1, impl_hirid := 60 } else none
    SubstMapperInternal_Resolve := bind_params
    SubstMapper_Resolve := fun t _ _ => { t with substs := [] }
    SubstMapper_InferSubst := fun t _ => { t with substs := [] }
    GetUsedSubstArgs_From := fun _ => { mappings := [], locus := 0 }
    lookup_definition := fun _ => none
    lookup_node_to_hir := fun _ _ => none
    lookup_module := fun _ _ => false
    unit_type_node_id := 1
    lookup_builtin := fun _ => none
    TraitResolver_Resolve := fun _ => none
    resolve_trait_path := fun _ => traitT
    is_bound_satisfied_for_type := fun _ _ => false
    get_projected_type := fun _ item _ _ _ _ => item.tyty
    placeholder_can_resolve := fun _ => false
    placeholder_resolve := fun t => t
    is_object_safe := fun _ _ _ => true
    visit_ArrayType := fun _ => none }

/-- A state whose type context is `types` and whose other tables are empty. -/
def state (types : List (HirId × BaseType)) : State :=
  { types := types, receivers := [], resolved_names := [], resolved_types := []
    next_hir_id := 5000, diagnostics := [], trace := [] }

/-- The impl of `candidate`, when it is a trait candidate. -/
def candidate_impl (c : PathProbeCandidate) : Option ImplBlock :=
  match c.item with
  | Candidate.trait t => t.impl
  | Candidate.impl _ => none

/-- The probed bounds used for the union rule: `T` is implemented by the block
`impl T for R`. -/
def probed_T (_ : BaseType) : List (TraitReference × Option ImplBlock) :=
  [(Sample.traitT, some Sample.implTforR)]

end Sample

/-! ## Reading the trace -/

open PathProbeType TypeCheckType

/-- The arguments of the calls of `PathProbeType::Probe` in a trace, in order. -/
def probe_calls : List Event → List (BaseType × String × Bool × Bool × Bool)
  | [] => []
  | Event.Probe receiver name probe_impls probe_bounds ig :: rest =>
    (receiver, name, probe_impls, probe_bounds, ig) :: probe_calls rest
  | _ :: rest => probe_calls rest

/-- The state a turn of the segment loop leaves. -/
def TypeCheckType.SegmentOutcome.state : TypeCheckType.SegmentOutcome → State
  | TypeCheckType.SegmentOutcome.returned _ st => st
  | TypeCheckType.SegmentOutcome.next _ _ _ st => st

namespace Sample

/-- A plain segment (no generic arguments). -/
def segment (name : String) (id : HirId) (locus : Location) : TypePathSegment :=
  { ident_segment := name, locus := locus, mappings := mapping id, generic_args := none }

/-- No bound is probed for any type. -/
def probed_none (_ : BaseType) : List (TraitReference × Option ImplBlock) := []

/-- The impl items of
```
impl R { type a = A; }
impl A { fn b () {} }
```
-/
def chain_items : List (HirId × ImplItem × ImplBlock) :=
  [(70, ImplItem.TypeAlias (item "a" 70 11), implR),
   (80, ImplItem.Function (item "b" 80 12), implA)]

/-- The type context for `chain_items`. -/
def chain_state : State :=
  state [(10, tyR), (20, tyA), (70, tyA), (80, fndef 80 [])]

/-- The segments of the path `R::a::b`. -/
def chain_segments : List TypePathSegment :=
  [segment "R" 901 21, segment "a" 902 22, segment "b" 903 23]

end Sample

namespace Sample

/-- The impl items of
```
impl R { fn g<T> () {} }
```
-/
def generic_items : List (HirId × ImplItem × ImplBlock) :=
  [(90, ImplItem.Function (item "g" 90 13), implR)]

/-- The type context for `generic_items`: the type of `g` has the open
parameter `T`. -/
def generic_state : State :=
  state [(10, tyR), (90, fndef 90 [t_param])]

/-- The segments of the path `R::g`. -/
def generic_segments : List TypePathSegment :=
  [segment "R" 901 21, segment "g" 904 24]

/-- The impl items of
```
impl R { fn foo () {} }
impl T for R {}
```
-/
def foo_items : List (HirId × ImplItem × ImplBlock) :=
  [(100, ImplItem.Function (item "foo" 100 14), implR)]

/-- The type context for `foo_items`. -/
def foo_state : State :=
  state [(10, tyR), (100, fndef 100 [])]

/-- The segments of the path `R::foo`. -/
def foo_segments : List TypePathSegment :=
  [segment "R" 901 21, segment "foo" 905 25]

end Sample

/-- What the assertions of the trait loop need of an entry that yields: the
item's kind is not `ERROR`, and a function type has a parameter `Self`. -/
def TraitItemsUsable (name : String) (ig : Bool)
    (traits : List (TraitReference × Option ImplBlock)) : Prop :=
  ∀ ref ∈ traits, ∀ item ∈ ref.1.lookup_trait_item name,
    trait_yields name ig ref = true →
    item.type ≠ TraitItemType.ERROR
    ∧ (item.tyty.kind = TypeKind.FNDEF → (find_self item.tyty).isSome = true)

namespace Sample

/-- The block `impl U for R { .. }`. -/
def implUforR : ImplBlock := { hirid := 65, type_hirid := 10, has_trait_ref := true }

/-- The impl items of
```
impl U for R { fn bar () {} }
```
-/
def trait_impl_items : List (HirId × ImplItem × ImplBlock) :=
  [(110, ImplItem.Function (item "bar" 110 15), implUforR)]

/-- The type context for `trait_impl_items`. -/
def trait_impl_state : State :=
  state [(10, tyR), (110, fndef 110 [])]

/-- The trait tag of the parent block of `candidate`, when it is an impl
candidate with a parent. -/
def parent_has_trait_ref (c : PathProbeCandidate) : Option Bool :=
  match c.item with
  | Candidate.impl i => i.parent.map (fun b => b.has_trait_ref)
  | Candidate.trait _ => none

end Sample

/-- The `DefId` of the trait of a trait candidate. -/
def candidate_trait_defid (c : PathProbeCandidate) : Option DefId :=
  match c.item with
  | Candidate.trait t => some t.trait_ref.defid
  | Candidate.impl _ => none

namespace Sample

/-- The item `foo` of the trait `V`, with a default body. -/
def trait_foo_v : TraitItemReference :=
  { identifier := "foo", optional := true, type := TraitItemType.FN
    tyty := fndef 220 [self_param], locus := 16, mappings := mapping 220 }

/-- The trait `trait V { fn foo () {} }`, DefId 3. -/
def traitV : TraitReference := { defid := 3, locus := 10, item_refs := [trait_foo_v] }

/-- The block `impl V for R {}`. -/
def implVforR : ImplBlock := { hirid := 66, type_hirid := 10, has_trait_ref := true }

/-- Probed bounds given out of `DefId` order and with a repeated trait. -/
def probed_VTT (_ : BaseType) : List (TraitReference × Option ImplBlock) :=
  [(traitV, some implVforR), (traitT, some implTforR), (traitT, none)]

/-- Probed bounds with a trait whose item is required: `U` (with `bar`), and `T`. -/
def probed_UT (_ : BaseType) : List (TraitReference × Option ImplBlock) :=
  [(traitU, some implUforR), (traitT, some implTforR)]

/-- The constant `N` of the trait `W`, with a default value of type `A`. -/
def trait_const : TraitItemReference :=
  { identifier := "N", optional := true, type := TraitItemType.CONST
    tyty := tyA, locus := 17, mappings := mapping 230 }

/-- The trait `trait W { const N: A = ..; fn foo () {} }`, DefId 4. -/
def traitW : TraitReference :=
  { defid := 4, locus := 18, item_refs := [trait_const, trait_foo] }

/-- The block `impl W for R {}`, which has no associated-impl record. -/
def implWforR : ImplBlock := { hirid := 67, type_hirid := 10, has_trait_ref := true }

/-- Probed bounds with the trait `W`. -/
def probed_W (_ : BaseType) : List (TraitReference × Option ImplBlock) :=
  [(traitW, some implWforR)]

end Sample

/-- The tag of a candidate announces its payload; a trait payload is an entry
of the bounds unioned for `receiver`. -/
def WellTagged (env : Env) (receiver : BaseType) (c : PathProbeCandidate) : Prop :=
  (c.is_impl_candidate = true ∧ ∃ i, c.item = Candidate.impl i)
  ∨ (c.is_impl_candidate = false ∧ c.is_trait_candidate = true
      ∧ ∃ t, c.item = Candidate.trait t
          ∧ (t.trait_ref, t.impl) ∈ union_type_bounds env receiver)

/-- What the assertion on the winning trait candidate needs: every impl block
of the unioned bounds has an associated-impl record. -/
def AssociatedImplsKnown (env : Env) (receiver : BaseType) : Prop :=
  ∀ ref ∈ union_type_bounds env receiver, ∀ impl ∈ ref.2,
    (env.lookup_associated_trait_impl impl.hirid).isSome = true

/-- The candidates a turn of `resolve_segments` works with, and the state after
the probing: those of the first `Probe` (inherent items, unless the receiver is
a type parameter), or, when there are none, those of the second `Probe` (trait
bounds). -/
def probe_segment (env : Env) (st : State) (prev_segment : BaseType) (name : String) :
    Option (List PathProbeCandidate × State) :=
  match call_Probe env st prev_segment name (!decide (prev_segment.kind = TypeKind.PARAM))
      false (!decide (prev_segment.kind = TypeKind.PARAM)) with
  | none => none
  | some (candidates, st) =>
    if candidates.length = 0 then
      call_Probe env st prev_segment name false true
        (!decide (prev_segment.kind = TypeKind.PARAM))
    else some (candidates, st)

/-- Two states with the same type context and the same resolver records. -/
def SameRecords (st st' : State) : Prop :=
  st'.types = st.types ∧ st'.receivers = st.receivers
    ∧ st'.resolved_names = st.resolved_names ∧ st'.resolved_types = st.resolved_types
    ∧ st'.node_id_refs = st.node_id_refs

/-- The node id of the item a candidate stands for: the impl item's for an
inherent candidate, the trait item's for a trait candidate. -/
def candidate_node_id (c : PathProbeCandidate) : NodeId :=
  match c.item with
  | Candidate.impl i => i.impl_item.get_impl_mappings.nodeid
  | Candidate.trait t => t.item_ref.mappings.nodeid

/-- The tag of a candidate announces the member of the union that the candidate
holds: an `IMPL_*` tag an impl item, a `TRAIT_*` tag a trait item. -/
def TagMatchesItem (c : PathProbeCandidate) : Prop :=
  c.is_impl_candidate
    = (match c.item with
       | Candidate.impl _ => true
       | Candidate.trait _ => false)

/-- The declaration location of the item of a candidate: the location of the
impl item for an inherent candidate, of the trait item for a trait candidate. -/
def declaration_locus (c : PathProbeCandidate) : Location :=
  match c.item with
  | Candidate.impl i => (item_decl i.impl_item).locus
  | Candidate.trait t => t.item_ref.locus

namespace Sample

/-- The impl items of
```
impl R { fn foo () {} }
impl R { fn foo () {} }
```
-/
def twice_items : List (HirId × ImplItem × ImplBlock) :=
  [(100, ImplItem.Function (item "foo" 100 14), implR),
   (110, ImplItem.Function (item "foo" 110 15), implR)]

/-- The type context for `twice_items`. -/
def twice_state : State :=
  state [(10, tyR), (100, fndef 100 []), (110, fndef 110 [])]

/-- The two candidates that `foo` has on `R` with `twice_items`. -/
def twice_candidates : List PathProbeCandidate :=
  [{ type := CandidateType.IMPL_FUNC, ty := fndef 100 [], locus := UNKNOWN_LOCATION
     item := Candidate.impl
       { impl_item := ImplItem.Function (item "foo" 100 14), parent := some implR } },
   { type := CandidateType.IMPL_FUNC, ty := fndef 110 [], locus := UNKNOWN_LOCATION
     item := Candidate.impl
       { impl_item := ImplItem.Function (item "foo" 110 15), parent := some implR } }]

end Sample

/-- The record the resolver holds for a node, read as `resolve_segments` reads
it: the resolved name, or else the resolved type. -/
def prior_record (st : State) (node : NodeId) : Option NodeId :=
  match st.resolved_names.lookup node with
  | some id => some id
  | none => st.resolved_types.lookup node

/-- The node a segment refers to, as a turn of `resolve_root_path` computes
`ref_node_id`: the enclosing definition of the segment's resolved name, else the
segment's resolved type, else the unknown node; `none` when the name is resolved
and its definition is not found. -/
def segment_ref_node_id (env : Env) (st : State) (seg : TypePathSegment) : Option NodeId :=
  match st.resolved_names.lookup seg.mappings.nodeid with
  | some ref_node_id => (env.lookup_definition ref_node_id).map (fun d => d.parent)
  | none => some ((st.resolved_types.lookup seg.mappings.nodeid).getD UNKNOWN_NODEID)

/-- The target of the node `ref_node_id` cannot be determined: the node is
unknown, or it has no HIR id, or it is not a module and the type context has no
type for it. -/
def target_unknown (env : Env) (st : State) (crate_num : Nat) (ref_node_id : NodeId) :
    Bool :=
  if ref_node_id = UNKNOWN_NODEID then true
  else
    match env.lookup_node_to_hir crate_num ref_node_id with
    | none => true
    | some ref => !env.lookup_module crate_num ref && (st.lookup_type ref).isNone

/-- The state of a turn outcome of `resolve_root_path`. -/
def TypeCheckType.RootOutcome.state : TypeCheckType.RootOutcome → State
  | TypeCheckType.RootOutcome.returned _ _ _ st => st
  | TypeCheckType.RootOutcome.next _ _ _ st => st

namespace Sample

/-- The table from nodes to HIR ids of the sample program: the struct `R` is the
node 1010, the struct `A` the node 1020, the module `m` the node 1500. -/
def node_to_hir (_ : Nat) (node : NodeId) : Option HirId :=
  if node = 1010 then some 10
  else if node = 1020 then some 20
  else if node = 1500 then some 500
  else none

/-- The module of the sample program is `m`, HIR id 500. -/
def is_module (_ : Nat) (id : HirId) : Bool := decide (id = 500)

/-- The definitions the sample program knows: the node 1012 is declared inside
the struct `R`. -/
def definition_of (node : NodeId) : Option Definition :=
  if node = 1012 then some { node := 1012, parent := 1010 } else none

/-- The externals of the sample program with its node tables. -/
def root_env (impl_items : List (HirId × ImplItem × ImplBlock))
    (probed : BaseType → List (TraitReference × Option ImplBlock)) : Env :=
  { env impl_items probed with
    lookup_node_to_hir := node_to_hir
    lookup_module := is_module
    lookup_definition := definition_of }

/-- A type path of the sample program, at the location 20. -/
def path (id : HirId) (segments : List TypePathSegment) : TypePath :=
  { mappings := mapping id, locus := 20, segments := segments, as_string := "path" }

/-- The state in which the segment `R` (node 1901) is resolved to the struct
`R`, and the name of the segment `x` (node 1907) to a node without definition. -/
def root_state : State :=
  { state [(10, tyR)] with
    resolved_types := [(1901, 1010)]
    resolved_names := [(1907, 1077)] }

end Sample

/-- The location the check reports a parameter name at: the declaration
location of the last parameter of that name in the list. -/
def param_locus (mappings : List SubstitutionParamMapping) (s : String) : Option Location :=
  (mappings.reverse.find? (fun m => m.param_ty_symbol == s)).map
    (fun m => m.generic_param.locus)

/-- The names `check_for_unconstrained` reports, in the order of the reports:
the declared names, in increasing order and each once, that are the text of no
type argument. -/
def unconstrained_params (mappings : List SubstitutionParamMapping)
    (type_args : List String) : List String :=
  ((mappings.map (fun m => m.param_ty_symbol)).foldl set_insert []).filter
    (fun s => decide (s ∉ type_args))

namespace Sample

/-- The declared parameter `X`, at the location 40. -/
def x_param : SubstitutionParamMapping :=
  { generic_param := { type_representation := "X", locus := 40 }, param_ty_symbol := "X" }

/-- The declared parameter `Y`, at the location 41. -/
def y_param : SubstitutionParamMapping :=
  { generic_param := { type_representation := "Y", locus := 41 }, param_ty_symbol := "Y" }

end Sample

namespace Sample

/-- The generic struct `G<T>`, stored under the HIR id 10. -/
def tyG : BaseType := { adt 10 with substs := [t_param] }

/-- The state in which the path with node id 1900 is fully resolved: its
resolved type is the node 1010, indexed to the HIR id 10, where the type
context has `ty`. -/
def resolved_state (ty : BaseType) : State :=
  { state [(10, ty)] with
    resolved_types := [(1900, 1010)]
    node_id_refs := [(1010, 10)] }

/-- The segment `name::<i32>`. -/
def generic_segment (name : String) (id : HirId) (locus : Location) : TypePathSegment :=
  { segment name id locus with generic_args := some { type_args := ["i32"], locus := locus } }

end Sample

namespace Sample

/-- The externals of the sample program in which every trait path resolves to
the trait `T`, which no type satisfies. -/
def qual_env : Env :=
  { env [] probed_none with TraitResolver_Resolve := fun _ => some traitT }

/-- The qualified path `<.. as T>::foo`, with the ids 920 and the location 30. -/
def qual_path : QualifiedPath :=
  { mappings := mapping 920, locus := 30, qual_mappings := mapping 921
    trait := some (path 930 [segment "T" 931 31]), trait_generic_args := none
    associated_segment := segment "foo" 932 32, segments := [] }

end Sample

mutual

/-- No path occurs in the type expression: it is built from the variants other
than `TypePath` and `QualifiedPathInType`. -/
def path_free : TypeExpr → Bool
  | TypeExpr.TypePath _ => false
  | TypeExpr.QualifiedPathInType _ _ => false
  | TypeExpr.BareFunctionType _ params return_type =>
    path_free_each params
      && (match return_type with
          | some type => path_free type
          | none => true)
  | TypeExpr.TupleType _ _ elems => path_free_each elems
  | TypeExpr.ArrayType _ => true
  | TypeExpr.ReferenceType _ _ base_type => path_free base_type
  | TypeExpr.RawPointerType _ _ base_type => path_free base_type
  | TypeExpr.InferredType _ => true
  | TypeExpr.TraitObjectTypeOneBound _ _ _ _ => true
  | TypeExpr.Other _ => true

/-- No path occurs in any type expression of the list. -/
def path_free_each : List TypeExpr → Bool
  | [] => true
  | type :: rest => path_free type && path_free_each rest

end

/-- The state `st'` answers as `st` does wherever the type context is read at
an id other than `h`, and the resolved names at a node other than `n`; the
resolved types are the same. -/
def AgreeOff (h : HirId) (n : NodeId) (st st' : State) : Prop :=
  (∀ id, id ≠ h → st'.lookup_type id = st.lookup_type id)
  ∧ (∀ m, m ≠ n → st'.resolved_names.lookup m = st.resolved_names.lookup m)
  ∧ st'.resolved_types = st.resolved_types

/-- The path's HIR id `h` is not an id the probe of the impl items reads: it is
not the id of the type of an impl block, nor of an impl item. -/
def ImplIdsOff (env : Env) (h : HirId) : Prop :=
  ∀ e ∈ env.impl_items, e.2.2.type_hirid ≠ h ∧ (item_decl e.2.1).mappings.hirid ≠ h

/-- Two turn outcomes of the segment loop that differ at most in the state they
leave. -/
def SameOutcome : SegmentOutcome → SegmentOutcome → Prop
  | SegmentOutcome.returned r _, SegmentOutcome.returned r' _ => r = r'
  | SegmentOutcome.next i p t _, SegmentOutcome.next i' p' t' _ => i = i' ∧ p = p' ∧ t = t'
  | _, _ => False

/-- Two turn outcomes of the root walk that differ at most in the state they
leave. -/
def SameRootOutcome : RootOutcome → RootOutcome → Prop
  | RootOutcome.returned r o i _, RootOutcome.returned r' o' i' _ => r = r' ∧ o = o' ∧ i = i'
  | RootOutcome.next o i r _, RootOutcome.next o' i' r' _ => o = o' ∧ i = i' ∧ r = r'
  | _, _ => False

/-- The path's HIR id `h` is not the HIR id of a declaration node. -/
def NodeIdsOff (env : Env) (h : HirId) : Prop :=
  ∀ crate_num node, env.lookup_node_to_hir crate_num node ≠ some h

/-- The ids of the path are its own: no segment of the path has the path's node
id; the path's HIR id is not the HIR id of a declaration node, of the type of an
impl block or of an impl item; and when the path is fully resolved, the node it
is resolved to is not the path itself and is not indexed to the path's HIR id. -/
def PathIdsFresh (env : Env) (st : State) (path : TypePath) : Prop :=
  (∀ seg ∈ path.segments, seg.mappings.nodeid ≠ path.mappings.nodeid)
  ∧ NodeIdsOff env path.mappings.hirid
  ∧ ImplIdsOff env path.mappings.hirid
  ∧ ∀ ref, st.resolved_types.lookup path.mappings.nodeid = some ref →
      ref ≠ path.mappings.nodeid
      ∧ ∀ hir, st.lookup_type_by_node_id ref = some hir → hir ≠ path.mappings.hirid

namespace Sample

/-- The state in which the segment `R` (node 1901) is resolved to the struct
`R`, for a choice of the type context. -/
def path_state (types : List (HirId × BaseType)) : State :=
  { state types with resolved_types := [(1901, 1010)] }

end Sample

/-- The state the first resolution of `R::foo` leaves on the sample program
with the inherent function `foo`. -/
def Sample.foo_resolved_state : State :=
  { Sample.path_state [(10, Sample.tyR), (100, Sample.fndef 100 [])] with
    types := [(900, Sample.fndef 100 []), (10, Sample.tyR), (100, Sample.fndef 100 [])]
    node_id_refs := [(1900, 900)]
    receivers := [(900, Sample.tyR)]
    resolved_names := [(1900, 1100)]
    trace := [Event.Probe Sample.tyR "foo" true false true] }

namespace Sample

/-- The state in which the segment `m` (node 1909) is resolved to the module
`m`, and the segment `R` (node 1901) to the struct `R`; nothing is recorded for
other segments. -/
def module_state : State :=
  { state [(10, tyR)] with resolved_types := [(1909, 1500), (1901, 1010)] }

/-- The qualified path `<..>::foo` without `as` clause, with the ids 920 and
the location 30. -/
def plain_qual_path : QualifiedPath :=
  { mappings := mapping 920, locus := 30, qual_mappings := mapping 921
    trait := none, trait_generic_args := none
    associated_segment := segment "foo" 932 32, segments := [segment "foo" 905 25] }

/-- The state in which the path with node id 1900 is fully resolved to the
struct `R`, the type context having the types of `foo_items`. -/
def plain_qual_state : State :=
  { state [(10, tyR), (100, fndef 100 [])] with
    resolved_types := [(1900, 1010)]
    node_id_refs := [(1010, 10)] }

end Sample

namespace Sample

/-- The externals of the sample program in which two type nodes are equal when
they stand for the same type (same `ty_ref`). -/
def ty_env (impl_items : List (HirId × ImplItem × ImplBlock))
    (probed : BaseType → List (TraitReference × Option ImplBlock)) : Env :=
  { env impl_items probed with can_eq := fun a b _ => decide (a.ty_ref = b.ty_ref) }

end Sample

/-- The end of a turn of the loop of `resolve_segments`, after the candidate is
taken: the generic arguments written on the segment are applied to the
segment's type `tyseg`. -/
def segment_generics (env : Env) (expr_id : HirId) (expr_locus : Location)
    (seg : TypePathSegment) (resolved_node_id : NodeId) (prev_segment tyseg : BaseType)
    (st : State) : SegmentOutcome :=
  match seg.generic_args with
  | none => SegmentOutcome.next resolved_node_id prev_segment tyseg st
  | some generic_args =>
    if env.can_substitute tyseg = false then
      SegmentOutcome.returned (ErrorType expr_id)
        (rust_error_at st expr_locus
          ("substitutions not supported for " ++ env.as_string tyseg))
    else
      if (env.SubstMapper_Resolve tyseg expr_locus generic_args).kind = TypeKind.ERROR then
        SegmentOutcome.returned (ErrorType expr_id)
          { st with trace := st.trace
              ++ [Event.SubstMapper_Resolve tyseg expr_locus generic_args] }
      else
        SegmentOutcome.next resolved_node_id prev_segment
          (env.SubstMapper_Resolve tyseg expr_locus generic_args)
          { st with trace := st.trace
              ++ [Event.SubstMapper_Resolve tyseg expr_locus generic_args] }

namespace Sample

/-- The candidate that the probe of `R` for `foo` finds in the trait `T`,
implemented for `R` by the block `impl T for R`. -/
def trait_foo_candidate : PathProbeCandidate :=
  { type := CandidateType.TRAIT_FUNC, ty := fndef 200 [], locus := UNKNOWN_LOCATION
    item := Candidate.trait
      { trait_ref := traitT, item_ref := trait_foo, impl := some implTforR } }

/-- The state left by the probe of `R` for `foo` in the type context holding `R`
alone, the bounds being those of `probed_T`. -/
def trait_foo_probed : State :=
  { state [(10, tyR)] with
    trace := [Event.Probe tyR "foo" true false true
              , Event.Probe tyR "foo" false true true
              , Event.setup_associated_types { trait_defid := 1, impl_hirid := 60 }
              , Event.SubstMapperInternal_Resolve (fndef 200 [self_param])
                  (self_mapping self_param tyR)] }

end Sample

/-- The step of `visit (QualifiedPathInType)` right after the projection: a
projection that is a placeholder which can be resolved is replaced by its
target. -/
def grab_projection (env : Env) (translated : BaseType) : BaseType :=
  if translated.kind = TypeKind.PLACEHOLDER then
    if env.placeholder_can_resolve translated then env.placeholder_resolve translated
    else translated
  else translated

/-- The end of `visit (QualifiedPathInType)`, from the generic arguments of the
segment `Item` on: `translated` is the projection after the placeholder step,
`trait_item_ref` the trait item that was found. -/
def continue_as_path (env : Env) (st : State) (path : QualifiedPath) (root : BaseType)
    (trait_item_ref : TraitItemReference) (translated : BaseType) :
    Option (Option BaseType × State) :=
  let item_seg := path.associated_segment
  let substituted : Option (BaseType × State) :=
    match item_seg.generic_args with
    | none => some (translated, st)
    | some generic_args =>
      if !generic_args.is_empty then
        if env.can_substitute translated = false then none
        else
          some (env.SubstMapper_Resolve translated path.locus generic_args,
            { st with trace := st.trace
                ++ [Event.SubstMapper_Resolve translated path.locus generic_args] })
      else some (translated, st)
  match substituted with
  | none =>
    some (some (ErrorType path.mappings.hirid),
      rust_error_at st item_seg.locus
        ("substitutions not supported for " ++ env.as_string translated))
  | some (translated, st) =>
    let root_resolved_node_id := trait_item_ref.mappings.nodeid
    let fully_resolved := path.segments.isEmpty
    if fully_resolved then
      some (some translated,
        { st with
          resolved_names :=
            (path.mappings.nodeid, root_resolved_node_id) :: st.resolved_names
          receivers := (path.mappings.hirid, root) :: st.receivers })
    else
      match TypeCheckType.resolve_segments_at env st root_resolved_node_id
          path.mappings.hirid path.segments 0 (some translated)
          path.mappings path.locus with
      | none => none
      | some (translated, st) => some (some translated, st)

namespace Sample

/-- The placeholder of the associated type `Out`. -/
def placeholder_out : BaseType :=
  { kind := TypeKind.PLACEHOLDER, ref := 230, ty_ref := 230, specified_bounds := []
    substs := [] }

/-- The item `type Out;` of the trait `O`. -/
def trait_out : TraitItemReference :=
  { identifier := "Out", optional := false, type := TraitItemType.TYPE
    tyty := placeholder_out, locus := 17, mappings := mapping 230 }

/-- The trait `trait O { type Out; }`, DefId 7. -/
def traitO : TraitReference := { defid := 7, locus := 19, item_refs := [trait_out] }

/-- A type parameter `Q: O`. -/
def tyQ : BaseType :=
  { kind := TypeKind.PARAM, ref := 35, ty_ref := 35
    specified_bounds := [{ reference := 7, locus := 5 }], substs := [] }

/-- The externals of the sample program with the trait `O`, implemented for `R`
by the block with HirId 60 (node 1060) with `type Out = A;`: the placeholder of
`Out` can be resolved and its target is the struct `A`. -/
def placeholder_env : Env :=
  { env [] probed_none with
    predicate_get := fun _ => traitO
    TraitResolver_Resolve := fun _ => some traitO
    is_bound_satisfied_for_type := fun _ _ => true
    lookup_node_to_hir := fun _ n => if n = 1060 then some 60 else none
    lookup_associated_trait_impl := fun id =>
      if id = 60 then some { trait_defid := 7, impl_hirid := 60 } else none
    placeholder_can_resolve := fun t => decide (t.ref = 230)
    placeholder_resolve := fun _ => tyA }

/-- The qualified path `<.. as O>::Out`, with the ids 920 and the location 30. -/
def out_path : QualifiedPath :=
  { mappings := mapping 920, locus := 30, qual_mappings := mapping 921
    trait := some (path 930 [segment "O" 931 31]), trait_generic_args := none
    associated_segment := segment "Out" 932 32, segments := [] }

/-- The state in which the qualifier of `out_path` is resolved to the impl block
with node id 1060. -/
def out_state : State :=
  { state [(10, tyR)] with resolved_names := [(1921, 1060)] }

end Sample

/-- The segment names a module, as a turn of `resolve_root_path` finds out: the
node it refers to is known and has a HIR id, under which a module is
registered. -/
def names_module (env : Env) (st : State) (crate_num : Nat) (seg : TypePathSegment) : Bool :=
  match segment_ref_node_id env st seg with
  | none => false
  | some ref_node_id =>
    if ref_node_id = UNKNOWN_NODEID then false
    else
      match env.lookup_node_to_hir crate_num ref_node_id with
      | none => false
      | some ref => env.lookup_module crate_num ref

/-- The segment names a concrete declaration, as a turn of `resolve_root_path`
finds out: the node it refers to is known and has a HIR id, which is no module
and has a type in the type context. The node and the type are given. -/
def declared_type (env : Env) (st : State) (crate_num : Nat) (seg : TypePathSegment) :
    Option (NodeId × BaseType) :=
  match segment_ref_node_id env st seg with
  | none => none
  | some ref_node_id =>
    if ref_node_id = UNKNOWN_NODEID then none
    else
      match env.lookup_node_to_hir crate_num ref_node_id with
      | none => none
      | some ref =>
        if env.lookup_module crate_num ref then none
        else (st.lookup_type ref).map (fun lookup => (ref_node_id, lookup))

/-- The type that a segment naming a declaration of type `lookup` makes the
root, when no root precedes it: `lookup` with the generic arguments written on
the segment applied. -/
def root_type (env : Env) (path : TypePath) (seg : TypePathSegment) (lookup : BaseType) :
    BaseType :=
  match seg.generic_args with
  | none => lookup
  | some generic_args => env.SubstMapper_Resolve lookup path.locus generic_args

/-- The state after the turn of `resolve_root_path` for a segment naming a
declaration of type `lookup`: the call of `SubstMapper::Resolve` is logged when
the segment has generic arguments. -/
def root_turn_state (path : TypePath) (st : State) (seg : TypePathSegment)
    (lookup : BaseType) : State :=
  match seg.generic_args with
  | none => st
  | some generic_args =>
    { st with
      trace := st.trace ++ [Event.SubstMapper_Resolve lookup path.locus generic_args] }

namespace Sample

/-- The state in which the segment `m` (node 1909) is resolved to the module
`m`, the segment `R` (node 1901) to the struct `R` and the segment `A` (node
1902) to the struct `A`. -/
def nested_state : State :=
  { state [(10, tyR), (20, tyA)] with
    resolved_types := [(1909, 1500), (1901, 1010), (1902, 1020)] }

end Sample

end Resolver
end Rust

/-! ## Lemmas on the probe -/

namespace Rust
namespace Resolver

open TyTy HIR

namespace PathProbeType

theorem accept_vis_some (st : State) (p p' : PathProbeType) (item : ImplItem)
    (h : accept_vis st p item = some p') :
    (p.search ≠ (item_decl item).name ∧ p' = p)
    ∨ (p.search = (item_decl item).name ∧ ∃ ty,
        st.lookup_type (item_decl item).mappings.hirid = some ty
        ∧ p' = { p with candidates := p.candidates ++
            [{ type := impl_candidate_type item, ty := ty, locus := UNKNOWN_LOCATION
               item := Candidate.impl { impl_item := item, parent := p.current_impl } }] }) := by
  cases item with
  | TypeAlias d =>
    simp only [accept_vis, visit_TypeAlias, item_decl, impl_candidate_type] at h ⊢
    by_cases hn : p.search = d.name
    · rw [if_pos hn] at h
      cases hl : st.lookup_type d.mappings.hirid with
      | none => rw [hl] at h; simp at h
      | some ty =>
        rw [hl] at h
        simp only [Option.some.injEq, PathProbeCandidate.of_impl] at h
        exact Or.inr ⟨hn, ty, rfl, h.symm⟩
    · rw [if_neg hn] at h
      simp only [Option.some.injEq] at h
      exact Or.inl ⟨hn, h.symm⟩
  | ConstantItem d =>
    simp only [accept_vis, visit_ConstantItem, item_decl, impl_candidate_type] at h ⊢
    by_cases hn : p.search = d.name
    · rw [if_pos hn] at h
      cases hl : st.lookup_type d.mappings.hirid with
      | none => rw [hl] at h; simp at h
      | some ty =>
        rw [hl] at h
        simp only [Option.some.injEq, PathProbeCandidate.of_impl] at h
        exact Or.inr ⟨hn, ty, rfl, h.symm⟩
    · rw [if_neg hn] at h
      simp only [Option.some.injEq] at h
      exact Or.inl ⟨hn, h.symm⟩
  | Function d =>
    simp only [accept_vis, visit_Function, item_decl, impl_candidate_type] at h ⊢
    by_cases hn : p.search = d.name
    · rw [if_pos hn] at h
      cases hl : st.lookup_type d.mappings.hirid with
      | none => rw [hl] at h; simp at h
      | some ty =>
        rw [hl] at h
        simp only [Option.some.injEq, PathProbeCandidate.of_impl] at h
        exact Or.inr ⟨hn, ty, rfl, h.symm⟩
    · rw [if_neg hn] at h
      simp only [Option.some.injEq] at h
      exact Or.inl ⟨hn, h.symm⟩

theorem process_impl_item_candidate_some (env : Env) (st : State) (p p' : PathProbeType)
    (id : HirId) (item : ImplItem) (impl : ImplBlock)
    (h : process_impl_item_candidate env st p id item impl = some p') :
    p'.receiver = p.receiver ∧ p'.search = p.search ∧ p'.calls = p.calls
    ∧ ((impl_item_matches env st p.receiver p.search (id, item, impl) = false
          ∧ p'.candidates = p.candidates)
       ∨ (impl_item_matches env st p.receiver p.search (id, item, impl) = true
          ∧ ∃ c, IsImplCandidateOf st (id, item, impl) c
              ∧ p'.candidates = p.candidates ++ [c])) := by
  unfold process_impl_item_candidate at h
  simp only at h
  cases hl : st.lookup_type impl.type_hirid with
  | none => rw [hl] at h; simp at h
  | some ty =>
    rw [hl] at h
    simp only at h
    by_cases hc : env.can_eq p.receiver ty false = false
    · rw [if_pos hc] at h
      simp only [Option.some.injEq] at h
      subst h
      refine ⟨rfl, rfl, rfl, Or.inl ⟨?_, rfl⟩⟩
      simp [impl_item_matches, hl, hc]
    · rw [if_neg hc] at h
      have hc' : env.can_eq p.receiver ty false = true := by simpa using hc
      rcases accept_vis_some st _ p' item h with ⟨hn, hp⟩ | ⟨hn, ty', hty, hp⟩
      · subst hp
        refine ⟨rfl, rfl, rfl, Or.inl ⟨?_, rfl⟩⟩
        simp only at hn
        simp [impl_item_matches, hl, hn]
      · subst hp
        refine ⟨rfl, rfl, rfl, Or.inr ⟨?_, _, ⟨rfl, hty, rfl, rfl⟩, rfl⟩⟩
        simp only at hn
        simp [impl_item_matches, hl, hc', hn]

theorem impl_items_fold_some (env : Env) (st : State)
    (l : List (HirId × ImplItem × ImplBlock)) :
    ∀ (p p' : PathProbeType),
      l.foldlM (fun p entry =>
        process_impl_item_candidate env st p entry.1 entry.2.1 entry.2.2) p = some p' →
      p'.receiver = p.receiver ∧ p'.search = p.search ∧ p'.calls = p.calls
      ∧ ∃ found, p'.candidates = p.candidates ++ found
          ∧ List.Forall₂ (IsImplCandidateOf st)
              (l.filter (impl_item_matches env st p.receiver p.search)) found := by
  induction l with
  | nil =>
    intro p p' h
    simp only [List.foldlM, pure, Option.some.injEq] at h
    subst h
    exact ⟨rfl, rfl, rfl, [], by simp, by simp⟩
  | cons e rest ih =>
    intro p p' h
    simp only [List.foldlM, bind, Option.bind] at h
    cases h1 : process_impl_item_candidate env st p e.1 e.2.1 e.2.2 with
    | none => rw [h1] at h; simp at h
    | some p1 =>
      rw [h1] at h
      simp only at h
      obtain ⟨hr1, hs1, hc1, hcase⟩ := process_impl_item_candidate_some env st p p1 _ _ _ h1
      obtain ⟨hr, hs, hc, found, hfound, hall⟩ := ih p1 p' h
      rw [hr1, hs1] at hall
      refine ⟨hr.trans hr1, hs.trans hs1, hc.trans hc1, ?_⟩
      rcases hcase with ⟨hm, hcand⟩ | ⟨hm, c, hcof, hcand⟩
      · refine ⟨found, by rw [hfound, hcand], ?_⟩
        rw [List.filter_cons_of_neg (by simpa using hm)]
        exact hall
      · refine ⟨c :: found, by rw [hfound, hcand]; simp, ?_⟩
        rw [List.filter_cons_of_pos hm]
        exact List.Forall₂.cons hcof hall

theorem accept_vis_total (st : State) (p : PathProbeType) (item : ImplItem)
    (h : p.search = (item_decl item).name →
      (st.lookup_type (item_decl item).mappings.hirid).isSome = true) :
    ∃ p', accept_vis st p item = some p' := by
  cases item with
  | TypeAlias d =>
    simp only [accept_vis, visit_TypeAlias, item_decl] at h ⊢
    by_cases hn : p.search = d.name
    · rw [if_pos hn]
      obtain ⟨ty, hty⟩ := Option.isSome_iff_exists.mp (h hn)
      rw [hty]; exact ⟨_, rfl⟩
    · rw [if_neg hn]; exact ⟨_, rfl⟩
  | ConstantItem d =>
    simp only [accept_vis, visit_ConstantItem, item_decl] at h ⊢
    by_cases hn : p.search = d.name
    · rw [if_pos hn]
      obtain ⟨ty, hty⟩ := Option.isSome_iff_exists.mp (h hn)
      rw [hty]; exact ⟨_, rfl⟩
    · rw [if_neg hn]; exact ⟨_, rfl⟩
  | Function d =>
    simp only [accept_vis, visit_Function, item_decl] at h ⊢
    by_cases hn : p.search = d.name
    · rw [if_pos hn]
      obtain ⟨ty, hty⟩ := Option.isSome_iff_exists.mp (h hn)
      rw [hty]; exact ⟨_, rfl⟩
    · rw [if_neg hn]; exact ⟨_, rfl⟩

theorem process_impl_item_candidate_total (env : Env) (st : State) (p : PathProbeType)
    (id : HirId) (item : ImplItem) (impl : ImplBlock)
    (h1 : (st.lookup_type impl.type_hirid).isSome = true)
    (h2 : impl_item_matches env st p.receiver p.search (id, item, impl) = true →
      (st.lookup_type (item_decl item).mappings.hirid).isSome = true) :
    ∃ p', process_impl_item_candidate env st p id item impl = some p' := by
  unfold process_impl_item_candidate
  obtain ⟨ty, hty⟩ := Option.isSome_iff_exists.mp h1
  simp only [hty]
  by_cases hc : env.can_eq p.receiver ty false = false
  · rw [if_pos hc]; exact ⟨_, rfl⟩
  · rw [if_neg hc]
    have hc' : env.can_eq p.receiver ty false = true := by simpa using hc
    apply accept_vis_total
    intro hn
    apply h2
    simp only at hn
    simp [impl_item_matches, hty, hc', hn]

theorem impl_items_fold_total (env : Env) (st : State)
    (l : List (HirId × ImplItem × ImplBlock)) :
    ∀ (p : PathProbeType),
      (∀ e ∈ l, (st.lookup_type e.2.2.type_hirid).isSome = true
        ∧ (impl_item_matches env st p.receiver p.search e = true →
            (st.lookup_type (item_decl e.2.1).mappings.hirid).isSome = true)) →
      ∃ p', l.foldlM (fun p entry =>
        process_impl_item_candidate env st p entry.1 entry.2.1 entry.2.2) p = some p' := by
  induction l with
  | nil => intro p _; exact ⟨p, rfl⟩
  | cons e rest ih =>
    intro p h
    obtain ⟨h1, h2⟩ := h e (List.mem_cons_self _ _)
    obtain ⟨p1, hp1⟩ := process_impl_item_candidate_total env st p e.1 e.2.1 e.2.2 h1 h2
    obtain ⟨hr1, hs1, _, _⟩ := process_impl_item_candidate_some env st p p1 _ _ _ hp1
    obtain ⟨p', hp'⟩ := ih p1 (by
      intro e' he'
      rw [hr1, hs1]
      exact h e' (List.mem_cons_of_mem _ he'))
    refine ⟨p', ?_⟩
    simp only [List.foldlM, bind, Option.bind, hp1]
    exact hp'

theorem process_trait_for_candidates_some (env : Env) (p p' : PathProbeType) (ig : Bool)
    (ref : TraitReference × Option ImplBlock)
    (h : process_trait_for_candidates env p ig ref = some p') :
    p'.receiver = p.receiver ∧ p'.search = p.search ∧ p'.current_impl = p.current_impl
    ∧ (∃ evs, p'.calls = p.calls ++ evs)
    ∧ ((trait_yields p.search ig ref = false ∧ p'.candidates = p.candidates)
       ∨ (trait_yields p.search ig ref = true
          ∧ ∃ c, IsTraitCandidateOf env p.receiver p.search ref c
              ∧ p'.candidates = p.candidates ++ [c])) := by
  unfold process_trait_for_candidates at h
  simp only at h
  cases hl : ref.1.lookup_trait_item p.search with
  | none =>
    rw [hl] at h
    simp only [Option.some.injEq] at h
    subst h
    exact ⟨rfl, rfl, rfl, ⟨[], by simp⟩, Or.inl ⟨by simp [trait_yields, hl], rfl⟩⟩
  | some item =>
    rw [hl] at h
    simp only at h
    by_cases hig : (ig && !item.optional) = true
    · rw [if_pos hig] at h
      simp only [Option.some.injEq] at h
      subst h
      exact ⟨rfl, rfl, rfl, ⟨[], by simp⟩, Or.inl ⟨by simp [trait_yields, hl, hig], rfl⟩⟩
    · rw [if_neg hig] at h
      have hy : trait_yields p.search ig ref = true := by
        simp only [trait_yields, hl]
        cases ig <;> cases hopt : item.optional <;> simp_all
      cases hct : candidate_type_of item.type with
      | none => rw [hct] at h; simp at h
      | some ct =>
        rw [hct] at h
        simp only at h
        by_cases hk : item.tyty.kind = TypeKind.FNDEF
        · rw [if_pos hk] at h
          cases hf : List.find?
              (fun param_mapping : SubstitutionParamMapping =>
                decide (param_mapping.generic_param.type_representation = "Self"))
              item.tyty.substs with
          | none => rw [hf] at h; simp at h
          | some param =>
            rw [hf] at h
            simp only [Option.some.injEq] at h
            subst h
            refine ⟨rfl, rfl, rfl, ⟨_, by simp only [List.append_assoc]; rfl⟩, Or.inr ⟨hy, _, ?_, rfl⟩⟩
            refine ⟨item, hl, ?_, rfl, rfl, ?_, ?_⟩
            · simpa [PathProbeCandidate.of_trait] using hct
            · intro _
              exact ⟨param, hf, rfl⟩
            · intro hne
              exact absurd hk hne
        · rw [if_neg hk] at h
          simp only [Option.some.injEq] at h
          subst h
          refine ⟨rfl, rfl, rfl, ⟨_, rfl⟩, Or.inr ⟨hy, _, ?_, rfl⟩⟩
          refine ⟨item, hl, ?_, rfl, rfl, ?_, ?_⟩
          · simpa [PathProbeCandidate.of_trait] using hct
          · intro hkk
            exact absurd hkk hk
          · intro _
            rfl

theorem traits_fold_some (env : Env) (ig : Bool)
    (traits : List (TraitReference × Option ImplBlock)) :
    ∀ (p p' : PathProbeType),
      process_traits_for_candidates env p traits ig = some p' →
      p'.receiver = p.receiver ∧ p'.search = p.search
      ∧ (∃ evs, p'.calls = p.calls ++ evs)
      ∧ ∃ found, p'.candidates = p.candidates ++ found
          ∧ List.Forall₂ (IsTraitCandidateOf env p.receiver p.search)
              (traits.filter (trait_yields p.search ig)) found := by
  induction traits with
  | nil =>
    intro p p' h
    simp only [process_traits_for_candidates, List.foldlM, pure, Option.some.injEq] at h
    subst h
    exact ⟨rfl, rfl, ⟨[], by simp⟩, [], by simp, by simp⟩
  | cons ref rest ih =>
    intro p p' h
    simp only [process_traits_for_candidates, List.foldlM, bind, Option.bind] at h
    cases h1 : process_trait_for_candidates env p ig ref with
    | none => rw [h1] at h; simp at h
    | some p1 =>
      rw [h1] at h
      simp only at h
      obtain ⟨hr1, hs1, _, ⟨ev1, hev1⟩, hcase⟩ :=
        process_trait_for_candidates_some env p p1 ig ref h1
      obtain ⟨hr, hs, ⟨ev, hev⟩, found, hfound, hall⟩ := ih p1 p' h
      rw [hr1, hs1] at hall
      refine ⟨hr.trans hr1, hs.trans hs1, ⟨ev1 ++ ev, by rw [hev, hev1]; simp⟩, ?_⟩
      rcases hcase with ⟨hm, hcand⟩ | ⟨hm, c, hcof, hcand⟩
      · refine ⟨found, by rw [hfound, hcand], ?_⟩
        rw [List.filter_cons_of_neg (by simpa using hm)]
        exact hall
      · refine ⟨c :: found, by rw [hfound, hcand]; simp, ?_⟩
        rw [List.filter_cons_of_pos hm]
        exact List.Forall₂.cons hcof hall

theorem mem_map_insert {V : Type} (m : List (Nat × V)) (k : Nat) (v : V)
    (e : Nat × V) (h : e ∈ map_insert m k v) : e = (k, v) ∨ e ∈ m := by
  induction m with
  | nil =>
    simp only [map_insert, List.mem_singleton] at h
    exact Or.inl h
  | cons hd rest ih =>
    obtain ⟨k', v'⟩ := hd
    simp only [map_insert] at h
    by_cases h1 : k < k'
    · rw [if_pos h1] at h
      rcases List.mem_cons.mp h with h | h
      · exact Or.inl h
      · exact Or.inr h
    · rw [if_neg h1] at h
      by_cases h2 : k = k'
      · rw [if_pos h2] at h
        exact Or.inr h
      · rw [if_neg h2] at h
        rcases List.mem_cons.mp h with h | h
        · exact Or.inr (h ▸ List.mem_cons_self _ _)
        · rcases ih h with h | h
          · exact Or.inl h
          · exact Or.inr (List.mem_cons_of_mem _ h)

theorem map_insert_sorted {V : Type} (m : List (Nat × V)) (k : Nat) (v : V)
    (h : KeysSorted m) : KeysSorted (map_insert m k v) := by
  induction m with
  | nil => simp [map_insert, KeysSorted]
  | cons hd rest ih =>
    obtain ⟨k', v'⟩ := hd
    simp only [KeysSorted, List.map_cons, List.pairwise_cons] at h
    obtain ⟨hlt, hrest⟩ := h
    simp only [map_insert]
    by_cases h1 : k < k'
    · rw [if_pos h1]
      simp only [KeysSorted, List.map_cons, List.pairwise_cons]
      refine ⟨?_, hlt, hrest⟩
      intro x hx
      rcases List.mem_cons.mp hx with hx | hx
      · rw [hx]; exact h1
      · exact lt_trans h1 (hlt x hx)
    · rw [if_neg h1]
      by_cases h2 : k = k'
      · rw [if_pos h2]
        simp only [KeysSorted, List.map_cons, List.pairwise_cons]
        exact ⟨hlt, hrest⟩
      · rw [if_neg h2]
        simp only [KeysSorted, List.map_cons, List.pairwise_cons]
        refine ⟨?_, ih hrest⟩
        intro x hx
        obtain ⟨e, he, hex⟩ := List.mem_map.mp hx
        rcases mem_map_insert rest k v e he with he | he
        · rw [← hex, he]
          simp only
          omega
        · exact hlt x (hex ▸ List.mem_map_of_mem Prod.fst he)

theorem find_key_none_of_lt {V : Type} (m : List (Nat × V)) (d : Nat)
    (h : ∀ x ∈ m.map Prod.fst, d < x) :
    m.find? (fun e => decide (e.1 = d)) = none := by
  rw [List.find?_eq_none]
  intro e he
  have := h e.1 (List.mem_map_of_mem Prod.fst he)
  simp only [decide_eq_true_eq]
  omega

theorem map_insert_find {V : Type} (m : List (Nat × V)) (k : Nat) (v : V) (d : Nat)
    (h : KeysSorted m) :
    (map_insert m k v).find? (fun e => decide (e.1 = d))
      = first_of (m.find? (fun e => decide (e.1 = d)))
          (if k = d then some (k, v) else none) := by
  induction m with
  | nil =>
    by_cases hk : k = d <;> simp [map_insert, first_of, hk]
  | cons hd rest ih =>
    obtain ⟨k', v'⟩ := hd
    simp only [KeysSorted, List.map_cons, List.pairwise_cons] at h
    obtain ⟨hlt, hrest⟩ := h
    simp only [map_insert]
    by_cases h1 : k < k'
    · rw [if_pos h1]
      by_cases hk : k = d
      · subst hk
        have hne : ¬ k' = k := by omega
        have hnone : rest.find? (fun e => decide (e.1 = k)) = none :=
          find_key_none_of_lt rest k (fun x hx => lt_trans h1 (hlt x hx))
        simp [List.find?_cons, hne, hnone, first_of]
      · by_cases hk' : k' = d
        · simp [List.find?_cons, hk, hk', first_of]
        · simp only [List.find?_cons, hk, hk', decide_False, if_false]
          cases hf : rest.find? (fun e => decide (e.1 = d)) <;> simp [first_of]
    · rw [if_neg h1]
      by_cases h2 : k = k'
      · rw [if_pos h2]
        subst h2
        by_cases hk : k = d
        · simp [List.find?_cons, hk, first_of]
        · simp only [List.find?_cons, hk, decide_False, if_false]
          cases hf : rest.find? (fun e => decide (e.1 = d)) <;> simp [first_of]
      · rw [if_neg h2]
        by_cases hk' : k' = d
        · simp [List.find?_cons, hk', first_of]
        · simp only [List.find?_cons, hk', decide_False]
          exact ih hrest

theorem insert_bounds_fold (l : List (TraitReference × Option ImplBlock)) :
    ∀ (m : List (DefId × (TraitReference × Option ImplBlock))),
      KeysSorted m → KeyedByDefId m →
      KeysSorted (l.foldl (fun m ref => map_insert m ref.1.defid ref) m)
      ∧ KeyedByDefId (l.foldl (fun m ref => map_insert m ref.1.defid ref) m)
      ∧ ∀ d, (l.foldl (fun m ref => map_insert m ref.1.defid ref) m).find?
                (fun e => decide (e.1 = d))
              = first_of (m.find? (fun e => decide (e.1 = d)))
                  ((l.find? (fun ref => decide (ref.1.defid = d))).map
                    (fun ref => (ref.1.defid, ref))) := by
  induction l with
  | nil =>
    intro m hs hk
    refine ⟨hs, hk, ?_⟩
    intro d
    simp only [List.foldl_nil, List.find?_nil, Option.map_none']
    cases hf : m.find? (fun e => decide (e.1 = d)) <;> rfl
  | cons ref rest ih =>
    intro m hs hk
    have hs1 := map_insert_sorted m ref.1.defid ref hs
    have hk1 : KeyedByDefId (map_insert m ref.1.defid ref) := by
      intro e he
      rcases mem_map_insert m _ _ e he with he | he
      · rw [he]
      · exact hk e he
    obtain ⟨a1, a2, a3⟩ := ih (map_insert m ref.1.defid ref) hs1 hk1
    refine ⟨a1, a2, ?_⟩
    intro d
    simp only [List.foldl_cons]
    rw [a3 d, map_insert_find m _ _ d hs]
    by_cases hd : ref.1.defid = d
    · cases hf : m.find? (fun e => decide (e.1 = d)) <;> simp [first_of, List.find?_cons, hd]
    · cases hf : m.find? (fun e => decide (e.1 = d)) <;> simp [first_of, List.find?_cons, hd]

theorem find_congr_mem {α : Type} (l : List α) (q r : α → Bool)
    (h : ∀ x ∈ l, q x = r x) : l.find? q = l.find? r := by
  induction l with
  | nil => rfl
  | cons x rest ih =>
    simp only [List.find?_cons]
    rw [h x (List.mem_cons_self _ _), ih (fun y hy => h y (List.mem_cons_of_mem _ hy))]

theorem find_of_mem_sorted {α : Type} (f : α → Nat) (l : List α)
    (hs : (l.map f).Pairwise (fun x y => x < y)) (e : α) (he : e ∈ l) :
    l.find? (fun x => decide (f x = f e)) = some e := by
  induction l with
  | nil => simp at he
  | cons x rest ih =>
    simp only [List.map_cons, List.pairwise_cons] at hs
    obtain ⟨hlt, hrest⟩ := hs
    rcases List.mem_cons.mp he with he | he
    · subst he
      simp [List.find?_cons]
    · have hne : ¬ f x = f e := by
        have := hlt (f e) (List.mem_map_of_mem f he)
        omega
      simp only [List.find?_cons, hne, decide_False]
      exact ih hrest he

theorem union_bounds_eq (a b : List (TraitReference × Option ImplBlock)) :
    union_bounds a b = (union_mapper a b).map Prod.snd := rfl

theorem union_mapper_spec (a b : List (TraitReference × Option ImplBlock)) :
    KeysSorted (union_mapper a b) ∧ KeyedByDefId (union_mapper a b)
    ∧ ∀ d, (union_mapper a b).find? (fun e => decide (e.1 = d))
        = (first_of (a.find? (fun ref => decide (ref.1.defid = d)))
            (b.find? (fun ref => decide (ref.1.defid = d)))).map
              (fun ref => (ref.1.defid, ref)) := by
  have ha := insert_bounds_fold a [] (by simp [KeysSorted]) (by intro e he; simp at he)
  obtain ⟨ha1, ha2, ha3⟩ := ha
  obtain ⟨hb1, hb2, hb3⟩ := insert_bounds_fold b _ ha1 ha2
  refine ⟨hb1, hb2, ?_⟩
  intro d
  unfold union_mapper
  rw [hb3 d, ha3 d]
  simp only [List.find?_nil]
  cases hfa : a.find? (fun ref => decide (ref.1.defid = d)) <;>
    cases hfb : b.find? (fun ref => decide (ref.1.defid = d)) <;> rfl

/-- The trait `DefId`s of the unioned bounds are strictly increasing. -/
theorem union_bounds_sorted (a b : List (TraitReference × Option ImplBlock)) :
    ((union_bounds a b).map (fun e => e.1.defid)).Pairwise (fun x y => x < y) := by
  obtain ⟨h1, h2, _⟩ := union_mapper_spec a b
  rw [union_bounds_eq, List.map_map]
  have : (union_mapper a b).map ((fun e : TraitReference × Option ImplBlock => e.1.defid) ∘ Prod.snd)
      = (union_mapper a b).map Prod.fst := by
    apply List.map_congr_left
    intro e he
    exact (h2 e he).symm
  rw [this]
  exact h1

/-- The entry of the unioned bounds for a `DefId` is the first entry of `a` with
that `DefId`, and the first of `b` when `a` has none. -/
theorem union_bounds_find (a b : List (TraitReference × Option ImplBlock)) (d : DefId) :
    (union_bounds a b).find? (fun e => decide (e.1.defid = d))
      = first_of (a.find? (fun ref => decide (ref.1.defid = d)))
          (b.find? (fun ref => decide (ref.1.defid = d))) := by
  obtain ⟨_, h2, h3⟩ := union_mapper_spec a b
  rw [union_bounds_eq, List.find?_map]
  have : (union_mapper a b).find? ((fun e : TraitReference × Option ImplBlock =>
        decide (e.1.defid = d)) ∘ Prod.snd)
      = (union_mapper a b).find? (fun e => decide (e.1 = d)) := by
    apply find_congr_mem
    intro e he
    simp only [Function.comp]
    rw [h2 e he]
  rw [this, h3 d, Option.map_map]
  cases first_of (a.find? (fun ref => decide (ref.1.defid = d)))
    (b.find? (fun ref => decide (ref.1.defid = d))) <;> rfl

/-- An entry of the unioned bounds is the one `union_bounds_find` names. -/
theorem union_bounds_entry (a b : List (TraitReference × Option ImplBlock))
    (e : TraitReference × Option ImplBlock) (he : e ∈ union_bounds a b) :
    first_of (a.find? (fun ref => decide (ref.1.defid = e.1.defid)))
      (b.find? (fun ref => decide (ref.1.defid = e.1.defid))) = some e := by
  rw [← union_bounds_find]
  exact find_of_mem_sorted (fun x : TraitReference × Option ImplBlock => x.1.defid) _
    (union_bounds_sorted a b) e he

theorem trait_step_frame (env : Env) (p : PathProbeType) (ig : Bool)
    (ref : TraitReference × Option ImplBlock) :
    process_trait_for_candidates env p ig ref
      = (trait_step env p.receiver p.search ig ref).map (extend p) := by
  unfold trait_step process_trait_for_candidates
  simp only [PathProbeType.new]
  cases hl : ref.1.lookup_trait_item p.search with
  | none => simp [extend]
  | some item =>
    simp only
    by_cases hig : (ig && !item.optional) = true
    · simp [hig, extend]
    · simp only [hig, if_false]
      cases hct : candidate_type_of item.type with
      | none => simp
      | some ct =>
        simp only
        by_cases hk : item.tyty.kind = TypeKind.FNDEF
        · simp only [hk, if_true]
          cases hf : List.find?
              (fun param_mapping : SubstitutionParamMapping =>
                decide (param_mapping.generic_param.type_representation = "Self"))
              item.tyty.substs with
          | none => simp
          | some param => simp [extend]
        · simp [hk, extend]

theorem traits_fold_frame (env : Env) (ig : Bool)
    (traits : List (TraitReference × Option ImplBlock)) :
    ∀ p : PathProbeType,
      process_traits_for_candidates env p traits ig
        = (traits_steps env p.receiver p.search ig traits).map (extend p) := by
  induction traits with
  | nil =>
    intro p
    simp [process_traits_for_candidates, traits_steps, extend]
  | cons ref rest ih =>
    intro p
    have hstep := trait_step_frame env p ig ref
    simp only [process_traits_for_candidates, List.foldlM, bind, Option.bind] at ih ⊢
    rw [hstep]
    simp only [traits_steps]
    cases h1 : trait_step env p.receiver p.search ig ref with
    | none => simp
    | some r =>
      simp only [Option.map_some']
      rw [ih (extend p r)]
      simp only [extend]
      cases h2 : traits_steps env p.receiver p.search ig rest with
      | none => simp
      | some rs => simp [extend, List.append_assoc]

/-- A probe of the bounds alone is the trait loop run on the unioned bounds. -/
theorem Probe_bounds_eq (env : Env) (st : State) (receiver : BaseType) (name : String)
    (ig : Bool) :
    Probe env st receiver name false true ig
      = traits_steps env receiver name ig (union_type_bounds env receiver) := by
  unfold Probe
  simp only [Bool.false_eq_true, if_false]
  rw [traits_fold_frame]
  simp only [PathProbeType.new, union_type_bounds]
  cases traits_steps env receiver name ig
    (union_bounds (env.TypeBoundsProbe_Probe receiver) (specified_bounds env receiver)) with
  | none => rfl
  | some r => simp [extend]

/-- A probe with both flags set: the inherent candidates, then the trait
candidates; it aborts exactly when one of the two single probes aborts. -/
theorem Probe_both_eq (env : Env) (st : State) (receiver : BaseType) (name : String)
    (ig : Bool) :
    Probe env st receiver name true true ig
      = match Probe env st receiver name true false ig,
              Probe env st receiver name false true ig with
        | some inh, some tr => some (inh.1 ++ tr.1, inh.2 ++ tr.2)
        | _, _ => none := by
  rw [Probe_bounds_eq]
  unfold Probe
  simp only [if_true, Bool.true_eq_false, if_false]
  cases h1 : process_impl_items_for_candidates env st (PathProbeType.new receiver name) with
  | none => simp
  | some p1 =>
    simp only
    rw [traits_fold_frame]
    obtain ⟨hr, hs, _, _⟩ := impl_items_fold_some env st env.impl_items _ _ h1
    rw [hr, hs]
    simp only [PathProbeType.new, union_type_bounds]
    cases traits_steps env receiver name ig
      (union_bounds (env.TypeBoundsProbe_Probe receiver) (specified_bounds env receiver)) with
    | none => rfl
    | some r => simp [extend]

/-- A successful probe of the inherent items: one candidate per matching
iterated item, in iteration order, and no observable call. -/
theorem Probe_impls_some (env : Env) (st : State) (receiver : BaseType) (name : String)
    (ig : Bool) (cs : List PathProbeCandidate) (calls : List Event)
    (h : Probe env st receiver name true false ig = some (cs, calls)) :
    calls = [] ∧ List.Forall₂ (IsImplCandidateOf st)
      (env.impl_items.filter (impl_item_matches env st receiver name)) cs := by
  unfold Probe at h
  simp only [if_true] at h
  cases h1 : process_impl_items_for_candidates env st (PathProbeType.new receiver name) with
  | none => rw [h1] at h; simp at h
  | some p1 =>
    rw [h1] at h
    simp only [if_true, Option.some.injEq, Prod.mk.injEq] at h
    obtain ⟨_, _, hc, found, hfound, hall⟩ := impl_items_fold_some env st env.impl_items _ _ h1
    simp only [PathProbeType.new, List.nil_append] at hc hfound hall
    rw [← h.1, ← h.2, hfound, hc]
    exact ⟨rfl, hall⟩

/-- A successful probe of the bounds: one candidate per unioned entry that
yields, in the order of the unioned entries. -/
theorem Probe_bounds_some (env : Env) (st : State) (receiver : BaseType) (name : String)
    (ig : Bool) (cs : List PathProbeCandidate) (calls : List Event)
    (h : Probe env st receiver name false true ig = some (cs, calls)) :
    List.Forall₂ (IsTraitCandidateOf env receiver name)
      ((union_type_bounds env receiver).filter (trait_yields name ig)) cs := by
  unfold Probe at h
  simp only [Bool.false_eq_true, if_false] at h
  cases h1 : process_traits_for_candidates env (PathProbeType.new receiver name)
      (union_bounds (env.TypeBoundsProbe_Probe receiver) (specified_bounds env receiver)) ig with
  | none => rw [h1] at h; simp at h
  | some p1 =>
    rw [h1] at h
    simp only [Bool.true_eq_false, if_false, Option.some.injEq, Prod.mk.injEq] at h
    obtain ⟨_, _, _, found, hfound, hall⟩ := traits_fold_some env ig _ _ _ h1
    simp only [PathProbeType.new, List.nil_append] at hfound hall
    rw [← h.1, hfound]
    exact hall

theorem forall₂_mem_right {α β : Type} {R : α → β → Prop} {l₁ : List α} {l₂ : List β}
    (h : List.Forall₂ R l₁ l₂) : ∀ c ∈ l₂, ∃ a ∈ l₁, R a c := by
  induction h with
  | nil => intro c hc; simp at hc
  | cons hr _ ih =>
    intro c hc
    rcases List.mem_cons.mp hc with hc | hc
    · subst hc
      exact ⟨_, List.mem_cons_self _ _, hr⟩
    · obtain ⟨a, ha, hra⟩ := ih c hc
      exact ⟨a, List.mem_cons_of_mem _ ha, hra⟩

theorem forall₂_mem_left {α β : Type} {R : α → β → Prop} {l₁ : List α} {l₂ : List β}
    (h : List.Forall₂ R l₁ l₂) : ∀ a ∈ l₁, ∃ c ∈ l₂, R a c := by
  induction h with
  | nil => intro a ha; simp at ha
  | cons hr _ ih =>
    intro a ha
    rcases List.mem_cons.mp ha with ha | ha
    · subst ha
      exact ⟨_, List.mem_cons_self _ _, hr⟩
    · obtain ⟨c, hc, hrc⟩ := ih a ha
      exact ⟨c, List.mem_cons_of_mem _ hc, hrc⟩

theorem forall₂_map_eq {α β γ : Type} {R : α → β → Prop} (f : α → γ) (g : β → γ)
    (hfg : ∀ a c, R a c → f a = g c) {l₁ : List α} {l₂ : List β}
    (h : List.Forall₂ R l₁ l₂) : l₁.map f = l₂.map g := by
  induction h with
  | nil => rfl
  | cons hr _ ih => simp only [List.map_cons, hfg _ _ hr, ih]

theorem impl_candidate_tag (st : State) (e : HirId × ImplItem × ImplBlock)
    (c : PathProbeCandidate) (h : IsImplCandidateOf st e c) :
    c.is_impl_candidate = true ∧ c.is_trait_candidate = false := by
  obtain ⟨ht, _, _, _⟩ := h
  unfold PathProbeCandidate.is_impl_candidate PathProbeCandidate.is_trait_candidate
  rw [ht]
  cases e.2.1 <;> simp [impl_candidate_type]

theorem trait_candidate_tag (env : Env) (receiver : BaseType) (name : String)
    (ref : TraitReference × Option ImplBlock) (c : PathProbeCandidate)
    (h : IsTraitCandidateOf env receiver name ref c) :
    c.is_trait_candidate = true ∧ c.is_impl_candidate = false := by
  obtain ⟨item, _, ht, _, _, _, _⟩ := h
  unfold PathProbeCandidate.is_impl_candidate PathProbeCandidate.is_trait_candidate
  cases hty : item.type <;> rw [hty] at ht <;>
    simp only [candidate_type_of, Option.some.injEq] at ht
  · rw [← ht]; simp
  · rw [← ht]; simp
  · rw [← ht]; simp
  · cases ht

/-- A successful probe that includes the bounds: inherent candidates (none
when `probe_impls` is clear), then the candidates of the unioned bounds. -/
theorem Probe_with_bounds_some (env : Env) (st : State) (receiver : BaseType) (name : String)
    (pi ig : Bool) (cs : List PathProbeCandidate) (calls : List Event)
    (h : Probe env st receiver name pi true ig = some (cs, calls)) :
    ∃ inh tr, cs = inh ++ tr
      ∧ (∀ c ∈ inh, ∃ e ∈ env.impl_items,
          impl_item_matches env st receiver name e = true ∧ IsImplCandidateOf st e c)
      ∧ List.Forall₂ (IsTraitCandidateOf env receiver name)
          ((union_type_bounds env receiver).filter (trait_yields name ig)) tr := by
  cases pi with
  | false =>
    refine ⟨[], cs, rfl, by intro c hc; simp at hc, ?_⟩
    exact Probe_bounds_some env st receiver name ig cs calls h
  | true =>
    rw [Probe_both_eq] at h
    cases h1 : Probe env st receiver name true false ig with
    | none => rw [h1] at h; simp at h
    | some inh =>
      cases h2 : Probe env st receiver name false true ig with
      | none => rw [h1, h2] at h; simp at h
      | some tr =>
        rw [h1, h2] at h
        simp only [Option.some.injEq, Prod.mk.injEq] at h
        obtain ⟨_, hinh⟩ := Probe_impls_some env st receiver name ig inh.1 inh.2 h1
        have htr := Probe_bounds_some env st receiver name ig tr.1 tr.2 h2
        refine ⟨inh.1, tr.1, h.1.symm, ?_, htr⟩
        intro c hc
        obtain ⟨e, he, hre⟩ := forall₂_mem_right hinh c hc
        exact ⟨e, (List.mem_filter.mp he).1, (List.mem_filter.mp he).2, hre⟩

end PathProbeType

/-! ## Lemmas on the segment walk -/

open PathProbeType TypeCheckType

/-- The first probed entry for a `DefId` is the entry of the union for it, and
the trait candidates of a returned probe for that `DefId` carry its impl. -/
theorem probed_entry_kept_of_some (env : Env) (st : State) (receiver : BaseType)
    (name : String) (pi ig : Bool) (a : List (TraitReference × Option ImplBlock))
    (d : DefId) (e : TraitReference × Option ImplBlock)
    (ha : env.TypeBoundsProbe_Probe receiver = a)
    (he : a.find? (fun ref => decide (ref.1.defid = d)) = some e) :
    (∀ b, (union_bounds a b).find? (fun ref => decide (ref.1.defid = d)) = some e
        ∧ ∀ e' ∈ union_bounds a b, e'.1.defid = d → e' = e)
    ∧ ∀ cs calls, Probe env st receiver name pi true ig = some (cs, calls) →
        (∀ c ∈ cs, ∀ tc, c.item = Candidate.trait tc → tc.trait_ref.defid = d →
          tc.trait_ref = e.1 ∧ tc.impl = e.2)
        ∧ (trait_yields name ig e = true →
            ∃ c ∈ cs, ∃ tc, c.item = Candidate.trait tc
              ∧ tc.trait_ref = e.1 ∧ tc.impl = e.2) := by
  have hfind : ∀ b, (union_bounds a b).find? (fun ref => decide (ref.1.defid = d)) = some e := by
    intro b
    rw [union_bounds_find, he]
    rfl
  have huniq : ∀ b, ∀ e' ∈ union_bounds a b, e'.1.defid = d → e' = e := by
    intro b e' he' hd
    have h1 := union_bounds_entry a b e' he'
    rw [hd, he] at h1
    simp only [first_of, Option.some.injEq] at h1
    exact h1.symm
  refine ⟨fun b => ⟨hfind b, huniq b⟩, ?_⟩
  intro cs calls hP
  obtain ⟨inh, tr, hcs, hinh, htr⟩ := Probe_with_bounds_some env st receiver name pi ig cs calls hP
  have hu : union_type_bounds env receiver = union_bounds a (specified_bounds env receiver) := by
    rw [union_type_bounds, ha]
  constructor
  · intro c hc tc hitem hd
    rw [hcs] at hc
    rcases List.mem_append.mp hc with hc | hc
    · obtain ⟨e0, _, _, hof⟩ := hinh c hc
      obtain ⟨_, _, hi, _⟩ := hof
      rw [hi] at hitem
      cases hitem
    · obtain ⟨ref, href, hof⟩ := forall₂_mem_right htr c hc
      obtain ⟨item, _, _, hi, _⟩ := hof
      rw [hi] at hitem
      simp only [Candidate.trait.injEq] at hitem
      subst hitem
      simp only at hd ⊢
      have hmem : ref ∈ union_bounds a (specified_bounds env receiver) := by
        rw [← hu]
        exact (List.mem_filter.mp href).1
      have := huniq _ ref hmem hd
      rw [this]
      exact ⟨rfl, rfl⟩
  · intro hy
    have hmem : e ∈ union_type_bounds env receiver := by
      rw [hu]
      exact List.mem_of_find?_eq_some (hfind _)
    obtain ⟨c, hc, hof⟩ := forall₂_mem_left htr e (List.mem_filter.mpr ⟨hmem, hy⟩)
    obtain ⟨item, _, _, hi, _⟩ := hof
    exact ⟨c, by rw [hcs]; exact List.mem_append_right _ hc, _, hi, rfl, rfl⟩

theorem probe_calls_append (l₁ l₂ : List Event) :
    probe_calls (l₁ ++ l₂) = probe_calls l₁ ++ probe_calls l₂ := by
  induction l₁ with
  | nil => rfl
  | cons e rest ih =>
    cases e <;> simp [probe_calls, ih]

theorem trait_step_calls (env : Env) (receiver : BaseType) (name : String) (ig : Bool)
    (ref : TraitReference × Option ImplBlock) (x : List PathProbeCandidate × List Event)
    (h : trait_step env receiver name ig ref = some x) : probe_calls x.2 = [] := by
  unfold trait_step process_trait_for_candidates at h
  simp only [PathProbeType.new] at h
  split at h
  · simp at h; rw [← h]; rfl
  · split at h
    · simp at h; rw [← h]; rfl
    · split at h
      · simp at h
      · split at h
        · split at h
          · simp at h
          · simp only [Option.map_some', Option.some.injEq] at h
            rw [← h]
            simp only [List.nil_append, probe_calls_append]
            split
            · rfl
            · split
              · rfl
              · split <;> rfl
        · simp only [Option.map_some', Option.some.injEq] at h
          rw [← h]
          simp only [List.nil_append]
          split
          · rfl
          · split
            · rfl
            · split <;> rfl

theorem traits_steps_calls (env : Env) (receiver : BaseType) (name : String) (ig : Bool)
    (traits : List (TraitReference × Option ImplBlock)) :
    ∀ x, traits_steps env receiver name ig traits = some x → probe_calls x.2 = [] := by
  induction traits with
  | nil =>
    intro x h
    simp only [traits_steps, Option.some.injEq] at h
    rw [← h]; rfl
  | cons ref rest ih =>
    intro x h
    simp only [traits_steps] at h
    cases h1 : trait_step env receiver name ig ref with
    | none => rw [h1] at h; simp at h
    | some r =>
      cases h2 : traits_steps env receiver name ig rest with
      | none => rw [h1, h2] at h; simp at h
      | some rs =>
        rw [h1, h2] at h
        simp only [Option.some.injEq] at h
        rw [← h]
        simp only [probe_calls_append, trait_step_calls env receiver name ig ref r h1,
          ih rs h2, List.append_nil]

/-- The calls made inside `Probe` are never calls of `Probe`. -/
theorem Probe_calls (env : Env) (st : State) (receiver : BaseType) (name : String)
    (pi pb ig : Bool) (x : List PathProbeCandidate × List Event)
    (h : Probe env st receiver name pi pb ig = some x) : probe_calls x.2 = [] := by
  cases pi <;> cases pb
  · simp only [Probe, PathProbeType.new, Bool.false_eq_true, if_false, if_true,
      Option.some.injEq] at h
    rw [← h]; rfl
  · rw [Probe_bounds_eq] at h
    exact traits_steps_calls env receiver name ig _ x h
  · obtain ⟨hc, _⟩ := Probe_impls_some env st receiver name ig x.1 x.2 h
    rw [hc]; rfl
  · rw [Probe_both_eq] at h
    cases h1 : Probe env st receiver name true false ig with
    | none => rw [h1] at h; simp at h
    | some inh =>
      cases h2 : Probe env st receiver name false true ig with
      | none => rw [h1, h2] at h; simp at h
      | some tr =>
        rw [h1, h2] at h
        simp only [Option.some.injEq] at h
        obtain ⟨hc, _⟩ := Probe_impls_some env st receiver name ig inh.1 inh.2 h1
        rw [Probe_bounds_eq] at h2
        rw [← h]
        simp only [hc, List.nil_append]
        exact traits_steps_calls env receiver name ig _ tr h2

/-- Reporting an ambiguity makes no call of `Probe`. -/
theorem Report_probe_calls (st st' : State) (cs : List PathProbeCandidate) (q : String)
    (l : Location) (h : ReportMultipleCandidateError.Report st cs q l = some st') :
    probe_calls st'.trace = probe_calls st.trace := by
  unfold ReportMultipleCandidateError.Report at h
  simp only at h
  split at h
  · simp at h
  · simp only [Option.some.injEq] at h
    rw [← h]
    simp [probe_calls_append, probe_calls]

/-- Taking the candidate makes no call of `Probe`. -/
theorem take_candidate_probe_calls (env : Env) (expr_id : HirId) (expr_locus : Location)
    (st : State) (tyseg : BaseType) (seg : TypePathSegment) (cs : List PathProbeCandidate)
    (out : SegmentOutcome)
    (h : take_candidate env expr_id expr_locus st tyseg seg cs = some out) :
    probe_calls out.state.trace = probe_calls st.trace := by
  unfold take_candidate at h
  split at h
  · split at h
    · simp at h
    · rename_i st' hrep
      simp only [Option.some.injEq] at h
      rw [← h]
      exact Report_probe_calls st st' cs _ _ hrep
  · split at h
    · simp at h
    · rename_i candidate rest
      simp only at h
      split at h
      · simp at h
      · rename_i id ty st1 hpick
        have hst1 : probe_calls st1.trace = probe_calls st.trace := by
          split at hpick
          · split at hpick
            · simp only [Option.some.injEq, Prod.mk.injEq] at hpick
              rw [← hpick.2.2]
            · simp at hpick
          · split at hpick
            · simp at hpick
            · split at hpick
              · simp only [Option.some.injEq, Prod.mk.injEq] at hpick
                rw [← hpick.2.2]
              · split at hpick
                · simp at hpick
                · simp only [Option.some.injEq, Prod.mk.injEq] at hpick
                  rw [← hpick.2.2]
                  simp [probe_calls_append, probe_calls]
        split at h
        · simp only [Option.some.injEq] at h
          rw [← h]
          exact hst1
        · split at h
          · simp only [Option.some.injEq] at h
            rw [← h]
            simp [SegmentOutcome.state, rust_error_at, probe_calls_append, probe_calls, hst1]
          · split at h
            · simp only [Option.some.injEq] at h
              rw [← h]
              simp [SegmentOutcome.state, probe_calls_append, probe_calls, hst1]
            · simp only [Option.some.injEq] at h
              rw [← h]
              simp [SegmentOutcome.state, probe_calls_append, probe_calls, hst1]

theorem call_Probe_some (env : Env) (st st' : State) (receiver : BaseType) (name : String)
    (pi pb ig : Bool) (cs : List PathProbeCandidate)
    (h : call_Probe env st receiver name pi pb ig = some (cs, st')) :
    (∃ calls, Probe env st receiver name pi pb ig = some (cs, calls))
    ∧ probe_calls st'.trace = probe_calls st.trace ++ [(receiver, name, pi, pb, ig)] := by
  unfold call_Probe at h
  split at h
  · simp at h
  · rename_i cs' calls hP
    simp only [Option.some.injEq, Prod.mk.injEq] at h
    obtain ⟨h1, h2⟩ := h
    subst h1
    refine ⟨⟨calls, hP⟩, ?_⟩
    rw [← h2]
    have := Probe_calls env st receiver name pi pb ig _ hP
    simp only at this
    simp [probe_calls_append, probe_calls, this]

theorem trait_step_total (env : Env) (receiver : BaseType) (name : String) (ig : Bool)
    (ref : TraitReference × Option ImplBlock)
    (h : ∀ item, ref.1.lookup_trait_item name = some item →
      trait_yields name ig ref = true →
      item.type ≠ TraitItemType.ERROR
      ∧ (item.tyty.kind = TypeKind.FNDEF → (find_self item.tyty).isSome = true)) :
    ∃ x, trait_step env receiver name ig ref = some x := by
  unfold trait_step process_trait_for_candidates
  simp only [PathProbeType.new]
  cases hl : ref.1.lookup_trait_item name with
  | none => exact ⟨_, rfl⟩
  | some item =>
    simp only
    by_cases hig : (ig && !item.optional) = true
    · rw [if_pos hig]; exact ⟨_, rfl⟩
    · rw [if_neg hig]
      have hy : trait_yields name ig ref = true := by
        simp only [trait_yields, hl]
        cases ig <;> cases hopt : item.optional <;> simp_all
      obtain ⟨hne, hself⟩ := h item hl hy
      cases hty : item.type with
      | ERROR => exact absurd hty hne
      | FN =>
        simp only [candidate_type_of]
        by_cases hk : item.tyty.kind = TypeKind.FNDEF
        · rw [if_pos hk]
          obtain ⟨param, hparam⟩ := Option.isSome_iff_exists.mp (hself hk)
          unfold find_self at hparam
          rw [hparam]
          exact ⟨_, rfl⟩
        · rw [if_neg hk]; exact ⟨_, rfl⟩
      | CONST =>
        simp only [candidate_type_of]
        by_cases hk : item.tyty.kind = TypeKind.FNDEF
        · rw [if_pos hk]
          obtain ⟨param, hparam⟩ := Option.isSome_iff_exists.mp (hself hk)
          unfold find_self at hparam
          rw [hparam]
          exact ⟨_, rfl⟩
        · rw [if_neg hk]; exact ⟨_, rfl⟩
      | TYPE =>
        simp only [candidate_type_of]
        by_cases hk : item.tyty.kind = TypeKind.FNDEF
        · rw [if_pos hk]
          obtain ⟨param, hparam⟩ := Option.isSome_iff_exists.mp (hself hk)
          unfold find_self at hparam
          rw [hparam]
          exact ⟨_, rfl⟩
        · rw [if_neg hk]; exact ⟨_, rfl⟩

theorem traits_steps_total (env : Env) (receiver : BaseType) (name : String) (ig : Bool)
    (traits : List (TraitReference × Option ImplBlock))
    (h : TraitItemsUsable name ig traits) :
    ∃ x, traits_steps env receiver name ig traits = some x := by
  induction traits with
  | nil => exact ⟨_, rfl⟩
  | cons ref rest ih =>
    obtain ⟨r, hr⟩ := trait_step_total env receiver name ig ref
      (fun item hl hy => h ref (List.mem_cons_self _ _) item hl hy)
    obtain ⟨rs, hrs⟩ := ih (fun ref' hmem => h ref' (List.mem_cons_of_mem _ hmem))
    refine ⟨(r.1 ++ rs.1, r.2 ++ rs.2), ?_⟩
    simp only [traits_steps, hr, hrs]

/-- The inherent probe returns when the context has the types it reads. -/
theorem Probe_impls_total (env : Env) (st : State) (receiver : BaseType) (name : String)
    (ig : Bool) (h : ImplTypesKnown env st receiver name) :
    ∃ cs, Probe env st receiver name true false ig = some (cs, []) := by
  obtain ⟨p', hp'⟩ := impl_items_fold_total env st env.impl_items
    (PathProbeType.new receiver name) h
  have hP : Probe env st receiver name true false ig = some (p'.candidates, p'.calls) := by
    unfold Probe process_impl_items_for_candidates
    simp only [if_true, hp']
  obtain ⟨hc, _⟩ := Probe_impls_some env st receiver name ig _ _ hP
  rw [hc] at hP
  exact ⟨_, hP⟩

/-- The probe of the bounds returns when the yielding items are usable. -/
theorem Probe_bounds_total (env : Env) (st : State) (receiver : BaseType) (name : String)
    (ig : Bool) (h : TraitItemsUsable name ig (union_type_bounds env receiver)) :
    ∃ x, Probe env st receiver name false true ig = some x := by
  rw [Probe_bounds_eq]
  exact traits_steps_total env receiver name ig _ h

theorem Probe_impls_ig (env : Env) (st : State) (receiver : BaseType) (name : String)
    (ig ig' : Bool) :
    Probe env st receiver name true false ig = Probe env st receiver name true false ig' := by
  unfold Probe
  simp

theorem final_substitution_diagnostics (env : Env) (segments : List TypePathSegment)
    (st st' : State) (prev_segment tyseg ty : BaseType)
    (h : final_substitution env segments st prev_segment tyseg = some (ty, st')) :
    st'.diagnostics = st.diagnostics := by
  unfold final_substitution at h
  split at h
  · simp at h
  · simp only at h
    split at h
    · split at h
      · simp only [Option.some.injEq, Prod.mk.injEq] at h
        rw [← h.2]
      · simp only [Option.some.injEq, Prod.mk.injEq] at h
        rw [← h.2]
    · simp only [Option.some.injEq, Prod.mk.injEq] at h
      rw [← h.2]

theorem finish_diagnostics (st st' : State) (mp : NodeMapping) (id : NodeId)
    (tyseg ty : BaseType) (h : finish st mp id tyseg = some (ty, st')) :
    st'.diagnostics = st.diagnostics := by
  unfold finish record_resolved at h
  split at h
  · simp at h
  · rename_i st1 hrec
    simp only [Option.some.injEq, Prod.mk.injEq] at h
    rw [← h.2]
    split at hrec
    · simp at hrec
    · split at hrec
      · split at hrec
        · simp only [Option.some.injEq] at hrec; rw [← hrec]
        · simp at hrec
      · split at hrec
        · split at hrec
          · simp only [Option.some.injEq] at hrec; rw [← hrec]
          · simp at hrec
        · simp only [Option.some.injEq] at hrec; rw [← hrec]

theorem forall₂_singleton_left {α β : Type} {R : α → β → Prop} {l₁ : List α} {l₂ : List β}
    (h : List.Forall₂ R l₁ l₂) (hlen : l₁.length = 1) :
    ∃ a c, l₁ = [a] ∧ l₂ = [c] ∧ R a c := by
  cases h with
  | nil => simp at hlen
  | cons hr hrest =>
    cases hrest with
    | nil => exact ⟨_, _, rfl, rfl, hr⟩
    | cons _ _ => simp at hlen

theorem Sample.foo_union :
    union_type_bounds (Sample.env Sample.foo_items Sample.probed_T) Sample.tyR
      = [(Sample.traitT, some Sample.implTforR)] := by decide

theorem Sample.foo_lookup (item : TraitItemReference)
    (h : Sample.traitT.lookup_trait_item "foo" = some item) : item = Sample.trait_foo := by
  have h0 : Sample.traitT.lookup_trait_item "foo" = some Sample.trait_foo := by decide
  rw [h0] at h
  exact (Option.some.inj h).symm

/-- An impl candidate of a returned probe is built from an iterated item that
matches, with the block of that item as its parent. -/
theorem inherent_parent_of_some (env : Env) (st : State)
    (receiver : BaseType) (name : String) (pb ig : Bool) (cs : List PathProbeCandidate)
    (calls : List Event)
    (h : Probe env st receiver name true pb ig = some (cs, calls)) :
    ∀ c ∈ cs, c.is_impl_candidate = true →
      ∃ e ∈ env.impl_items,
        c.item = Candidate.impl { impl_item := e.2.1, parent := some e.2.2 }
        ∧ name = (item_decl e.2.1).name
        ∧ ∃ impl_block_ty, st.lookup_type e.2.2.type_hirid = some impl_block_ty
            ∧ env.can_eq receiver impl_block_ty false = true := by
  have key : ∀ c, (∃ e ∈ env.impl_items,
        impl_item_matches env st receiver name e = true ∧ IsImplCandidateOf st e c) →
      ∃ e ∈ env.impl_items,
        c.item = Candidate.impl { impl_item := e.2.1, parent := some e.2.2 }
        ∧ name = (item_decl e.2.1).name
        ∧ ∃ impl_block_ty, st.lookup_type e.2.2.type_hirid = some impl_block_ty
            ∧ env.can_eq receiver impl_block_ty false = true := by
    intro c ⟨e, he, hm, hof⟩
    refine ⟨e, he, hof.2.2.1, ?_⟩
    unfold impl_item_matches at hm
    cases hl : st.lookup_type e.2.2.type_hirid with
    | none => rw [hl] at hm; simp at hm
    | some ty =>
      rw [hl] at hm
      simp only [Bool.and_eq_true, decide_eq_true_eq] at hm
      exact ⟨hm.2, ty, rfl, hm.1⟩
  intro c hc himpl
  cases pb with
  | false =>
    obtain ⟨_, hF⟩ := Probe_impls_some env st receiver name ig cs calls h
    obtain ⟨e, he, hof⟩ := forall₂_mem_right hF c hc
    exact key c ⟨e, (List.mem_filter.mp he).1, (List.mem_filter.mp he).2, hof⟩
  | true =>
    obtain ⟨inh, tr, hcs, hinh, htr⟩ :=
      Probe_with_bounds_some env st receiver name true ig cs calls h
    rw [hcs] at hc
    rcases List.mem_append.mp hc with hc | hc
    · exact key c (hinh c hc)
    · obtain ⟨ref, _, hof⟩ := forall₂_mem_right htr c hc
      have := (trait_candidate_tag env receiver name ref c hof).2
      rw [this] at himpl
      cases himpl

theorem trait_candidates_defids (env : Env) (receiver : BaseType) (name : String)
    (l : List (TraitReference × Option ImplBlock)) (tr : List PathProbeCandidate)
    (h : List.Forall₂ (IsTraitCandidateOf env receiver name) l tr) :
    tr.map candidate_trait_defid = (l.map (fun ref => ref.1.defid)).map some := by
  rw [List.map_map]
  symm
  refine forall₂_map_eq _ _ ?_ h
  intro ref c hof
  obtain ⟨item, _, _, hi, _⟩ := hof
  simp only [Function.comp, candidate_trait_defid, hi]

theorem yielding_bounds_sorted (env : Env) (receiver : BaseType) (name : String) (ig : Bool) :
    (((union_type_bounds env receiver).filter (trait_yields name ig)).map
      (fun ref => ref.1.defid)).Pairwise (fun x y => x < y) := by
  have hs := union_bounds_sorted (env.TypeBoundsProbe_Probe receiver)
    (specified_bounds env receiver)
  exact List.Pairwise.sublist
    ((List.filter_sublist (union_type_bounds env receiver)).map (fun ref => ref.1.defid)) hs

/-- A returned probe with both flags set: inherent candidates, then trait
candidates by increasing `DefId`. -/
theorem inherent_then_traits_of_some (env : Env) (st : State) (receiver : BaseType)
    (name : String) (ig : Bool) (cs : List PathProbeCandidate) (calls : List Event)
    (h : Probe env st receiver name true true ig = some (cs, calls)) :
    ∃ inh tr, cs = inh ++ tr
      ∧ (∃ ci, Probe env st receiver name true false ig = some (inh, ci))
      ∧ (∃ ct, Probe env st receiver name false true ig = some (tr, ct))
      ∧ (∀ c ∈ inh, c.is_impl_candidate = true)
      ∧ (∀ c ∈ tr, c.is_trait_candidate = true)
      ∧ ∃ ds : List DefId, tr.map candidate_trait_defid = ds.map some
          ∧ ds.Pairwise (fun x y => x < y) := by
  rw [Probe_both_eq] at h
  cases h1 : Probe env st receiver name true false ig with
  | none => rw [h1] at h; simp at h
  | some inh =>
    cases h2 : Probe env st receiver name false true ig with
    | none => rw [h1, h2] at h; simp at h
    | some tr =>
      rw [h1, h2] at h
      simp only [Option.some.injEq, Prod.mk.injEq] at h
      obtain ⟨_, hinh⟩ := Probe_impls_some env st receiver name ig inh.1 inh.2 h1
      have htr := Probe_bounds_some env st receiver name ig tr.1 tr.2 h2
      refine ⟨inh.1, tr.1, h.1.symm, ⟨inh.2, rfl⟩, ⟨tr.2, rfl⟩, ?_, ?_, ?_⟩
      · intro c hc
        obtain ⟨e, _, hof⟩ := forall₂_mem_right hinh c hc
        exact (impl_candidate_tag st e c hof).1
      · intro c hc
        obtain ⟨ref, _, hof⟩ := forall₂_mem_right htr c hc
        exact (trait_candidate_tag env receiver name ref c hof).1
      · exact ⟨_, trait_candidates_defids env receiver name _ _ htr,
          yielding_bounds_sorted env receiver name ig⟩

theorem trait_yields_iff (name : String) (ig : Bool) (ref : TraitReference × Option ImplBlock) :
    trait_yields name ig ref = true
      ↔ ∃ item, ref.1.lookup_trait_item name = some item
          ∧ ¬ (ig = true ∧ item.optional = false) := by
  unfold trait_yields
  cases hl : ref.1.lookup_trait_item name with
  | none => simp
  | some item =>
    cases ig <;> cases hopt : item.optional <;> simp [hopt]

theorem union_entry_unique (env : Env) (receiver : BaseType)
    (r₁ r₂ : TraitReference × Option ImplBlock)
    (h₁ : r₁ ∈ union_type_bounds env receiver) (h₂ : r₂ ∈ union_type_bounds env receiver)
    (hd : r₁.1.defid = r₂.1.defid) : r₁ = r₂ := by
  have e₁ := union_bounds_entry _ _ r₁ h₁
  have e₂ := union_bounds_entry _ _ r₂ h₂
  rw [hd, e₂] at e₁
  exact (Option.some.inj e₁).symm

theorem trait_candidates_count (env : Env) (receiver : BaseType) (name : String) (d : DefId)
    (l : List (TraitReference × Option ImplBlock)) (tr : List PathProbeCandidate)
    (h : List.Forall₂ (IsTraitCandidateOf env receiver name) l tr)
    (hs : (l.map (fun ref => ref.1.defid)).Pairwise (fun x y => x < y)) :
    tr.countP (fun c => decide (candidate_trait_defid c = some d))
      = if d ∈ l.map (fun ref => ref.1.defid) then 1 else 0 := by
  induction h with
  | nil => simp
  | @cons ref c l' tr' hof _ ih =>
    simp only [List.map_cons, List.pairwise_cons] at hs
    obtain ⟨hlt, hrest⟩ := hs
    have hkey : candidate_trait_defid c = some ref.1.defid := by
      obtain ⟨item, _, _, hi, _⟩ := hof
      simp only [candidate_trait_defid, hi]
    rw [List.countP_cons, ih hrest, hkey]
    by_cases hd : ref.1.defid = d
    · have hnot : d ∉ l'.map (fun ref => ref.1.defid) := by
        intro hmem
        have := hlt d hmem
        rw [hd] at this
        exact Nat.lt_irrefl d this
      simp [hd, hnot]
    · have hd' : ¬ d = ref.1.defid := fun h => hd h.symm
      simp only [hd, List.map_cons, List.mem_cons, hd', false_or, Option.some.injEq,
        decide_False, Bool.false_eq_true, if_false, Nat.add_zero]

/-- A returned probe of the bounds: which entries of the union have a
candidate, and how many. -/
theorem trait_candidate_iff_of_some (env : Env) (st : State) (receiver : BaseType)
    (name : String) (pi ig : Bool) (cs : List PathProbeCandidate) (calls : List Event)
    (h : Probe env st receiver name pi true ig = some (cs, calls)) :
    (∀ ref ∈ union_type_bounds env receiver,
      ((∃ c ∈ cs, ∃ item, c.item
            = Candidate.trait { trait_ref := ref.1, item_ref := item, impl := ref.2 })
        ↔ (∃ item, ref.1.lookup_trait_item name = some item
            ∧ ¬ (ig = true ∧ item.optional = false)))
      ∧ ((∃ item, ref.1.lookup_trait_item name = some item
            ∧ ¬ (ig = true ∧ item.optional = false)) →
          cs.countP (fun c => decide (candidate_trait_defid c = some ref.1.defid)) = 1)
      ∧ (¬ (∃ item, ref.1.lookup_trait_item name = some item
            ∧ ¬ (ig = true ∧ item.optional = false)) →
          cs.countP (fun c => decide (candidate_trait_defid c = some ref.1.defid)) = 0))
    ∧ (∀ c ∈ cs, ∀ t, c.item = Candidate.trait t →
        (t.trait_ref, t.impl) ∈ union_type_bounds env receiver
        ∧ t.trait_ref.lookup_trait_item name = some t.item_ref
        ∧ (ig = true → t.item_ref.optional = true))
    ∧ (ig = false → ∀ ref ∈ union_type_bounds env receiver,
        (ref.1.lookup_trait_item name).isSome = true →
        cs.countP (fun c => decide (candidate_trait_defid c = some ref.1.defid)) = 1) := by
  obtain ⟨inh, tr, hcs, hinh, htr⟩ :=
    Probe_with_bounds_some env st receiver name pi ig cs calls h
  have hinh_item : ∀ c ∈ inh, ∃ i, c.item = Candidate.impl i := by
    intro c hc
    obtain ⟨e, _, _, hof⟩ := hinh c hc
    exact ⟨_, hof.2.2.1⟩
  have hinh_count : ∀ d, inh.countP (fun c => decide (candidate_trait_defid c = some d)) = 0 := by
    intro d
    rw [List.countP_eq_zero]
    intro c hc
    obtain ⟨i, hi⟩ := hinh_item c hc
    simp [candidate_trait_defid, hi]
  have hsorted := yielding_bounds_sorted env receiver name ig
  have hcount : ∀ ref ∈ union_type_bounds env receiver,
      cs.countP (fun c => decide (candidate_trait_defid c = some ref.1.defid))
        = if trait_yields name ig ref = true then 1 else 0 := by
    intro ref href
    rw [hcs, List.countP_append, hinh_count, Nat.zero_add,
      trait_candidates_count env receiver name ref.1.defid _ tr htr hsorted]
    by_cases hy : trait_yields name ig ref = true
    · rw [if_pos hy, if_pos]
      exact List.mem_map_of_mem (fun ref => ref.1.defid) (List.mem_filter.mpr ⟨href, hy⟩)
    · rw [if_neg hy, if_neg]
      intro hmem
      obtain ⟨ref', href', hd⟩ := List.mem_map.mp hmem
      have := union_entry_unique env receiver ref' ref (List.mem_filter.mp href').1 href hd
      rw [this] at href'
      exact hy (List.mem_filter.mp href').2
  have htrait : ∀ c ∈ cs, ∀ t, c.item = Candidate.trait t →
      ∃ ref ∈ (union_type_bounds env receiver).filter (trait_yields name ig),
        t.trait_ref = ref.1 ∧ t.impl = ref.2
        ∧ ref.1.lookup_trait_item name = some t.item_ref := by
    intro c hc t ht
    rw [hcs] at hc
    rcases List.mem_append.mp hc with hc | hc
    · obtain ⟨i, hi⟩ := hinh_item c hc
      rw [hi] at ht
      cases ht
    · obtain ⟨ref, href, hof⟩ := forall₂_mem_right htr c hc
      obtain ⟨item, hl, _, hi, _⟩ := hof
      rw [hi] at ht
      simp only [Candidate.trait.injEq] at ht
      subst ht
      exact ⟨ref, href, rfl, rfl, hl⟩
  refine ⟨?_, ?_, ?_⟩
  · intro ref href
    constructor
    · constructor
      · rintro ⟨c, hc, item, hi⟩
        obtain ⟨ref', href', h1, h2, _⟩ := htrait c hc _ hi
        simp only at h1 h2
        have : ref' = ref := Prod.ext h1.symm h2.symm
        rw [this] at href'
        exact (trait_yields_iff name ig ref).mp (List.mem_filter.mp href').2
      · intro hcond
        have hy := (trait_yields_iff name ig ref).mpr hcond
        obtain ⟨c, hc, hof⟩ := forall₂_mem_left htr ref (List.mem_filter.mpr ⟨href, hy⟩)
        obtain ⟨item, _, _, hi, _⟩ := hof
        exact ⟨c, by rw [hcs]; exact List.mem_append_right _ hc, item, hi⟩
    · constructor
      · intro hcond
        rw [hcount ref href, if_pos ((trait_yields_iff name ig ref).mpr hcond)]
      · intro hcond
        rw [hcount ref href,
          if_neg (fun hy => hcond ((trait_yields_iff name ig ref).mp hy))]
  · intro c hc t ht
    obtain ⟨ref, href, h1, h2, hl⟩ := htrait c hc t ht
    refine ⟨?_, by rw [h1]; exact hl, ?_⟩
    · have : (t.trait_ref, t.impl) = ref := Prod.ext h1 h2
      rw [this]
      exact (List.mem_filter.mp href).1
    · intro hig
      obtain ⟨item, hl', hcond⟩ := (trait_yields_iff name ig ref).mp (List.mem_filter.mp href).2
      rw [hl] at hl'
      cases hl'
      cases hopt : t.item_ref.optional with
      | true => rfl
      | false => exact absurd ⟨hig, hopt⟩ hcond
  · intro hig ref href hsome
    rw [hcount ref href, if_pos]
    obtain ⟨item, hitem⟩ := Option.isSome_iff_exists.mp hsome
    exact (trait_yields_iff name ig ref).mpr ⟨item, hitem, by simp [hig]⟩

/-- The type of a trait candidate of a returned probe. -/
theorem trait_candidate_type_of_some (env : Env) (st : State) (receiver : BaseType)
    (name : String) (pi ig : Bool) (cs : List PathProbeCandidate) (calls : List Event)
    (h : Probe env st receiver name pi true ig = some (cs, calls)) :
    ∀ c ∈ cs, ∀ t, c.item = Candidate.trait t →
      (t.item_ref.tyty.kind = TypeKind.FNDEF →
        ∃ param,
          t.item_ref.tyty.substs.find?
              (fun param_mapping =>
                decide (param_mapping.generic_param.type_representation = "Self"))
            = some param
          ∧ c.ty = env.SubstMapperInternal_Resolve t.item_ref.tyty
              { mappings := [{ param := param, argument := receiver.clone }]
                locus := UNKNOWN_LOCATION })
      ∧ (t.item_ref.tyty.kind ≠ TypeKind.FNDEF → c.ty = t.item_ref.tyty) := by
  intro c hc t ht
  obtain ⟨inh, tr, hcs, hinh, htr⟩ :=
    Probe_with_bounds_some env st receiver name pi ig cs calls h
  rw [hcs] at hc
  rcases List.mem_append.mp hc with hc | hc
  · obtain ⟨e, _, _, hof⟩ := hinh c hc
    rw [hof.2.2.1] at ht
    cases ht
  · obtain ⟨ref, _, hof⟩ := forall₂_mem_right htr c hc
    obtain ⟨item, _, _, hi, _, hfn, hother⟩ := hof
    rw [hi] at ht
    simp only [Candidate.trait.injEq] at ht
    subst ht
    exact ⟨hfn, hother⟩

/-- A probe that includes the bounds returns when the context has the types
the inherent probe reads and the yielding trait items are usable. -/
theorem Probe_total (env : Env) (st : State) (receiver : BaseType) (name : String)
    (pi ig : Bool) (hknown : pi = true → ImplTypesKnown env st receiver name)
    (huse : TraitItemsUsable name ig (union_type_bounds env receiver)) :
    ∃ cs calls, Probe env st receiver name pi true ig = some (cs, calls) := by
  obtain ⟨tr, htr⟩ := Probe_bounds_total env st receiver name ig huse
  cases pi with
  | false => exact ⟨tr.1, tr.2, htr⟩
  | true =>
    obtain ⟨inh, hinh⟩ := Probe_impls_total env st receiver name ig (hknown rfl)
    refine ⟨inh ++ tr.1, [] ++ tr.2, ?_⟩
    rw [Probe_both_eq, hinh, htr]

/-- The calls of `Probe` made in a turn of the segment loop that returns. -/
theorem probe_flags_of_some (env : Env) (expr_id : HirId) (expr_locus : Location)
    (st : State) (prev_segment tyseg : BaseType) (seg : TypePathSegment)
    (out : SegmentOutcome)
    (h : resolve_segment env expr_id expr_locus st prev_segment tyseg seg = some out) :
    ∃ first calls,
      Probe env st prev_segment seg.ident_segment
          (!decide (prev_segment.kind = TypeKind.PARAM)) false
          (!decide (prev_segment.kind = TypeKind.PARAM)) = some (first, calls)
      ∧ probe_calls out.state.trace = probe_calls st.trace ++
          (if first.length = 0 then
            [(prev_segment, seg.ident_segment,
                !decide (prev_segment.kind = TypeKind.PARAM), false,
                !decide (prev_segment.kind = TypeKind.PARAM)),
             (prev_segment, seg.ident_segment, false, true,
                !decide (prev_segment.kind = TypeKind.PARAM))]
          else
            [(prev_segment, seg.ident_segment,
                !decide (prev_segment.kind = TypeKind.PARAM), false,
                !decide (prev_segment.kind = TypeKind.PARAM))]) := by
  unfold resolve_segment at h
  simp only at h
  split at h
  · simp at h
  · rename_i first st1 h1
    obtain ⟨⟨calls, hP⟩, htr1⟩ := call_Probe_some env st st1 _ _ _ _ _ first h1
    refine ⟨first, calls, hP, ?_⟩
    split at h
    · rename_i hlen
      rw [if_pos hlen]
      split at h
      · simp at h
      · rename_i second st2 h2
        obtain ⟨_, htr2⟩ := call_Probe_some env st1 st2 _ _ _ _ _ second h2
        split at h
        · simp only [Option.some.injEq] at h
          rw [← h]
          simp [SegmentOutcome.state, rust_error_at, probe_calls_append, probe_calls,
            htr2, htr1]
        · rw [take_candidate_probe_calls env expr_id expr_locus st2 tyseg seg second out h,
            htr2, htr1]
          simp
    · rename_i hlen
      rw [if_neg hlen]
      rw [take_candidate_probe_calls env expr_id expr_locus st1 tyseg seg first out h, htr1]

theorem Probe_well_tagged (env : Env) (st : State) (receiver : BaseType) (name : String)
    (pi pb ig : Bool) (cs : List PathProbeCandidate) (calls : List Event)
    (h : Probe env st receiver name pi pb ig = some (cs, calls)) :
    ∀ c ∈ cs, WellTagged env receiver c := by
  have himpl : ∀ c, (∃ e, IsImplCandidateOf st e c) → WellTagged env receiver c := by
    intro c ⟨e, hof⟩
    exact Or.inl ⟨(impl_candidate_tag st e c hof).1, _, hof.2.2.1⟩
  cases pb with
  | true =>
    obtain ⟨inh, tr, hcs, hinh, htr⟩ :=
      Probe_with_bounds_some env st receiver name pi ig cs calls h
    intro c hc
    rw [hcs] at hc
    rcases List.mem_append.mp hc with hc | hc
    · obtain ⟨e, _, _, hof⟩ := hinh c hc
      exact himpl c ⟨e, hof⟩
    · obtain ⟨ref, href, hof⟩ := forall₂_mem_right htr c hc
      obtain ⟨h1, h2⟩ := trait_candidate_tag env receiver name ref c hof
      obtain ⟨item, _, _, hi, _⟩ := hof
      exact Or.inr ⟨h2, h1, _, hi, (List.mem_filter.mp href).1⟩
  | false =>
    cases pi with
    | true =>
      obtain ⟨_, hF⟩ := Probe_impls_some env st receiver name ig cs calls h
      intro c hc
      obtain ⟨e, _, hof⟩ := forall₂_mem_right hF c hc
      exact himpl c ⟨e, hof⟩
    | false =>
      simp only [Probe, PathProbeType.new, Bool.false_eq_true, if_false, if_true,
        Option.some.injEq, Prod.mk.injEq] at h
      intro c hc
      rw [← h.1] at hc
      simp at hc

theorem add_ranges_total (env : Env) (receiver : BaseType) (cs : List PathProbeCandidate) :
    ∀ r, (∀ c ∈ cs, WellTagged env receiver c) →
      ∃ r', ReportMultipleCandidateError.add_ranges cs r = some r' := by
  induction cs with
  | nil => intro r _; exact ⟨r, rfl⟩
  | cons c rest ih =>
    intro r h
    have hrest : ∀ c' ∈ rest, WellTagged env receiver c' :=
      fun c' hc' => h c' (List.mem_cons_of_mem _ hc')
    rcases h c (List.mem_cons_self _ _) with ⟨htag, i, hi⟩ | ⟨_, htag, t, ht, _⟩
    · unfold ReportMultipleCandidateError.add_ranges
      unfold PathProbeCandidate.is_impl_candidate at htag
      rw [hi]
      cases hty : c.type <;> rw [hty] at htag <;> simp at htag <;> exact ih _ hrest
    · unfold ReportMultipleCandidateError.add_ranges
      unfold PathProbeCandidate.is_trait_candidate at htag
      rw [ht]
      cases hty : c.type <;> rw [hty] at htag <;> simp at htag <;> exact ih _ hrest

theorem take_candidate_total (env : Env) (expr_id : HirId) (expr_locus : Location)
    (st : State) (receiver tyseg : BaseType) (seg : TypePathSegment)
    (cs : List PathProbeCandidate) (hne : cs.length ≠ 0)
    (htag : ∀ c ∈ cs, WellTagged env receiver c)
    (hassoc : AssociatedImplsKnown env receiver) :
    ∃ out, take_candidate env expr_id expr_locus st tyseg seg cs = some out := by
  unfold take_candidate
  by_cases hlen : cs.length > 1
  · rw [if_pos hlen]
    obtain ⟨r', hr'⟩ := add_ranges_total env receiver cs
      { locus := seg.locus, ranges := [] } htag
    simp only [ReportMultipleCandidateError.Report, hr']
    exact ⟨_, rfl⟩
  · rw [if_neg hlen]
    cases cs with
    | nil => simp at hne
    | cons c rest =>
      simp only
      have hpick : ∃ x,
          (if c.is_impl_candidate = true then
            match c.item with
            | Candidate.impl i => some (i.impl_item.get_impl_mappings.nodeid, c.ty, st)
            | Candidate.trait _ => none
          else
            match c.item with
            | Candidate.impl _ => none
            | Candidate.trait t =>
              match t.impl with
              | none => some (t.item_ref.mappings.nodeid, c.ty, st)
              | some impl =>
                match env.lookup_associated_trait_impl impl.hirid with
                | none => none
                | some lookup_associated =>
                  some (t.item_ref.mappings.nodeid,
                    c.ty.clone.set_ty_ref
                      ({ st with trace := st.trace
                          ++ [Event.setup_associated_types lookup_associated] } : State).next_hir_id,
                    { ({ st with trace := st.trace
                          ++ [Event.setup_associated_types lookup_associated] } : State) with
                      next_hir_id := st.next_hir_id + 1 })) = some x := by
        rcases htag c (List.mem_cons_self _ _) with ⟨h1, i, hi⟩ | ⟨h1, _, t, ht, hmem⟩
        · rw [if_pos h1, hi]
          exact ⟨_, rfl⟩
        · rw [if_neg (by simp [h1]), ht]
          simp only
          cases himpl : t.impl with
          | none => exact ⟨_, rfl⟩
          | some impl =>
            have := hassoc (t.trait_ref, t.impl) hmem impl (by simp [himpl])
            obtain ⟨a, ha⟩ := Option.isSome_iff_exists.mp this
            simp only [ha]
            exact ⟨_, rfl⟩
      obtain ⟨⟨id, ty, st1⟩, hx⟩ := hpick
      simp only [hx]
      cases seg.generic_args with
      | none => exact ⟨_, rfl⟩
      | some args =>
        simp only
        by_cases hcan : env.can_substitute ty = false
        · rw [if_pos hcan]; exact ⟨_, rfl⟩
        · rw [if_neg hcan]
          by_cases herr : (env.SubstMapper_Resolve ty expr_locus args).kind = TypeKind.ERROR
          · rw [if_pos herr]; exact ⟨_, rfl⟩
          · rw [if_neg herr]; exact ⟨_, rfl⟩

/-- A turn of the segment loop returns when the assertions it reaches hold. -/
theorem resolve_segment_total (env : Env) (expr_id : HirId) (expr_locus : Location)
    (st : State) (prev_segment tyseg : BaseType) (seg : TypePathSegment)
    (hknown : prev_segment.kind ≠ TypeKind.PARAM →
      ImplTypesKnown env st prev_segment seg.ident_segment)
    (huse : TraitItemsUsable seg.ident_segment (!decide (prev_segment.kind = TypeKind.PARAM))
      (union_type_bounds env prev_segment))
    (hassoc : AssociatedImplsKnown env prev_segment) :
    ∃ out, resolve_segment env expr_id expr_locus st prev_segment tyseg seg = some out := by
  have hfirst : ∃ first calls, Probe env st prev_segment seg.ident_segment
      (!decide (prev_segment.kind = TypeKind.PARAM)) false
      (!decide (prev_segment.kind = TypeKind.PARAM)) = some (first, calls) := by
    by_cases hk : prev_segment.kind = TypeKind.PARAM
    · refine ⟨[], [], ?_⟩
      simp [hk, Probe, PathProbeType.new]
    · obtain ⟨cs, hcs⟩ := Probe_impls_total env st prev_segment seg.ident_segment
        (!decide (prev_segment.kind = TypeKind.PARAM)) (hknown hk)
      refine ⟨cs, [], ?_⟩
      simpa [hk] using hcs
  obtain ⟨first, calls, hP1⟩ := hfirst
  have htag1 := Probe_well_tagged env st prev_segment _ _ _ _ first calls hP1
  unfold resolve_segment call_Probe
  simp only [hP1]
  by_cases hlen : first.length = 0
  · rw [if_pos hlen]
    obtain ⟨x, hP2⟩ := Probe_bounds_total env
      { st with trace := st.trace
          ++ [Event.Probe prev_segment seg.ident_segment
                (!decide (prev_segment.kind = TypeKind.PARAM)) false
                (!decide (prev_segment.kind = TypeKind.PARAM))]
          ++ calls }
      prev_segment seg.ident_segment
      (!decide (prev_segment.kind = TypeKind.PARAM)) huse
    have htag2 := Probe_well_tagged env _ prev_segment _ _ _ _ x.1 x.2 hP2
    simp only [hP2]
    by_cases hlen2 : x.1.length = 0
    · rw [if_pos hlen2]; exact ⟨_, rfl⟩
    · rw [if_neg hlen2]
      exact take_candidate_total env expr_id expr_locus _ prev_segment tyseg seg x.1 hlen2
        htag2 hassoc
  · rw [if_neg hlen]
    exact take_candidate_total env expr_id expr_locus _ prev_segment tyseg seg first hlen
      htag1 hassoc

theorem resolve_segment_eq (env : Env) (expr_id : HirId) (expr_locus : Location)
    (st : State) (prev_segment tyseg : BaseType) (seg : TypePathSegment) :
    resolve_segment env expr_id expr_locus st prev_segment tyseg seg
      = match probe_segment env st prev_segment seg.ident_segment with
        | none => none
        | some (candidates, st) =>
          if candidates.length = 0 then
            some (SegmentOutcome.returned (ErrorType expr_id)
              (rust_error_at st seg.locus "failed to resolve path segment using an impl Probe"))
          else take_candidate env expr_id expr_locus st tyseg seg candidates := by
  simp only [resolve_segment, probe_segment]
  cases h1 : call_Probe env st prev_segment seg.ident_segment
      (!decide (prev_segment.kind = TypeKind.PARAM)) false
      (!decide (prev_segment.kind = TypeKind.PARAM)) with
  | none => rfl
  | some r =>
    obtain ⟨cs, st1⟩ := r
    simp only []
    by_cases hc : cs.length = 0
    · simp only [hc, if_true]
    · simp only [hc, if_false]

theorem Probe_types_congr (env : Env) (st st' : State) (h : st'.types = st.types)
    (receiver : BaseType) (name : String) (pi pb ig : Bool) :
    Probe env st' receiver name pi pb ig = Probe env st receiver name pi pb ig := by
  have hl : ∀ id, st'.lookup_type id = st.lookup_type id := by
    intro id; simp [State.lookup_type, h]
  have hv : ∀ p item, PathProbeType.accept_vis st' p item = PathProbeType.accept_vis st p item := by
    intro p item
    cases item <;>
      simp [PathProbeType.accept_vis, visit_TypeAlias, visit_ConstantItem, visit_Function, hl]
  have hp : ∀ p id item impl, process_impl_item_candidate env st' p id item impl
      = process_impl_item_candidate env st p id item impl := by
    intro p id item impl
    simp [process_impl_item_candidate, hl, hv]
  have hf : ∀ p, process_impl_items_for_candidates env st' p
      = process_impl_items_for_candidates env st p := by
    intro p
    unfold process_impl_items_for_candidates
    congr 1
    funext p e
    exact hp _ _ _ _
  unfold Probe
  simp only [hf]

theorem SameRecords.refl (st : State) : SameRecords st st := ⟨rfl, rfl, rfl, rfl, rfl⟩

theorem SameRecords.trans {a b c : State} (h₁ : SameRecords a b) (h₂ : SameRecords b c) :
    SameRecords a c :=
  ⟨h₂.1.trans h₁.1, h₂.2.1.trans h₁.2.1, h₂.2.2.1.trans h₁.2.2.1,
    h₂.2.2.2.1.trans h₁.2.2.2.1, h₂.2.2.2.2.trans h₁.2.2.2.2⟩

theorem call_Probe_frame (env : Env) (st st' : State) (receiver : BaseType) (name : String)
    (pi pb ig : Bool) (cs : List PathProbeCandidate)
    (h : call_Probe env st receiver name pi pb ig = some (cs, st')) :
    SameRecords st st' ∧ st'.diagnostics = st.diagnostics
      ∧ st'.next_hir_id = st.next_hir_id := by
  unfold call_Probe at h
  split at h
  · simp at h
  · simp only [Option.some.injEq, Prod.mk.injEq] at h
    rw [← h.2]
    exact ⟨⟨rfl, rfl, rfl, rfl, rfl⟩, rfl, rfl⟩

theorem probe_segment_frame (env : Env) (st st' : State) (prev : BaseType) (name : String)
    (cs : List PathProbeCandidate)
    (h : probe_segment env st prev name = some (cs, st')) :
    SameRecords st st' ∧ st'.diagnostics = st.diagnostics
      ∧ st'.next_hir_id = st.next_hir_id := by
  unfold probe_segment at h
  split at h
  · simp at h
  · rename_i cs1 st1 h1
    have f1 := call_Probe_frame _ _ _ _ _ _ _ _ _ h1
    split at h
    · have f2 := call_Probe_frame _ _ _ _ _ _ _ _ _ h
      exact ⟨f1.1.trans f2.1, f2.2.1.trans f1.2.1, f2.2.2.trans f1.2.2⟩
    · simp only [Option.some.injEq, Prod.mk.injEq] at h
      rw [← h.2]; exact f1

theorem Report_frame (st st' : State) (cs : List PathProbeCandidate) (q : String)
    (l : Location) (h : ReportMultipleCandidateError.Report st cs q l = some st') :
    SameRecords st st' ∧ st'.next_hir_id = st.next_hir_id := by
  simp only [ReportMultipleCandidateError.Report] at h
  split at h
  · simp at h
  · simp only [Option.some.injEq] at h
    rw [← h]
    exact ⟨⟨rfl, rfl, rfl, rfl, rfl⟩, rfl⟩

theorem take_candidate_frame (env : Env) (expr_id : HirId) (expr_locus : Location)
    (st : State) (tyseg : BaseType) (seg : TypePathSegment) (cs : List PathProbeCandidate)
    (out : SegmentOutcome)
    (h : take_candidate env expr_id expr_locus st tyseg seg cs = some out) :
    SameRecords st out.state
    ∧ (∀ id prev ty st', out = SegmentOutcome.next id prev ty st' →
        st'.diagnostics = st.diagnostics ∧ prev = tyseg
        ∧ ∃ c, cs = [c] ∧ id = candidate_node_id c)
    ∧ (∀ result st', out = SegmentOutcome.returned result st' →
        result = ErrorType expr_id) := by
  unfold take_candidate at h
  split at h
  · split at h
    · simp at h
    · rename_i st' hrep
      simp only [Option.some.injEq] at h
      rw [← h]
      refine ⟨(Report_frame st st' cs _ _ hrep).1, ?_, ?_⟩
      · intro id prev ty st'' he; simp at he
      · intro result st'' he
        simp only [SegmentOutcome.returned.injEq] at he
        exact he.1.symm
  · rename_i hlen
    split at h
    · simp at h
    · rename_i candidate rest
      have hrest : rest = [] := by
        cases rest with
        | nil => rfl
        | cons a l => simp at hlen
      subst hrest
      simp only at h
      split at h
      · simp at h
      · rename_i id ty st1 hpick
        have hst1 : SameRecords st st1 ∧ st1.diagnostics = st.diagnostics
            ∧ id = candidate_node_id candidate := by
          split at hpick
          · split at hpick
            · rename_i i hi
              simp only [Option.some.injEq, Prod.mk.injEq] at hpick
              rw [← hpick.2.2, ← hpick.1]
              exact ⟨SameRecords.refl st, rfl, by simp [candidate_node_id, hi]⟩
            · simp at hpick
          · split at hpick
            · simp at hpick
            · rename_i t ht
              split at hpick
              · simp only [Option.some.injEq, Prod.mk.injEq] at hpick
                rw [← hpick.2.2, ← hpick.1]
                exact ⟨SameRecords.refl st, rfl, by simp [candidate_node_id, ht]⟩
              · split at hpick
                · simp at hpick
                · simp only [Option.some.injEq, Prod.mk.injEq] at hpick
                  rw [← hpick.2.2, ← hpick.1]
                  exact ⟨⟨rfl, rfl, rfl, rfl, rfl⟩, rfl, by simp [candidate_node_id, ht]⟩
        split at h
        · simp only [Option.some.injEq] at h
          rw [← h]
          refine ⟨hst1.1, ?_, ?_⟩
          · intro id' prev' ty' st'' he
            simp only [SegmentOutcome.next.injEq] at he
            rw [← he.2.2.2, ← he.1, ← he.2.1]
            exact ⟨hst1.2.1, rfl, candidate, rfl, hst1.2.2⟩
          · intro result st'' he; simp at he
        · split at h
          · simp only [Option.some.injEq] at h
            rw [← h]
            refine ⟨?_, ?_, ?_⟩
            · exact SameRecords.trans hst1.1 ⟨rfl, rfl, rfl, rfl, rfl⟩
            · intro id' prev' ty' st'' he; simp at he
            · intro result st'' he
              simp only [SegmentOutcome.returned.injEq] at he
              exact he.1.symm
          · split at h
            · simp only [Option.some.injEq] at h
              rw [← h]
              refine ⟨?_, ?_, ?_⟩
              · exact SameRecords.trans hst1.1 ⟨rfl, rfl, rfl, rfl, rfl⟩
              · intro id' prev' ty' st'' he; simp at he
              · intro result st'' he
                simp only [SegmentOutcome.returned.injEq] at he
                exact he.1.symm
            · simp only [Option.some.injEq] at h
              rw [← h]
              refine ⟨?_, ?_, ?_⟩
              · exact SameRecords.trans hst1.1 ⟨rfl, rfl, rfl, rfl, rfl⟩
              · intro id' prev' ty' st'' he
                simp only [SegmentOutcome.next.injEq] at he
                rw [← he.2.2.2, ← he.1, ← he.2.1]
                exact ⟨hst1.2.1, rfl, candidate, rfl, hst1.2.2⟩
              · intro result st'' he; simp at he

theorem resolve_segment_frame (env : Env) (expr_id : HirId) (expr_locus : Location)
    (st : State) (prev_segment tyseg : BaseType) (seg : TypePathSegment)
    (out : SegmentOutcome)
    (h : resolve_segment env expr_id expr_locus st prev_segment tyseg seg = some out) :
    SameRecords st out.state
    ∧ (∀ id prev ty st', out = SegmentOutcome.next id prev ty st' →
        st'.diagnostics = st.diagnostics ∧ prev = tyseg
        ∧ ∃ c st2, probe_segment env st prev_segment seg.ident_segment = some ([c], st2)
            ∧ id = candidate_node_id c)
    ∧ (∀ result st', out = SegmentOutcome.returned result st' →
        result = ErrorType expr_id) := by
  rw [resolve_segment_eq] at h
  split at h
  · simp at h
  · rename_i cs st2 hp
    have fp := probe_segment_frame _ _ _ _ _ _ hp
    split at h
    · simp only [Option.some.injEq] at h
      rw [← h]
      refine ⟨SameRecords.trans fp.1 ⟨rfl, rfl, rfl, rfl, rfl⟩, ?_, ?_⟩
      · intro id prev ty st' he; simp at he
      · intro result st' he
        simp only [SegmentOutcome.returned.injEq] at he
        exact he.1.symm
    · have ft := take_candidate_frame _ _ _ _ _ _ _ _ h
      refine ⟨SameRecords.trans fp.1 ft.1, ?_, ft.2.2⟩
      intro id prev ty st' he
      obtain ⟨hd, hprev, c, hc, hid⟩ := ft.2.1 id prev ty st' he
      refine ⟨hd.trans fp.2.1, hprev, c, st2, ?_, hid⟩
      rw [← hc]; exact hp

theorem resolve_segments_loop_append (env : Env) (expr_id : HirId) (expr_locus : Location)
    (pre post : List TypePathSegment) :
    ∀ (st : State) (id : NodeId) (prev ty : BaseType),
      resolve_segments_loop env expr_id expr_locus (pre ++ post) st id prev ty
        = match resolve_segments_loop env expr_id expr_locus pre st id prev ty with
          | none => none
          | some (SegmentOutcome.returned result st) =>
            some (SegmentOutcome.returned result st)
          | some (SegmentOutcome.next id prev ty st) =>
            resolve_segments_loop env expr_id expr_locus post st id prev ty := by
  induction pre with
  | nil => intro st id prev ty; simp [resolve_segments_loop]
  | cons seg rest ih =>
    intro st id prev ty
    simp only [List.cons_append, resolve_segments_loop]
    cases h : resolve_segment env expr_id expr_locus st prev ty seg with
    | none => rfl
    | some out =>
      cases out with
      | returned result st' => rfl
      | next id' prev' ty' st' => simp only []; exact ih st' id' prev' ty'

theorem resolve_segments_loop_frame (env : Env) (expr_id : HirId) (expr_locus : Location)
    (segs : List TypePathSegment) :
    ∀ (st : State) (id : NodeId) (prev ty : BaseType) (out : SegmentOutcome),
      resolve_segments_loop env expr_id expr_locus segs st id prev ty = some out →
      SameRecords st out.state
      ∧ (∀ id' prev' ty' st', out = SegmentOutcome.next id' prev' ty' st' →
          st'.diagnostics = st.diagnostics)
      ∧ (∀ result st', out = SegmentOutcome.returned result st' →
          result = ErrorType expr_id) := by
  induction segs with
  | nil =>
    intro st id prev ty out h
    simp only [resolve_segments_loop, Option.some.injEq] at h
    rw [← h]
    refine ⟨SameRecords.refl st, ?_, ?_⟩
    · intro id' prev' ty' st' he
      simp only [SegmentOutcome.next.injEq] at he
      rw [← he.2.2.2]
    · intro result st' he; simp at he
  | cons seg rest ih =>
    intro st id prev ty out h
    simp only [resolve_segments_loop] at h
    split at h
    · simp at h
    · rename_i result st1 h1
      have f1 := resolve_segment_frame _ _ _ _ _ _ _ _ h1
      simp only [Option.some.injEq] at h
      rw [← h]
      refine ⟨f1.1, ?_, ?_⟩
      · intro id' prev' ty' st' he; simp at he
      · intro r st' he
        simp only [SegmentOutcome.returned.injEq] at he
        rw [← he.1]
        exact f1.2.2 result st1 rfl
    · rename_i id1 prev1 ty1 st1 h1
      have f1 := resolve_segment_frame _ _ _ _ _ _ _ _ h1
      have f2 := ih st1 id1 prev1 ty1 out h
      refine ⟨SameRecords.trans f1.1 f2.1, ?_, f2.2.2⟩
      intro id' prev' ty' st' he
      exact (f2.2.1 id' prev' ty' st' he).trans (f1.2.1 id1 prev1 ty1 st1 rfl).1

theorem call_Probe_of_Probe (env : Env) (st0 st : State) (receiver : BaseType)
    (name : String) (pi pb ig : Bool) (cs : List PathProbeCandidate) (calls : List Event)
    (hP : Probe env st0 receiver name pi pb ig = some (cs, calls))
    (ht : st.types = st0.types) :
    call_Probe env st receiver name pi pb ig
      = some (cs, { st with trace := st.trace ++ [Event.Probe receiver name pi pb ig]
                      ++ calls }) := by
  unfold call_Probe
  rw [Probe_types_congr env st0 st ht, hP]

theorem add_ranges_eq (cs : List PathProbeCandidate) :
    ∀ r, (∀ c ∈ cs, TagMatchesItem c) →
      ReportMultipleCandidateError.add_ranges cs r
        = some { r with ranges := r.ranges ++ cs.map declaration_locus } := by
  induction cs with
  | nil => intro r _; simp [ReportMultipleCandidateError.add_ranges]
  | cons c rest ih =>
    intro r h
    have hrest : ∀ c' ∈ rest, TagMatchesItem c' :=
      fun c' hc' => h c' (List.mem_cons_of_mem _ hc')
    have hc := h c (List.mem_cons_self _ _)
    unfold TagMatchesItem PathProbeCandidate.is_impl_candidate at hc
    unfold ReportMultipleCandidateError.add_ranges
    cases hi : c.item with
    | impl i =>
      rw [hi] at hc
      cases hty : c.type <;> rw [hty] at hc <;> simp at hc <;> simp only [] <;>
        rw [ih _ hrest] <;>
        cases hitem : i.impl_item <;>
        simp [ReportMultipleCandidateError.accept_vis, RichLocation.add_range,
          declaration_locus, hi, hitem, item_decl]
    | trait t =>
      rw [hi] at hc
      cases hty : c.type <;> rw [hty] at hc <;> simp at hc <;> simp only [] <;>
        rw [ih _ hrest] <;>
        simp [RichLocation.add_range, declaration_locus, hi]

theorem Report_eq (st : State) (cs : List PathProbeCandidate) (query : String)
    (query_locus : Location) (htag : ∀ c ∈ cs, TagMatchesItem c) :
    ReportMultipleCandidateError.Report st cs query query_locus
      = some { st with
          diagnostics := st.diagnostics ++
            [{ locus := query_locus, ranges := cs.map declaration_locus
               message := "multiple applicable items in scope for: " ++ query }]
          trace := st.trace ++
            [Event.rust_error_at
              { locus := query_locus, ranges := cs.map declaration_locus
                message := "multiple applicable items in scope for: " ++ query }] } := by
  simp only [ReportMultipleCandidateError.Report, add_ranges_eq cs _ htag, List.nil_append]

theorem record_resolved_spec (st st' : State) (mp : NodeMapping) (id : NodeId)
    (h : record_resolved st mp id = some st') :
    id ≠ UNKNOWN_NODEID
    ∧ prior_record st' mp.nodeid = some id
    ∧ st'.resolved_types = st.resolved_types
    ∧ (∀ prior, prior_record st mp.nodeid = some prior → prior = id ∧ st' = st)
    ∧ (prior_record st mp.nodeid = none →
        st' = { st with resolved_names := (mp.nodeid, id) :: st.resolved_names }) := by
  unfold record_resolved at h
  split at h
  · simp at h
  · rename_i hid
    refine ⟨hid, ?_⟩
    split at h
    · rename_i prior hprior
      split at h
      · rename_i heq
        simp only [Option.some.injEq] at h
        subst h
        subst heq
        refine ⟨by simp [prior_record, hprior], rfl, ?_, ?_⟩
        · intro p hp
          simp only [prior_record, hprior, Option.some.injEq] at hp
          exact ⟨hp.symm, rfl⟩
        · intro hp; simp [prior_record, hprior] at hp
      · simp at h
    · rename_i hnone
      split at h
      · rename_i prior hprior
        split at h
        · rename_i heq
          simp only [Option.some.injEq] at h
          subst h
          subst heq
          refine ⟨by simp [prior_record, hnone, hprior], rfl, ?_, ?_⟩
          · intro p hp
            simp only [prior_record, hnone, hprior, Option.some.injEq] at hp
            exact ⟨hp.symm, rfl⟩
          · intro hp; simp [prior_record, hnone, hprior] at hp
        · simp at h
      · rename_i hnone2
        simp only [Option.some.injEq] at h
        subst h
        refine ⟨?_, rfl, ?_, ?_⟩
        · simp [prior_record, List.lookup]
        · intro p hp; simp [prior_record, hnone, hnone2] at hp
        · intro _; rfl

theorem record_resolved_mismatch (st : State) (mp : NodeMapping) (id prior : NodeId)
    (hp : prior_record st mp.nodeid = some prior) (hne : prior ≠ id) :
    record_resolved st mp id = none := by
  cases h : record_resolved st mp id with
  | none => rfl
  | some st' => exact absurd ((record_resolved_spec st st' mp id h).2.2.2.1 prior hp).1 hne

theorem final_substitution_frame (env : Env) (segments : List TypePathSegment)
    (st st' : State) (prev_segment tyseg ty : BaseType)
    (h : final_substitution env segments st prev_segment tyseg = some (ty, st')) :
    st'.resolved_names = st.resolved_names ∧ st'.resolved_types = st.resolved_types
      ∧ st'.types = st.types ∧ st'.receivers = st.receivers
      ∧ st'.node_id_refs = st.node_id_refs ∧ st'.next_hir_id = st.next_hir_id := by
  unfold final_substitution at h
  split at h
  · simp at h
  · simp only at h
    split at h
    · split at h
      · simp only [Option.some.injEq, Prod.mk.injEq] at h
        rw [← h.2]; exact ⟨rfl, rfl, rfl, rfl, rfl, rfl⟩
      · simp only [Option.some.injEq, Prod.mk.injEq] at h
        rw [← h.2]; exact ⟨rfl, rfl, rfl, rfl, rfl, rfl⟩
    · simp only [Option.some.injEq, Prod.mk.injEq] at h
      rw [← h.2]; exact ⟨rfl, rfl, rfl, rfl, rfl, rfl⟩

theorem ErrorType_kind (id : HirId) : (ErrorType id).kind = TypeKind.ERROR := rfl

theorem resolve_segments_loop_last (env : Env) (expr_id : HirId) (expr_locus : Location)
    (segs : List TypePathSegment) (st : State) (root_id : NodeId) (tyseg : BaseType)
    (id : NodeId) (prev ty : BaseType) (st1 : State)
    (h : resolve_segments_loop env expr_id expr_locus segs st root_id tyseg tyseg
      = some (SegmentOutcome.next id prev ty st1)) :
    (segs = [] ∧ id = root_id)
    ∨ ∃ pre seg id0 prev0 ty0 st0 c st2,
        segs = pre ++ [seg]
        ∧ resolve_segments_loop env expr_id expr_locus pre st root_id tyseg tyseg
            = some (SegmentOutcome.next id0 prev0 ty0 st0)
        ∧ probe_segment env st0 prev0 seg.ident_segment = some ([c], st2)
        ∧ id = candidate_node_id c := by
  rcases List.eq_nil_or_concat segs with hnil | ⟨pre, seg, hcat⟩
  · left
    subst hnil
    simp only [resolve_segments_loop, Option.some.injEq, SegmentOutcome.next.injEq] at h
    exact ⟨rfl, h.1.symm⟩
  · right
    rw [List.concat_eq_append] at hcat
    subst hcat
    rw [resolve_segments_loop_append] at h
    split at h
    · simp at h
    · simp at h
    · rename_i id0 prev0 ty0 st0 hpre
      simp only [resolve_segments_loop] at h
      split at h
      · simp at h
      · simp at h
      · rename_i id1 prev1 ty1 st1' hturn
        simp only [Option.some.injEq, SegmentOutcome.next.injEq] at h
        obtain ⟨_, _, c, st2, hc, hid⟩ :=
          (resolve_segment_frame _ _ _ _ _ _ _ _ hturn).2.1 id1 prev1 ty1 st1' rfl
        exact ⟨pre, seg, id0, prev0, ty0, st0, c, st2, rfl, hpre, hc, by rw [← h.1]; exact hid⟩

theorem resolve_root_segment_eq (env : Env) (path : TypePath) (st : State) (offset : Nat)
    (id : NodeId) (root_tyty : Option BaseType) (seg : TypePathSegment) (more : Bool) :
    resolve_root_segment env path st offset id root_tyty seg more
      = match segment_ref_node_id env st seg with
        | none =>
          RootOutcome.returned (some (ErrorType path.mappings.hirid)) offset id
            (rust_error_at st path.locus "unknown reference for resolved name")
        | some ref_node_id =>
          resolve_root_reference env path st offset id root_tyty seg more ref_node_id := by
  simp only [resolve_root_segment, segment_ref_node_id]
  cases h1 : st.resolved_names.lookup seg.mappings.nodeid with
  | none => simp only []
  | some r =>
    simp only []
    cases h2 : env.lookup_definition r with
    | none => simp only [Option.map_none']
    | some d => simp only [Option.map_some']

theorem resolve_root_reference_unknown (env : Env) (path : TypePath) (st : State)
    (offset : Nat) (id : NodeId) (root_tyty : Option BaseType) (seg : TypePathSegment)
    (more : Bool) (ref_node_id : NodeId)
    (h : target_unknown env st path.mappings.crate_num ref_node_id = true) :
    (offset = 0 → ∃ message,
      resolve_root_reference env path st offset id root_tyty seg more ref_node_id
        = RootOutcome.returned (some (ErrorType path.mappings.hirid)) offset id
            (rust_error_at st seg.locus message))
    ∧ (offset ≠ 0 →
      resolve_root_reference env path st offset id root_tyty seg more ref_node_id
        = RootOutcome.returned root_tyty offset id st) := by
  unfold target_unknown at h
  unfold resolve_root_reference
  by_cases hu : ref_node_id = UNKNOWN_NODEID
  · simp only [hu, if_true]
    constructor
    · intro ho; simp only [ho, decide_True, if_true]; exact ⟨_, rfl⟩
    · intro ho; simp only [ho, decide_False, Bool.false_eq_true, if_false]
  · simp only [hu, if_false] at h ⊢
    cases hh : env.lookup_node_to_hir path.mappings.crate_num ref_node_id with
    | none =>
      simp only []
      constructor
      · intro ho; simp only [ho, decide_True, if_true]; exact ⟨_, rfl⟩
      · intro ho; simp only [ho, decide_False, Bool.false_eq_true, if_false]
    | some ref =>
      rw [hh] at h
      simp only [Bool.and_eq_true, Bool.not_eq_true', Option.isNone_iff_eq_none] at h
      simp only [h.1, h.2, Bool.false_eq_true, if_false]
      constructor
      · intro ho; simp only [ho, decide_True, if_true]; exact ⟨_, rfl⟩
      · intro ho; simp only [ho, decide_False, Bool.false_eq_true, if_false]

theorem substitute_from_root_frame (env : Env) (st : State) (root_tyty : Option BaseType)
    (lookup : BaseType) :
    SameRecords st (substitute_from_root env st root_tyty lookup).2
    ∧ (substitute_from_root env st root_tyty lookup).2.next_hir_id = st.next_hir_id
    ∧ (substitute_from_root env st root_tyty lookup).2.diagnostics = st.diagnostics := by
  unfold substitute_from_root
  cases root_tyty with
  | none => exact ⟨⟨rfl, rfl, rfl, rfl, rfl⟩, rfl, rfl⟩
  | some root =>
    simp only []
    by_cases h1 : env.needs_generic_substitutions lookup = true
    · by_cases h2 : env.needs_generic_substitutions root = false
      · rw [if_pos h1, if_pos h2]; exact ⟨⟨rfl, rfl, rfl, rfl, rfl⟩, rfl, rfl⟩
      · rw [if_pos h1, if_neg h2]; exact ⟨⟨rfl, rfl, rfl, rfl, rfl⟩, rfl, rfl⟩
    · rw [if_neg h1]; exact ⟨⟨rfl, rfl, rfl, rfl, rfl⟩, rfl, rfl⟩

theorem resolve_root_generic_args_frame (env : Env) (path : TypePath) (st : State)
    (offset : Nat) (id : NodeId) (seg : TypePathSegment) (ref_node_id : NodeId)
    (lookup : BaseType) :
    SameRecords st (resolve_root_generic_args env path st offset id seg ref_node_id
        lookup).state
    ∧ (resolve_root_generic_args env path st offset id seg ref_node_id
          lookup).state.next_hir_id = st.next_hir_id
    ∧ ∀ offset' id' root' st',
        resolve_root_generic_args env path st offset id seg ref_node_id lookup
          = RootOutcome.next offset' id' root' st' →
        offset' = offset + 1 ∧ st'.diagnostics = st.diagnostics := by
  unfold resolve_root_generic_args
  cases seg.generic_args with
  | none =>
    refine ⟨⟨rfl, rfl, rfl, rfl, rfl⟩, rfl, ?_⟩
    intro _ _ _ _ h
    simp only [RootOutcome.next.injEq] at h
    exact ⟨h.1.symm, by rw [← h.2.2.2]⟩
  | some args =>
    simp only []
    by_cases hc : env.can_substitute lookup = false
    · rw [if_pos hc]
      exact ⟨⟨rfl, rfl, rfl, rfl, rfl⟩, rfl, by intro _ _ _ _ h; simp at h⟩
    · rw [if_neg hc]
      refine ⟨⟨rfl, rfl, rfl, rfl, rfl⟩, rfl, ?_⟩
      intro _ _ _ _ h
      simp only [RootOutcome.next.injEq] at h
      exact ⟨h.1.symm, by rw [← h.2.2.2]⟩

theorem resolve_root_reference_frame (env : Env) (path : TypePath) (st : State)
    (offset : Nat) (id : NodeId) (root_tyty : Option BaseType) (seg : TypePathSegment)
    (more : Bool) (ref_node_id : NodeId) :
    SameRecords st
        (resolve_root_reference env path st offset id root_tyty seg more ref_node_id).state
    ∧ (resolve_root_reference env path st offset id root_tyty seg more
          ref_node_id).state.next_hir_id = st.next_hir_id
    ∧ ∀ offset' id' root' st',
        resolve_root_reference env path st offset id root_tyty seg more ref_node_id
          = RootOutcome.next offset' id' root' st' →
        offset' = offset + 1 ∧ st'.diagnostics = st.diagnostics := by
  have hret : ∀ (r : Option BaseType) (o o2 : Nat) (s : State), SameRecords st s →
      s.next_hir_id = st.next_hir_id →
      SameRecords st (RootOutcome.returned r o id s).state
      ∧ (RootOutcome.returned r o id s).state.next_hir_id = st.next_hir_id
      ∧ ∀ offset' id' root' st',
          RootOutcome.returned r o id s = RootOutcome.next offset' id' root' st' →
          offset' = o2 ∧ st'.diagnostics = st.diagnostics := by
    intro r o o2 s h1 h2
    exact ⟨h1, h2, by intro _ _ _ _ h; simp at h⟩
  have herr : ∀ l m, SameRecords st (rust_error_at st l m)
      ∧ (rust_error_at st l m).next_hir_id = st.next_hir_id :=
    fun l m => ⟨⟨rfl, rfl, rfl, rfl, rfl⟩, rfl⟩
  unfold resolve_root_reference
  simp only []
  by_cases hu : ref_node_id = UNKNOWN_NODEID
  · simp only [hu, if_true]
    by_cases ho : offset = 0
    · simp only [ho, decide_True, if_true]
      exact hret _ _ _ _ (herr _ _).1 (herr _ _).2
    · simp only [ho, decide_False, Bool.false_eq_true, if_false]
      exact hret _ _ _ _ (SameRecords.refl st) rfl
  · simp only [hu, if_false]
    cases hh : env.lookup_node_to_hir path.mappings.crate_num ref_node_id with
    | none =>
      simp only []
      by_cases ho : offset = 0
      · simp only [ho, decide_True, if_true]
        exact hret _ _ _ _ (herr _ _).1 (herr _ _).2
      · simp only [ho, decide_False, Bool.false_eq_true, if_false]
        exact hret _ _ _ _ (SameRecords.refl st) rfl
    | some ref =>
      simp only []
      by_cases hm : env.lookup_module path.mappings.crate_num ref = true
      · simp only [hm, if_true]
        cases more with
        | true =>
          simp only [if_true]
          refine ⟨SameRecords.refl st, rfl, ?_⟩
          intro _ _ _ _ h
          simp only [RootOutcome.next.injEq] at h
          exact ⟨h.1.symm, by rw [← h.2.2.2]⟩
        | false =>
          simp only [Bool.false_eq_true, if_false]
          exact hret _ _ _ _ (herr _ _).1 (herr _ _).2
      · simp only [hm, if_false]
        cases hl : st.lookup_type ref with
        | none =>
          simp only []
          by_cases ho : offset = 0
          · simp only [ho, decide_True, if_true]
            exact hret _ _ _ _ (herr _ _).1 (herr _ _).2
          · simp only [ho, decide_False, Bool.false_eq_true, if_false]
            exact hret _ _ _ _ (SameRecords.refl st) rfl
        | some lookup =>
          simp only []
          have hs := substitute_from_root_frame env st root_tyty lookup
          have hg := resolve_root_generic_args_frame env path
            (substitute_from_root env st root_tyty lookup).2 offset id seg ref_node_id
            (substitute_from_root env st root_tyty lookup).1
          refine ⟨SameRecords.trans hs.1 hg.1, hg.2.1.trans hs.2.1, ?_⟩
          intro o' i' r' s' h
          obtain ⟨h1, h2⟩ := hg.2.2 o' i' r' s' h
          exact ⟨h1, h2.trans hs.2.2⟩

theorem resolve_root_segment_frame (env : Env) (path : TypePath) (st : State)
    (offset : Nat) (id : NodeId) (root_tyty : Option BaseType) (seg : TypePathSegment)
    (more : Bool) :
    SameRecords st (resolve_root_segment env path st offset id root_tyty seg more).state
    ∧ (resolve_root_segment env path st offset id root_tyty seg more).state.next_hir_id
        = st.next_hir_id
    ∧ ∀ offset' id' root' st',
        resolve_root_segment env path st offset id root_tyty seg more
          = RootOutcome.next offset' id' root' st' →
        offset' = offset + 1 ∧ st'.diagnostics = st.diagnostics := by
  rw [resolve_root_segment_eq]
  cases segment_ref_node_id env st seg with
  | none =>
    exact ⟨⟨rfl, rfl, rfl, rfl, rfl⟩, rfl, by intro _ _ _ _ h; simp at h⟩
  | some r => exact resolve_root_reference_frame env path st offset id root_tyty seg more r

theorem resolve_root_path_loop_frame (env : Env) (path : TypePath) (more : Bool)
    (segs : List TypePathSegment) :
    ∀ (st : State) (offset : Nat) (id : NodeId) (root_tyty : Option BaseType),
      SameRecords st (resolve_root_path_loop env path more segs st offset id root_tyty).state
      ∧ (resolve_root_path_loop env path more segs st offset id root_tyty).state.next_hir_id
          = st.next_hir_id
      ∧ ∀ offset' id' root' st',
          resolve_root_path_loop env path more segs st offset id root_tyty
            = RootOutcome.next offset' id' root' st' →
          offset' = offset + segs.length ∧ st'.diagnostics = st.diagnostics := by
  induction segs with
  | nil =>
    intro st offset id root_tyty
    refine ⟨SameRecords.refl st, rfl, ?_⟩
    intro _ _ _ _ h
    simp only [resolve_root_path_loop, RootOutcome.next.injEq] at h
    exact ⟨by simp [h.1], by rw [← h.2.2.2]⟩
  | cons seg rest ih =>
    intro st offset id root_tyty
    have f1 := resolve_root_segment_frame env path st offset id root_tyty seg
      (!rest.isEmpty || more)
    simp only [resolve_root_path_loop]
    cases h : resolve_root_segment env path st offset id root_tyty seg
        (!rest.isEmpty || more) with
    | returned r o i s =>
      rw [h] at f1
      exact ⟨f1.1, f1.2.1, by intro _ _ _ _ h'; simp at h'⟩
    | next o i r s =>
      rw [h] at f1
      simp only []
      have f2 := ih s o i r
      obtain ⟨ho, hd⟩ := f1.2.2 o i r s rfl
      refine ⟨SameRecords.trans f1.1 f2.1, f2.2.1.trans f1.2.1, ?_⟩
      intro o' i' r' s' h'
      obtain ⟨ho', hd'⟩ := f2.2.2 o' i' r' s' h'
      exact ⟨by rw [ho', ho, List.length_cons]; omega, hd'.trans hd⟩

theorem resolve_root_path_loop_append (env : Env) (path : TypePath) (more : Bool)
    (pre post : List TypePathSegment) :
    ∀ (st : State) (offset : Nat) (id : NodeId) (root_tyty : Option BaseType),
      resolve_root_path_loop env path more (pre ++ post) st offset id root_tyty
        = match resolve_root_path_loop env path (!post.isEmpty || more) pre st offset id
            root_tyty with
          | RootOutcome.returned r o i s => RootOutcome.returned r o i s
          | RootOutcome.next o i r s => resolve_root_path_loop env path more post s o i r := by
  induction pre with
  | nil => intro st offset id root_tyty; simp [resolve_root_path_loop]
  | cons seg rest ih =>
    intro st offset id root_tyty
    have hm : (!(rest ++ post).isEmpty || more)
        = (!rest.isEmpty || (!post.isEmpty || more)) := by
      cases rest <;> cases post <;> simp
    rw [List.cons_append, resolve_root_path_loop, resolve_root_path_loop, hm]
    cases h : resolve_root_segment env path st offset id root_tyty seg
        (!rest.isEmpty || (!post.isEmpty || more)) with
    | returned r o i s => rfl
    | next o i r s => simp only []; exact ih s o i r

theorem resolve_root_segment_records (env : Env) (path : TypePath) (st st' : State)
    (offset : Nat) (id : NodeId) (root_tyty : Option BaseType) (seg : TypePathSegment)
    (more : Bool) (h : SameRecords st st') :
    segment_ref_node_id env st' seg = segment_ref_node_id env st seg
    ∧ ∀ r, target_unknown env st' path.mappings.crate_num r
        = target_unknown env st path.mappings.crate_num r := by
  constructor
  · simp [segment_ref_node_id, h.2.2.1, h.2.2.2.1]
  · intro r; simp [target_unknown, State.lookup_type, h.1]

theorem resolve_root_path_returned (env : Env) (st : State) (path : TypePath) (id : NodeId)
    (r : Option BaseType) (o : Nat) (i : NodeId) (s : State)
    (h : resolve_root_path_loop env path false path.segments st 0 id none
      = RootOutcome.returned r o i s) :
    resolve_root_path env st path id
      = { root := r, offset := o, root_resolved_node_id := i, st := s } := by
  unfold resolve_root_path
  rw [h]

theorem string_lt_iff (a b : String) : string_lt a b = true ↔ a < b := by
  simp [string_lt, String.lt_iff_toList_lt]

theorem mem_set_insert (l : List String) (s x : String) :
    x ∈ set_insert l s ↔ x ∈ l ∨ x = s := by
  induction l with
  | nil => simp [set_insert]
  | cons a rest ih =>
    unfold set_insert
    by_cases h1 : string_lt s a = true
    · rw [if_pos h1]; simp only [List.mem_cons]; tauto
    · rw [if_neg h1]
      by_cases h2 : string_lt a s = true
      · rw [if_pos h2]; simp only [List.mem_cons, ih]; tauto
      · rw [if_neg h2]
        have h1' : ¬ s < a := fun h => h1 ((string_lt_iff s a).mpr h)
        have h2' : ¬ a < s := fun h => h2 ((string_lt_iff a s).mpr h)
        have heq : s = a := by
          rcases lt_trichotomy s a with h | h | h
          · exact absurd h h1'
          · exact h
          · exact absurd h h2'
        subst heq
        simp only [List.mem_cons]; tauto

theorem set_insert_sorted (l : List String) (s : String)
    (h : l.Pairwise (fun a b => a < b)) : (set_insert l s).Pairwise (fun a b => a < b) := by
  induction l with
  | nil => simp [set_insert]
  | cons a rest ih =>
    unfold set_insert
    rw [List.pairwise_cons] at h
    by_cases h1 : string_lt s a = true
    · rw [if_pos h1]
      have hsa : s < a := (string_lt_iff s a).mp h1
      rw [List.pairwise_cons]
      refine ⟨?_, List.pairwise_cons.mpr h⟩
      intro b hb
      rcases List.mem_cons.mp hb with hb | hb
      · rw [hb]; exact hsa
      · exact lt_trans hsa (h.1 b hb)
    · rw [if_neg h1]
      by_cases h2 : string_lt a s = true
      · rw [if_pos h2]
        have has : a < s := (string_lt_iff a s).mp h2
        rw [List.pairwise_cons]
        refine ⟨?_, ih h.2⟩
        intro b hb
        rcases (mem_set_insert rest s b).mp hb with hb | hb
        · exact h.1 b hb
        · rw [hb]; exact has
      · rw [if_neg h2]
        exact List.pairwise_cons.mpr h

theorem fold_set_insert (l : List String) :
    ∀ acc : List String, acc.Pairwise (fun a b => a < b) →
      (l.foldl set_insert acc).Pairwise (fun a b => a < b)
      ∧ ∀ x, x ∈ l.foldl set_insert acc ↔ x ∈ acc ∨ x ∈ l := by
  induction l with
  | nil => intro acc h; exact ⟨h, fun x => by simp⟩
  | cons a rest ih =>
    intro acc h
    simp only [List.foldl_cons]
    obtain ⟨h1, h2⟩ := ih (set_insert acc a) (set_insert_sorted acc a h)
    refine ⟨h1, ?_⟩
    intro x
    rw [h2, mem_set_insert, List.mem_cons]
    tauto

theorem lookup_filter_ne (m : List (String × Location)) (sym s : String) (h : s ≠ sym) :
    (m.filter (fun e => e.1 != sym)).lookup s = m.lookup s := by
  induction m with
  | nil => rfl
  | cons e rest ih =>
    obtain ⟨k, v⟩ := e
    by_cases hk : k = sym
    · subst hk
      have hsk : (s == k) = false := by simpa using h
      simp [List.filter, List.lookup, hsk, ih]
    · have hk' : (k != sym) = true := by simpa using hk
      simp only [List.filter, hk', List.lookup]
      cases hsk : s == k <;> simp [ih]

theorem lookup_map_assign (m : List (String × Location)) (sym s : String) (l : Location) :
    (map_assign m sym l).lookup s = if sym = s then some l else m.lookup s := by
  unfold map_assign
  by_cases h : sym = s
  · subst h; simp [List.lookup]
  · have hs : (s == sym) = false := by simpa using fun h' : s = sym => h h'.symm
    simp [List.lookup, hs, h, lookup_filter_ne m sym s (fun h' => h h'.symm)]

theorem fill_fold (mappings : List SubstitutionParamMapping) :
    ∀ acc : List (String × Location) × List String,
      (mappings.foldl (fun acc mapping =>
          (map_assign acc.1 mapping.param_ty_symbol mapping.generic_param.locus,
            set_insert acc.2 mapping.param_ty_symbol)) acc).2
        = (mappings.map (fun m => m.param_ty_symbol)).foldl set_insert acc.2
      ∧ ∀ s, (mappings.foldl (fun acc mapping =>
          (map_assign acc.1 mapping.param_ty_symbol mapping.generic_param.locus,
            set_insert acc.2 mapping.param_ty_symbol)) acc).1.lookup s
        = match param_locus mappings s with
          | some l => some l
          | none => acc.1.lookup s := by
  induction mappings with
  | nil => intro acc; simp [param_locus]
  | cons a rest ih =>
    intro acc
    simp only [List.foldl_cons, List.map_cons]
    obtain ⟨h1, h2⟩ := ih (map_assign acc.1 a.param_ty_symbol a.generic_param.locus,
      set_insert acc.2 a.param_ty_symbol)
    refine ⟨h1, ?_⟩
    intro s
    rw [h2 s]
    simp only [param_locus, List.reverse_cons, List.find?_append]
    cases hr : rest.reverse.find? (fun m => m.param_ty_symbol == s) with
    | some m => simp
    | none =>
      simp only [Option.map_none', Option.none_or, lookup_map_assign]
      by_cases hs : a.param_ty_symbol = s
      · simp [hs]
      · simp [hs]

theorem param_locus_of_mem (mappings : List SubstitutionParamMapping) (s : String)
    (h : ∃ m ∈ mappings, m.param_ty_symbol = s) :
    ∃ m ∈ mappings, m.param_ty_symbol = s
      ∧ param_locus mappings s = some m.generic_param.locus := by
  unfold param_locus
  cases hf : mappings.reverse.find? (fun m => m.param_ty_symbol == s) with
  | none =>
    obtain ⟨m, hm, hs⟩ := h
    have := List.find?_eq_none.mp hf m (List.mem_reverse.mpr hm)
    simp [hs] at this
  | some m =>
    have hmem := List.mem_of_find?_eq_some hf
    have hp := List.find?_some hf
    exact ⟨m, List.mem_reverse.mp hmem, by simpa using hp, rfl⟩

theorem report_fold (map : List (String × Location)) (args : List String)
    (loc : String → Location) (l : List String) :
    ∀ st : State, (∀ s ∈ l, map.lookup s = some (loc s)) →
      ∃ st', l.foldlM (fun st exp =>
          let used := decide (exp ∈ args)
          if !used then
            match map.lookup exp with
            | none => none
            | some locus => some (rust_error_at st locus "unconstrained type parameter")
          else some st) st = some st'
        ∧ st'.diagnostics = st.diagnostics ++
            (l.filter (fun s => decide (s ∉ args))).map
              (fun s => { locus := loc s, ranges := []
                          message := "unconstrained type parameter" })
        ∧ SameRecords st st' ∧ st'.next_hir_id = st.next_hir_id := by
  induction l with
  | nil => intro st _; exact ⟨st, rfl, by simp, SameRecords.refl st, rfl⟩
  | cons a rest ih =>
    intro st h
    have ha := h a (List.mem_cons_self _ _)
    have hrest : ∀ s ∈ rest, map.lookup s = some (loc s) :=
      fun s hs => h s (List.mem_cons_of_mem _ hs)
    simp only [List.foldlM_cons, ha]
    by_cases hu : a ∈ args
    · simp only [hu, decide_True, Bool.not_true, Bool.false_eq_true, if_false,
        Option.bind_eq_bind, Option.some_bind]
      obtain ⟨st', h1, h2, h3, h4⟩ := ih st hrest
      refine ⟨st', h1, ?_, h3, h4⟩
      rw [h2]
      simp [List.filter, hu]
    · simp only [hu, decide_False, Bool.not_false, if_true, Option.bind_eq_bind,
        Option.some_bind]
      obtain ⟨st', h1, h2, h3, h4⟩ := ih (rust_error_at st (loc a)
        "unconstrained type parameter") hrest
      refine ⟨st', h1, ?_, SameRecords.trans ⟨rfl, rfl, rfl, rfl, rfl⟩ h3, h4⟩
      rw [h2]
      simp [List.filter, hu, rust_error_at]

theorem check_for_unconstrained_eq (st : State) (mappings : List SubstitutionParamMapping)
    (type_args : List String) :
    ∃ st', check_for_unconstrained st (some mappings) type_args = some st'
      ∧ st'.diagnostics = st.diagnostics ++
          (unconstrained_params mappings type_args).map
            (fun s => { locus := (param_locus mappings s).getD UNKNOWN_LOCATION, ranges := []
                        message := "unconstrained type parameter" })
      ∧ SameRecords st st' ∧ st'.next_hir_id = st.next_hir_id := by
  obtain ⟨hf1, hf2⟩ := fill_fold mappings ([], [])
  obtain ⟨hs1, hs2⟩ := fold_set_insert (mappings.map (fun m => m.param_ty_symbol)) []
    List.Pairwise.nil
  obtain ⟨ha1, ha2⟩ := fold_set_insert type_args [] List.Pairwise.nil
  have hlook : ∀ s ∈ (mappings.map (fun m => m.param_ty_symbol)).foldl set_insert [],
      (mappings.foldl (fun acc mapping =>
          (map_assign acc.1 mapping.param_ty_symbol mapping.generic_param.locus,
            set_insert acc.2 mapping.param_ty_symbol)) ([], [])).1.lookup s
        = some ((param_locus mappings s).getD UNKNOWN_LOCATION) := by
    intro s hs
    rw [hs2] at hs
    simp only [List.not_mem_nil, false_or, List.mem_map] at hs
    obtain ⟨m, hm, hl⟩ := param_locus_of_mem mappings s hs
    rw [hf2 s, hl.2]
    rfl
  obtain ⟨st', h1, h2, h3, h4⟩ := report_fold _ (type_args.foldl set_insert [])
    (fun s => (param_locus mappings s).getD UNKNOWN_LOCATION) _ st hlook
  refine ⟨st', ?_, ?_, h3, h4⟩
  · unfold check_for_unconstrained
    simp only [hf1]
    exact h1
  · rw [h2]
    unfold unconstrained_params
    congr 2
    apply List.filter_congr
    intro s _
    simp [ha2]

theorem visit_TypePath_resolved (env : Env) (st : State) (path : TypePath)
    (subst_mappings : Option (List SubstitutionParamMapping)) (ref : NodeId)
    (hir_lookup : HirId) (lookup : BaseType) (final_seg : TypePathSegment)
    (href : st.resolved_types.lookup path.mappings.nodeid = some ref)
    (hhir : st.lookup_type_by_node_id ref = some hir_lookup)
    (hty : st.lookup_type hir_lookup = some lookup)
    (hlast : path.segments.getLast? = some final_seg) :
    visit_TypePath env st path subst_mappings
      = if env.needs_generic_substitutions (lookup.set_ref path.mappings.hirid) = true then
          if (final_seg.is_ident_only && final_seg.as_string == "Self") = true then
            some (some (lookup.set_ref path.mappings.hirid), st)
          else if (env.SubstMapper_Resolve (lookup.set_ref path.mappings.hirid) path.locus
              (TypeCheckResolveGenericArguments.resolve final_seg)).kind ≠ TypeKind.ERROR then
            (check_for_unconstrained
              { st with trace := st.trace ++
                  [Event.SubstMapper_Resolve (lookup.set_ref path.mappings.hirid) path.locus
                    (TypeCheckResolveGenericArguments.resolve final_seg)] }
              subst_mappings (TypeCheckResolveGenericArguments.resolve final_seg).type_args).map
              (fun st' => (some (env.SubstMapper_Resolve
                (lookup.set_ref path.mappings.hirid) path.locus
                (TypeCheckResolveGenericArguments.resolve final_seg)), st'))
          else
            some (some (env.SubstMapper_Resolve (lookup.set_ref path.mappings.hirid)
                path.locus (TypeCheckResolveGenericArguments.resolve final_seg)),
              { st with trace := st.trace ++
                  [Event.SubstMapper_Resolve (lookup.set_ref path.mappings.hirid) path.locus
                    (TypeCheckResolveGenericArguments.resolve final_seg)] })
        else if (TypeCheckResolveGenericArguments.resolve final_seg).is_empty = false then none
        else some (some (lookup.set_ref path.mappings.hirid), st) := by
  unfold visit_TypePath
  simp only [href, hhir, hty, hlast, BaseType.clone]
  by_cases hn : env.needs_generic_substitutions (lookup.set_ref path.mappings.hirid) = true
  · simp only [hn, if_true]
    by_cases hs : (final_seg.is_ident_only && final_seg.as_string == "Self") = true
    · simp only [hs, if_true]
    · simp only [hs, if_false]
      by_cases hk : (env.SubstMapper_Resolve (lookup.set_ref path.mappings.hirid) path.locus
          (TypeCheckResolveGenericArguments.resolve final_seg)).kind ≠ TypeKind.ERROR
      · simp only [hk, if_true, ne_eq, not_false_eq_true]
        cases check_for_unconstrained _ subst_mappings
          (TypeCheckResolveGenericArguments.resolve final_seg).type_args <;> rfl
      · simp only [hk, if_false]
  · simp only [hn, if_false]
    by_cases he : (TypeCheckResolveGenericArguments.resolve final_seg).is_empty = false
    · simp [he]
    · simp [he]

theorem visit_TypePath_arguments_on_non_generic (env : Env) (st : State) (path : TypePath)
    (subst_mappings : Option (List SubstitutionParamMapping)) (ref : NodeId)
    (hir_lookup : HirId) (lookup : BaseType) (final_seg : TypePathSegment)
    (href : st.resolved_types.lookup path.mappings.nodeid = some ref)
    (hhir : st.lookup_type_by_node_id ref = some hir_lookup)
    (hty : st.lookup_type hir_lookup = some lookup)
    (hlast : path.segments.getLast? = some final_seg)
    (hn : env.needs_generic_substitutions (lookup.set_ref path.mappings.hirid) = false)
    (hargs : (TypeCheckResolveGenericArguments.resolve final_seg).is_empty = false) :
    visit_TypePath env st path subst_mappings = none
    ∧ Resolve env st (TypeExpr.TypePath path) subst_mappings = none := by
  have h := visit_TypePath_resolved env st path subst_mappings ref hir_lookup lookup
    final_seg href hhir hty hlast
  simp only [hn, hargs, Bool.false_eq_true, if_false, if_true] at h
  refine ⟨h, ?_⟩
  unfold Resolve
  rw [visit, h]
  rfl

theorem visit_QualifiedPathInType_eq (env : Env) (st : State) (path : QualifiedPath)
    (type : TypeExpr) (subst_mappings : Option (List SubstitutionParamMapping)) :
    visit env st (TypeExpr.QualifiedPathInType path type) subst_mappings
      = match Resolve env st type none with
        | none => none
        | some (root, st) => visit_QualifiedPathInType env st path type.get_mappings root := by
  rw [visit]
  rfl

theorem resolve_result_some (mappings : NodeMapping) (v : Option (Option BaseType × State))
    (h : ∃ r, v = some r) : ∃ r, resolve_result mappings v = some r := by
  obtain ⟨r, hr⟩ := h
  subst hr
  exact ⟨_, rfl⟩

mutual

theorem visit_path_free (env : Env) :
    ∀ (type : TypeExpr) (st : State) (subst : Option (List SubstitutionParamMapping)),
      path_free type = true → ∃ r, visit env st type subst = some r
  | TypeExpr.TypePath _, _, _, h => by simp [path_free] at h
  | TypeExpr.QualifiedPathInType _ _, _, _, h => by simp [path_free] at h
  | TypeExpr.BareFunctionType mappings params none, st, subst, h => by
    simp only [path_free, Bool.and_eq_true] at h
    rw [visit]
    simp only []
    obtain ⟨r, hr⟩ := visit_each_path_free env params st h.1
    rw [hr]
    exact ⟨_, rfl⟩
  | TypeExpr.BareFunctionType mappings params (some type), st, subst, h => by
    simp only [path_free, Bool.and_eq_true] at h
    rw [visit]
    obtain ⟨⟨ty, st1⟩, hr⟩ := resolve_result_some type.get_mappings _
      (visit_path_free env type st none h.2)
    rw [hr]
    obtain ⟨r2, hr2⟩ := visit_each_path_free env params st1 h.1
    simp only [hr2]
    exact ⟨_, rfl⟩
  | TypeExpr.TupleType mappings locus elems, st, subst, h => by
    simp only [path_free] at h
    rw [visit]
    by_cases he : elems.isEmpty = true
    · rw [if_pos he]
      cases env.lookup_builtin env.unit_type_node_id <;> exact ⟨_, rfl⟩
    · rw [if_neg he]
      obtain ⟨r, hr⟩ := visit_each_path_free env elems st h
      rw [hr]
      exact ⟨_, rfl⟩
  | TypeExpr.ArrayType _, _, _, _ => by rw [visit]; exact ⟨_, rfl⟩
  | TypeExpr.ReferenceType mappings is_mut base_type, st, subst, h => by
    simp only [path_free] at h
    rw [visit]
    obtain ⟨r, hr⟩ := resolve_result_some base_type.get_mappings _
      (visit_path_free env base_type st none h)
    rw [hr]
    exact ⟨_, rfl⟩
  | TypeExpr.RawPointerType mappings is_mut base_type, st, subst, h => by
    simp only [path_free] at h
    rw [visit]
    obtain ⟨r, hr⟩ := resolve_result_some base_type.get_mappings _
      (visit_path_free env base_type st none h)
    rw [hr]
    exact ⟨_, rfl⟩
  | TypeExpr.InferredType _, _, _, _ => by rw [visit]; exact ⟨_, rfl⟩
  | TypeExpr.TraitObjectTypeOneBound mappings locus bound_path bound_locus, st, _, _ => by
    rw [visit]
    split <;> exact ⟨_, rfl⟩
  | TypeExpr.Other _, _, _, _ => by rw [visit]; exact ⟨_, rfl⟩

theorem visit_each_path_free (env : Env) :
    ∀ (types : List TypeExpr) (st : State),
      path_free_each types = true → ∃ r, visit_each env st types = some r
  | [], st, _ => ⟨_, by rw [visit_each]⟩
  | type :: rest, st, h => by
    simp only [path_free_each, Bool.and_eq_true] at h
    rw [visit_each]
    obtain ⟨⟨ty, st1⟩, hr⟩ := resolve_result_some type.get_mappings _
      (visit_path_free env type st none h.1)
    rw [hr]
    obtain ⟨r2, hr2⟩ := visit_each_path_free env rest st1 h.2
    simp only [hr2]
    exact ⟨_, rfl⟩

end

theorem AgreeOff.of_same {h : HirId} {n : NodeId} {a b a' b' : State}
    (hab : AgreeOff h n a b) (ha : SameRecords a a') (hb : SameRecords b b') :
    AgreeOff h n a' b' := by
  refine ⟨?_, ?_, ?_⟩
  · intro id hid
    have := hab.1 id hid
    simp only [State.lookup_type] at this ⊢
    rw [ha.1, hb.1]; exact this
  · intro m hm
    rw [ha.2.2.1, hb.2.2.1]; exact hab.2.1 m hm
  · rw [ha.2.2.2.1, hb.2.2.2.1]; exact hab.2.2

theorem foldlM_option_congr {α β : Type} (f g : β → α → Option β) (l : List α) :
    ∀ b, (∀ b a, a ∈ l → f b a = g b a) → l.foldlM f b = l.foldlM g b := by
  induction l with
  | nil => intro b _; rfl
  | cons a rest ih =>
    intro b h
    simp only [List.foldlM_cons]
    rw [h b a (List.mem_cons_self _ _)]
    cases g b a with
    | none => rfl
    | some b' =>
      simp only [Option.bind_eq_bind, Option.some_bind]
      exact ih b' (fun b a ha => h b a (List.mem_cons_of_mem _ ha))

theorem Probe_lookup_congr (env : Env) (st st' : State) (h : HirId)
    (hl : ∀ id, id ≠ h → st'.lookup_type id = st.lookup_type id)
    (himpl : ∀ e ∈ env.impl_items,
      e.2.2.type_hirid ≠ h ∧ (item_decl e.2.1).mappings.hirid ≠ h)
    (receiver : BaseType) (name : String) (pi pb ig : Bool) :
    Probe env st' receiver name pi pb ig = Probe env st receiver name pi pb ig := by
  have hv : ∀ p item, (item_decl item).mappings.hirid ≠ h →
      PathProbeType.accept_vis st' p item = PathProbeType.accept_vis st p item := by
    intro p item hne
    cases item <;>
      simp only [item_decl] at hne <;>
      simp [PathProbeType.accept_vis, visit_TypeAlias, visit_ConstantItem, visit_Function,
        hl _ hne]
  have hp : ∀ p (e : HirId × ImplItem × ImplBlock), e ∈ env.impl_items →
      process_impl_item_candidate env st' p e.1 e.2.1 e.2.2
        = process_impl_item_candidate env st p e.1 e.2.1 e.2.2 := by
    intro p e he
    obtain ⟨h1, h2⟩ := himpl e he
    simp [process_impl_item_candidate, hl _ h1, hv _ _ h2]
  have hf : ∀ p, process_impl_items_for_candidates env st' p
      = process_impl_items_for_candidates env st p := by
    intro p
    unfold process_impl_items_for_candidates
    exact foldlM_option_congr _ _ _ p (fun p e he => hp p e he)
  unfold Probe
  simp only [hf]

theorem call_Probe_congr (env : Env) (st st' : State) (h : HirId) (n : NodeId)
    (hag : AgreeOff h n st st') (himpl : ImplIdsOff env h)
    (receiver : BaseType) (name : String) (pi pb ig : Bool)
    (cs : List PathProbeCandidate) (s : State)
    (hc : call_Probe env st receiver name pi pb ig = some (cs, s)) :
    ∃ s', call_Probe env st' receiver name pi pb ig = some (cs, s') := by
  unfold call_Probe at hc ⊢
  rw [Probe_lookup_congr env st st' h hag.1 himpl]
  split at hc
  · simp at hc
  · rename_i cs' calls hP
    simp only [Option.some.injEq, Prod.mk.injEq] at hc
    exact ⟨_, by rw [hc.1]⟩

theorem probe_segment_congr (env : Env) (st st' : State) (h : HirId) (n : NodeId)
    (hag : AgreeOff h n st st') (himpl : ImplIdsOff env h)
    (prev : BaseType) (name : String) (cs : List PathProbeCandidate) (s : State)
    (hc : probe_segment env st prev name = some (cs, s)) :
    ∃ s', probe_segment env st' prev name = some (cs, s') := by
  unfold probe_segment at hc ⊢
  split at hc
  · simp at hc
  · rename_i cs1 s1 h1
    obtain ⟨s1', h1'⟩ := call_Probe_congr env st st' h n hag himpl _ _ _ _ _ _ _ h1
    rw [h1']
    simp only []
    by_cases hlen : cs1.length = 0
    · rw [if_pos hlen] at hc ⊢
      have hag1 : AgreeOff h n s1 s1' :=
        hag.of_same (call_Probe_frame _ _ _ _ _ _ _ _ _ h1).1
          (call_Probe_frame _ _ _ _ _ _ _ _ _ h1').1
      exact call_Probe_congr env s1 s1' h n hag1 himpl _ _ _ _ _ _ _ hc
    · rw [if_neg hlen] at hc ⊢
      simp only [Option.some.injEq, Prod.mk.injEq] at hc
      exact ⟨s1', by rw [hc.1]⟩

theorem Report_congr (st st' s : State) (cs : List PathProbeCandidate) (q : String)
    (l : Location) (h : ReportMultipleCandidateError.Report st cs q l = some s) :
    s.next_hir_id = st.next_hir_id
    ∧ ∃ s', ReportMultipleCandidateError.Report st' cs q l = some s'
        ∧ s'.next_hir_id = st'.next_hir_id := by
  simp only [ReportMultipleCandidateError.Report] at h ⊢
  cases ha : ReportMultipleCandidateError.add_ranges cs { locus := l, ranges := [] } with
  | none => rw [ha] at h; simp at h
  | some r =>
    rw [ha] at h
    simp only [Option.some.injEq] at h
    exact ⟨by rw [← h], _, rfl, rfl⟩

theorem segment_generics_tail (env : Env) (expr_id : HirId) (expr_locus : Location)
    (seg : TypePathSegment) (id : NodeId) (prev ty : BaseType) (S S' : State) :
    ∃ out out',
      (match seg.generic_args with
        | none => some (SegmentOutcome.next id prev ty S)
        | some generic_args =>
          if env.can_substitute ty = false then
            some (SegmentOutcome.returned (ErrorType expr_id)
              (rust_error_at S expr_locus
                ("substitutions not supported for " ++ env.as_string ty)))
          else
            if (env.SubstMapper_Resolve ty expr_locus generic_args).kind = TypeKind.ERROR then
              some (SegmentOutcome.returned (ErrorType expr_id)
                { S with trace := S.trace
                    ++ [Event.SubstMapper_Resolve ty expr_locus generic_args] })
            else some (SegmentOutcome.next id prev
                (env.SubstMapper_Resolve ty expr_locus generic_args)
                { S with trace := S.trace
                    ++ [Event.SubstMapper_Resolve ty expr_locus generic_args] })) = some out
      ∧ (match seg.generic_args with
        | none => some (SegmentOutcome.next id prev ty S')
        | some generic_args =>
          if env.can_substitute ty = false then
            some (SegmentOutcome.returned (ErrorType expr_id)
              (rust_error_at S' expr_locus
                ("substitutions not supported for " ++ env.as_string ty)))
          else
            if (env.SubstMapper_Resolve ty expr_locus generic_args).kind = TypeKind.ERROR then
              some (SegmentOutcome.returned (ErrorType expr_id)
                { S' with trace := S'.trace
                    ++ [Event.SubstMapper_Resolve ty expr_locus generic_args] })
            else some (SegmentOutcome.next id prev
                (env.SubstMapper_Resolve ty expr_locus generic_args)
                { S' with trace := S'.trace
                    ++ [Event.SubstMapper_Resolve ty expr_locus generic_args] })) = some out'
      ∧ SameOutcome out out'
      ∧ out.state.next_hir_id = S.next_hir_id
      ∧ out'.state.next_hir_id = S'.next_hir_id := by
  cases seg.generic_args with
  | none => exact ⟨_, _, rfl, rfl, ⟨rfl, rfl, rfl⟩, rfl, rfl⟩
  | some ga =>
    simp only []
    by_cases hc : env.can_substitute ty = false
    · rw [if_pos hc, if_pos hc]
      exact ⟨_, _, rfl, rfl, rfl, rfl, rfl⟩
    · rw [if_neg hc, if_neg hc]
      by_cases hk : (env.SubstMapper_Resolve ty expr_locus ga).kind = TypeKind.ERROR
      · rw [if_pos hk, if_pos hk]
        exact ⟨_, _, rfl, rfl, rfl, rfl, rfl⟩
      · rw [if_neg hk, if_neg hk]
        exact ⟨_, _, rfl, rfl, ⟨rfl, rfl, rfl⟩, rfl, rfl⟩

theorem take_candidate_no_alloc (env : Env) (expr_id : HirId) (expr_locus : Location)
    (st st' : State) (tyseg : BaseType) (seg : TypePathSegment)
    (cs : List PathProbeCandidate) (out : SegmentOutcome)
    (h : take_candidate env expr_id expr_locus st tyseg seg cs = some out) :
    st.next_hir_id ≤ out.state.next_hir_id
    ∧ (out.state.next_hir_id = st.next_hir_id →
        ∃ out', take_candidate env expr_id expr_locus st' tyseg seg cs = some out'
          ∧ SameOutcome out out' ∧ out'.state.next_hir_id = st'.next_hir_id) := by
  unfold take_candidate at h ⊢
  by_cases hlen : cs.length > 1
  · rw [if_pos hlen] at h ⊢
    cases hr : ReportMultipleCandidateError.Report st cs seg.ident_segment seg.locus with
    | none => rw [hr] at h; simp at h
    | some s =>
      rw [hr] at h
      obtain ⟨hs, s', hr', hs'⟩ := Report_congr st st' s cs _ _ hr
      rw [hr']
      simp only [Option.some.injEq] at h
      subst h
      exact ⟨by simp [SegmentOutcome.state, hs], fun _ => ⟨_, rfl, rfl, hs'⟩⟩
  · rw [if_neg hlen] at h ⊢
    cases cs with
    | nil => simp at h
    | cons c rest =>
      simp only [] at h ⊢
      by_cases hi : c.is_impl_candidate = true
      · simp only [hi, if_true] at h ⊢
        cases hitem : c.item with
        | impl i =>
          simp only [hitem] at h ⊢
          obtain ⟨o, o', e, e', hso, hn1, hn2⟩ := segment_generics_tail env expr_id
            expr_locus seg i.impl_item.get_impl_mappings.nodeid tyseg c.ty st st'
          have ho : some o = some out := e.symm.trans h
          simp only [Option.some.injEq] at ho
          subst ho
          exact ⟨by rw [hn1], fun _ => ⟨o', e', hso, hn2⟩⟩
        | trait t => simp [hitem] at h
      · simp only [hi, if_false, Bool.false_eq_true] at h ⊢
        cases hitem : c.item with
        | impl i => simp [hitem] at h
        | trait t =>
          simp only [hitem] at h ⊢
          cases himp : t.impl with
          | none =>
            simp only [himp] at h ⊢
            obtain ⟨o, o', e, e', hso, hn1, hn2⟩ := segment_generics_tail env expr_id
              expr_locus seg t.item_ref.mappings.nodeid tyseg c.ty st st'
            have ho : some o = some out := e.symm.trans h
            simp only [Option.some.injEq] at ho
            subst ho
            exact ⟨by rw [hn1], fun _ => ⟨o', e', hso, hn2⟩⟩
          | some impl =>
            simp only [himp] at h ⊢
            cases hassoc : env.lookup_associated_trait_impl impl.hirid with
            | none => simp [hassoc] at h
            | some assoc =>
              simp only [hassoc] at h ⊢
              obtain ⟨o, o', e, e', hso, hn1, hn2⟩ := segment_generics_tail env expr_id
                expr_locus seg t.item_ref.mappings.nodeid tyseg
                ((c.ty.clone).set_ty_ref st.next_hir_id)
                { st with
                  trace := st.trace ++ [Event.setup_associated_types assoc]
                  next_hir_id := st.next_hir_id + 1 }
                st'
              have ho : some o = some out := e.symm.trans h
              simp only [Option.some.injEq] at ho
              subst ho
              refine ⟨by rw [hn1]; simp, ?_⟩
              intro hcontra
              rw [hn1] at hcontra
              simp at hcontra

theorem resolve_segment_no_alloc (env : Env) (expr_id : HirId) (expr_locus : Location)
    (st st' : State) (h : HirId) (n : NodeId) (hag : AgreeOff h n st st')
    (himpl : ImplIdsOff env h) (prev tyseg : BaseType) (seg : TypePathSegment)
    (out : SegmentOutcome)
    (hrun : resolve_segment env expr_id expr_locus st prev tyseg seg = some out) :
    st.next_hir_id ≤ out.state.next_hir_id
    ∧ (out.state.next_hir_id = st.next_hir_id →
        ∃ out', resolve_segment env expr_id expr_locus st' prev tyseg seg = some out'
          ∧ SameOutcome out out' ∧ out'.state.next_hir_id = st'.next_hir_id) := by
  rw [resolve_segment_eq] at hrun ⊢
  cases hp : probe_segment env st prev seg.ident_segment with
  | none => rw [hp] at hrun; simp at hrun
  | some r =>
    obtain ⟨cs, s⟩ := r
    rw [hp] at hrun
    obtain ⟨s', hp'⟩ := probe_segment_congr env st st' h n hag himpl _ _ _ _ hp
    have fs := probe_segment_frame _ _ _ _ _ _ hp
    have fs' := probe_segment_frame _ _ _ _ _ _ hp'
    rw [hp']
    simp only [] at hrun ⊢
    by_cases hlen : cs.length = 0
    · rw [if_pos hlen] at hrun ⊢
      simp only [Option.some.injEq] at hrun
      subst hrun
      refine ⟨by simp [SegmentOutcome.state, rust_error_at, fs.2.2], fun _ => ⟨_, rfl, rfl, ?_⟩⟩
      simp [SegmentOutcome.state, rust_error_at, fs'.2.2]
    · rw [if_neg hlen] at hrun ⊢
      obtain ⟨hmono, hcong⟩ := take_candidate_no_alloc env expr_id expr_locus s s' tyseg seg
        cs out hrun
      refine ⟨by rw [← fs.2.2]; exact hmono, ?_⟩
      intro heq
      obtain ⟨out', h1, h2, h3⟩ := hcong (by rw [heq, fs.2.2])
      exact ⟨out', h1, h2, by rw [h3, fs'.2.2]⟩

theorem resolve_segments_loop_no_alloc (env : Env) (expr_id : HirId) (expr_locus : Location)
    (h : HirId) (n : NodeId) (himpl : ImplIdsOff env h) (segs : List TypePathSegment) :
    ∀ (st st' : State) (id : NodeId) (prev ty : BaseType) (out : SegmentOutcome),
      AgreeOff h n st st' →
      resolve_segments_loop env expr_id expr_locus segs st id prev ty = some out →
      st.next_hir_id ≤ out.state.next_hir_id
      ∧ (out.state.next_hir_id = st.next_hir_id →
          ∃ out', resolve_segments_loop env expr_id expr_locus segs st' id prev ty = some out'
            ∧ SameOutcome out out' ∧ out'.state.next_hir_id = st'.next_hir_id) := by
  induction segs with
  | nil =>
    intro st st' id prev ty out _ hrun
    simp only [resolve_segments_loop, Option.some.injEq] at hrun
    subst hrun
    exact ⟨le_refl _, fun _ => ⟨_, rfl, ⟨rfl, rfl, rfl⟩, rfl⟩⟩
  | cons seg rest ih =>
    intro st st' id prev ty out hag hrun
    simp only [resolve_segments_loop] at hrun ⊢
    cases h1 : resolve_segment env expr_id expr_locus st prev ty seg with
    | none => rw [h1] at hrun; simp at hrun
    | some o1 =>
      rw [h1] at hrun
      obtain ⟨hmono1, hcong1⟩ := resolve_segment_no_alloc env expr_id expr_locus st st' h n
        hag himpl prev ty seg o1 h1
      have f1 := (resolve_segment_frame _ _ _ _ _ _ _ _ h1).1
      cases o1 with
      | returned r s1 =>
        simp only [Option.some.injEq] at hrun
        subst hrun
        refine ⟨hmono1, ?_⟩
        intro heq
        obtain ⟨o1', e1, hs1, hn1⟩ := hcong1 heq
        rw [e1]
        cases o1' with
        | returned r' s1' => exact ⟨_, rfl, hs1, hn1⟩
        | next _ _ _ _ => exact absurd hs1 (by simp [SameOutcome])
      | next i p t s1 =>
        simp only [] at hrun
        simp only [SegmentOutcome.state] at hmono1 hcong1 f1
        refine ⟨?_, ?_⟩
        · -- the counter never decreases
          have := fun s1' (hag1 : AgreeOff h n s1 s1') =>
            (ih s1 s1' i p t out hag1 hrun).1
          exact le_trans hmono1 (this s1 ⟨fun _ _ => rfl, fun _ _ => rfl, rfl⟩)
        · intro heq
          have hmono2 := (ih s1 s1 i p t out ⟨fun _ _ => rfl, fun _ _ => rfl, rfl⟩ hrun).1
          have hs1n : s1.next_hir_id = st.next_hir_id :=
            le_antisymm (by rw [← heq]; exact hmono2) hmono1
          obtain ⟨o1', e1, hs1, hn1⟩ := hcong1 hs1n
          rw [e1]
          cases o1' with
          | returned _ _ => exact absurd hs1 (by simp [SameOutcome])
          | next i' p' t' s1' =>
            simp only [SameOutcome] at hs1
            obtain ⟨rfl, rfl, rfl⟩ := hs1
            simp only [SegmentOutcome.state] at hn1
            have f1' := (resolve_segment_frame _ _ _ _ _ _ _ _ e1).1
            simp only [SegmentOutcome.state] at f1'
            have hag1 : AgreeOff h n s1 s1' := hag.of_same f1 f1'
            obtain ⟨out', e2, hs2, hn2⟩ := (ih s1 s1' i p t out hag1 hrun).2 (by rw [heq, hs1n])
            exact ⟨out', e2, hs2, by rw [hn2, hn1]⟩

theorem final_substitution_congr (env : Env) (segments : List TypePathSegment)
    (S S' S2 : State) (prev ty t : BaseType)
    (h : final_substitution env segments S prev ty = some (t, S2)) :
    ∃ S2', final_substitution env segments S' prev ty = some (t, S2') := by
  unfold final_substitution at h ⊢
  cases hl : segments.getLast? with
  | none => rw [hl] at h; simp at h
  | some back =>
    rw [hl] at h
    simp only [] at h ⊢
    by_cases h1 : env.needs_generic_substitutions prev = false
    · rw [if_pos h1] at h ⊢
      by_cases h2 : (env.GetUsedSubstArgs_From prev).is_error = false
      · rw [if_pos h2] at h ⊢
        simp only [Option.some.injEq, Prod.mk.injEq] at h
        exact ⟨_, by rw [h.1]⟩
      · rw [if_neg h2] at h ⊢
        simp only [Option.some.injEq, Prod.mk.injEq] at h
        exact ⟨_, by rw [h.1]⟩
    · rw [if_neg h1] at h ⊢
      simp only [Option.some.injEq, Prod.mk.injEq] at h
      exact ⟨_, by rw [h.1]⟩

theorem record_resolved_counter (S S2 : State) (mp : NodeMapping) (id : NodeId)
    (h : record_resolved S mp id = some S2) : S2.next_hir_id = S.next_hir_id := by
  obtain ⟨_, _, _, hsome, hnone⟩ := record_resolved_spec S S2 mp id h
  cases hp : prior_record S mp.nodeid with
  | none => rw [hnone hp]
  | some prior => rw [(hsome prior hp).2]

theorem record_resolved_of_prior (S : State) (mp : NodeMapping) (id : NodeId)
    (hid : id ≠ UNKNOWN_NODEID) (hp : prior_record S mp.nodeid = some id) :
    record_resolved S mp id = some S := by
  unfold record_resolved
  rw [if_neg hid]
  unfold prior_record at hp
  cases hn : S.resolved_names.lookup mp.nodeid with
  | some x =>
    rw [hn] at hp
    simp only [Option.some.injEq] at hp
    simp [hp]
  | none =>
    rw [hn] at hp
    simp only [] at hp ⊢
    rw [hp]
    simp

theorem resolve_segments_again (env : Env) (st st' : State)
    (root_resolved_node_id : NodeId) (expr_id : HirId) (segments : List TypePathSegment)
    (offset : Nat) (tyseg : BaseType) (mp : NodeMapping) (expr_locus : Location)
    (h : HirId) (t : BaseType) (s : State)
    (hag : AgreeOff h mp.nodeid st st') (himpl : ImplIdsOff env h)
    (hrun : resolve_segments env st root_resolved_node_id expr_id segments offset tyseg mp
      expr_locus = some (t, s))
    (hcounter : s.next_hir_id = st.next_hir_id)
    (hnames : st'.resolved_names = s.resolved_names)
    (htypes : st'.resolved_types = s.resolved_types) :
    ∃ s', resolve_segments env st' root_resolved_node_id expr_id segments offset tyseg mp
      expr_locus = some (t, s') := by
  unfold resolve_segments at hrun ⊢
  simp only [] at hrun ⊢
  cases hloop : resolve_segments_loop env expr_id expr_locus (segments.drop offset) st
      root_resolved_node_id tyseg tyseg with
  | none => rw [hloop] at hrun; simp at hrun
  | some out =>
    rw [hloop] at hrun
    obtain ⟨hmono, hcong⟩ := resolve_segments_loop_no_alloc env expr_id expr_locus h
      mp.nodeid himpl _ st st' _ _ _ out hag hloop
    cases out with
    | returned r s_ =>
      simp only [Option.some.injEq, Prod.mk.injEq] at hrun
      obtain ⟨rfl, rfl⟩ := hrun
      obtain ⟨out', e, hs, _⟩ := hcong hcounter
      rw [e]
      cases out' with
      | returned r' s' =>
        simp only [SameOutcome] at hs
        subst hs
        exact ⟨_, rfl⟩
      | next _ _ _ _ => exact absurd hs (by simp [SameOutcome])
    | next id prev ty s1 =>
      simp only [SegmentOutcome.state] at hmono hcong
      simp only [] at hrun
      -- the rest of the first run keeps the counter
      have hrest : ∀ (S : State) (t2 : BaseType), S.next_hir_id = s1.next_hir_id →
          finish S mp id t2 = some (t, s) →
          s1.next_hir_id = st.next_hir_id ∧ t2 = t
          ∧ id ≠ UNKNOWN_NODEID ∧ prior_record s mp.nodeid = some id := by
        intro S t2 hS hf
        unfold finish at hf
        cases hr : record_resolved S mp id with
        | none => rw [hr] at hf; simp at hf
        | some S2 =>
          rw [hr] at hf
          simp only [Option.some.injEq, Prod.mk.injEq] at hf
          obtain ⟨rfl, rfl⟩ := hf
          have hc := record_resolved_counter _ _ _ _ hr
          obtain ⟨hid, hpr, _⟩ := record_resolved_spec _ _ _ _ hr
          exact ⟨by rw [← hS, ← hc, hcounter], rfl, hid, hpr⟩
      -- and the second run passes the check
      have hcheck : ∀ (S' : State) (t2 : BaseType), S'.resolved_names = st'.resolved_names →
          S'.resolved_types = st'.resolved_types →
          id ≠ UNKNOWN_NODEID → prior_record s mp.nodeid = some id →
          finish S' mp id t2 = some (t2, S') := by
        intro S' t2 h1 h2 hid hpr
        unfold finish
        rw [record_resolved_of_prior S' mp id hid
          (by simpa [prior_record, h1, h2, hnames, htypes] using hpr)]
      have hsecond : s1.next_hir_id = st.next_hir_id →
          ∃ s1', resolve_segments_loop env expr_id expr_locus (segments.drop offset) st'
              root_resolved_node_id tyseg tyseg = some (SegmentOutcome.next id prev ty s1')
            ∧ s1'.resolved_names = st'.resolved_names
            ∧ s1'.resolved_types = st'.resolved_types := by
        intro hs1
        obtain ⟨out', e, hs, _⟩ := hcong hs1
        cases out' with
        | returned _ _ => exact absurd hs (by simp [SameOutcome])
        | next i' p' t' s1' =>
          simp only [SameOutcome] at hs
          obtain ⟨rfl, rfl, rfl⟩ := hs
          have f := (resolve_segments_loop_frame _ _ _ _ _ _ _ _ _ e).1
          exact ⟨s1', e, f.2.2.1, f.2.2.2.1⟩
      by_cases hneeds : env.needs_generic_substitutions ty = true
      · rw [if_pos hneeds] at hrun
        cases hsub : final_substitution env segments
            { s1 with receivers := (mp.hirid, prev) :: s1.receivers } prev ty with
        | none => rw [hsub] at hrun; simp at hrun
        | some r =>
          obtain ⟨t2, s3⟩ := r
          rw [hsub] at hrun
          simp only [] at hrun
          have fsub := final_substitution_frame _ _ _ _ _ _ _ hsub
          by_cases hk : t2.kind = TypeKind.ERROR
          · rw [if_pos hk] at hrun
            simp only [Option.some.injEq, Prod.mk.injEq] at hrun
            obtain ⟨rfl, rfl⟩ := hrun
            have hs1 : s1.next_hir_id = st.next_hir_id := by
              rw [← hcounter, fsub.2.2.2.2.2]
            obtain ⟨s1', e, _, _⟩ := hsecond hs1
            rw [e]
            simp only []
            rw [if_pos hneeds]
            obtain ⟨s3', hsub'⟩ := final_substitution_congr env segments _
              { s1' with receivers := (mp.hirid, prev) :: s1'.receivers } _ _ _ _ hsub
            rw [hsub']
            simp only []
            rw [if_pos hk]
            exact ⟨_, rfl⟩
          · rw [if_neg hk] at hrun
            obtain ⟨hs1, rfl, hid, hpr⟩ := hrest s3 t2 fsub.2.2.2.2.2 hrun
            obtain ⟨s1', e, hn1, ht1⟩ := hsecond hs1
            rw [e]
            simp only []
            rw [if_pos hneeds]
            obtain ⟨s3', hsub'⟩ := final_substitution_congr env segments _
              { s1' with receivers := (mp.hirid, prev) :: s1'.receivers } _ _ _ _ hsub
            rw [hsub']
            simp only []
            rw [if_neg hk]
            have fsub' := final_substitution_frame _ _ _ _ _ _ _ hsub'
            exact ⟨s3', hcheck s3' t2 (fsub'.1.trans hn1) (fsub'.2.1.trans ht1) hid hpr⟩
      · rw [if_neg hneeds] at hrun
        obtain ⟨hs1, rfl, hid, hpr⟩ := hrest
          { s1 with receivers := (mp.hirid, prev) :: s1.receivers } ty rfl hrun
        obtain ⟨s1', e, hn1, ht1⟩ := hsecond hs1
        rw [e]
        simp only []
        rw [if_neg hneeds]
        exact ⟨_, hcheck { s1' with receivers := (mp.hirid, prev) :: s1'.receivers } ty
          hn1 ht1 hid hpr⟩

theorem substitute_from_root_type (env : Env) (st st' : State) (root_tyty : Option BaseType)
    (lookup : BaseType) :
    (substitute_from_root env st' root_tyty lookup).1
      = (substitute_from_root env st root_tyty lookup).1 := by
  unfold substitute_from_root
  cases root_tyty with
  | none => rfl
  | some root =>
    simp only []
    by_cases h1 : env.needs_generic_substitutions lookup = true
    · by_cases h2 : env.needs_generic_substitutions root = false
      · rw [if_pos h1, if_pos h2, if_pos h1, if_pos h2]
      · rw [if_pos h1, if_neg h2, if_pos h1, if_neg h2]
    · rw [if_neg h1, if_neg h1]

theorem resolve_root_generic_args_congr (env : Env) (path : TypePath) (S S' : State)
    (offset : Nat) (id : NodeId) (seg : TypePathSegment) (ref_node_id : NodeId)
    (lookup : BaseType) :
    SameRootOutcome
      (resolve_root_generic_args env path S offset id seg ref_node_id lookup)
      (resolve_root_generic_args env path S' offset id seg ref_node_id lookup) := by
  unfold resolve_root_generic_args
  cases seg.generic_args with
  | none => exact ⟨rfl, rfl, rfl⟩
  | some args =>
    simp only []
    by_cases hc : env.can_substitute lookup = false
    · rw [if_pos hc, if_pos hc]; exact ⟨rfl, rfl, rfl⟩
    · rw [if_neg hc, if_neg hc]; exact ⟨rfl, rfl, rfl⟩

theorem resolve_root_reference_congr (env : Env) (path : TypePath) (st st' : State)
    (offset : Nat) (id : NodeId) (root_tyty : Option BaseType) (seg : TypePathSegment)
    (more : Bool) (ref_node_id : NodeId)
    (hl : ∀ x, env.lookup_node_to_hir path.mappings.crate_num ref_node_id = some x →
      st'.lookup_type x = st.lookup_type x) :
    SameRootOutcome
      (resolve_root_reference env path st offset id root_tyty seg more ref_node_id)
      (resolve_root_reference env path st' offset id root_tyty seg more ref_node_id) := by
  unfold resolve_root_reference
  simp only []
  by_cases hu : ref_node_id = UNKNOWN_NODEID
  · rw [if_pos hu, if_pos hu]
    by_cases ho : decide (offset = 0) = true
    · rw [if_pos ho, if_pos ho]; exact ⟨rfl, rfl, rfl⟩
    · rw [if_neg ho, if_neg ho]; exact ⟨rfl, rfl, rfl⟩
  · rw [if_neg hu, if_neg hu]
    cases hh : env.lookup_node_to_hir path.mappings.crate_num ref_node_id with
    | none =>
      simp only []
      by_cases ho : decide (offset = 0) = true
      · rw [if_pos ho, if_pos ho]; exact ⟨rfl, rfl, rfl⟩
      · rw [if_neg ho, if_neg ho]; exact ⟨rfl, rfl, rfl⟩
    | some ref =>
      simp only []
      by_cases hm : env.lookup_module path.mappings.crate_num ref = true
      · rw [if_pos hm, if_pos hm]
        cases more with
        | true => exact ⟨rfl, rfl, rfl⟩
        | false => exact ⟨rfl, rfl, rfl⟩
      · rw [if_neg hm, if_neg hm, hl ref hh]
        cases hlk : st.lookup_type ref with
        | none =>
          simp only []
          by_cases ho : decide (offset = 0) = true
          · rw [if_pos ho, if_pos ho]; exact ⟨rfl, rfl, rfl⟩
          · rw [if_neg ho, if_neg ho]; exact ⟨rfl, rfl, rfl⟩
        | some lookup =>
          simp only []
          rw [substitute_from_root_type env st st' root_tyty lookup]
          exact resolve_root_generic_args_congr env path _ _ offset id seg ref_node_id _

theorem resolve_root_segment_congr (env : Env) (path : TypePath) (st st' : State)
    (h : HirId) (n : NodeId) (hag : AgreeOff h n st st') (hnode : NodeIdsOff env h)
    (offset : Nat) (id : NodeId) (root_tyty : Option BaseType) (seg : TypePathSegment)
    (more : Bool) (hseg : seg.mappings.nodeid ≠ n) :
    SameRootOutcome
      (resolve_root_segment env path st offset id root_tyty seg more)
      (resolve_root_segment env path st' offset id root_tyty seg more) := by
  have href : segment_ref_node_id env st' seg = segment_ref_node_id env st seg := by
    simp [segment_ref_node_id, hag.2.1 _ hseg, hag.2.2]
  rw [resolve_root_segment_eq, resolve_root_segment_eq, href]
  cases segment_ref_node_id env st seg with
  | none => exact ⟨rfl, rfl, rfl⟩
  | some ref =>
    simp only []
    apply resolve_root_reference_congr
    intro x hx
    apply hag.1
    intro hxh
    exact hnode _ _ (by rw [hx, hxh])

theorem resolve_root_path_loop_congr (env : Env) (path : TypePath) (more : Bool)
    (h : HirId) (n : NodeId) (hnode : NodeIdsOff env h) (segs : List TypePathSegment) :
    ∀ (st st' : State) (offset : Nat) (id : NodeId) (root_tyty : Option BaseType),
      AgreeOff h n st st' → (∀ seg ∈ segs, seg.mappings.nodeid ≠ n) →
      SameRootOutcome
        (resolve_root_path_loop env path more segs st offset id root_tyty)
        (resolve_root_path_loop env path more segs st' offset id root_tyty) := by
  induction segs with
  | nil =>
    intro st st' offset id root_tyty _ _
    exact ⟨rfl, rfl, rfl⟩
  | cons seg rest ih =>
    intro st st' offset id root_tyty hag hsegs
    have h1 := resolve_root_segment_congr env path st st' h n hag hnode offset id root_tyty
      seg (!rest.isEmpty || more) (hsegs seg (List.mem_cons_self _ _))
    have f1 := (resolve_root_segment_frame env path st offset id root_tyty seg
      (!rest.isEmpty || more)).1
    have f1' := (resolve_root_segment_frame env path st' offset id root_tyty seg
      (!rest.isEmpty || more)).1
    simp only [resolve_root_path_loop]
    cases e : resolve_root_segment env path st offset id root_tyty seg
        (!rest.isEmpty || more) with
    | returned r o i s =>
      cases e' : resolve_root_segment env path st' offset id root_tyty seg
          (!rest.isEmpty || more) with
      | returned r' o' i' s' => rw [e, e'] at h1; exact h1
      | next _ _ _ _ => rw [e, e'] at h1; exact absurd h1 (by simp [SameRootOutcome])
    | next o i r s =>
      cases e' : resolve_root_segment env path st' offset id root_tyty seg
          (!rest.isEmpty || more) with
      | returned _ _ _ _ => rw [e, e'] at h1; exact absurd h1 (by simp [SameRootOutcome])
      | next o' i' r' s' =>
        rw [e, e'] at h1
        rw [e] at f1
        rw [e'] at f1'
        simp only [SameRootOutcome] at h1
        obtain ⟨rfl, rfl, rfl⟩ := h1
        simp only []
        exact ih s s' o i r (hag.of_same f1 f1')
          (fun sg hsg => hsegs sg (List.mem_cons_of_mem _ hsg))

theorem resolve_root_path_congr (env : Env) (st st' : State) (path : TypePath) (id : NodeId)
    (h : HirId) (n : NodeId) (hag : AgreeOff h n st st') (hnode : NodeIdsOff env h)
    (hsegs : ∀ seg ∈ path.segments, seg.mappings.nodeid ≠ n) :
    (resolve_root_path env st' path id).root = (resolve_root_path env st path id).root
    ∧ (resolve_root_path env st' path id).offset = (resolve_root_path env st path id).offset
    ∧ (resolve_root_path env st' path id).root_resolved_node_id
        = (resolve_root_path env st path id).root_resolved_node_id
    ∧ AgreeOff h n (resolve_root_path env st path id).st (resolve_root_path env st' path id).st
    ∧ (resolve_root_path env st path id).st.next_hir_id = st.next_hir_id
    ∧ (resolve_root_path env st' path id).st.next_hir_id = st'.next_hir_id
    ∧ SameRecords st (resolve_root_path env st path id).st
    ∧ SameRecords st' (resolve_root_path env st' path id).st := by
  have hc := resolve_root_path_loop_congr env path false h n hnode path.segments st st' 0 id
    none hag hsegs
  have f := resolve_root_path_loop_frame env path false path.segments st 0 id none
  have f' := resolve_root_path_loop_frame env path false path.segments st' 0 id none
  unfold resolve_root_path
  cases e : resolve_root_path_loop env path false path.segments st 0 id none with
  | returned r o i s =>
    cases e' : resolve_root_path_loop env path false path.segments st' 0 id none with
    | returned r' o' i' s' =>
      rw [e, e'] at hc
      rw [e] at f
      rw [e'] at f'
      simp only [SameRootOutcome] at hc
      obtain ⟨rfl, rfl, rfl⟩ := hc
      exact ⟨rfl, rfl, rfl, hag.of_same f.1 f'.1, f.2.1, f'.2.1, f.1, f'.1⟩
    | next _ _ _ _ => rw [e, e'] at hc; exact absurd hc (by simp [SameRootOutcome])
  | next o i r s =>
    cases e' : resolve_root_path_loop env path false path.segments st' 0 id none with
    | returned _ _ _ _ => rw [e, e'] at hc; exact absurd hc (by simp [SameRootOutcome])
    | next o' i' r' s' =>
      rw [e, e'] at hc
      rw [e] at f
      rw [e'] at f'
      simp only [SameRootOutcome] at hc
      obtain ⟨rfl, rfl, rfl⟩ := hc
      exact ⟨rfl, rfl, rfl, hag.of_same f.1 f'.1, f.2.1, f'.2.1, f.1, f'.1⟩

theorem resolve_segments_tables (env : Env) (st : State) (root_resolved_node_id : NodeId)
    (expr_id : HirId) (segments : List TypePathSegment) (offset : Nat) (tyseg : BaseType)
    (mp : NodeMapping) (expr_locus : Location) (t : BaseType) (s : State)
    (h : resolve_segments env st root_resolved_node_id expr_id segments offset tyseg mp
      expr_locus = some (t, s)) :
    s.types = st.types ∧ s.resolved_types = st.resolved_types
    ∧ s.node_id_refs = st.node_id_refs
    ∧ (s.resolved_names = st.resolved_names
        ∨ ∃ id, s.resolved_names = (mp.nodeid, id) :: st.resolved_names) := by
  unfold resolve_segments at h
  simp only [] at h
  cases hloop : resolve_segments_loop env expr_id expr_locus (segments.drop offset) st
      root_resolved_node_id tyseg tyseg with
  | none => rw [hloop] at h; simp at h
  | some out =>
    rw [hloop] at h
    have fl := (resolve_segments_loop_frame _ _ _ _ _ _ _ _ _ hloop).1
    cases out with
    | returned r s_ =>
      simp only [Option.some.injEq, Prod.mk.injEq] at h
      obtain ⟨_, rfl⟩ := h
      exact ⟨fl.1, fl.2.2.2.1, fl.2.2.2.2, Or.inl fl.2.2.1⟩
    | next id prev ty s1 =>
      simp only [SegmentOutcome.state] at fl
      simp only [] at h
      have hfinish : ∀ (S : State) (t2 : BaseType), S.types = st.types →
          S.resolved_types = st.resolved_types → S.node_id_refs = st.node_id_refs →
          S.resolved_names = st.resolved_names → finish S mp id t2 = some (t, s) →
          s.types = st.types ∧ s.resolved_types = st.resolved_types
          ∧ s.node_id_refs = st.node_id_refs
          ∧ (s.resolved_names = st.resolved_names
              ∨ ∃ id, s.resolved_names = (mp.nodeid, id) :: st.resolved_names) := by
        intro S t2 h1 h2 h3 h4 hf
        unfold finish at hf
        cases hr : record_resolved S mp id with
        | none => rw [hr] at hf; simp at hf
        | some S2 =>
          rw [hr] at hf
          simp only [Option.some.injEq, Prod.mk.injEq] at hf
          obtain ⟨_, rfl⟩ := hf
          obtain ⟨_, _, _, hsome, hnone⟩ := record_resolved_spec _ _ _ _ hr
          cases hp : prior_record S mp.nodeid with
          | none =>
            rw [hnone hp]
            exact ⟨h1, h2, h3, Or.inr ⟨id, by simp only [h4]⟩⟩
          | some prior =>
            rw [(hsome prior hp).2]
            exact ⟨h1, h2, h3, Or.inl h4⟩
      by_cases hneeds : env.needs_generic_substitutions ty = true
      · rw [if_pos hneeds] at h
        cases hsub : final_substitution env segments
            { s1 with receivers := (mp.hirid, prev) :: s1.receivers } prev ty with
        | none => rw [hsub] at h; simp at h
        | some r =>
          obtain ⟨t2, s3⟩ := r
          rw [hsub] at h
          simp only [] at h
          have fsub := final_substitution_frame _ _ _ _ _ _ _ hsub
          by_cases hk : t2.kind = TypeKind.ERROR
          · rw [if_pos hk] at h
            simp only [Option.some.injEq, Prod.mk.injEq] at h
            obtain ⟨_, rfl⟩ := h
            exact ⟨fsub.2.2.1.trans fl.1, fsub.2.1.trans fl.2.2.2.1,
              fsub.2.2.2.2.1.trans fl.2.2.2.2, Or.inl (fsub.1.trans fl.2.2.1)⟩
          · rw [if_neg hk] at h
            exact hfinish s3 t2 (fsub.2.2.1.trans fl.1) (fsub.2.1.trans fl.2.2.2.1)
              (fsub.2.2.2.2.1.trans fl.2.2.2.2) (fsub.1.trans fl.2.2.1) h
      · rw [if_neg hneeds] at h
        exact hfinish { s1 with receivers := (mp.hirid, prev) :: s1.receivers } ty
          fl.1 fl.2.2.2.1 fl.2.2.2.2 fl.2.2.1 h

theorem AgreeOff_insert_type (st sv : State) (mp : NodeMapping) (t : BaseType)
    (h1 : sv.types = st.types) (h2 : sv.resolved_types = st.resolved_types)
    (h3 : sv.resolved_names = st.resolved_names
      ∨ ∃ id, sv.resolved_names = (mp.nodeid, id) :: st.resolved_names) :
    AgreeOff mp.hirid mp.nodeid st (sv.insert_type mp t) := by
  refine ⟨?_, ?_, ?_⟩
  · intro id hid
    have hb : (id == mp.hirid) = false := by simpa using hid
    simp [State.insert_type, State.lookup_type, List.lookup, hb, h1]
  · intro m hm
    have hb : (m == mp.nodeid) = false := by simpa using hm
    rcases h3 with h3 | ⟨id, h3⟩
    · simp [State.insert_type, h3]
    · simp [State.insert_type, h3, List.lookup, hb]
  · simp [State.insert_type, h2]

theorem unconstrained_params_spec (mappings : List SubstitutionParamMapping)
    (type_args : List String) :
    (unconstrained_params mappings type_args).Nodup
    ∧ ∀ s, s ∈ unconstrained_params mappings type_args
        ↔ (∃ m ∈ mappings, m.param_ty_symbol = s) ∧ s ∉ type_args := by
  obtain ⟨hs1, hs2⟩ := fold_set_insert (mappings.map (fun m => m.param_ty_symbol)) []
    List.Pairwise.nil
  constructor
  · unfold unconstrained_params
    exact (List.Pairwise.filter _ hs1).imp (fun h => ne_of_lt h)
  · intro s
    unfold unconstrained_params
    rw [List.mem_filter, hs2]
    simp

theorem check_for_unconstrained_total (st : State)
    (subst_mappings : Option (List SubstitutionParamMapping)) (type_args : List String) :
    ∃ st', check_for_unconstrained st subst_mappings type_args = some st'
      ∧ SameRecords st st' ∧ st'.next_hir_id = st.next_hir_id := by
  cases subst_mappings with
  | none => exact ⟨st, by simp [check_for_unconstrained], SameRecords.refl st, rfl⟩
  | some mappings =>
    obtain ⟨st', h1, _, h3, h4⟩ := check_for_unconstrained_eq st mappings type_args
    exact ⟨st', h1, h3, h4⟩

theorem visit_TypePath_resolved_congr (env : Env) (st st' : State) (path : TypePath)
    (subst_mappings : Option (List SubstitutionParamMapping)) (ref : NodeId)
    (href : st.resolved_types.lookup path.mappings.nodeid = some ref)
    (href' : st'.resolved_types.lookup path.mappings.nodeid = some ref)
    (hhir : st'.lookup_type_by_node_id ref = st.lookup_type_by_node_id ref)
    (hty : ∀ hir, st.lookup_type_by_node_id ref = some hir →
      st'.lookup_type hir = st.lookup_type hir)
    (tr : Option BaseType) (sv : State)
    (h : visit_TypePath env st path subst_mappings = some (tr, sv)) :
    SameRecords st sv ∧ sv.next_hir_id = st.next_hir_id
    ∧ ∃ sv', visit_TypePath env st' path subst_mappings = some (tr, sv') := by
  unfold visit_TypePath at h ⊢
  rw [href] at h
  rw [href']
  simp only [] at h ⊢
  rw [hhir]
  cases hh : st.lookup_type_by_node_id ref with
  | none =>
    rw [hh] at h
    simp only [Option.some.injEq, Prod.mk.injEq] at h
    obtain ⟨rfl, rfl⟩ := h
    exact ⟨⟨rfl, rfl, rfl, rfl, rfl⟩, rfl, _, rfl⟩
  | some hir =>
    rw [hh] at h
    simp only [] at h ⊢
    rw [hty hir hh]
    cases hl : st.lookup_type hir with
    | none =>
      rw [hl] at h
      simp only [Option.some.injEq, Prod.mk.injEq] at h
      obtain ⟨rfl, rfl⟩ := h
      exact ⟨⟨rfl, rfl, rfl, rfl, rfl⟩, rfl, _, rfl⟩
    | some lookup =>
      rw [hl] at h
      simp only [] at h ⊢
      cases hlast : path.segments.getLast? with
      | none => rw [hlast] at h; simp at h
      | some final_seg =>
        rw [hlast] at h
        simp only [] at h ⊢
        by_cases hn : env.needs_generic_substitutions
            ((lookup.clone).set_ref path.mappings.hirid) = true
        · rw [if_pos hn] at h ⊢
          by_cases hs : (final_seg.is_ident_only && final_seg.as_string == "Self") = true
          · rw [if_pos hs] at h ⊢
            simp only [Option.some.injEq, Prod.mk.injEq] at h
            obtain ⟨rfl, rfl⟩ := h
            exact ⟨SameRecords.refl st, rfl, _, rfl⟩
          · rw [if_neg hs] at h ⊢
            by_cases hk : (env.SubstMapper_Resolve ((lookup.clone).set_ref path.mappings.hirid)
                path.locus (TypeCheckResolveGenericArguments.resolve final_seg)).kind
                ≠ TypeKind.ERROR
            · rw [if_pos hk] at h ⊢
              obtain ⟨c, hc, fc, nc⟩ := check_for_unconstrained_total
                { st with trace := st.trace ++
                    [Event.SubstMapper_Resolve ((lookup.clone).set_ref path.mappings.hirid)
                      path.locus (TypeCheckResolveGenericArguments.resolve final_seg)] }
                subst_mappings (TypeCheckResolveGenericArguments.resolve final_seg).type_args
              obtain ⟨c', hc', _, _⟩ := check_for_unconstrained_total
                { st' with trace := st'.trace ++
                    [Event.SubstMapper_Resolve ((lookup.clone).set_ref path.mappings.hirid)
                      path.locus (TypeCheckResolveGenericArguments.resolve final_seg)] }
                subst_mappings (TypeCheckResolveGenericArguments.resolve final_seg).type_args
              rw [hc] at h
              rw [hc']
              simp only [Option.some.injEq, Prod.mk.injEq] at h
              obtain ⟨rfl, rfl⟩ := h
              exact ⟨SameRecords.trans ⟨rfl, rfl, rfl, rfl, rfl⟩ fc, nc, _, rfl⟩
            · rw [if_neg hk] at h ⊢
              simp only [Option.some.injEq, Prod.mk.injEq] at h
              obtain ⟨rfl, rfl⟩ := h
              exact ⟨⟨rfl, rfl, rfl, rfl, rfl⟩, rfl, _, rfl⟩
        · rw [if_neg hn] at h ⊢
          by_cases he : (!(TypeCheckResolveGenericArguments.resolve final_seg).is_empty) = true
          · rw [if_pos he] at h; simp at h
          · rw [if_neg he] at h ⊢
            simp only [Option.some.injEq, Prod.mk.injEq] at h
            obtain ⟨rfl, rfl⟩ := h
            exact ⟨SameRecords.refl st, rfl, _, rfl⟩

theorem visit_TypePath_again (env : Env) (st : State) (path : TypePath)
    (subst_mappings : Option (List SubstitutionParamMapping)) (tr : Option BaseType)
    (sv : State) (t : BaseType)
    (hv : visit_TypePath env st path subst_mappings = some (tr, sv))
    (hcounter : sv.next_hir_id = st.next_hir_id)
    (hfresh : PathIdsFresh env st path) :
    ∃ sv', visit_TypePath env (sv.insert_type path.mappings t) path subst_mappings
      = some (tr, sv') := by
  obtain ⟨hsegs, hnode, himpl, hself⟩ := hfresh
  cases hres : st.resolved_types.lookup path.mappings.nodeid with
  | some ref =>
    obtain ⟨hne, hhirne⟩ := hself ref hres
    obtain ⟨fr, _, _⟩ := visit_TypePath_resolved_congr env st st path subst_mappings ref
      hres hres rfl (fun _ _ => rfl) tr sv hv
    have hb : (ref == path.mappings.nodeid) = false := by simpa using hne
    refine (visit_TypePath_resolved_congr env st (sv.insert_type path.mappings t) path
      subst_mappings ref hres ?_ ?_ ?_ tr sv hv).2.2
    · simp [State.insert_type, fr.2.2.2.1, hres]
    · simp [State.insert_type, State.lookup_type_by_node_id, List.lookup, hb, fr.2.2.2.2]
    · intro hir hh
      have hb2 : (hir == path.mappings.hirid) = false := by simpa using hhirne hir hh
      simp [State.insert_type, State.lookup_type, List.lookup, hb2, fr.1]
  | none =>
    have hcong := fun st' (hag : AgreeOff path.mappings.hirid path.mappings.nodeid st st') =>
      resolve_root_path_congr env st st' path UNKNOWN_NODEID path.mappings.hirid
        path.mappings.nodeid hag hnode hsegs
    have hr0 := hcong st ⟨fun _ _ => rfl, fun _ _ => rfl, rfl⟩
    unfold visit_TypePath at hv
    rw [hres] at hv
    simp only [] at hv
    cases hroot : (resolve_root_path env st path UNKNOWN_NODEID).root with
    | none => rw [hroot] at hv; simp at hv
    | some root =>
      rw [hroot] at hv
      simp only [] at hv
      have frs : SameRecords st (resolve_root_path env st path UNKNOWN_NODEID).st :=
        hr0.2.2.2.2.2.2.1
      by_cases hk : root.kind = TypeKind.ERROR
      · rw [if_pos hk] at hv
        simp only [Option.some.injEq, Prod.mk.injEq] at hv
        obtain ⟨rfl, rfl⟩ := hv
        have hag : AgreeOff path.mappings.hirid path.mappings.nodeid st
            ((resolve_root_path env st path UNKNOWN_NODEID).st.insert_type path.mappings t) :=
          AgreeOff_insert_type st _ path.mappings t frs.1 frs.2.2.2.1 (Or.inl frs.2.2.1)
        obtain ⟨h1, _⟩ := hcong _ hag
        unfold visit_TypePath
        have hres' : ((resolve_root_path env st path UNKNOWN_NODEID).st.insert_type
            path.mappings t).resolved_types.lookup path.mappings.nodeid = none := by
          simp [State.insert_type, frs.2.2.2.1, hres]
        rw [hres']
        simp only []
        rw [h1, hroot]
        simp only []
        rw [if_pos hk]
        exact ⟨_, rfl⟩
      · rw [if_neg hk] at hv
        cases hseg : resolve_segments env (resolve_root_path env st path UNKNOWN_NODEID).st
            (resolve_root_path env st path UNKNOWN_NODEID).root_resolved_node_id
            path.mappings.hirid path.segments
            (resolve_root_path env st path UNKNOWN_NODEID).offset root path.mappings
            path.locus with
        | none => rw [hseg] at hv; simp at hv
        | some r =>
          obtain ⟨translated, s2⟩ := r
          rw [hseg] at hv
          simp only [Option.some.injEq, Prod.mk.injEq] at hv
          obtain ⟨rfl, rfl⟩ := hv
          obtain ⟨ft1, ft2, ft3, ft4⟩ := resolve_segments_tables _ _ _ _ _ _ _ _ _ _ _ hseg
          have hnames : s2.resolved_names = st.resolved_names
              ∨ ∃ id, s2.resolved_names = (path.mappings.nodeid, id) :: st.resolved_names := by
            rcases ft4 with h | ⟨id, h⟩
            · exact Or.inl (h.trans frs.2.2.1)
            · exact Or.inr ⟨id, by rw [h, frs.2.2.1]⟩
          have hag : AgreeOff path.mappings.hirid path.mappings.nodeid st
              (s2.insert_type path.mappings t) :=
            AgreeOff_insert_type st s2 path.mappings t (ft1.trans frs.1)
              (ft2.trans frs.2.2.2.1) hnames
          obtain ⟨h1, h2, h3, h4, h5, h6, _, h8⟩ := hcong _ hag
          obtain ⟨s', hs'⟩ := resolve_segments_again env
            (resolve_root_path env st path UNKNOWN_NODEID).st
            (resolve_root_path env (s2.insert_type path.mappings t) path UNKNOWN_NODEID).st
            (resolve_root_path env st path UNKNOWN_NODEID).root_resolved_node_id
            path.mappings.hirid path.segments
            (resolve_root_path env st path UNKNOWN_NODEID).offset root path.mappings
            path.locus path.mappings.hirid translated s2 h4 himpl hseg
            (by rw [hcounter, h5])
            (by rw [h8.2.2.1]; rfl)
            (by rw [h8.2.2.2.1]; rfl)
          unfold visit_TypePath
          have hres' : (s2.insert_type path.mappings t).resolved_types.lookup
              path.mappings.nodeid = none := by
            simp [State.insert_type, ft2, frs.2.2.2.1, hres]
          rw [hres']
          simp only []
          rw [h1, hroot]
          simp only []
          rw [if_neg hk, h2, h3, hs']
          exact ⟨_, rfl⟩

theorem Sample.node_ids_off (items : List (HirId × ImplItem × ImplBlock))
    (probed : BaseType → List (TraitReference × Option ImplBlock)) :
    NodeIdsOff (Sample.root_env items probed) 900 := by
  intro c m
  simp only [Sample.root_env, Sample.node_to_hir]
  split_ifs <;> simp

theorem Probe_candidate_locus (env : Env) (st : State) (receiver : BaseType)
    (name : String) (pi pb ig : Bool) (cs : List PathProbeCandidate) (calls : List Event)
    (h : Probe env st receiver name pi pb ig = some (cs, calls)) :
    ∀ c ∈ cs, c.locus = UNKNOWN_LOCATION := by
  intro c hc
  cases pb with
  | true =>
    obtain ⟨inh, tr, hcs, hinh, htr⟩ := Probe_with_bounds_some env st receiver name pi ig cs
      calls h
    rw [hcs] at hc
    rcases List.mem_append.mp hc with hc | hc
    · obtain ⟨e, _, _, he⟩ := hinh c hc
      exact he.2.2.2
    · obtain ⟨ref, _, hr⟩ := forall₂_mem_right htr c hc
      obtain ⟨item, _, _, _, hl, _⟩ := hr
      exact hl
  | false =>
    cases pi with
    | true =>
      obtain ⟨_, hf⟩ := Probe_impls_some env st receiver name ig cs calls h
      obtain ⟨e, _, he⟩ := forall₂_mem_right hf c hc
      exact he.2.2.2
    | false =>
      simp [Probe, PathProbeType.new] at h
      rw [h.1] at hc
      simp at hc

theorem visit_QualifiedPathInType_without_as_clause (env : Env) (st : State)
    (path : QualifiedPath) (type_mappings : NodeMapping) (root : BaseType)
    (hk : root.kind ≠ TypeKind.ERROR) (ht : path.trait = none) :
    visit_QualifiedPathInType env st path type_mappings root = none := by
  unfold visit_QualifiedPathInType
  simp only [hk, if_false, ht]
  cases st.resolved_types.lookup type_mappings.nodeid with
  | none => rfl
  | some id => rfl

theorem segment_generics_eq (env : Env) (expr_id : HirId) (expr_locus : Location)
    (seg : TypePathSegment) (id : NodeId) (prev ty : BaseType) (S : State) :
    (match seg.generic_args with
      | none => some (SegmentOutcome.next id prev ty S)
      | some generic_args =>
        if env.can_substitute ty = false then
          some (SegmentOutcome.returned (ErrorType expr_id)
            (rust_error_at S expr_locus
              ("substitutions not supported for " ++ env.as_string ty)))
        else
          if (env.SubstMapper_Resolve ty expr_locus generic_args).kind = TypeKind.ERROR then
            some (SegmentOutcome.returned (ErrorType expr_id)
              { S with trace := S.trace
                  ++ [Event.SubstMapper_Resolve ty expr_locus generic_args] })
          else some (SegmentOutcome.next id prev
              (env.SubstMapper_Resolve ty expr_locus generic_args)
              { S with trace := S.trace
                  ++ [Event.SubstMapper_Resolve ty expr_locus generic_args] }))
      = some (segment_generics env expr_id expr_locus seg id prev ty S) := by
  unfold segment_generics
  cases seg.generic_args with
  | none => rfl
  | some ga =>
    simp only []
    by_cases hc : env.can_substitute ty = false
    · rw [if_pos hc, if_pos hc]
    · rw [if_neg hc, if_neg hc]
      by_cases hk : (env.SubstMapper_Resolve ty expr_locus ga).kind = TypeKind.ERROR
      · rw [if_pos hk, if_pos hk]
      · rw [if_neg hk, if_neg hk]

theorem take_candidate_single (env : Env) (expr_id : HirId) (expr_locus : Location)
    (st : State) (tyseg : BaseType) (seg : TypePathSegment) (c : PathProbeCandidate)
    (htag : TagMatchesItem c) :
    take_candidate env expr_id expr_locus st tyseg seg [c]
      = match c.item with
        | Candidate.impl i =>
          some (segment_generics env expr_id expr_locus seg
            i.impl_item.get_impl_mappings.nodeid tyseg c.ty st)
        | Candidate.trait t =>
          match t.impl with
          | none =>
            some (segment_generics env expr_id expr_locus seg t.item_ref.mappings.nodeid
              tyseg c.ty st)
          | some impl =>
            match env.lookup_associated_trait_impl impl.hirid with
            | none => none
            | some lookup_associated =>
              some (segment_generics env expr_id expr_locus seg
                t.item_ref.mappings.nodeid tyseg
                ((c.ty.clone).set_ty_ref st.next_hir_id)
                { st with
                  trace := st.trace ++ [Event.setup_associated_types lookup_associated]
                  next_hir_id := st.next_hir_id + 1 }) := by
  unfold take_candidate
  unfold TagMatchesItem at htag
  rw [if_neg (by simp)]
  simp only []
  cases hitem : c.item with
  | impl i =>
    rw [hitem] at htag
    simp only [htag, if_true]
    exact segment_generics_eq _ _ _ _ _ _ _ _
  | trait t =>
    rw [hitem] at htag
    simp only [htag, Bool.false_eq_true, if_false]
    cases himp : t.impl with
    | none =>
      simp only []
      exact segment_generics_eq _ _ _ _ _ _ _ _
    | some impl =>
      simp only []
      cases hassoc : env.lookup_associated_trait_impl impl.hirid with
      | none => rfl
      | some a =>
        simp only []
        exact segment_generics_eq _ _ _ _ _ _ _ _

theorem visit_QualifiedPathInType_projected (env : Env) (st : State)
    (path : QualifiedPath) (type_mappings : NodeMapping) (root : BaseType)
    (trait : TypePath) (trait_ref : TraitReference) (impl_resolved_id : NodeId)
    (impl_block_id : HirId) (lookup_associated : AssociatedImplTrait)
    (trait_item_ref : TraitItemReference)
    (hk : root.kind ≠ TypeKind.ERROR) (ht : path.trait = some trait)
    (hres : env.TraitResolver_Resolve trait = some trait_ref)
    (hbound : env.is_bound_satisfied_for_type root trait_ref = true)
    (hname : st.resolved_names.lookup path.qual_mappings.nodeid = some impl_resolved_id)
    (hhir : env.lookup_node_to_hir path.mappings.crate_num impl_resolved_id
      = some impl_block_id)
    (hassoc : env.lookup_associated_trait_impl impl_block_id = some lookup_associated)
    (hitem : trait_ref.lookup_trait_item path.associated_segment.ident_segment
      = some trait_item_ref) :
    visit_QualifiedPathInType env st path type_mappings root
      = continue_as_path env
          { st with trace := st.trace ++ [Event.setup_associated_types lookup_associated] }
          path root trait_item_ref
          (grab_projection env
            (env.get_projected_type lookup_associated trait_item_ref root
              path.associated_segment.mappings.hirid
              (match path.trait_generic_args with
                | some args => args
                | none => GenericArgs.create_empty UNKNOWN_LOCATION)
              path.associated_segment.locus)) := by
  unfold visit_QualifiedPathInType
  simp only [hk, if_false, ht, hres, hbound, Bool.true_eq_false, hname, hhir, hassoc, hitem]
  rfl

theorem resolve_root_segment_module (env : Env) (path : TypePath) (st : State)
    (offset : Nat) (id : NodeId) (root_tyty : Option BaseType) (seg : TypePathSegment)
    (h : names_module env st path.mappings.crate_num seg = true) :
    resolve_root_segment env path st offset id root_tyty seg true
      = RootOutcome.next (offset + 1) id root_tyty st := by
  rw [resolve_root_segment_eq]
  unfold names_module at h
  cases hr : segment_ref_node_id env st seg with
  | none => rw [hr] at h; simp at h
  | some r =>
    rw [hr] at h
    simp only [] at h ⊢
    by_cases hu : r = UNKNOWN_NODEID
    · rw [if_pos hu] at h; simp at h
    · rw [if_neg hu] at h
      unfold resolve_root_reference
      rw [if_neg hu]
      cases hh : env.lookup_node_to_hir path.mappings.crate_num r with
      | none => rw [hh] at h; simp at h
      | some ref =>
        rw [hh] at h
        simp only [] at h ⊢
        simp only [h, if_true]

theorem resolve_root_path_loop_modules (env : Env) (path : TypePath) (st : State)
    (id : NodeId) (root_tyty : Option BaseType) :
    ∀ (mods : List TypePathSegment) (offset : Nat),
      (∀ m ∈ mods, names_module env st path.mappings.crate_num m = true) →
      resolve_root_path_loop env path true mods st offset id root_tyty
        = RootOutcome.next (offset + mods.length) id root_tyty st
  | [], offset, _ => by simp [resolve_root_path_loop]
  | m :: rest, offset, h => by
    rw [resolve_root_path_loop, Bool.or_true,
      resolve_root_segment_module env path st offset id root_tyty m
        (h m (List.mem_cons_self _ _))]
    simp only []
    rw [resolve_root_path_loop_modules env path st id root_tyty rest (offset + 1)
      (fun x hx => h x (List.mem_cons_of_mem _ hx))]
    simp only [List.length_cons]
    congr 1
    omega

theorem resolve_root_segment_declared (env : Env) (path : TypePath) (st : State)
    (offset : Nat) (id : NodeId) (root_tyty : Option BaseType) (seg : TypePathSegment)
    (more : Bool) (r : NodeId) (lookup : BaseType)
    (h : declared_type env st path.mappings.crate_num seg = some (r, lookup)) :
    resolve_root_segment env path st offset id root_tyty seg more
      = resolve_root_generic_args env path
          (substitute_from_root env st root_tyty lookup).2 offset id seg r
          (substitute_from_root env st root_tyty lookup).1 := by
  rw [resolve_root_segment_eq]
  unfold declared_type at h
  cases hr : segment_ref_node_id env st seg with
  | none => rw [hr] at h; simp at h
  | some r' =>
    rw [hr] at h
    simp only [] at h ⊢
    by_cases hu : r' = UNKNOWN_NODEID
    · rw [if_pos hu] at h; simp at h
    · rw [if_neg hu] at h
      unfold resolve_root_reference
      rw [if_neg hu]
      cases hh : env.lookup_node_to_hir path.mappings.crate_num r' with
      | none => rw [hh] at h; simp at h
      | some ref =>
        rw [hh] at h
        simp only [] at h ⊢
        by_cases hm : env.lookup_module path.mappings.crate_num ref = true
        · rw [if_pos hm] at h; simp at h
        · rw [if_neg hm] at h
          rw [if_neg hm]
          cases ht : st.lookup_type ref with
          | none => rw [ht] at h; simp at h
          | some t =>
            rw [ht] at h
            simp only [Option.map_some', Option.some.injEq, Prod.mk.injEq] at h
            obtain ⟨h1, h2⟩ := h
            subst h1 h2
            rfl

theorem resolve_root_generic_args_next (env : Env) (path : TypePath) (st : State)
    (offset : Nat) (id : NodeId) (seg : TypePathSegment) (r : NodeId) (lookup : BaseType)
    (harg : ∀ ga, seg.generic_args = some ga → env.can_substitute lookup = true) :
    resolve_root_generic_args env path st offset id seg r lookup
      = RootOutcome.next (offset + 1) r (some (root_type env path seg lookup))
          (root_turn_state path st seg lookup) := by
  unfold resolve_root_generic_args root_type root_turn_state
  cases hg : seg.generic_args with
  | none => rfl
  | some ga =>
    simp only []
    rw [if_neg (by rw [harg ga hg]; simp)]

theorem declared_type_congr (env : Env) (st st' : State) (crate_num : Nat)
    (seg : TypePathSegment) (h : SameRecords st st') :
    declared_type env st' crate_num seg = declared_type env st crate_num seg := by
  unfold declared_type
  have hs : segment_ref_node_id env st' seg = segment_ref_node_id env st seg := by
    simp [segment_ref_node_id, h.2.2.1, h.2.2.2.1]
  rw [hs]
  simp only [State.lookup_type, h.1]

theorem root_turn_state_records (path : TypePath) (st : State) (seg : TypePathSegment)
    (lookup : BaseType) : SameRecords st (root_turn_state path st seg lookup) := by
  unfold root_turn_state
  cases seg.generic_args with
  | none => exact SameRecords.refl st
  | some ga => exact ⟨rfl, rfl, rfl, rfl, rfl⟩

theorem resolve_root_path_loop_to_root (env : Env) (st : State) (path : TypePath)
    (id : NodeId) (mods : List TypePathSegment) (seg : TypePathSegment)
    (rest : List TypePathSegment) (r : NodeId) (lookup : BaseType)
    (hsegs : path.segments = mods ++ seg :: rest)
    (hmods : ∀ m ∈ mods, names_module env st path.mappings.crate_num m = true)
    (hdecl : declared_type env st path.mappings.crate_num seg = some (r, lookup))
    (harg : ∀ ga, seg.generic_args = some ga → env.can_substitute lookup = true) :
    resolve_root_path_loop env path false path.segments st 0 id none
      = resolve_root_path_loop env path false rest (root_turn_state path st seg lookup)
          (mods.length + 1) r (some (root_type env path seg lookup)) := by
  rw [hsegs, resolve_root_path_loop_append]
  have hm : (!(seg :: rest).isEmpty || false) = true := by simp
  rw [hm, resolve_root_path_loop_modules env path st id none mods 0 hmods]
  simp only [Nat.zero_add]
  rw [resolve_root_path_loop, resolve_root_segment_declared env path st mods.length id none
    seg _ r lookup hdecl]
  have hs : substitute_from_root env st none lookup = (lookup, st) := rfl
  rw [hs]
  simp only []
  rw [resolve_root_generic_args_next env path st mods.length id seg r lookup harg]

theorem resolve_root_segment_module_last (env : Env) (path : TypePath) (st : State)
    (offset : Nat) (id : NodeId) (root_tyty : Option BaseType) (seg : TypePathSegment)
    (h : names_module env st path.mappings.crate_num seg = true) :
    resolve_root_segment env path st offset id root_tyty seg false
      = RootOutcome.returned (some (ErrorType path.mappings.hirid)) offset id
          (rust_error_at st seg.locus "expected value") := by
  rw [resolve_root_segment_eq]
  unfold names_module at h
  cases hr : segment_ref_node_id env st seg with
  | none => rw [hr] at h; simp at h
  | some r =>
    rw [hr] at h
    simp only [] at h ⊢
    by_cases hu : r = UNKNOWN_NODEID
    · rw [if_pos hu] at h; simp at h
    · rw [if_neg hu] at h
      unfold resolve_root_reference
      rw [if_neg hu]
      cases hh : env.lookup_node_to_hir path.mappings.crate_num r with
      | none => rw [hh] at h; simp at h
      | some ref =>
        rw [hh] at h
        simp only [] at h ⊢
        simp only [h, if_true]
        rfl

theorem names_module_congr (env : Env) (st st' : State) (crate_num : Nat)
    (seg : TypePathSegment) (h : SameRecords st st') :
    names_module env st' crate_num seg = names_module env st crate_num seg := by
  unfold names_module
  have hs : segment_ref_node_id env st' seg = segment_ref_node_id env st seg := by
    simp [segment_ref_node_id, h.2.2.1, h.2.2.2.1]
  rw [hs]

theorem segment_target_cases (env : Env) (st : State) (crate_num : Nat)
    (seg : TypePathSegment) :
    segment_ref_node_id env st seg = none
    ∨ (∃ r, segment_ref_node_id env st seg = some r
        ∧ target_unknown env st crate_num r = true)
    ∨ names_module env st crate_num seg = true
    ∨ ∃ r lookup, declared_type env st crate_num seg = some (r, lookup) := by
  unfold names_module declared_type target_unknown
  cases hr : segment_ref_node_id env st seg with
  | none => exact Or.inl rfl
  | some r =>
    right
    simp only []
    by_cases hu : r = UNKNOWN_NODEID
    · left
      exact ⟨r, rfl, by rw [if_pos hu]⟩
    · simp only [if_neg hu]
      cases hh : env.lookup_node_to_hir crate_num r with
      | none => left; exact ⟨r, rfl, by rw [if_neg hu, hh]⟩
      | some ref =>
        simp only []
        by_cases hm : env.lookup_module crate_num ref = true
        · right; left; exact hm
        · cases ht : st.lookup_type ref with
          | none =>
            left
            refine ⟨r, rfl, ?_⟩
            rw [if_neg hu, hh]
            simp [hm, ht]
          | some t =>
            right; right
            exact ⟨r, t, by rw [if_neg hm]; rfl⟩

/-! ## The claims -/

/-- C1, as stated, fails: with the trait `T` (DefId 1) both probed, paired with
the block `impl T for R`, and declared on the receiver, paired with no block,
the unioned entry is the probed one, and the candidate that `Probe` returns for
`foo` carries the probed block, not an unknown impl. -/
theorem union_bounds_declared_entry_does_not_replace :
    union_bounds [(Sample.traitT, some Sample.implTforR)] [(Sample.traitT, none)]
        = [(Sample.traitT, some Sample.implTforR)]
    ∧ specified_bounds (Sample.env [] Sample.probed_T) Sample.tyP = [(Sample.traitT, none)]
    ∧ (Probe (Sample.env [] Sample.probed_T) (Sample.state []) Sample.tyP "foo"
          false true false).map (fun r => r.1.map Sample.candidate_impl)
        = some [some Sample.implTforR] := by
  refine ⟨by decide, by decide, by decide⟩

/-- C1 (amended): when a trait `DefId` occurs among the probed bounds `a`, the
single entry for it in `union_bounds a b` is the first entry of `a` with that
`DefId` (with its impl block), whatever the declared bounds `b` hold; hence
`Probe` with `probe_bounds = true` returns, and every trait candidate it
returns for that trait carries the probed entry's trait and impl block; there
is such a candidate when the trait has an item of the sought name that the
required-item policy does not leave out. -/
theorem union_bounds_keeps_probed_entry (env : Env) (st : State) (receiver : BaseType)
    (name : String) (pi ig : Bool) (a : List (TraitReference × Option ImplBlock))
    (d : DefId) (e : TraitReference × Option ImplBlock)
    (ha : env.TypeBoundsProbe_Probe receiver = a)
    (he : a.find? (fun ref => decide (ref.1.defid = d)) = some e)
    (hknown : pi = true → ImplTypesKnown env st receiver name)
    (huse : TraitItemsUsable name ig (union_type_bounds env receiver)) :
    (∀ b, (union_bounds a b).find? (fun ref => decide (ref.1.defid = d)) = some e
        ∧ ∀ e' ∈ union_bounds a b, e'.1.defid = d → e' = e)
    ∧ ∃ cs calls, Probe env st receiver name pi true ig = some (cs, calls)
        ∧ (∀ c ∈ cs, ∀ tc, c.item = Candidate.trait tc → tc.trait_ref.defid = d →
            tc.trait_ref = e.1 ∧ tc.impl = e.2)
        ∧ ((∃ item, e.1.lookup_trait_item name = some item
              ∧ ¬ (ig = true ∧ item.optional = false)) →
            ∃ c ∈ cs, ∃ tc, c.item = Candidate.trait tc
              ∧ tc.trait_ref = e.1 ∧ tc.impl = e.2) := by
  obtain ⟨h1, h2⟩ := probed_entry_kept_of_some env st receiver name pi ig a d e ha he
  obtain ⟨cs, calls, hP⟩ := Probe_total env st receiver name pi ig hknown huse
  obtain ⟨h3, h4⟩ := h2 cs calls hP
  exact ⟨h1, cs, calls, hP, h3, fun hc => h4 ((trait_yields_iff name ig e).mpr hc)⟩

/-- C1 (amended), on the sample program: `T` is probed for the parameter `P`
and also declared on it; the entry and the candidate carry `impl T for R`. -/
theorem union_bounds_keeps_probed_entry_witness :
    (Sample.env [] Sample.probed_T).TypeBoundsProbe_Probe Sample.tyP
        = [(Sample.traitT, some Sample.implTforR)]
    ∧ [(Sample.traitT, some Sample.implTforR)].find? (fun ref => decide (ref.1.defid = 1))
        = some (Sample.traitT, some Sample.implTforR)
    ∧ TraitItemsUsable "foo" false
        (union_type_bounds (Sample.env [] Sample.probed_T) Sample.tyP)
    ∧ ((∀ b, (union_bounds [(Sample.traitT, some Sample.implTforR)] b).find?
              (fun ref => decide (ref.1.defid = 1)) = some (Sample.traitT, some Sample.implTforR)
          ∧ ∀ e' ∈ union_bounds [(Sample.traitT, some Sample.implTforR)] b,
              e'.1.defid = 1 → e' = (Sample.traitT, some Sample.implTforR))
        ∧ ∃ cs calls, Probe (Sample.env [] Sample.probed_T) (Sample.state []) Sample.tyP "foo"
              false true false = some (cs, calls)
          ∧ (∀ c ∈ cs, ∀ tc, c.item = Candidate.trait tc → tc.trait_ref.defid = 1 →
              tc.trait_ref = Sample.traitT ∧ tc.impl = some Sample.implTforR)
          ∧ ((∃ item, Sample.traitT.lookup_trait_item "foo" = some item
                ∧ ¬ (false = true ∧ item.optional = false)) →
              ∃ c ∈ cs, ∃ tc, c.item = Candidate.trait tc
                ∧ tc.trait_ref = Sample.traitT ∧ tc.impl = some Sample.implTforR)) :=
  ⟨rfl, by decide, by unfold TraitItemsUsable; decide,
    union_bounds_keeps_probed_entry (Sample.env [] Sample.probed_T) (Sample.state [])
      Sample.tyP "foo" false false [(Sample.traitT, some Sample.implTforR)] 1
      (Sample.traitT, some Sample.implTforR) rfl (by decide) (by intro h; cases h)
      (by unfold TraitItemsUsable; decide)⟩

/-- C2: the code on the path `R::a::b`, where `a` resolves to the struct `A` and
`A` has the inherent function `b`. The segment `a` resolves to `A`, and a probe
of `A` for `b` finds one candidate; yet both probes for `b` are made on the root
`R`, not on `A`, and the path is an error. -/
theorem resolve_segments_probes_stale_receiver :
    resolve_segment (Sample.env Sample.chain_items Sample.probed_none) 900 20
        Sample.chain_state Sample.tyR Sample.tyR (Sample.segment "a" 902 22)
      = some (SegmentOutcome.next 1070 Sample.tyR Sample.tyA
          { Sample.chain_state with
            trace := [Event.Probe Sample.tyR "a" true false true] })
    ∧ (Probe (Sample.env Sample.chain_items Sample.probed_none) Sample.chain_state
          Sample.tyA "b" true false true).map (fun r => r.1.length) = some 1
    ∧ (resolve_segments (Sample.env Sample.chain_items Sample.probed_none) Sample.chain_state
          1010 900 Sample.chain_segments 1 Sample.tyR (Sample.mapping 900) 20).map
        (fun r => (r.1, probe_calls r.2.trace))
      = some (ErrorType 900,
          [(Sample.tyR, "a", true, false, true), (Sample.tyR, "b", true, false, true),
           (Sample.tyR, "b", false, true, true)]) := by
  refine ⟨by decide, by decide, by rfl⟩

/-- C3, as stated, fails for a bare type parameter: the first call of `Probe`
for a segment probed on the parameter `P` has `probe_impls = false` (and
`ignore_mandatory_trait_items = false`). -/
theorem resolve_segment_param_first_probe_skips_impls :
    Sample.tyP.kind = TypeKind.PARAM
    ∧ (resolve_segment (Sample.env [] Sample.probed_none) 900 20 (Sample.state [])
          Sample.tyP Sample.tyP (Sample.segment "foo" 902 22)).map
        (fun out => probe_calls out.state.trace)
      = some [(Sample.tyP, "foo", false, false, false), (Sample.tyP, "foo", false, true, false)] := by
  refine ⟨by decide, by decide⟩

/-- C3 (amended): a turn of the segment loop returns (when the assertions it
reaches hold), and in it the first call of `Probe` is made with
`probe_impls = (receiver kind is not PARAM)` and `probe_bounds = false`; a
second call is made exactly when the first returned no candidate, with
`probe_impls = false` and `probe_bounds = true`; both calls are on the same
receiver and name with
`ignore_mandatory_trait_items = (receiver kind is not PARAM)`; no other call of
`Probe` is made in the turn. -/
theorem resolve_segment_probe_flags (env : Env) (expr_id : HirId) (expr_locus : Location)
    (st : State) (prev_segment tyseg : BaseType) (seg : TypePathSegment)
    (hknown : prev_segment.kind ≠ TypeKind.PARAM →
      ImplTypesKnown env st prev_segment seg.ident_segment)
    (huse : TraitItemsUsable seg.ident_segment (!decide (prev_segment.kind = TypeKind.PARAM))
      (union_type_bounds env prev_segment))
    (hassoc : AssociatedImplsKnown env prev_segment) :
    ∃ out first calls,
      resolve_segment env expr_id expr_locus st prev_segment tyseg seg = some out
      ∧ Probe env st prev_segment seg.ident_segment
          (!decide (prev_segment.kind = TypeKind.PARAM)) false
          (!decide (prev_segment.kind = TypeKind.PARAM)) = some (first, calls)
      ∧ probe_calls out.state.trace = probe_calls st.trace ++
          (if first.length = 0 then
            [(prev_segment, seg.ident_segment,
                !decide (prev_segment.kind = TypeKind.PARAM), false,
                !decide (prev_segment.kind = TypeKind.PARAM)),
             (prev_segment, seg.ident_segment, false, true,
                !decide (prev_segment.kind = TypeKind.PARAM))]
          else
            [(prev_segment, seg.ident_segment,
                !decide (prev_segment.kind = TypeKind.PARAM), false,
                !decide (prev_segment.kind = TypeKind.PARAM))]) := by
  obtain ⟨out, hout⟩ := resolve_segment_total env expr_id expr_locus st prev_segment tyseg seg
    hknown huse hassoc
  obtain ⟨first, calls, h1, h2⟩ :=
    probe_flags_of_some env expr_id expr_locus st prev_segment tyseg seg out hout
  exact ⟨out, first, calls, hout, h1, h2⟩

/-- C3 (amended), on the sample program: a turn on the parameter `P: T` for the
segment `foo`; the first call probes nothing and the second finds the `foo` of
the declared bound `T`. -/
theorem resolve_segment_probe_flags_witness :
    (resolve_segment (Sample.env [] Sample.probed_none) 900 20 (Sample.state [])
          Sample.tyP Sample.tyP (Sample.segment "foo" 902 22)).map
        (fun out => probe_calls out.state.trace)
      = some [(Sample.tyP, "foo", false, false, false), (Sample.tyP, "foo", false, true, false)]
    ∧ TraitItemsUsable "foo" (!decide (Sample.tyP.kind = TypeKind.PARAM))
        (union_type_bounds (Sample.env [] Sample.probed_none) Sample.tyP)
    ∧ AssociatedImplsKnown (Sample.env [] Sample.probed_none) Sample.tyP
    ∧ ∃ out first calls,
      resolve_segment (Sample.env [] Sample.probed_none) 900 20 (Sample.state [])
          Sample.tyP Sample.tyP (Sample.segment "foo" 902 22) = some out
      ∧ Probe (Sample.env [] Sample.probed_none) (Sample.state []) Sample.tyP
          (Sample.segment "foo" 902 22).ident_segment
          (!decide (Sample.tyP.kind = TypeKind.PARAM)) false
          (!decide (Sample.tyP.kind = TypeKind.PARAM)) = some (first, calls)
      ∧ probe_calls out.state.trace = probe_calls (Sample.state []).trace ++
          (if first.length = 0 then
            [(Sample.tyP, (Sample.segment "foo" 902 22).ident_segment,
                !decide (Sample.tyP.kind = TypeKind.PARAM), false,
                !decide (Sample.tyP.kind = TypeKind.PARAM)),
             (Sample.tyP, (Sample.segment "foo" 902 22).ident_segment, false, true,
                !decide (Sample.tyP.kind = TypeKind.PARAM))]
          else
            [(Sample.tyP, (Sample.segment "foo" 902 22).ident_segment,
                !decide (Sample.tyP.kind = TypeKind.PARAM), false,
                !decide (Sample.tyP.kind = TypeKind.PARAM))]) :=
  ⟨by decide, by unfold TraitItemsUsable; decide, by unfold AssociatedImplsKnown; decide,
    resolve_segment_probe_flags (Sample.env [] Sample.probed_none) 900 20 (Sample.state [])
      Sample.tyP Sample.tyP (Sample.segment "foo" 902 22)
      (by intro h; exact absurd (by decide) h)
      (by unfold TraitItemsUsable; decide) (by unfold AssociatedImplsKnown; decide)⟩

/-- C4: the code on the path `R::g`, where `g` is an inherent function with the
open parameter `T` and the receiver `R` needs no substitution and has no
binding at all. The type returned is the type of `g` as it was: it still needs
generic substitutions, it is not an error, and `SubstMapper::InferSubst`, which
would have closed it, was not called (the only call is the probe). -/
theorem resolve_segments_skips_infer_fallback :
    (Sample.env Sample.generic_items Sample.probed_none).needs_generic_substitutions
        Sample.tyR = false
    ∧ ((Sample.env Sample.generic_items Sample.probed_none).GetUsedSubstArgs_From
        Sample.tyR).is_error = true
    ∧ (resolve_segments (Sample.env Sample.generic_items Sample.probed_none)
          Sample.generic_state 1010 900 Sample.generic_segments 1 Sample.tyR
          (Sample.mapping 900) 20).map
        (fun r => (r.1, r.2.trace, r.2.diagnostics))
      = some (Sample.fndef 90 [Sample.t_param],
          [Event.Probe Sample.tyR "g" true false true], [])
    ∧ (Sample.env Sample.generic_items Sample.probed_none).needs_generic_substitutions
        (Sample.fndef 90 [Sample.t_param]) = true
    ∧ (Sample.env Sample.generic_items Sample.probed_none).needs_generic_substitutions
        ((Sample.env Sample.generic_items Sample.probed_none).SubstMapper_InferSubst
          (Sample.fndef 90 [Sample.t_param]) 24) = false := by
  refine ⟨by decide, by decide, by rfl, by decide, by decide⟩

/-- C5, as stated, fails: on the sample program, where `R` has the inherent
`foo` and the probed trait `T` supplies a default `foo`, `Probe` with both flags
set returns two candidates, yet resolving `R::foo` reports nothing and returns
the type of the inherent `foo`, which is not an error. -/
theorem resolve_segments_inherent_shadows_trait_item :
    (Probe (Sample.env Sample.foo_items Sample.probed_T) Sample.foo_state Sample.tyR "foo"
        true true true).map (fun r => r.1.map (fun c => c.type))
      = some [CandidateType.IMPL_FUNC, CandidateType.TRAIT_FUNC]
    ∧ (resolve_segments (Sample.env Sample.foo_items Sample.probed_T) Sample.foo_state
          1010 900 Sample.foo_segments 1 Sample.tyR (Sample.mapping 900) 20).map
        (fun r => (r.1, r.2.diagnostics, probe_calls r.2.trace))
      = some (Sample.fndef 100 [], [], [(Sample.tyR, "foo", true, false, true)])
    ∧ (Sample.fndef 100 []).kind ≠ TypeKind.ERROR := by
  refine ⟨by decide, by rfl, by decide⟩

/-- C5 (amended): for a receiver that is not a type parameter, with exactly one
matching inherent item named `name` and exactly one unioned trait having an
item of that name, that item being optional, `Probe` with both flags set
returns exactly two candidates, the inherent one and then the trait one; but a
turn of `resolve_segments` on a plain segment of that name probes the inherent
items alone, takes the inherent candidate without a second probe, and emits no
diagnostic: the segment resolves to the inherent item and no
multiple-applicable-items condition is reported. -/
theorem probe_finds_two_resolve_takes_inherent (env : Env) (st : State) (receiver : BaseType)
    (name : String) (ig : Bool)
    (hk : receiver.kind ≠ TypeKind.PARAM)
    (hknown : ImplTypesKnown env st receiver name)
    (hinh : (env.impl_items.filter (impl_item_matches env st receiver name)).length = 1)
    (htr : ((union_type_bounds env receiver).filter
        (fun ref => (ref.1.lookup_trait_item name).isSome)).length = 1)
    (hopt : ∀ ref ∈ union_type_bounds env receiver, ∀ item,
        ref.1.lookup_trait_item name = some item → item.optional = true)
    (huse : TraitItemsUsable name ig (union_type_bounds env receiver)) :
    ∃ c t i, c.item = Candidate.impl i ∧ c.is_impl_candidate = true
      ∧ t.is_trait_candidate = true
      ∧ (∃ calls, Probe env st receiver name true true ig = some ([c, t], calls))
      ∧ (∀ expr_id expr_locus tyseg seg,
          seg.ident_segment = name → seg.generic_args = none →
          resolve_segment env expr_id expr_locus st receiver tyseg seg
            = some (SegmentOutcome.next i.impl_item.get_impl_mappings.nodeid tyseg c.ty
                { st with trace := st.trace ++ [Event.Probe receiver name true false true] }))
      ∧ (∀ root_id expr_id seg mp loc r,
          seg.ident_segment = name → seg.generic_args = none →
          resolve_segments env st root_id expr_id [seg] 0 receiver mp loc = some r →
          r.2.diagnostics = st.diagnostics) := by
  -- the inherent probe
  obtain ⟨inh, hPi⟩ := Probe_impls_total env st receiver name ig hknown
  obtain ⟨_, hFi⟩ := Probe_impls_some env st receiver name ig inh [] hPi
  obtain ⟨e, c, _, hinh1, hofc⟩ := forall₂_singleton_left hFi hinh
  subst hinh1
  obtain ⟨hctag, _⟩ := impl_candidate_tag st e c hofc
  obtain ⟨_, _, hcitem, _⟩ := hofc
  -- the probe of the bounds
  obtain ⟨x, hPb⟩ := Probe_bounds_total env st receiver name ig huse
  have hFb := Probe_bounds_some env st receiver name ig x.1 x.2 hPb
  have hfilter : (union_type_bounds env receiver).filter (trait_yields name ig)
      = (union_type_bounds env receiver).filter
          (fun ref => (ref.1.lookup_trait_item name).isSome) := by
    apply List.filter_congr
    intro ref href
    unfold trait_yields
    cases hl : ref.1.lookup_trait_item name with
    | none => rfl
    | some item => simp [hopt ref href item hl]
  rw [hfilter] at hFb
  obtain ⟨ref, t, _, htr1, hoft⟩ := forall₂_singleton_left hFb htr
  obtain ⟨httag, _⟩ := trait_candidate_tag env receiver name ref t hoft
  have hPboth : Probe env st receiver name true true ig = some ([c, t], [] ++ x.2) := by
    rw [Probe_both_eq, hPi, hPb]
    simp only [htr1, List.singleton_append]
  have hturn : ∀ expr_id expr_locus tyseg seg,
      seg.ident_segment = name → seg.generic_args = none →
      resolve_segment env expr_id expr_locus st receiver tyseg seg
        = some (SegmentOutcome.next
            ({ impl_item := e.2.1, parent := some e.2.2 } :
              ImplItemCandidate).impl_item.get_impl_mappings.nodeid tyseg c.ty
            { st with trace := st.trace ++ [Event.Probe receiver name true false true] }) := by
    intro expr_id expr_locus tyseg seg hname hgen
    have hP1 : Probe env st receiver seg.ident_segment true false true = some ([c], []) := by
      rw [hname, Probe_impls_ig env st receiver name true ig]
      exact hPi
    unfold resolve_segment call_Probe
    simp only [hk, decide_False, Bool.not_false, hP1, List.length_singleton, one_ne_zero,
      if_false, List.append_nil]
    unfold take_candidate
    simp only [List.length_singleton, gt_iff_lt, lt_self_iff_false, if_false, hctag, if_true,
      hcitem, hgen, hname]
  refine ⟨c, t, _, hcitem, hctag, httag, ⟨_, hPboth⟩, hturn, ?_⟩
  intro root_id expr_id seg mp loc r hname hgen hres
  unfold resolve_segments at hres
  simp only [List.drop_zero, resolve_segments_loop, hturn expr_id loc receiver seg hname hgen]
    at hres
  split at hres
  · split at hres
    · simp at hres
    · rename_i ty st1 hfin
      have h1 := final_substitution_diagnostics env _ _ _ _ _ _ hfin
      split at hres
      · simp only [Option.some.injEq] at hres
        rw [← hres]
        exact h1
      · rw [finish_diagnostics st1 r.2 mp _ ty r.1 hres, h1]
  · have h2 := finish_diagnostics _ _ _ _ _ _ hres
    exact h2

/-- C5 (amended), on the sample program: the struct `R` with the inherent `foo`
and the default `foo` of the probed trait `T`. -/
theorem probe_finds_two_resolve_takes_inherent_witness :
    Sample.tyR.kind ≠ TypeKind.PARAM
    ∧ ((Sample.env Sample.foo_items Sample.probed_T).impl_items.filter
        (impl_item_matches (Sample.env Sample.foo_items Sample.probed_T) Sample.foo_state
          Sample.tyR "foo")).length = 1
    ∧ ((union_type_bounds (Sample.env Sample.foo_items Sample.probed_T) Sample.tyR).filter
        (fun ref => (ref.1.lookup_trait_item "foo").isSome)).length = 1
    ∧ ∃ c t i, c.item = Candidate.impl i ∧ c.is_impl_candidate = true
      ∧ t.is_trait_candidate = true
      ∧ (∃ calls, Probe (Sample.env Sample.foo_items Sample.probed_T) Sample.foo_state
            Sample.tyR "foo" true true true = some ([c, t], calls))
      ∧ (∀ expr_id expr_locus tyseg seg,
          seg.ident_segment = "foo" → seg.generic_args = none →
          resolve_segment (Sample.env Sample.foo_items Sample.probed_T) expr_id expr_locus
              Sample.foo_state Sample.tyR tyseg seg
            = some (SegmentOutcome.next i.impl_item.get_impl_mappings.nodeid tyseg c.ty
                { Sample.foo_state with
                  trace := Sample.foo_state.trace
                    ++ [Event.Probe Sample.tyR "foo" true false true] }))
      ∧ (∀ root_id expr_id seg mp loc r,
          seg.ident_segment = "foo" → seg.generic_args = none →
          resolve_segments (Sample.env Sample.foo_items Sample.probed_T) Sample.foo_state
            root_id expr_id [seg] 0 Sample.tyR mp loc = some r →
          r.2.diagnostics = Sample.foo_state.diagnostics) :=
  ⟨by decide, by decide, by decide,
    probe_finds_two_resolve_takes_inherent (Sample.env Sample.foo_items Sample.probed_T)
      Sample.foo_state Sample.tyR "foo" true (by decide)
      (by unfold ImplTypesKnown; decide) (by decide) (by decide)
      (by
        intro ref href item hl
        rw [Sample.foo_union, List.mem_singleton] at href
        subst href
        rw [Sample.foo_lookup item hl]
        rfl)
      (by unfold TraitItemsUsable; decide)⟩

/-- C6, as stated, fails: on the sample program, where `bar` is declared in the
block `impl U for R`, the inherent probe of `R` for `bar` returns an `IMPL_FUNC`
candidate whose parent block has a trait tag. -/
theorem probe_returns_item_of_trait_impl :
    (Probe (Sample.env Sample.trait_impl_items Sample.probed_none) Sample.trait_impl_state
        Sample.tyR "bar" true false true).map
      (fun r => r.1.map (fun c => (c.type, Sample.parent_has_trait_ref c)))
      = some [(CandidateType.IMPL_FUNC, some true)] := by
  decide

/-- C6 (amended): `Probe` with `probe_impls = true` returns, and every inherent
(`IMPL_CONST` / `IMPL_TYPE_ALIAS` / `IMPL_FUNC`) candidate it returns is built
from an iterated impl item named `name`, and has as its parent the impl block
of that item, a block whose Self type is accepted by `receiver->can_eq`; the
block may or may not carry a trait tag, since no test of the tag is made. -/
theorem inherent_candidate_parent_is_item_block (env : Env) (st : State)
    (receiver : BaseType) (name : String) (pb ig : Bool)
    (hknown : ImplTypesKnown env st receiver name)
    (huse : pb = true → TraitItemsUsable name ig (union_type_bounds env receiver)) :
    ∃ cs calls, Probe env st receiver name true pb ig = some (cs, calls)
      ∧ ∀ c ∈ cs, c.is_impl_candidate = true →
        ∃ e ∈ env.impl_items,
          c.item = Candidate.impl { impl_item := e.2.1, parent := some e.2.2 }
          ∧ name = (item_decl e.2.1).name
          ∧ ∃ impl_block_ty, st.lookup_type e.2.2.type_hirid = some impl_block_ty
              ∧ env.can_eq receiver impl_block_ty false = true := by
  have hret : ∃ cs calls, Probe env st receiver name true pb ig = some (cs, calls) := by
    cases pb with
    | false =>
      obtain ⟨cs, hcs⟩ := Probe_impls_total env st receiver name ig hknown
      exact ⟨cs, [], hcs⟩
    | true => exact Probe_total env st receiver name true ig (fun _ => hknown) (huse rfl)
  obtain ⟨cs, calls, hP⟩ := hret
  exact ⟨cs, calls, hP, inherent_parent_of_some env st receiver name pb ig cs calls hP⟩

/-- C6 (amended), on the sample program: the candidate for `bar`, declared in
the block `impl U for R`. -/
theorem inherent_candidate_parent_is_item_block_witness :
    ImplTypesKnown (Sample.env Sample.trait_impl_items Sample.probed_none)
        Sample.trait_impl_state Sample.tyR "bar"
    ∧ ∃ cs calls,
      Probe (Sample.env Sample.trait_impl_items Sample.probed_none) Sample.trait_impl_state
          Sample.tyR "bar" true false true = some (cs, calls)
      ∧ ∀ c ∈ cs, c.is_impl_candidate = true →
        ∃ e ∈ (Sample.env Sample.trait_impl_items Sample.probed_none).impl_items,
          c.item = Candidate.impl { impl_item := e.2.1, parent := some e.2.2 }
          ∧ "bar" = (item_decl e.2.1).name
          ∧ ∃ impl_block_ty,
              Sample.trait_impl_state.lookup_type e.2.2.type_hirid = some impl_block_ty
              ∧ (Sample.env Sample.trait_impl_items Sample.probed_none).can_eq Sample.tyR
                  impl_block_ty false = true :=
  ⟨by unfold ImplTypesKnown; decide,
    inherent_candidate_parent_is_item_block
      (Sample.env Sample.trait_impl_items Sample.probed_none) Sample.trait_impl_state
      Sample.tyR "bar" false true (by unfold ImplTypesKnown; decide) (by intro h; cases h)⟩

/-- C7: when the context has the types that the probe asserts to be there,
`Probe (receiver, name, true, false, _)` returns, in the order of the iteration
of the impl items, exactly one candidate for each iterated item whose block's
Self type is accepted by `receiver->can_eq` and whose identifier is `name`, and
nothing else; the candidate's tag follows the variant of the item
(`IMPL_TYPE_ALIAS`, `IMPL_CONST`, `IMPL_FUNC`), its type is the one the context
stores for the item's id, and its payload is the item with its block. -/
theorem Probe_inherent_candidates (env : Env) (st : State) (receiver : BaseType)
    (name : String) (ig : Bool) (h : ImplTypesKnown env st receiver name) :
    ∃ cs, Probe env st receiver name true false ig = some (cs, [])
      ∧ List.Forall₂
          (fun (e : HirId × ImplItem × ImplBlock) (c : PathProbeCandidate) =>
            c.type = (match e.2.1 with
              | ImplItem.TypeAlias _ => CandidateType.IMPL_TYPE_ALIAS
              | ImplItem.ConstantItem _ => CandidateType.IMPL_CONST
              | ImplItem.Function _ => CandidateType.IMPL_FUNC)
            ∧ st.lookup_type (item_decl e.2.1).mappings.hirid = some c.ty
            ∧ c.item = Candidate.impl { impl_item := e.2.1, parent := some e.2.2 })
          (env.impl_items.filter (fun e =>
            match st.lookup_type e.2.2.type_hirid with
            | none => false
            | some impl_block_ty =>
              env.can_eq receiver impl_block_ty false
                && decide (name = (item_decl e.2.1).name)))
          cs := by
  obtain ⟨cs, hP⟩ := Probe_impls_total env st receiver name ig h
  obtain ⟨_, hF⟩ := Probe_impls_some env st receiver name ig cs [] hP
  refine ⟨cs, hP, ?_⟩
  have hfil : (env.impl_items.filter (fun e =>
            match st.lookup_type e.2.2.type_hirid with
            | none => false
            | some impl_block_ty =>
              env.can_eq receiver impl_block_ty false
                && decide (name = (item_decl e.2.1).name)))
      = env.impl_items.filter (impl_item_matches env st receiver name) := rfl
  rw [hfil]
  refine List.Forall₂.imp ?_ hF
  intro e c hof
  obtain ⟨h1, h2, h3, _⟩ := hof
  refine ⟨?_, h2, h3⟩
  rw [h1]
  cases e.2.1 <;> rfl

/-- C7, on the sample program: the probe of `R` for `a` among the items of
`impl R` and `impl A`. -/
theorem Probe_inherent_candidates_witness :
    ImplTypesKnown (Sample.env Sample.chain_items Sample.probed_none) Sample.chain_state
        Sample.tyR "a"
    ∧ ∃ cs, Probe (Sample.env Sample.chain_items Sample.probed_none) Sample.chain_state
          Sample.tyR "a" true false true = some (cs, [])
      ∧ List.Forall₂
          (fun (e : HirId × ImplItem × ImplBlock) (c : PathProbeCandidate) =>
            c.type = (match e.2.1 with
              | ImplItem.TypeAlias _ => CandidateType.IMPL_TYPE_ALIAS
              | ImplItem.ConstantItem _ => CandidateType.IMPL_CONST
              | ImplItem.Function _ => CandidateType.IMPL_FUNC)
            ∧ Sample.chain_state.lookup_type (item_decl e.2.1).mappings.hirid = some c.ty
            ∧ c.item = Candidate.impl { impl_item := e.2.1, parent := some e.2.2 })
          ((Sample.env Sample.chain_items Sample.probed_none).impl_items.filter (fun e =>
            match Sample.chain_state.lookup_type e.2.2.type_hirid with
            | none => false
            | some impl_block_ty =>
              (Sample.env Sample.chain_items Sample.probed_none).can_eq Sample.tyR
                  impl_block_ty false
                && decide ("a" = (item_decl e.2.1).name)))
          cs :=
  ⟨by unfold ImplTypesKnown; decide,
    Probe_inherent_candidates (Sample.env Sample.chain_items Sample.probed_none)
      Sample.chain_state Sample.tyR "a" true (by unfold ImplTypesKnown; decide)⟩

/-- C8: a `Probe` call with `probe_impls` and `probe_bounds` both set returns
(when the assertions of the probe hold), and the list it returns is the list of
the inherent probe followed by the list of the probe of the bounds; the first
holds impl candidates only, the second trait candidates only, and the `DefId`s
of the traits of the second are strictly increasing (so no `DefId` occurs
twice), whatever the probed and declared bound lists are. -/
theorem Probe_inherent_then_traits_by_defid (env : Env) (st : State) (receiver : BaseType)
    (name : String) (ig : Bool)
    (hknown : ImplTypesKnown env st receiver name)
    (huse : TraitItemsUsable name ig (union_type_bounds env receiver)) :
    ∃ cs calls, Probe env st receiver name true true ig = some (cs, calls)
      ∧ ∃ inh tr, cs = inh ++ tr
        ∧ (∃ ci, Probe env st receiver name true false ig = some (inh, ci))
        ∧ (∃ ct, Probe env st receiver name false true ig = some (tr, ct))
        ∧ (∀ c ∈ inh, c.is_impl_candidate = true)
        ∧ (∀ c ∈ tr, c.is_trait_candidate = true)
        ∧ ∃ ds : List DefId, tr.map candidate_trait_defid = ds.map some
            ∧ ds.Pairwise (fun x y => x < y) := by
  obtain ⟨cs, calls, hP⟩ := Probe_total env st receiver name true ig (fun _ => hknown) huse
  exact ⟨cs, calls, hP, inherent_then_traits_of_some env st receiver name ig cs calls hP⟩

/-- C8, on the sample program: `R` has the inherent `foo`; the probed bounds
name `V` (DefId 3) before `T` (DefId 1), and `T` twice. -/
theorem Probe_inherent_then_traits_by_defid_witness :
    (Probe (Sample.env Sample.foo_items Sample.probed_VTT) Sample.foo_state Sample.tyR "foo"
        true true true).map (fun r => r.1.map (fun c => (c.type, candidate_trait_defid c)))
      = some [(CandidateType.IMPL_FUNC, none), (CandidateType.TRAIT_FUNC, some 1),
          (CandidateType.TRAIT_FUNC, some 3)]
    ∧ ImplTypesKnown (Sample.env Sample.foo_items Sample.probed_VTT) Sample.foo_state
        Sample.tyR "foo"
    ∧ TraitItemsUsable "foo" true
        (union_type_bounds (Sample.env Sample.foo_items Sample.probed_VTT) Sample.tyR)
    ∧ ∃ cs calls,
      Probe (Sample.env Sample.foo_items Sample.probed_VTT) Sample.foo_state Sample.tyR "foo"
        true true true = some (cs, calls)
      ∧ ∃ inh tr, cs = inh ++ tr
        ∧ (∃ ci, Probe (Sample.env Sample.foo_items Sample.probed_VTT) Sample.foo_state
            Sample.tyR "foo" true false true = some (inh, ci))
        ∧ (∃ ct, Probe (Sample.env Sample.foo_items Sample.probed_VTT) Sample.foo_state
            Sample.tyR "foo" false true true = some (tr, ct))
        ∧ (∀ c ∈ inh, c.is_impl_candidate = true)
        ∧ (∀ c ∈ tr, c.is_trait_candidate = true)
        ∧ ∃ ds : List DefId, tr.map candidate_trait_defid = ds.map some
            ∧ ds.Pairwise (fun x y => x < y) :=
  ⟨by decide, by unfold ImplTypesKnown; decide, by unfold TraitItemsUsable; decide,
    Probe_inherent_then_traits_by_defid (Sample.env Sample.foo_items Sample.probed_VTT)
      Sample.foo_state Sample.tyR "foo" true (by unfold ImplTypesKnown; decide)
      (by unfold TraitItemsUsable; decide)⟩

/-- C9: a `Probe` call with `probe_bounds = true` returns (when the assertions
of the probe hold), and for what it returns: an entry of the unioned bounds
gives a candidate (carrying the entry's trait and impl) if and only if its
trait has an item named `name` and it is not the case that
`ignore_mandatory_trait_items` is set and the item is required; the number of
candidates for the trait of an entry is one in that case and zero otherwise;
every trait candidate comes from an entry of the union, and its item is the one
looked up by `name`, so with the flag set no trait candidate refers to a
required item; and with the flag clear every unioned trait having an item of
that name has exactly one candidate. -/
theorem Probe_trait_candidate_iff (env : Env) (st : State) (receiver : BaseType)
    (name : String) (pi ig : Bool)
    (hknown : pi = true → ImplTypesKnown env st receiver name)
    (huse : TraitItemsUsable name ig (union_type_bounds env receiver)) :
    ∃ cs calls, Probe env st receiver name pi true ig = some (cs, calls)
    ∧ (∀ ref ∈ union_type_bounds env receiver,
      ((∃ c ∈ cs, ∃ item, c.item
            = Candidate.trait { trait_ref := ref.1, item_ref := item, impl := ref.2 })
        ↔ (∃ item, ref.1.lookup_trait_item name = some item
            ∧ ¬ (ig = true ∧ item.optional = false)))
      ∧ ((∃ item, ref.1.lookup_trait_item name = some item
            ∧ ¬ (ig = true ∧ item.optional = false)) →
          cs.countP (fun c => decide (candidate_trait_defid c = some ref.1.defid)) = 1)
      ∧ (¬ (∃ item, ref.1.lookup_trait_item name = some item
            ∧ ¬ (ig = true ∧ item.optional = false)) →
          cs.countP (fun c => decide (candidate_trait_defid c = some ref.1.defid)) = 0))
    ∧ (∀ c ∈ cs, ∀ t, c.item = Candidate.trait t →
        (t.trait_ref, t.impl) ∈ union_type_bounds env receiver
        ∧ t.trait_ref.lookup_trait_item name = some t.item_ref
        ∧ (ig = true → t.item_ref.optional = true))
    ∧ (ig = false → ∀ ref ∈ union_type_bounds env receiver,
        (ref.1.lookup_trait_item name).isSome = true →
        cs.countP (fun c => decide (candidate_trait_defid c = some ref.1.defid)) = 1) := by
  obtain ⟨cs, calls, hP⟩ := Probe_total env st receiver name pi ig hknown huse
  exact ⟨cs, calls, hP, trait_candidate_iff_of_some env st receiver name pi ig cs calls hP⟩

/-- C9, on the sample program: the probed bounds are `U`, whose `bar` is
required, and `T`, whose `foo` is optional. With the flag set `bar` gives no
candidate and `foo` gives one; with the flag clear `bar` gives one. -/
theorem Probe_trait_candidate_iff_witness :
    (Probe (Sample.env [] Sample.probed_UT) (Sample.state []) Sample.tyR "bar"
        false true true).map (fun r => r.1.map candidate_trait_defid) = some []
    ∧ (Probe (Sample.env [] Sample.probed_UT) (Sample.state []) Sample.tyR "bar"
        false true false).map (fun r => r.1.map candidate_trait_defid) = some [some 2]
    ∧ (Probe (Sample.env [] Sample.probed_UT) (Sample.state []) Sample.tyR "foo"
        false true true).map (fun r => r.1.map candidate_trait_defid) = some [some 1]
    ∧ TraitItemsUsable "foo" true
        (union_type_bounds (Sample.env [] Sample.probed_UT) Sample.tyR)
    ∧ ∃ cs calls,
      Probe (Sample.env [] Sample.probed_UT) (Sample.state []) Sample.tyR "foo"
        false true true = some (cs, calls)
      ∧ (∀ ref ∈ union_type_bounds (Sample.env [] Sample.probed_UT) Sample.tyR,
          ((∃ c ∈ cs, ∃ item, c.item
                = Candidate.trait { trait_ref := ref.1, item_ref := item, impl := ref.2 })
            ↔ (∃ item, ref.1.lookup_trait_item "foo" = some item
                ∧ ¬ (true = true ∧ item.optional = false)))
          ∧ ((∃ item, ref.1.lookup_trait_item "foo" = some item
                ∧ ¬ (true = true ∧ item.optional = false)) →
              cs.countP (fun c => decide (candidate_trait_defid c = some ref.1.defid)) = 1)
          ∧ (¬ (∃ item, ref.1.lookup_trait_item "foo" = some item
                ∧ ¬ (true = true ∧ item.optional = false)) →
              cs.countP (fun c => decide (candidate_trait_defid c = some ref.1.defid)) = 0))
      ∧ (∀ c ∈ cs, ∀ t, c.item = Candidate.trait t →
          (t.trait_ref, t.impl) ∈ union_type_bounds (Sample.env [] Sample.probed_UT) Sample.tyR
          ∧ t.trait_ref.lookup_trait_item "foo" = some t.item_ref
          ∧ (true = true → t.item_ref.optional = true))
      ∧ (true = false → ∀ ref ∈ union_type_bounds (Sample.env [] Sample.probed_UT) Sample.tyR,
          (ref.1.lookup_trait_item "foo").isSome = true →
          cs.countP (fun c => decide (candidate_trait_defid c = some ref.1.defid)) = 1) :=
  ⟨by decide, by decide, by decide, by unfold TraitItemsUsable; decide,
    Probe_trait_candidate_iff (Sample.env [] Sample.probed_UT) (Sample.state []) Sample.tyR
      "foo" false true (by intro h; cases h) (by unfold TraitItemsUsable; decide)⟩

/-- C10: `Probe` with `probe_bounds = true` returns (when the assertions of the
probe hold), and for every trait candidate it returns: if the type of the
matched trait item is a function definition (`FNDEF`), the candidate's type is
the result of `SubstMapperInternal::Resolve` on it with the single binding of
its parameter `Self` to a clone of the receiver, and not the trait-level type
itself; if the item's type is not a function definition, which is the case of a
constant or a type alias, the candidate's type is the trait item's type
unchanged. -/
theorem trait_candidate_type (env : Env) (st : State) (receiver : BaseType)
    (name : String) (pi ig : Bool)
    (hknown : pi = true → ImplTypesKnown env st receiver name)
    (huse : TraitItemsUsable name ig (union_type_bounds env receiver)) :
    ∃ cs calls, Probe env st receiver name pi true ig = some (cs, calls)
    ∧ ∀ c ∈ cs, ∀ t, c.item = Candidate.trait t →
      (t.item_ref.tyty.kind = TypeKind.FNDEF →
        ∃ param,
          t.item_ref.tyty.substs.find?
              (fun param_mapping =>
                decide (param_mapping.generic_param.type_representation = "Self"))
            = some param
          ∧ c.ty = env.SubstMapperInternal_Resolve t.item_ref.tyty
              { mappings := [{ param := param, argument := receiver.clone }]
                locus := UNKNOWN_LOCATION })
      ∧ (t.item_ref.tyty.kind ≠ TypeKind.FNDEF → c.ty = t.item_ref.tyty) := by
  obtain ⟨cs, calls, hP⟩ := Probe_total env st receiver name pi ig hknown huse
  exact ⟨cs, calls, hP, trait_candidate_type_of_some env st receiver name pi ig cs calls hP⟩

/-- C10, on the sample program: the probed trait `W` has the function `foo` and
the constant `N` of type `A`; the candidate for `foo` has the substituted type
(`Self` is bound), the candidate for `N` has the type `A`. -/
theorem trait_candidate_type_witness :
    (Probe (Sample.env [] Sample.probed_W) (Sample.state []) Sample.tyR "foo"
        false true true).map (fun r => r.1.map (fun c => (c.type, c.ty)))
      = some [(CandidateType.TRAIT_FUNC, Sample.fndef 200 [])]
    ∧ (Probe (Sample.env [] Sample.probed_W) (Sample.state []) Sample.tyR "N"
        false true true).map (fun r => r.1.map (fun c => (c.type, c.ty)))
      = some [(CandidateType.TRAIT_ITEM_CONST, Sample.tyA)]
    ∧ TraitItemsUsable "foo" true
        (union_type_bounds (Sample.env [] Sample.probed_W) Sample.tyR)
    ∧ ∃ cs calls,
      Probe (Sample.env [] Sample.probed_W) (Sample.state []) Sample.tyR "foo"
        false true true = some (cs, calls)
      ∧ ∀ c ∈ cs, ∀ t, c.item = Candidate.trait t →
        (t.item_ref.tyty.kind = TypeKind.FNDEF →
          ∃ param,
            t.item_ref.tyty.substs.find?
                (fun param_mapping =>
                  decide (param_mapping.generic_param.type_representation = "Self"))
              = some param
            ∧ c.ty = (Sample.env [] Sample.probed_W).SubstMapperInternal_Resolve
                t.item_ref.tyty
                { mappings := [{ param := param, argument := Sample.tyR.clone }]
                  locus := UNKNOWN_LOCATION })
        ∧ (t.item_ref.tyty.kind ≠ TypeKind.FNDEF → c.ty = t.item_ref.tyty) :=
  ⟨by decide, by decide, by unfold TraitItemsUsable; decide,
    trait_candidate_type (Sample.env [] Sample.probed_W) (Sample.state []) Sample.tyR
      "foo" false true (by intro h; cases h) (by unfold TraitItemsUsable; decide)⟩

/-- C11, as stated, fails: on the path `R::x` of the sample program the segment
`R`, at index 0, resolves to the struct `R`; the name of the segment `x`, at
index 1, is resolved to a node whose definition is not found, so its target
cannot be determined. The walk does not return the struct `R`: it returns the
error type of the path, with a diagnostic. -/
theorem resolve_root_path_later_segment_without_definition :
    resolve_root_path_loop (Sample.root_env [] Sample.probed_none)
        (Sample.path 900 [Sample.segment "R" 901 21, Sample.segment "x" 907 27]) true
        [Sample.segment "R" 901 21] Sample.root_state 0 UNKNOWN_NODEID none
      = RootOutcome.next 1 1010 (some Sample.tyR) Sample.root_state
    ∧ segment_ref_node_id (Sample.root_env [] Sample.probed_none) Sample.root_state
        (Sample.segment "x" 907 27) = none
    ∧ (resolve_root_path (Sample.root_env [] Sample.probed_none) Sample.root_state
        (Sample.path 900 [Sample.segment "R" 901 21, Sample.segment "x" 907 27])
        UNKNOWN_NODEID).root = some (ErrorType 900)
    ∧ (resolve_root_path (Sample.root_env [] Sample.probed_none) Sample.root_state
        (Sample.path 900 [Sample.segment "R" 901 21, Sample.segment "x" 907 27])
        UNKNOWN_NODEID).st.diagnostics
      = [{ locus := 20, ranges := [], message := "unknown reference for resolved name" }]
    ∧ some (ErrorType 900) ≠ some Sample.tyR := by
  refine ⟨by rfl, by rfl, by rfl, by rfl, by decide⟩

/-- C11 (amended): in `TypeCheckType::resolve_root_path`, the target of a
segment cannot be determined when the segment's name is resolved to a node whose
definition is not found (`segment_ref_node_id` is `none`), or when the node it
refers to is unknown, has no HIR id, or is not a module and has no type
(`target_unknown`). At index 0 either case gives the error type carrying the
path's id and one diagnostic, `*offset` being 0. At an index greater than 0,
reached after the turns for the segments `pre` left the root type `t`: a missing
definition again gives the error type of the path and one diagnostic; an unknown
target stops the walk without a diagnostic, the root returned is `t`, and
`*offset` is the number of the segments `pre` consumed before. -/
theorem resolve_root_path_unknown_target (env : Env) (st : State) (path : TypePath)
    (root_resolved_node_id : NodeId) :
    (∀ seg rest, path.segments = seg :: rest →
      (segment_ref_node_id env st seg = none
        ∨ ∃ r, segment_ref_node_id env st seg = some r
            ∧ target_unknown env st path.mappings.crate_num r = true) →
      ∃ d, resolve_root_path env st path root_resolved_node_id
        = { root := some (ErrorType path.mappings.hirid), offset := 0
            root_resolved_node_id := root_resolved_node_id
            st := { st with diagnostics := st.diagnostics ++ [d]
                            trace := st.trace ++ [Event.rust_error_at d] } })
    ∧ (∀ pre seg post offset id t st1, path.segments = pre ++ seg :: post →
        resolve_root_path_loop env path true pre st 0 root_resolved_node_id none
          = RootOutcome.next offset id (some t) st1 →
        pre ≠ [] ∧ offset = pre.length ∧ st1.diagnostics = st.diagnostics
        ∧ (segment_ref_node_id env st seg = none →
            ∃ d, resolve_root_path env st path root_resolved_node_id
              = { root := some (ErrorType path.mappings.hirid), offset := pre.length
                  root_resolved_node_id := id
                  st := { st1 with diagnostics := st1.diagnostics ++ [d]
                                   trace := st1.trace ++ [Event.rust_error_at d] } })
        ∧ (∀ r, segment_ref_node_id env st seg = some r →
            target_unknown env st path.mappings.crate_num r = true →
            resolve_root_path env st path root_resolved_node_id
              = { root := some t, offset := pre.length, root_resolved_node_id := id
                  st := st1 })) := by
  constructor
  · intro seg rest hsegs hunk
    have hturn : ∃ message locus,
        resolve_root_segment env path st 0 root_resolved_node_id none seg
            (!rest.isEmpty || false)
          = RootOutcome.returned (some (ErrorType path.mappings.hirid)) 0
              root_resolved_node_id (rust_error_at st locus message) := by
      rw [resolve_root_segment_eq]
      rcases hunk with hnone | ⟨r, hr, hu⟩
      · rw [hnone]; exact ⟨_, _, rfl⟩
      · rw [hr]
        obtain ⟨m, hm⟩ := (resolve_root_reference_unknown env path st 0
          root_resolved_node_id none seg (!rest.isEmpty || false) r hu).1 rfl
        exact ⟨m, seg.locus, hm⟩
    obtain ⟨message, locus, hturn⟩ := hturn
    refine ⟨{ locus := locus, ranges := [], message := message }, ?_⟩
    apply resolve_root_path_returned
    rw [hsegs]
    simp only [resolve_root_path_loop, hturn]
    rfl
  · intro pre seg post offset id t st1 hsegs hpre
    have fpre := resolve_root_path_loop_frame env path true pre st 0 root_resolved_node_id
      none
    rw [hpre] at fpre
    obtain ⟨hoff, hdiag⟩ := fpre.2.2 offset id (some t) st1 rfl
    have hrec : SameRecords st st1 := fpre.1
    have hne : pre ≠ [] := by
      intro hnil
      rw [hnil] at hpre
      simp [resolve_root_path_loop] at hpre
    have hoff' : offset = pre.length := by omega
    have hpos : offset ≠ 0 := by
      rw [hoff']
      exact fun h => hne (List.length_eq_zero.mp h)
    have hrefs := resolve_root_segment_records env path st st1 offset id (some t) seg
      (!post.isEmpty || false) hrec
    have hloop : resolve_root_path_loop env path false path.segments st 0
        root_resolved_node_id none
        = match resolve_root_segment env path st1 offset id (some t) seg
            (!post.isEmpty || false) with
          | RootOutcome.returned r o i s => RootOutcome.returned r o i s
          | RootOutcome.next o i r s => resolve_root_path_loop env path false post s o i r := by
      rw [hsegs, resolve_root_path_loop_append]
      have hm : (!(seg :: post).isEmpty || false) = true := by simp
      rw [hm, hpre]
      simp only [resolve_root_path_loop]
    refine ⟨hne, hoff', hdiag, ?_, ?_⟩
    · intro hnone
      refine ⟨{ locus := path.locus, ranges := []
                message := "unknown reference for resolved name" }, ?_⟩
      apply resolve_root_path_returned
      rw [hloop, resolve_root_segment_eq, hrefs.1, hnone, ← hoff']
      rfl
    · intro r hr hu
      apply resolve_root_path_returned
      rw [hloop, resolve_root_segment_eq, hrefs.1, hr]
      simp only []
      rw [(resolve_root_reference_unknown env path st1 offset id (some t) seg _ r
          (by rw [hrefs.2]; exact hu)).2 hpos, ← hoff']

/-- C11 (amended), on the sample program: on the path `R::y`, where the segment
`R` resolves to the struct `R` and nothing is recorded for the segment `y`, the
walk stops at `y` and returns the struct `R` with `*offset = 1`, the state being
left as it was. -/
theorem resolve_root_path_unknown_target_witness :
    resolve_root_path (Sample.root_env [] Sample.probed_none) Sample.root_state
        (Sample.path 900 [Sample.segment "R" 901 21, Sample.segment "y" 908 28])
        UNKNOWN_NODEID
      = { root := some Sample.tyR, offset := 1, root_resolved_node_id := 1010
          st := Sample.root_state } :=
  ((resolve_root_path_unknown_target (Sample.root_env [] Sample.probed_none)
      Sample.root_state
      (Sample.path 900 [Sample.segment "R" 901 21, Sample.segment "y" 908 28])
      UNKNOWN_NODEID).2
    [Sample.segment "R" 901 21] (Sample.segment "y" 908 28) [] 1 1010 Sample.tyR
    Sample.root_state (by rfl) (by rfl)).2.2.2.2 UNKNOWN_NODEID (by rfl) (by rfl)

/-- C12: in `TypeCheckType::resolve_segments`, let the segment `seg`
be reached by the loop (the turns for the segments `pre` before it came through
with receiver `prev`), and let both calls of `Probe` for `seg` return no
candidate. Then `resolve_segments` returns the error type carrying the path
expression's id, the diagnostics of the run are exactly one, at the location of
`seg`, and the receivers and the resolved names and types are those of the
start: nothing is recorded for the path. -/
theorem resolve_segments_unresolved_segment (env : Env) (st : State)
    (root_resolved_node_id : NodeId) (expr_id : HirId) (segments : List TypePathSegment)
    (offset : Nat) (tyseg : BaseType) (expr_mappings : NodeMapping) (expr_locus : Location)
    (pre post : List TypePathSegment) (seg : TypePathSegment) (id : NodeId)
    (prev ty : BaseType) (st1 : State)
    (hsplit : segments.drop offset = pre ++ seg :: post)
    (hpre : resolve_segments_loop env expr_id expr_locus pre st root_resolved_node_id
        tyseg tyseg = some (SegmentOutcome.next id prev ty st1))
    (hfirst : ∃ calls, Probe env st prev seg.ident_segment
        (!decide (prev.kind = TypeKind.PARAM)) false
        (!decide (prev.kind = TypeKind.PARAM)) = some ([], calls))
    (hsecond : ∃ calls, Probe env st prev seg.ident_segment false true
        (!decide (prev.kind = TypeKind.PARAM)) = some ([], calls)) :
    ∃ st', resolve_segments env st root_resolved_node_id expr_id segments offset tyseg
        expr_mappings expr_locus = some (ErrorType expr_id, st')
      ∧ st'.diagnostics = st.diagnostics ++
          [{ locus := seg.locus, ranges := []
             message := "failed to resolve path segment using an impl Probe" }]
      ∧ st'.receivers = st.receivers
      ∧ st'.resolved_names = st.resolved_names
      ∧ st'.resolved_types = st.resolved_types := by
  obtain ⟨calls1, h1⟩ := hfirst
  obtain ⟨calls2, h2⟩ := hsecond
  have fpre := resolve_segments_loop_frame _ _ _ _ _ _ _ _ _ hpre
  have hrec : SameRecords st st1 := fpre.1
  have hdiag : st1.diagnostics = st.diagnostics := fpre.2.1 _ _ _ _ rfl
  have hturn : resolve_segment env expr_id expr_locus st1 prev ty seg
      = some (SegmentOutcome.returned (ErrorType expr_id)
          (rust_error_at
            { st1 with trace := st1.trace
                ++ [Event.Probe prev seg.ident_segment
                      (!decide (prev.kind = TypeKind.PARAM)) false
                      (!decide (prev.kind = TypeKind.PARAM))] ++ calls1
                ++ [Event.Probe prev seg.ident_segment false true
                      (!decide (prev.kind = TypeKind.PARAM))] ++ calls2 }
            seg.locus "failed to resolve path segment using an impl Probe")) := by
    rw [resolve_segment_eq]
    unfold probe_segment
    rw [call_Probe_of_Probe env st st1 _ _ _ _ _ _ _ h1 hrec.1]
    simp only [List.length_nil, if_true]
    have h2' := call_Probe_of_Probe env st
      { st1 with trace := st1.trace
          ++ [Event.Probe prev seg.ident_segment
                (!decide (prev.kind = TypeKind.PARAM)) false
                (!decide (prev.kind = TypeKind.PARAM))] ++ calls1 }
      prev seg.ident_segment false true (!decide (prev.kind = TypeKind.PARAM)) [] calls2
      h2 hrec.1
    rw [h2']
    simp only [List.length_nil, if_true]
  obtain ⟨S, hS, hSd, hSr⟩ : ∃ S, resolve_segment env expr_id expr_locus st1 prev ty seg
      = some (SegmentOutcome.returned (ErrorType expr_id) S)
      ∧ S.diagnostics = st1.diagnostics ++
          [{ locus := seg.locus, ranges := []
             message := "failed to resolve path segment using an impl Probe" }]
      ∧ SameRecords st1 S :=
    ⟨_, hturn, rfl, ⟨rfl, rfl, rfl, rfl, rfl⟩⟩
  have hall := SameRecords.trans hrec hSr
  refine ⟨S, ?_, ?_, hall.2.1, hall.2.2.1, hall.2.2.2.1⟩
  · unfold resolve_segments
    simp only [hsplit]
    rw [resolve_segments_loop_append, hpre]
    simp only [resolve_segments_loop, hS]
  · rw [hSd, hdiag]

/-- C12, on the sample program: on the path `R::a::c`, where `R` has the type
alias `a` and nothing is called `c`, the walk from the segment `a` on ends at
`c` with the error type of the path and one diagnostic at the location of `c`. -/
theorem resolve_segments_unresolved_segment_witness :
    ∃ st', resolve_segments (Sample.env Sample.chain_items Sample.probed_none)
        Sample.chain_state 1010 900
        [Sample.segment "R" 901 21, Sample.segment "a" 902 22, Sample.segment "c" 906 26]
        1 Sample.tyR (Sample.mapping 900) 20 = some (ErrorType 900, st')
      ∧ st'.diagnostics = Sample.chain_state.diagnostics ++
          [{ locus := (Sample.segment "c" 906 26).locus, ranges := []
             message := "failed to resolve path segment using an impl Probe" }]
      ∧ st'.receivers = Sample.chain_state.receivers
      ∧ st'.resolved_names = Sample.chain_state.resolved_names
      ∧ st'.resolved_types = Sample.chain_state.resolved_types :=
  resolve_segments_unresolved_segment (Sample.env Sample.chain_items Sample.probed_none)
    Sample.chain_state 1010 900
    [Sample.segment "R" 901 21, Sample.segment "a" 902 22, Sample.segment "c" 906 26]
    1 Sample.tyR (Sample.mapping 900) 20
    [Sample.segment "a" 902 22] [] (Sample.segment "c" 906 26) 1070 Sample.tyR Sample.tyA
    { Sample.chain_state with trace := [Event.Probe Sample.tyR "a" true false true] }
    (by rfl) (by rfl) ⟨[], by rfl⟩ ⟨[], by rfl⟩

/-- C13: for a list `cs` of more than one candidate whose tags announce their
items, `ReportMultipleCandidateError::Report` emits one diagnostic, "multiple
applicable items in scope", at the location of the query, with one range for
each candidate: the k-th range is the declaration location of the item of the
k-th candidate (`declaration_locus`). And when `cs` is what the probing of a
segment `seg` reached by the loop of `resolve_segments` yields,
`resolve_segments` returns the error type of the whole path, this diagnostic,
at the location of `seg`, being the one diagnostic of the run. -/
theorem Report_multiple_candidates (cs : List PathProbeCandidate) (hn : 1 < cs.length)
    (htag : ∀ c ∈ cs, TagMatchesItem c) :
    (∀ (st : State) (query : String) (query_locus : Location),
      ∃ st', ReportMultipleCandidateError.Report st cs query query_locus = some st'
        ∧ st'.diagnostics = st.diagnostics ++
            [{ locus := query_locus, ranges := cs.map declaration_locus
               message := "multiple applicable items in scope for: " ++ query }])
    ∧ (∀ (env : Env) (st : State) (root_resolved_node_id : NodeId) (expr_id : HirId)
        (segments : List TypePathSegment) (offset : Nat) (tyseg : BaseType)
        (expr_mappings : NodeMapping) (expr_locus : Location)
        (pre post : List TypePathSegment) (seg : TypePathSegment) (id : NodeId)
        (prev ty : BaseType) (st1 st2 : State),
        segments.drop offset = pre ++ seg :: post →
        resolve_segments_loop env expr_id expr_locus pre st root_resolved_node_id
          tyseg tyseg = some (SegmentOutcome.next id prev ty st1) →
        probe_segment env st1 prev seg.ident_segment = some (cs, st2) →
        ∃ st', resolve_segments env st root_resolved_node_id expr_id segments offset tyseg
            expr_mappings expr_locus = some (ErrorType expr_id, st')
          ∧ st'.diagnostics = st.diagnostics ++
              [{ locus := seg.locus, ranges := cs.map declaration_locus
                 message := "multiple applicable items in scope for: "
                   ++ seg.ident_segment }]) := by
  constructor
  · intro st query query_locus
    exact ⟨_, Report_eq st cs query query_locus htag, rfl⟩
  · intro env st root_resolved_node_id expr_id segments offset tyseg expr_mappings
      expr_locus pre post seg id prev ty st1 st2 hsplit hpre hprobe
    have fpre := resolve_segments_loop_frame _ _ _ _ _ _ _ _ _ hpre
    have hdiag : st1.diagnostics = st.diagnostics := fpre.2.1 _ _ _ _ rfl
    have fp := probe_segment_frame _ _ _ _ _ _ hprobe
    have hne : ¬ cs.length = 0 := by omega
    obtain ⟨S, hS, hSd⟩ : ∃ S, resolve_segment env expr_id expr_locus st1 prev ty seg
        = some (SegmentOutcome.returned (ErrorType expr_id) S)
        ∧ S.diagnostics = st2.diagnostics ++
            [{ locus := seg.locus, ranges := cs.map declaration_locus
               message := "multiple applicable items in scope for: "
                 ++ seg.ident_segment }] := by
      have hturn : resolve_segment env expr_id expr_locus st1 prev ty seg
          = (ReportMultipleCandidateError.Report st2 cs seg.ident_segment seg.locus).bind
              (fun st => some (SegmentOutcome.returned (ErrorType expr_id) st)) := by
        rw [resolve_segment_eq, hprobe]
        simp only [hne, if_false]
        unfold take_candidate
        rw [if_pos (by omega : cs.length > 1)]
        cases ReportMultipleCandidateError.Report st2 cs seg.ident_segment seg.locus <;> rfl
      rw [Report_eq st2 cs _ _ htag] at hturn
      exact ⟨_, hturn, rfl⟩
    refine ⟨S, ?_, ?_⟩
    · unfold resolve_segments
      simp only [hsplit]
      rw [resolve_segments_loop_append, hpre]
      simp only [resolve_segments_loop, hS]
    · rw [hSd, fp.2.1, hdiag]

/-- C13, on the sample program: `R` has two inherent functions `foo`, declared
at the locations 14 and 15; the path `R::foo`, whose segment `foo` is at the
location 25, gets the error type of the path and one diagnostic at 25 with the
ranges 14 and 15. -/
theorem Report_multiple_candidates_witness :
    1 < Sample.twice_candidates.length
    ∧ (∀ c ∈ Sample.twice_candidates, TagMatchesItem c)
    ∧ ∃ st', resolve_segments (Sample.env Sample.twice_items Sample.probed_none)
          Sample.twice_state 1010 900 Sample.foo_segments 1 Sample.tyR
          (Sample.mapping 900) 20 = some (ErrorType 900, st')
        ∧ st'.diagnostics
            = [{ locus := 25, ranges := [14, 15],
                 message := "multiple applicable items in scope for: foo" }] :=
  ⟨by decide, by unfold TagMatchesItem; decide,
    (Report_multiple_candidates Sample.twice_candidates (by decide)
      (by unfold TagMatchesItem; decide)).2
      (Sample.env Sample.twice_items Sample.probed_none) Sample.twice_state 1010 900
      Sample.foo_segments 1 Sample.tyR (Sample.mapping 900) 20 []
      [] (Sample.segment "foo" 905 25) 1010 Sample.tyR Sample.tyR Sample.twice_state
      { Sample.twice_state with trace := [Event.Probe Sample.tyR "foo" true false true] }
      (by rfl) (by rfl) (by rfl)⟩

/-- C14: let the loop of `resolve_segments` come through with the target
identity `id`. Then `id` is the root's node id when no segment remained, and
otherwise the node id of the item of the single candidate of the last segment.
When `resolve_segments` returns a type that is not the error type, `id` is not
the unknown node and the resolver then holds `id` as the record of the path's
node id: the resolved types are untouched, a prior record (a resolved name, or
else a resolved type) equals `id` and the resolved names are untouched, and
without a prior record `id` is inserted as the resolved name. A prior record
that differs from `id` makes the check fail (`record_resolved` has no result),
and `resolve_segments` then returns nothing, or the error type when the final
substitution failed before the check. -/
theorem resolve_segments_records_target (env : Env) (st : State)
    (root_resolved_node_id : NodeId) (expr_id : HirId) (segments : List TypePathSegment)
    (offset : Nat) (tyseg : BaseType) (expr_mappings : NodeMapping) (expr_locus : Location)
    (id : NodeId) (prev ty : BaseType) (st1 : State)
    (hloop : resolve_segments_loop env expr_id expr_locus (segments.drop offset) st
        root_resolved_node_id tyseg tyseg = some (SegmentOutcome.next id prev ty st1)) :
    ((segments.drop offset = [] ∧ id = root_resolved_node_id)
      ∨ ∃ pre seg id0 prev0 ty0 st0 c st2,
          segments.drop offset = pre ++ [seg]
          ∧ resolve_segments_loop env expr_id expr_locus pre st root_resolved_node_id
              tyseg tyseg = some (SegmentOutcome.next id0 prev0 ty0 st0)
          ∧ probe_segment env st0 prev0 seg.ident_segment = some ([c], st2)
          ∧ id = candidate_node_id c)
    ∧ (∀ result st', resolve_segments env st root_resolved_node_id expr_id segments offset
          tyseg expr_mappings expr_locus = some (result, st') →
        result.kind ≠ TypeKind.ERROR →
        id ≠ UNKNOWN_NODEID
        ∧ prior_record st' expr_mappings.nodeid = some id
        ∧ st'.resolved_types = st.resolved_types
        ∧ (∀ prior, prior_record st expr_mappings.nodeid = some prior →
            prior = id ∧ st'.resolved_names = st.resolved_names)
        ∧ (prior_record st expr_mappings.nodeid = none →
            st'.resolved_names = (expr_mappings.nodeid, id) :: st.resolved_names))
    ∧ (∀ prior, prior_record st expr_mappings.nodeid = some prior → prior ≠ id →
        (∀ st2, st2.resolved_names = st.resolved_names →
          st2.resolved_types = st.resolved_types →
          record_resolved st2 expr_mappings id = none)
        ∧ ∀ r, resolve_segments env st root_resolved_node_id expr_id segments offset
            tyseg expr_mappings expr_locus = some r → r.1 = ErrorType expr_id) := by
  have fl := (resolve_segments_loop_frame _ _ _ _ _ _ _ _ _ hloop).1
  have hn1 : st1.resolved_names = st.resolved_names := fl.2.2.1
  have ht1 : st1.resolved_types = st.resolved_types := fl.2.2.2.1
  have hprior : ∀ st2 : State, st2.resolved_names = st.resolved_names →
      st2.resolved_types = st.resolved_types →
      prior_record st2 expr_mappings.nodeid = prior_record st expr_mappings.nodeid := by
    intro st2 h1 h2; simp [prior_record, h1, h2]
  -- every return of a finished walk goes through `finish`, or is the error type
  have hfin : ∀ r, resolve_segments env st root_resolved_node_id expr_id segments offset
      tyseg expr_mappings expr_locus = some r →
      r.1 = ErrorType expr_id
      ∨ ∃ st2 t, st2.resolved_names = st.resolved_names
          ∧ st2.resolved_types = st.resolved_types
          ∧ finish st2 expr_mappings id t = some r := by
    intro r hr
    unfold resolve_segments at hr
    simp only [hloop] at hr
    split at hr
    · split at hr
      · simp at hr
      · rename_i t st2 hsub
        have fs := final_substitution_frame _ _ _ _ _ _ _ hsub
        split at hr
        · simp only [Option.some.injEq] at hr
          left; rw [← hr]
        · right
          exact ⟨st2, t, fs.1.trans hn1, fs.2.1.trans ht1, hr⟩
    · right
      exact ⟨{ st1 with receivers := (expr_mappings.hirid, prev) :: st1.receivers }, ty,
        hn1, ht1, hr⟩
  refine ⟨resolve_segments_loop_last _ _ _ _ _ _ _ _ _ _ _ hloop, ?_, ?_⟩
  · intro result st' hres hk
    rcases hfin _ hres with herr | ⟨st2, t, h1, h2, hf⟩
    · simp only at herr
      rw [herr] at hk
      exact absurd (ErrorType_kind expr_id) hk
    · unfold finish at hf
      split at hf
      · simp at hf
      · rename_i st3 hrec
        simp only [Option.some.injEq, Prod.mk.injEq] at hf
        rw [← hf.2]
        obtain ⟨a, b, c, d, e⟩ := record_resolved_spec _ _ _ _ hrec
        refine ⟨a, b, c.trans h2, ?_, ?_⟩
        · intro prior hp
          rw [← hprior st2 h1 h2] at hp
          obtain ⟨d1, d2⟩ := d prior hp
          exact ⟨d1, by rw [d2, h1]⟩
        · intro hp
          rw [← hprior st2 h1 h2] at hp
          rw [e hp]
          simp only [h1]
  · intro prior hp hne
    have hmis : ∀ st2 : State, st2.resolved_names = st.resolved_names →
        st2.resolved_types = st.resolved_types →
        record_resolved st2 expr_mappings id = none := by
      intro st2 h1 h2
      exact record_resolved_mismatch st2 expr_mappings id prior
        (by rw [hprior st2 h1 h2]; exact hp) hne
    refine ⟨hmis, ?_⟩
    intro r hr
    rcases hfin r hr with herr | ⟨st2, t, h1, h2, hf⟩
    · exact herr
    · unfold finish at hf
      rw [hmis st2 h1 h2] at hf
      simp at hf

/-- C14, on the sample program: the path `R::foo` (node id 1900), where `foo` is
the inherent function of `R` with node id 1100 and nothing is recorded for the
path, resolves to the type of `foo`, and 1100 is inserted as the resolved name of
the path. -/
theorem resolve_segments_records_target_witness :
    prior_record Sample.foo_state 1900 = none
    ∧ ∃ st', resolve_segments (Sample.env Sample.foo_items Sample.probed_T)
          Sample.foo_state 1010 900 Sample.foo_segments 1 Sample.tyR
          (Sample.mapping 900) 20 = some (Sample.fndef 100 [], st')
        ∧ prior_record st' 1900 = some 1100
        ∧ st'.resolved_names = [(1900, 1100)] :=
  ⟨by rfl,
    { Sample.foo_state with
      receivers := [(900, Sample.tyR)]
      resolved_names := [(1900, 1100)]
      trace := [Event.Probe Sample.tyR "foo" true false true] },
    by rfl,
    ((resolve_segments_records_target (Sample.env Sample.foo_items Sample.probed_T)
      Sample.foo_state 1010 900 Sample.foo_segments 1 Sample.tyR (Sample.mapping 900) 20
      1100 Sample.tyR (Sample.fndef 100 [])
      { Sample.foo_state with trace := [Event.Probe Sample.tyR "foo" true false true] }
      (by rfl)).2.1 _ _ (by rfl) (by decide)).2.1,
    by rfl⟩

/-- C15: for a qualified path `<Type as Trait>::Item`, let `Resolve` of `Type`
give the root `root`, which is not the error type, leaving the state `st1`, and
let `Trait` resolve to `trait_ref`. When the bound-satisfaction oracle answers
that `root` does not satisfy `trait_ref`, `Resolve` of the path returns the
error type carrying the path's id, and the state is `st1` with that node
inserted into the type context: after the resolution of `Type` no call is made
(no probe, no realization of associated types), no diagnostic is emitted, and
no resolved name or receiver is recorded. -/
theorem Resolve_bound_not_satisfied (env : Env) (st : State) (path : QualifiedPath)
    (type : TypeExpr) (subst_mappings : Option (List SubstitutionParamMapping))
    (root : BaseType) (st1 : State) (trait : TypePath) (trait_ref : TraitReference)
    (hroot : Resolve env st type none = some (root, st1))
    (hkind : root.kind ≠ TypeKind.ERROR)
    (htrait : path.trait = some trait)
    (href : env.TraitResolver_Resolve trait = some trait_ref)
    (hbound : env.is_bound_satisfied_for_type root trait_ref = false) :
    ∃ st', Resolve env st (TypeExpr.QualifiedPathInType path type) subst_mappings
        = some (ErrorType path.mappings.hirid, st')
      ∧ st' = st1.insert_type path.mappings (ErrorType path.mappings.hirid)
      ∧ st'.trace = st1.trace
      ∧ st'.diagnostics = st1.diagnostics
      ∧ st'.resolved_names = st1.resolved_names
      ∧ st'.resolved_types = st1.resolved_types
      ∧ st'.receivers = st1.receivers := by
  refine ⟨_, ?_, rfl, rfl, rfl, rfl, rfl, rfl⟩
  unfold Resolve
  rw [visit_QualifiedPathInType_eq, hroot]
  simp only [visit_QualifiedPathInType, hkind, if_false, htrait, href, hbound, if_true]
  rfl

/-- C15, on the sample program: in `<R as T>::foo`, the path `R` is fully
resolved to the struct `R`, and `R` does not satisfy `T`: `Resolve` gives the
error type with the path's id 920, and no call, diagnostic, resolved name or
receiver is left. -/
theorem Resolve_bound_not_satisfied_witness :
    ∃ st', Resolve Sample.qual_env (Sample.resolved_state Sample.tyR)
        (TypeExpr.QualifiedPathInType Sample.qual_path
          (TypeExpr.TypePath (Sample.path 900 [Sample.segment "R" 901 21]))) none
        = some (ErrorType 920, st')
      ∧ st'.trace = [] ∧ st'.diagnostics = [] ∧ st'.resolved_names = []
      ∧ st'.receivers = [] :=
  match Resolve_bound_not_satisfied Sample.qual_env (Sample.resolved_state Sample.tyR)
      Sample.qual_path (TypeExpr.TypePath (Sample.path 900 [Sample.segment "R" 901 21]))
      none (Sample.tyR.set_ref 900)
      ((Sample.resolved_state Sample.tyR).insert_type (Sample.mapping 900)
        (Sample.tyR.set_ref 900))
      (Sample.path 930 [Sample.segment "T" 931 31]) Sample.traitT
      (by rfl) (by decide) (by rfl) (by rfl) (by rfl) with
  | ⟨st', h, _, ht, hd, hn, _, hr⟩ =>
    ⟨st', h, ht.trans (by rfl), hd.trans (by rfl), hn.trans (by rfl), hr.trans (by rfl)⟩

/-- C17, as stated, fails: with the declared parameter `T` (at the location 3)
and the one type argument `Vec<T>`, in whose text `T` is referenced,
`check_for_unconstrained` reports `T` as unconstrained. -/
theorem check_for_unconstrained_reports_nested_parameter :
    "Vec<T>" = "Vec<" ++ Sample.t_param.param_ty_symbol ++ ">"
    ∧ (check_for_unconstrained (Sample.state []) (some [Sample.t_param]) ["Vec<T>"]).map
        (fun st => st.diagnostics)
      = some [{ locus := 3, ranges := [], message := "unconstrained type parameter" }] := by
  constructor
  · decide
  · rfl

/-- C17 (amended): for every list of declared parameters and every list of
type-argument texts, `check_for_unconstrained` returns, and the diagnostics it
adds are one `unconstrained type parameter` for each name of
`unconstrained_params`, in that order. A name is in that list if and only if a
declared parameter has it and no type argument's text is equal to it (a name
that only occurs inside an argument, as in `Vec<T>`, is reported); no name is in
it twice; and the location of the report is the declaration location of a
parameter of that name (the last one declared). Without declared parameters
(null `subst_mappings`) nothing is reported. -/
theorem check_for_unconstrained_reports (st : State)
    (mappings : List SubstitutionParamMapping) (type_args : List String) :
    (∃ st', check_for_unconstrained st (some mappings) type_args = some st'
      ∧ st'.diagnostics = st.diagnostics ++
          (unconstrained_params mappings type_args).map
            (fun s => { locus := (param_locus mappings s).getD UNKNOWN_LOCATION, ranges := []
                        message := "unconstrained type parameter" }))
    ∧ (unconstrained_params mappings type_args).Nodup
    ∧ (∀ s, s ∈ unconstrained_params mappings type_args
        ↔ (∃ m ∈ mappings, m.param_ty_symbol = s) ∧ s ∉ type_args)
    ∧ (∀ s ∈ unconstrained_params mappings type_args,
        ∃ m ∈ mappings, m.param_ty_symbol = s
          ∧ param_locus mappings s = some m.generic_param.locus)
    ∧ check_for_unconstrained st none type_args = some st := by
  obtain ⟨hnd, hmem⟩ := unconstrained_params_spec mappings type_args
  refine ⟨?_, hnd, hmem, ?_, ?_⟩
  · obtain ⟨st', h1, h2, _⟩ := check_for_unconstrained_eq st mappings type_args
    exact ⟨st', h1, h2⟩
  · intro s hs
    exact param_locus_of_mem mappings s ((hmem s).mp hs).1
  · simp [check_for_unconstrained]

/-- C17 (amended), on the parameters `X` (declared at 40) and `Y` (declared at
41) with the one type argument `X`: exactly `Y` is reported, at 41. -/
theorem check_for_unconstrained_reports_witness :
    ∃ st', check_for_unconstrained (Sample.state []) (some [Sample.x_param, Sample.y_param])
        ["X"] = some st'
      ∧ st'.diagnostics
          = [{ locus := 41, ranges := [], message := "unconstrained type parameter" }] :=
  match (check_for_unconstrained_reports (Sample.state [])
      [Sample.x_param, Sample.y_param] ["X"]).1 with
  | ⟨st', h, hd⟩ => ⟨st', h, hd.trans (by rfl)⟩

/-- C18, as stated, fails: the path `G` of the sample program is fully resolved
to the generic struct `G<T>` and its segment carries no generic arguments; with
the parameter `T` (declared at the location 3) in `subst_mappings`, the visit
yields the substituted type and reports `T` as unconstrained. -/
theorem visit_TypePath_checks_without_explicit_arguments :
    (Sample.segment "G" 901 21).generic_args = none
    ∧ (visit_TypePath (Sample.env [] Sample.probed_none) (Sample.resolved_state Sample.tyG)
        (Sample.path 900 [Sample.segment "G" 901 21]) (some [Sample.t_param])).map
        (fun r => (r.1, r.2.diagnostics))
      = some (some { Sample.adt 10 with ref := 900 },
          [{ locus := 3, ranges := [], message := "unconstrained type parameter" }]) := by
  constructor
  · rfl
  · rfl

/-- C18 (amended): for a fully resolved type path whose final segment carries no
explicit generic arguments, `visit (TypePath)` returns. When the looked-up type
needs generic substitution, the final segment is not `Self` and the substitution
does not yield the error type, the check fires all the same: every name declared
in `subst_mappings` is reported as `unconstrained type parameter`, once. In the
other cases (the type needs no substitution, the segment is `Self`, the
substitution yields the error type, or `subst_mappings` is null) no diagnostic
is added. -/
theorem visit_TypePath_unconstrained_without_arguments (env : Env) (st : State)
    (path : TypePath) (ref : NodeId) (hir_lookup : HirId) (lookup : BaseType)
    (final_seg : TypePathSegment)
    (href : st.resolved_types.lookup path.mappings.nodeid = some ref)
    (hhir : st.lookup_type_by_node_id ref = some hir_lookup)
    (hty : st.lookup_type hir_lookup = some lookup)
    (hlast : path.segments.getLast? = some final_seg)
    (hargs : final_seg.generic_args = none) :
    (env.needs_generic_substitutions (lookup.set_ref path.mappings.hirid) = true →
      final_seg.ident_segment ≠ "Self" →
      (env.SubstMapper_Resolve (lookup.set_ref path.mappings.hirid) path.locus
        (GenericArgs.create_empty final_seg.locus)).kind ≠ TypeKind.ERROR →
      ∀ mappings, ∃ st',
        visit_TypePath env st path (some mappings)
          = some (some (env.SubstMapper_Resolve (lookup.set_ref path.mappings.hirid)
              path.locus (GenericArgs.create_empty final_seg.locus)), st')
        ∧ st'.diagnostics = st.diagnostics ++
            (unconstrained_params mappings []).map
              (fun s => { locus := (param_locus mappings s).getD UNKNOWN_LOCATION
                          ranges := [], message := "unconstrained type parameter" })
        ∧ (unconstrained_params mappings []).Nodup
        ∧ ∀ s, s ∈ unconstrained_params mappings []
            ↔ ∃ m ∈ mappings, m.param_ty_symbol = s)
    ∧ ∀ subst_mappings,
        (env.needs_generic_substitutions (lookup.set_ref path.mappings.hirid) = false
          ∨ final_seg.ident_segment = "Self"
          ∨ (env.SubstMapper_Resolve (lookup.set_ref path.mappings.hirid) path.locus
              (GenericArgs.create_empty final_seg.locus)).kind = TypeKind.ERROR
          ∨ subst_mappings = none) →
        ∃ r st', visit_TypePath env st path subst_mappings = some (r, st')
          ∧ st'.diagnostics = st.diagnostics := by
  have hres : TypeCheckResolveGenericArguments.resolve final_seg
      = GenericArgs.create_empty final_seg.locus := by
    simp [TypeCheckResolveGenericArguments.resolve, hargs]
  have hempty : (GenericArgs.create_empty final_seg.locus).is_empty = true := by
    simp [GenericArgs.create_empty, GenericArgs.is_empty]
  have hself : (final_seg.is_ident_only && final_seg.as_string == "Self")
      = decide (final_seg.ident_segment = "Self") := by
    simp [TypePathSegment.is_ident_only, TypePathSegment.as_string, hargs, beq_eq_decide]
  have heq := fun subst => visit_TypePath_resolved env st path subst ref hir_lookup lookup
    final_seg href hhir hty hlast
  simp only [hres, hself, hempty] at heq
  constructor
  · intro hn hs hk mappings
    obtain ⟨hnd, hmem⟩ := unconstrained_params_spec mappings []
    obtain ⟨st', h1, h2, _⟩ := check_for_unconstrained_eq
      { st with trace := st.trace ++
          [Event.SubstMapper_Resolve (lookup.set_ref path.mappings.hirid) path.locus
            (GenericArgs.create_empty final_seg.locus)] } mappings []
    refine ⟨st', ?_, h2, hnd, ?_⟩
    · rw [heq]
      simp only [hn, hs, hk, if_true, decide_False, Bool.false_eq_true, if_false, ne_eq,
        not_false_eq_true]
      simp only [GenericArgs.create_empty] at h1 ⊢
      rw [h1]
      rfl
    · intro s
      rw [hmem s]
      simp
  · intro subst hcase
    rw [heq]
    by_cases hn : env.needs_generic_substitutions (lookup.set_ref path.mappings.hirid) = true
    · simp only [hn, if_true]
      by_cases hs : final_seg.ident_segment = "Self"
      · simp only [hs, decide_True, if_true]
        exact ⟨_, _, rfl, rfl⟩
      · simp only [hs, decide_False, Bool.false_eq_true, if_false]
        by_cases hk : (env.SubstMapper_Resolve (lookup.set_ref path.mappings.hirid)
            path.locus (GenericArgs.create_empty final_seg.locus)).kind = TypeKind.ERROR
        · simp only [hk, ne_eq, not_true_eq_false, if_false]
          exact ⟨_, _, rfl, rfl⟩
        · simp only [hk, ne_eq, not_false_eq_true, if_true]
          rcases hcase with h | h | h | h
          · rw [hn] at h; simp at h
          · exact absurd h hs
          · exact absurd h hk
          · subst h
            have hc : ∀ (s : State) (a : List String),
                check_for_unconstrained s none a = some s := by
              intro s a; simp [check_for_unconstrained]
            rw [hc]
            exact ⟨_, _, rfl, rfl⟩
    · simp only [hn, if_false, Bool.true_eq_false]
      exact ⟨_, _, rfl, rfl⟩

/-- C18 (amended), on the sample program: the path `G`, fully resolved to the
generic struct `G<T>`, without generic arguments, with the parameters `X` and
`Y` in `subst_mappings`: the visit returns and `X` and `Y` are both reported. -/
theorem visit_TypePath_unconstrained_without_arguments_witness :
    ∃ st', visit_TypePath (Sample.env [] Sample.probed_none)
        (Sample.resolved_state Sample.tyG) (Sample.path 900 [Sample.segment "G" 901 21])
        (some [Sample.x_param, Sample.y_param])
          = some (some { Sample.adt 10 with ref := 900 }, st')
      ∧ st'.diagnostics
          = [{ locus := 40, ranges := [], message := "unconstrained type parameter" },
             { locus := 41, ranges := [], message := "unconstrained type parameter" }] :=
  match (visit_TypePath_unconstrained_without_arguments (Sample.env [] Sample.probed_none)
      (Sample.resolved_state Sample.tyG) (Sample.path 900 [Sample.segment "G" 901 21])
      1010 10 Sample.tyG (Sample.segment "G" 901 21) (by rfl) (by rfl) (by rfl) (by rfl)
      (by rfl)).1 (by rfl) (by decide) (by decide) [Sample.x_param, Sample.y_param] with
  | ⟨st', h, hd, _⟩ => ⟨st', h, hd.trans (by rfl)⟩

/-- C19: the code on the path `R::<i32>`, fully resolved to the struct `R`,
which is not generic, while the segment supplies the type argument `i32`. The
branch `else if (!args.is_empty ())` builds its diagnostic from
`translated->as_string ()` while `translated` is still null: the visit ends
there, and `Resolve` returns no type node and emits no diagnostic. -/
theorem Resolve_generic_arguments_on_non_generic_type :
    (Sample.resolved_state Sample.tyR).resolved_types.lookup 1900 = some 1010
    ∧ (Sample.resolved_state Sample.tyR).lookup_type_by_node_id 1010 = some 10
    ∧ (Sample.resolved_state Sample.tyR).lookup_type 10 = some Sample.tyR
    ∧ (Sample.env [] Sample.probed_none).needs_generic_substitutions
        (Sample.tyR.set_ref 900) = false
    ∧ (TypeCheckResolveGenericArguments.resolve
        (Sample.generic_segment "R" 901 21)).is_empty = false
    ∧ Resolve (Sample.env [] Sample.probed_none) (Sample.resolved_state Sample.tyR)
        (TypeExpr.TypePath (Sample.path 900 [Sample.generic_segment "R" 901 21])) none
      = none := by
  refine ⟨by rfl, by rfl, by rfl, by rfl, by rfl, by rfl⟩

/-- C20, as stated, fails: on the path `R::foo` of the sample program, where
`foo` is the function of the trait `T` and the block `impl T for R` is known,
the first `Resolve` gives the type of `foo` with the fresh type-reference id
5000, and the second `Resolve`, started from the state the first left, gives it
with the fresh id 5001: the two resolved types differ. -/
theorem Resolve_twice_allocates_fresh_identity :
    (Resolve (Sample.root_env [] Sample.probed_T) (Sample.path_state [(10, Sample.tyR)])
        (TypeExpr.TypePath (Sample.path 900 Sample.foo_segments)) none).map
      (fun r => (r.1, r.2.next_hir_id))
      = some ({ Sample.fndef 200 [] with ty_ref := 5000 }, 5001)
    ∧ ((Resolve (Sample.root_env [] Sample.probed_T) (Sample.path_state [(10, Sample.tyR)])
        (TypeExpr.TypePath (Sample.path 900 Sample.foo_segments)) none).bind
      (fun r => Resolve (Sample.root_env [] Sample.probed_T) r.2
        (TypeExpr.TypePath (Sample.path 900 Sample.foo_segments)) none)).map
      (fun r => (r.1, r.2.next_hir_id))
      = some ({ Sample.fndef 200 [] with ty_ref := 5001 }, 5002)
    ∧ ({ Sample.fndef 200 [] with ty_ref := 5000 } : BaseType)
        ≠ { Sample.fndef 200 [] with ty_ref := 5001 } := by
  refine ⟨by rfl, by rfl, by decide⟩

/-- C20 (amended): let `Resolve` of a type path return the type `t1`, leaving
the state `st1`, without allocating a fresh id (the id counter is where it was:
no segment was won by a trait item whose impl block is known), and let the ids
of the path be its own (`PathIdsFresh`). Then `Resolve` of the same path,
started from `st1`, returns as well, so the second run does not trip the
consistency assertion, and it returns the same type `t1`. -/
theorem Resolve_twice_same_type (env : Env) (st : State) (path : TypePath)
    (subst_mappings : Option (List SubstitutionParamMapping)) (t1 : BaseType) (st1 : State)
    (hrun : Resolve env st (TypeExpr.TypePath path) subst_mappings = some (t1, st1))
    (hcounter : st1.next_hir_id = st.next_hir_id)
    (hfresh : PathIdsFresh env st path) :
    ∃ st2, Resolve env st1 (TypeExpr.TypePath path) subst_mappings = some (t1, st2) := by
  unfold Resolve at hrun ⊢
  rw [visit] at hrun ⊢
  cases hv : visit_TypePath env st path subst_mappings with
  | none => rw [hv] at hrun; simp [resolve_result] at hrun
  | some r =>
    obtain ⟨tr, sv⟩ := r
    rw [hv] at hrun
    simp only [resolve_result, Option.some.injEq, Prod.mk.injEq, TypeExpr.get_mappings]
      at hrun
    obtain ⟨rfl, rfl⟩ := hrun
    obtain ⟨sv', hv'⟩ := visit_TypePath_again env st path subst_mappings tr sv _ hv hcounter
      hfresh
    simp only [TypeExpr.get_mappings]
    rw [hv']
    exact ⟨_, rfl⟩

/-- C20 (amended), on the sample program: the path `R::foo`, where `foo` is the
inherent function of `R`, resolves to the type of `foo` without allocating an
id, and resolves to the same type again from the state left. -/
theorem Resolve_twice_same_type_witness :
    Resolve (Sample.root_env Sample.foo_items Sample.probed_none)
        (Sample.path_state [(10, Sample.tyR), (100, Sample.fndef 100 [])])
        (TypeExpr.TypePath (Sample.path 900 Sample.foo_segments)) none
      = some (Sample.fndef 100 [], Sample.foo_resolved_state)
    ∧ Sample.foo_resolved_state.next_hir_id
        = (Sample.path_state [(10, Sample.tyR), (100, Sample.fndef 100 [])]).next_hir_id
    ∧ ∃ st2, Resolve (Sample.root_env Sample.foo_items Sample.probed_none)
        Sample.foo_resolved_state
        (TypeExpr.TypePath (Sample.path 900 Sample.foo_segments)) none
      = some (Sample.fndef 100 [], st2) :=
  ⟨by rfl, by rfl,
    Resolve_twice_same_type (Sample.root_env Sample.foo_items Sample.probed_none)
      (Sample.path_state [(10, Sample.tyR), (100, Sample.fndef 100 [])])
      (Sample.path 900 Sample.foo_segments) none (Sample.fndef 100 [])
      Sample.foo_resolved_state (by rfl) (by rfl)
      ⟨by decide, Sample.node_ids_off Sample.foo_items Sample.probed_none,
        by unfold ImplIdsOff; decide,
        fun ref h => Option.noConfusion ((by rfl : (none : Option NodeId) = _).trans h)⟩⟩

/-- C21: the path `R::A`, both segments naming a struct with a type. The first
segment naming a concrete declaration is `R`, with no module before it, but the
root returned is the type of `A` and `*offset` is 2: the walk went on past `R`
and the segment `A` replaced the root. -/
theorem resolve_root_path_later_declaration_replaces_root :
    declared_type (Sample.root_env [] Sample.probed_none) Sample.nested_state 0
        (Sample.segment "R" 901 21) = some (1010, Sample.tyR)
    ∧ declared_type (Sample.root_env [] Sample.probed_none) Sample.nested_state 0
        (Sample.segment "A" 902 22) = some (1020, Sample.tyA)
    ∧ resolve_root_path (Sample.root_env [] Sample.probed_none) Sample.nested_state
        (Sample.path 900 [Sample.segment "R" 901 21, Sample.segment "A" 902 22])
        UNKNOWN_NODEID
      = { root := some Sample.tyA, offset := 2, root_resolved_node_id := 1020
          st := Sample.nested_state }
    ∧ Sample.tyA ≠ Sample.tyR := by
  refine ⟨by rfl, by rfl, by rfl, by decide⟩

/-- C21 (amended): in `TypeCheckType::resolve_root_path`, for a path whose
segments are the segments `mods`, each naming a module, then a segment `seg`
naming a concrete declaration of type `lookup` (which can take the generic
arguments written on `seg`, if any), then the segments `rest`. The modules are
skipped, each advancing the walk by one, and `seg` becomes the root: the walk
goes on over `rest` from the root type of `seg`, `*offset` being the number of
modules plus one and `*root_resolved_node_id` the node of `seg`, and the
segments from that offset on are `rest`. What is returned depends on the next
segment, which is in one of the four cases of the last part:
when nothing is left, the root is returned with that `*offset`;
when the name of the next segment is resolved to a node whose definition is not
found, the error type of the path is returned with the diagnostic
"unknown reference for resolved name", `*offset` staying there;
when the node the next segment refers to is unknown, has no HIR id, or is no
module and has no type, the root is returned with that `*offset` and without a
diagnostic;
when the next segment names a module, it is skipped with the root kept and
`*offset` advanced if segments follow it, and the error type of the path is
returned with the diagnostic "expected value" if it is the last segment;
when the next segment names a concrete declaration too (which can take the
generic arguments written on it, if any), it replaces the root and `*offset`
advances once more. -/
theorem resolve_root_path_modules_then_root (env : Env) (st : State) (path : TypePath)
    (id : NodeId) (mods : List TypePathSegment) (seg : TypePathSegment)
    (rest : List TypePathSegment) (r : NodeId) (lookup : BaseType)
    (hsegs : path.segments = mods ++ seg :: rest)
    (hmods : ∀ m ∈ mods, names_module env st path.mappings.crate_num m = true)
    (hdecl : declared_type env st path.mappings.crate_num seg = some (r, lookup))
    (harg : ∀ ga, seg.generic_args = some ga → env.can_substitute lookup = true) :
    resolve_root_path_loop env path true mods st 0 id none
        = RootOutcome.next mods.length id none st
    ∧ resolve_root_path_loop env path false path.segments st 0 id none
        = resolve_root_path_loop env path false rest (root_turn_state path st seg lookup)
            (mods.length + 1) r (some (root_type env path seg lookup))
    ∧ path.segments.drop (mods.length + 1) = rest
    ∧ (rest = [] →
        resolve_root_path env st path id
          = { root := some (root_type env path seg lookup), offset := mods.length + 1
              root_resolved_node_id := r, st := root_turn_state path st seg lookup })
    ∧ (∀ nxt rest', rest = nxt :: rest' → segment_ref_node_id env st nxt = none →
        resolve_root_path env st path id
          = { root := some (ErrorType path.mappings.hirid), offset := mods.length + 1
              root_resolved_node_id := r
              st := rust_error_at (root_turn_state path st seg lookup) path.locus
                "unknown reference for resolved name" })
    ∧ (∀ nxt rest' r', rest = nxt :: rest' → segment_ref_node_id env st nxt = some r' →
        target_unknown env st path.mappings.crate_num r' = true →
        resolve_root_path env st path id
          = { root := some (root_type env path seg lookup), offset := mods.length + 1
              root_resolved_node_id := r, st := root_turn_state path st seg lookup })
    ∧ (∀ nxt, rest = [nxt] → names_module env st path.mappings.crate_num nxt = true →
        resolve_root_path env st path id
          = { root := some (ErrorType path.mappings.hirid), offset := mods.length + 1
              root_resolved_node_id := r
              st := rust_error_at (root_turn_state path st seg lookup) nxt.locus
                "expected value" })
    ∧ (∀ nxt nxt2 rest', rest = nxt :: nxt2 :: rest' →
        names_module env st path.mappings.crate_num nxt = true →
        resolve_root_path_loop env path false path.segments st 0 id none
          = resolve_root_path_loop env path false (nxt2 :: rest')
              (root_turn_state path st seg lookup) (mods.length + 2) r
              (some (root_type env path seg lookup)))
    ∧ (∀ nxt rest' r2 lookup2, rest = nxt :: rest' →
        declared_type env st path.mappings.crate_num nxt = some (r2, lookup2) →
        (∀ ga, nxt.generic_args = some ga →
          env.can_substitute
            (substitute_from_root env (root_turn_state path st seg lookup)
              (some (root_type env path seg lookup)) lookup2).1 = true) →
        resolve_root_path_loop env path false path.segments st 0 id none
          = resolve_root_path_loop env path false rest'
              (root_turn_state path
                (substitute_from_root env (root_turn_state path st seg lookup)
                  (some (root_type env path seg lookup)) lookup2).2 nxt
                (substitute_from_root env (root_turn_state path st seg lookup)
                  (some (root_type env path seg lookup)) lookup2).1)
              (mods.length + 2) r2
              (some (root_type env path nxt
                (substitute_from_root env (root_turn_state path st seg lookup)
                  (some (root_type env path seg lookup)) lookup2).1)))
    ∧ (∀ nxt : TypePathSegment,
        segment_ref_node_id env st nxt = none
        ∨ (∃ r', segment_ref_node_id env st nxt = some r'
            ∧ target_unknown env st path.mappings.crate_num r' = true)
        ∨ names_module env st path.mappings.crate_num nxt = true
        ∨ ∃ r2 lookup2,
            declared_type env st path.mappings.crate_num nxt = some (r2, lookup2)) := by
  have hwalk := resolve_root_path_loop_to_root env st path id mods seg rest r lookup hsegs
    hmods hdecl harg
  have hrec := root_turn_state_records path st seg lookup
  refine ⟨?_, hwalk, ?_, ?_, ?_, ?_, ?_, ?_, ?_, ?_⟩
  · have h := resolve_root_path_loop_modules env path st id none mods 0 hmods
    rw [Nat.zero_add] at h
    exact h
  · rw [hsegs]
    have : mods.length + 1 = (mods ++ [seg]).length := by simp
    have hcat : mods ++ seg :: rest = (mods ++ [seg]) ++ rest := by simp
    rw [this, hcat, List.drop_left]
  · intro hnil
    subst hnil
    unfold resolve_root_path
    rw [hwalk, resolve_root_path_loop]
  · intro nxt rest' hrest hnone
    subst hrest
    apply resolve_root_path_returned
    rw [hwalk, resolve_root_path_loop, resolve_root_segment_eq]
    have hr := resolve_root_segment_records env path st (root_turn_state path st seg lookup)
      0 id none nxt true hrec
    rw [hr.1, hnone]
  · intro nxt rest' r' hrest href hunk
    subst hrest
    apply resolve_root_path_returned
    rw [hwalk, resolve_root_path_loop, resolve_root_segment_eq]
    have hr := resolve_root_segment_records env path st (root_turn_state path st seg lookup)
      0 id none nxt true hrec
    rw [hr.1, href]
    simp only []
    rw [(resolve_root_reference_unknown env path (root_turn_state path st seg lookup)
      (mods.length + 1) r (some (root_type env path seg lookup)) nxt _ r'
      ((hr.2 r').trans hunk)).2 (Nat.succ_ne_zero _)]
  · intro nxt hrest hmod
    subst hrest
    apply resolve_root_path_returned
    have hm : (!([] : List TypePathSegment).isEmpty || false) = false := by simp
    rw [hwalk, resolve_root_path_loop, hm,
      resolve_root_segment_module_last env path (root_turn_state path st seg lookup)
        (mods.length + 1) r (some (root_type env path seg lookup)) nxt
        ((names_module_congr env st _ _ nxt hrec).trans hmod)]
  · intro nxt nxt2 rest' hrest hmod
    subst hrest
    have hm : (!(nxt2 :: rest').isEmpty || false) = true := by simp
    rw [hwalk, resolve_root_path_loop, hm,
      resolve_root_segment_module env path (root_turn_state path st seg lookup)
        (mods.length + 1) r (some (root_type env path seg lookup)) nxt
        ((names_module_congr env st _ _ nxt hrec).trans hmod)]
  · intro nxt rest' r2 lookup2 hrest hdecl2 harg2
    subst hrest
    rw [hwalk, resolve_root_path_loop,
      resolve_root_segment_declared env path (root_turn_state path st seg lookup)
        (mods.length + 1) r (some (root_type env path seg lookup)) nxt _ r2 lookup2
        ((declared_type_congr env st _ _ nxt hrec).trans hdecl2),
      resolve_root_generic_args_next env path _ (mods.length + 1) r nxt r2 _ harg2]
  · intro nxt
    exact segment_target_cases env st path.mappings.crate_num nxt

/-- C21, on the sample program: in the path `m::R::x` the module `m` is skipped,
the struct `R` becomes the root, and the walk stops at `x`, for which nothing is
recorded: the root returned is the type of `R`, `*offset` is 2 and the segment
left is `x`. -/
theorem resolve_root_path_modules_then_root_witness :
    resolve_root_path (Sample.root_env [] Sample.probed_none) Sample.module_state
        (Sample.path 900 [Sample.segment "m" 909 29, Sample.segment "R" 901 21,
          Sample.segment "x" 907 27]) UNKNOWN_NODEID
      = { root := some Sample.tyR, offset := 2, root_resolved_node_id := 1010
          st := Sample.module_state }
    ∧ (Sample.path 900 [Sample.segment "m" 909 29, Sample.segment "R" 901 21,
          Sample.segment "x" 907 27]).segments.drop 2 = [Sample.segment "x" 907 27] :=
  match resolve_root_path_modules_then_root (Sample.root_env [] Sample.probed_none)
      Sample.module_state
      (Sample.path 900 [Sample.segment "m" 909 29, Sample.segment "R" 901 21,
        Sample.segment "x" 907 27]) UNKNOWN_NODEID
      [Sample.segment "m" 909 29] (Sample.segment "R" 901 21) [Sample.segment "x" 907 27]
      1010 Sample.tyR (by rfl)
      (fun m hm => by
        rw [List.mem_singleton] at hm
        subst hm
        rfl)
      (by rfl) (fun ga h => by cases h) with
  | ⟨_, _, hdrop, _, _, hstop, _⟩ =>
    ⟨(hstop (Sample.segment "x" 907 27) [] UNKNOWN_NODEID (by rfl) (by rfl) (by rfl)).trans
        (by rfl), hdrop⟩

/-- C22: a turn of the loop of `process_traits_for_candidates`, for the entry
`ref = (trait, impl)`, returns when the matching item is usable (its kind is
not `ERROR`, and a function type has the parameter `Self`). The calls it makes
are `setup` followed by `subst`: `subst` holds the Self substitution, and
`setup` is empty or the one call of `setup_associated_types` on the
associated-impl record `assoc`. The call on `assoc` is made if and only if the
entry matches the name and is not skipped as required, `impl` is known, the
root kind of the receiver is neither `PARAM` nor `DYNAMIC`, and `assoc` is the
record the context has for `impl`. For an entry that does not match or is
skipped the probe object is left as it is. -/
theorem process_trait_setup_associated_types (env : Env) (p : PathProbeType) (ig : Bool)
    (ref : TraitReference × Option ImplBlock)
    (huse : ∀ item, ref.1.lookup_trait_item p.search = some item →
      trait_yields p.search ig ref = true →
      item.type ≠ TraitItemType.ERROR
      ∧ (item.tyty.kind = TypeKind.FNDEF → (find_self item.tyty).isSome = true)) :
    ∃ p' setup subst, process_trait_for_candidates env p ig ref = some p'
      ∧ p'.calls = p.calls ++ setup ++ subst
      ∧ (∀ e ∈ subst, ∃ t a, e = Event.SubstMapperInternal_Resolve t a)
      ∧ (setup = [] ∨ ∃ assoc, setup = [Event.setup_associated_types assoc])
      ∧ (∀ assoc, setup = [Event.setup_associated_types assoc]
          ↔ trait_yields p.search ig ref = true
            ∧ ∃ impl, ref.2 = some impl
              ∧ (env.get_root p.receiver).kind ≠ TypeKind.PARAM
              ∧ (env.get_root p.receiver).kind ≠ TypeKind.DYNAMIC
              ∧ env.lookup_associated_trait_impl impl.hirid = some assoc)
      ∧ (trait_yields p.search ig ref = false → p' = p) := by
  unfold process_trait_for_candidates
  simp only []
  cases hl : ref.1.lookup_trait_item p.search with
  | none =>
    have hy : trait_yields p.search ig ref = false := by simp [trait_yields, hl]
    refine ⟨p, [], [], rfl, by simp, by simp, Or.inl rfl, ?_, fun _ => rfl⟩
    intro assoc; simp [hy]
  | some item =>
    simp only []
    by_cases hig : (ig && !item.optional) = true
    · have hy : trait_yields p.search ig ref = false := by simp [trait_yields, hl, hig]
      rw [if_pos hig]
      refine ⟨p, [], [], rfl, by simp, by simp, Or.inl rfl, ?_, fun _ => rfl⟩
      intro assoc; simp [hy]
    · have hy : trait_yields p.search ig ref = true := by
        simp only [trait_yields, hl]
        cases ig <;> cases hopt : item.optional <;> simp_all
      rw [if_neg hig]
      obtain ⟨hty, hself⟩ := huse item hl hy
      cases hct : candidate_type_of item.type with
      | none => cases hit : item.type <;> simp_all [candidate_type_of]
      | some ct =>
        simp only []
        -- the calls of `setup_associated_types`
        have hsetup : ∀ setup : List Event,
            setup = (match ref.2 with
              | none => []
              | some impl =>
                if (decide ((env.get_root p.receiver).kind = TypeKind.PARAM)
                    || decide ((env.get_root p.receiver).kind = TypeKind.DYNAMIC)) = true
                then []
                else
                  match env.lookup_associated_trait_impl impl.hirid with
                  | none => []
                  | some lookup_associated =>
                    [Event.setup_associated_types lookup_associated]) →
            (setup = [] ∨ ∃ assoc, setup = [Event.setup_associated_types assoc])
            ∧ (∀ assoc, setup = [Event.setup_associated_types assoc]
                ↔ trait_yields p.search ig ref = true
                  ∧ ∃ impl, ref.2 = some impl
                    ∧ (env.get_root p.receiver).kind ≠ TypeKind.PARAM
                    ∧ (env.get_root p.receiver).kind ≠ TypeKind.DYNAMIC
                    ∧ env.lookup_associated_trait_impl impl.hirid = some assoc) := by
          intro setup hs
          subst hs
          cases himpl : ref.2 with
          | none => simp
          | some impl =>
            simp only []
            by_cases hg : (decide ((env.get_root p.receiver).kind = TypeKind.PARAM)
                || decide ((env.get_root p.receiver).kind = TypeKind.DYNAMIC)) = true
            · rw [if_pos hg]
              refine ⟨Or.inl rfl, ?_⟩
              intro assoc
              simp only [Bool.or_eq_true, decide_eq_true_eq] at hg
              constructor
              · intro h; simp at h
              · rintro ⟨_, impl', hi, h1, h2, _⟩
                rcases hg with hg | hg
                · exact absurd hg h1
                · exact absurd hg h2
            · rw [if_neg hg]
              simp only [Bool.or_eq_true, decide_eq_true_eq, not_or] at hg
              cases ha : env.lookup_associated_trait_impl impl.hirid with
              | none =>
                refine ⟨Or.inl rfl, ?_⟩
                intro assoc
                constructor
                · intro h; simp at h
                · rintro ⟨_, impl', hi, _, _, h3⟩
                  simp only [Option.some.injEq] at hi
                  subst hi
                  rw [ha] at h3
                  simp at h3
              | some a =>
                refine ⟨Or.inr ⟨a, rfl⟩, ?_⟩
                intro assoc
                constructor
                · intro h
                  simp only [List.cons.injEq, Event.setup_associated_types.injEq,
                    and_true] at h
                  exact ⟨hy, impl, rfl, hg.1, hg.2, by rw [ha, h]⟩
                · rintro ⟨_, impl', hi, _, _, h3⟩
                  simp only [Option.some.injEq] at hi
                  subst hi
                  rw [ha] at h3
                  simp only [Option.some.injEq] at h3
                  rw [h3]
        obtain ⟨hs1, hs2⟩ := hsetup _ rfl
        by_cases hk : item.tyty.kind = TypeKind.FNDEF
        · rw [if_pos hk]
          obtain ⟨param, hparam⟩ := Option.isSome_iff_exists.mp (hself hk)
          unfold find_self at hparam
          simp only [hparam]
          refine ⟨_, _, [Event.SubstMapperInternal_Resolve item.tyty
              { mappings := [SubstitutionArg.mk param p.receiver.clone]
                locus := UNKNOWN_LOCATION }], rfl, ?_, ?_, hs1, hs2, ?_⟩
          · simp only [List.append_assoc]
          · intro e he
            simp only [List.mem_singleton] at he
            exact ⟨_, _, he⟩
          · intro hn; rw [hy] at hn; simp at hn
        · rw [if_neg hk]
          refine ⟨_, _, [], rfl, by simp, by simp, hs1, hs2, ?_⟩
          intro hn; rw [hy] at hn; simp at hn

/-- C22, on the sample program: the probe of the struct `R` for `foo` on the
entry of the trait `T` with the known block `impl T for R`, which has the
associated-impl record of the block 60: the turn returns, and its calls are the
realization of the associated types of that record, then the Self
substitution. -/
theorem process_trait_setup_associated_types_witness :
    (process_trait_for_candidates (Sample.env [] Sample.probed_T)
        (PathProbeType.new Sample.tyR "foo") false
        (Sample.traitT, some Sample.implTforR)).map (fun q => q.calls)
      = some [Event.setup_associated_types { trait_defid := 1, impl_hirid := 60 },
          Event.SubstMapperInternal_Resolve (Sample.fndef 200 [Sample.self_param])
            (self_mapping Sample.self_param Sample.tyR)]
    ∧ ∃ p' setup subst,
        process_trait_for_candidates (Sample.env [] Sample.probed_T)
          (PathProbeType.new Sample.tyR "foo") false
          (Sample.traitT, some Sample.implTforR) = some p'
        ∧ p'.calls = (PathProbeType.new Sample.tyR "foo").calls ++ setup ++ subst
        ∧ (∀ assoc, setup = [Event.setup_associated_types assoc]
            ↔ trait_yields "foo" false (Sample.traitT, some Sample.implTforR) = true
              ∧ ∃ impl, some Sample.implTforR = some impl
                ∧ ((Sample.env [] Sample.probed_T).get_root Sample.tyR).kind ≠ TypeKind.PARAM
                ∧ ((Sample.env [] Sample.probed_T).get_root Sample.tyR).kind
                    ≠ TypeKind.DYNAMIC
                ∧ (Sample.env [] Sample.probed_T).lookup_associated_trait_impl impl.hirid
                    = some assoc) :=
  ⟨by rfl,
    match process_trait_setup_associated_types (Sample.env [] Sample.probed_T)
        (PathProbeType.new Sample.tyR "foo") false (Sample.traitT, some Sample.implTforR)
        (fun item h _ => by
          have hi := Sample.foo_lookup item h
          subst hi
          decide) with
    | ⟨p', setup, subst, h1, h2, _, _, h5, _⟩ => ⟨p', setup, subst, h1, h2, h5⟩⟩

/-- C23: a type whose bound `O` has the associated type `Out`, the placeholder
of `Out` being one that can be resolved (to the struct `A`). The path `Q::Out`
has the single candidate `Out` of the trait, whose type is that placeholder, and
`resolve_segments` returns the placeholder itself, not its target. -/
theorem resolve_segments_returns_resolvable_placeholder :
    (∃ st, resolve_segments Sample.placeholder_env (Sample.state [(35, Sample.tyQ)])
        1035 900 [Sample.segment "Out" 905 25] 0 Sample.tyQ (Sample.mapping 900) 20
      = some (Sample.placeholder_out, st))
    ∧ Sample.placeholder_out.kind = TypeKind.PLACEHOLDER
    ∧ Sample.placeholder_env.placeholder_can_resolve Sample.placeholder_out = true
    ∧ Sample.placeholder_env.placeholder_resolve Sample.placeholder_out = Sample.tyA
    ∧ Sample.tyA ≠ Sample.placeholder_out := by
  refine ⟨⟨_, by rfl⟩, by rfl, by rfl, by rfl, by decide⟩

/-- C23 (amended): `visit (QualifiedPathInType)` with an as-clause, on a run that
reaches the projection (the root is no error, the trait is resolved and
implemented, the lookups of the assertions succeed and the trait item is
found). The visit goes on with a type `translated`, which is the target
`resolve ()` of the projection when the projection is a placeholder that can be
resolved, and the projection itself otherwise; so `translated` is no placeholder
that can be resolved as long as the target is none. With no generic arguments on
the segment `Item` and no further segment, `translated` is what the visit leaves
as its result. In `resolve_segments` the type of a single candidate that is an
inherent item or a trait item without impl block is handed on as the candidate
carries it, whatever its kind. -/
theorem visit_QualifiedPathInType_grabs_projection (env : Env) (st : State)
    (path : QualifiedPath) (type_mappings : NodeMapping) (root : BaseType)
    (trait : TypePath) (trait_ref : TraitReference) (impl_resolved_id : NodeId)
    (impl_block_id : HirId) (lookup_associated : AssociatedImplTrait)
    (trait_item_ref : TraitItemReference) (projected : BaseType)
    (hk : root.kind ≠ TypeKind.ERROR) (ht : path.trait = some trait)
    (hres : env.TraitResolver_Resolve trait = some trait_ref)
    (hbound : env.is_bound_satisfied_for_type root trait_ref = true)
    (hname : st.resolved_names.lookup path.qual_mappings.nodeid = some impl_resolved_id)
    (hhir : env.lookup_node_to_hir path.mappings.crate_num impl_resolved_id
      = some impl_block_id)
    (hassoc : env.lookup_associated_trait_impl impl_block_id = some lookup_associated)
    (hitem : trait_ref.lookup_trait_item path.associated_segment.ident_segment
      = some trait_item_ref)
    (hproj : env.get_projected_type lookup_associated trait_item_ref root
        path.associated_segment.mappings.hirid
        (match path.trait_generic_args with
          | some args => args
          | none => GenericArgs.create_empty UNKNOWN_LOCATION)
        path.associated_segment.locus = projected) :
    (∃ translated,
      visit_QualifiedPathInType env st path type_mappings root
        = continue_as_path env
            { st with trace := st.trace ++ [Event.setup_associated_types lookup_associated] }
            path root trait_item_ref translated
      ∧ (projected.kind = TypeKind.PLACEHOLDER →
          env.placeholder_can_resolve projected = true →
          translated = env.placeholder_resolve projected)
      ∧ (¬ (projected.kind = TypeKind.PLACEHOLDER
            ∧ env.placeholder_can_resolve projected = true) → translated = projected)
      ∧ (¬ ((env.placeholder_resolve projected).kind = TypeKind.PLACEHOLDER
            ∧ env.placeholder_can_resolve (env.placeholder_resolve projected) = true) →
          ¬ (translated.kind = TypeKind.PLACEHOLDER
            ∧ env.placeholder_can_resolve translated = true))
      ∧ (path.associated_segment.generic_args = none → path.segments = [] →
          visit_QualifiedPathInType env st path type_mappings root
            = some (some translated,
                { st with
                  trace := st.trace ++ [Event.setup_associated_types lookup_associated]
                  resolved_names :=
                    (path.mappings.nodeid, trait_item_ref.mappings.nodeid)
                      :: st.resolved_names
                  receivers := (path.mappings.hirid, root) :: st.receivers })))
    ∧ (∀ (expr_id : HirId) (expr_locus : Location) (st2 : State) (tyseg : BaseType)
        (seg : TypePathSegment) (c : PathProbeCandidate),
        TagMatchesItem c → (∀ t, c.item = Candidate.trait t → t.impl = none) →
        ∃ id, take_candidate env expr_id expr_locus st2 tyseg seg [c]
          = some (segment_generics env expr_id expr_locus seg id tyseg c.ty st2)) := by
  have hvisit := visit_QualifiedPathInType_projected env st path type_mappings root trait
    trait_ref impl_resolved_id impl_block_id lookup_associated trait_item_ref hk ht hres
    hbound hname hhir hassoc hitem
  rw [hproj] at hvisit
  refine ⟨⟨grab_projection env projected, hvisit, ?_, ?_, ?_, ?_⟩, ?_⟩
  · intro h1 h2
    unfold grab_projection
    rw [if_pos h1, if_pos h2]
  · intro h
    unfold grab_projection
    by_cases h1 : projected.kind = TypeKind.PLACEHOLDER
    · rw [if_pos h1, if_neg (fun h2 => h ⟨h1, h2⟩)]
    · rw [if_neg h1]
  · intro htarget
    unfold grab_projection
    by_cases h1 : projected.kind = TypeKind.PLACEHOLDER
    · by_cases h2 : env.placeholder_can_resolve projected = true
      · rw [if_pos h1, if_pos h2]
        exact htarget
      · rw [if_pos h1, if_neg h2]
        exact fun h => h2 h.2
    · rw [if_neg h1]
      exact fun h => h1 h.1
  · intro hargs hsegs
    rw [hvisit]
    unfold continue_as_path
    simp only [hargs, hsegs, List.isEmpty_nil, if_true]
  · intro expr_id expr_locus st2 tyseg seg c htag himpl
    rw [take_candidate_single env expr_id expr_locus st2 tyseg seg c htag]
    cases hc : c.item with
    | impl i => exact ⟨_, rfl⟩
    | trait t =>
      simp only []
      rw [himpl t hc]
      exact ⟨_, rfl⟩

/-- C23, on the sample program: the path `<R as O>::Out`, whose projection is the
placeholder of `Out`, leaves the target `A` of that placeholder. -/
theorem visit_QualifiedPathInType_grabs_projection_witness :
    ∃ translated, translated = Sample.tyA
      ∧ visit_QualifiedPathInType Sample.placeholder_env Sample.out_state Sample.out_path
          (Sample.mapping 910) Sample.tyR
        = some (some translated,
            { Sample.out_state with
              trace := [Event.setup_associated_types { trait_defid := 7, impl_hirid := 60 }]
              resolved_names := [(1920, 1230), (1921, 1060)]
              receivers := [(920, Sample.tyR)] }) :=
  match visit_QualifiedPathInType_grabs_projection Sample.placeholder_env Sample.out_state
      Sample.out_path (Sample.mapping 910) Sample.tyR
      (Sample.path 930 [Sample.segment "O" 931 31]) Sample.traitO 1060 60
      { trait_defid := 7, impl_hirid := 60 } Sample.trait_out Sample.placeholder_out
      (by decide) (by rfl) (by rfl) (by rfl) (by rfl) (by rfl) (by rfl) (by rfl) (by rfl) with
  | ⟨⟨translated, _, h2, _, _, h5⟩, _⟩ =>
    ⟨translated, h2 (by rfl) (by rfl), (h5 (by rfl) (by rfl)).trans (by rfl)⟩

/-- C24: a turn of the loop of `resolve_segments` whose probe yields the single
candidate `c`, the assertion of the turn holding (the associated-impl record of
a known impl block is found) and the ids in use being below the id counter.
The turn goes on to the generic arguments of the segment with a type `ty` and a
state `S`, the type context being untouched. When `c` is a trait item whose impl
block is known, `setup_associated_types` is called on the record of that block,
`ty` is the clone of the candidate's type under the id taken from the counter
(which differs from the candidate type's id), and the counter advances by one.
When `c` is an inherent item or a trait item without known impl block, `ty` is
the candidate's type as it is and the state is the one left by the probe, the
counter being where it was. -/
theorem resolve_segment_single_candidate (env : Env) (expr_id : HirId)
    (expr_locus : Location) (st st2 : State) (prev tyseg : BaseType)
    (seg : TypePathSegment) (c : PathProbeCandidate)
    (hprobe : probe_segment env st prev seg.ident_segment = some ([c], st2))
    (htag : TagMatchesItem c)
    (hfound : ∀ t impl, c.item = Candidate.trait t → t.impl = some impl →
      (env.lookup_associated_trait_impl impl.hirid).isSome = true)
    (hfresh : c.ty.ty_ref < st.next_hir_id) :
    ∃ id ty S, resolve_segment env expr_id expr_locus st prev tyseg seg
        = some (segment_generics env expr_id expr_locus seg id tyseg ty S)
      ∧ S.types = st.types
      ∧ (∀ t impl, c.item = Candidate.trait t → t.impl = some impl →
          ∃ assoc, env.lookup_associated_trait_impl impl.hirid = some assoc
            ∧ S.trace = st2.trace ++ [Event.setup_associated_types assoc]
            ∧ ty = (c.ty.clone).set_ty_ref st.next_hir_id
            ∧ ty = { c.ty with ty_ref := st.next_hir_id }
            ∧ ty.ty_ref ≠ c.ty.ty_ref
            ∧ S.next_hir_id = st.next_hir_id + 1)
      ∧ ((∀ t, c.item = Candidate.trait t → t.impl = none) →
          ty = c.ty ∧ S = st2 ∧ S.next_hir_id = st.next_hir_id) := by
  have hframe := probe_segment_frame env st st2 prev seg.ident_segment [c] hprobe
  obtain ⟨⟨htypes, -⟩, -, hnext⟩ := hframe
  rw [resolve_segment_eq, hprobe]
  simp only []
  rw [if_neg (by simp), take_candidate_single env expr_id expr_locus st2 tyseg seg c htag]
  cases hitem : c.item with
  | impl i =>
    refine ⟨_, _, _, rfl, htypes, ?_, ?_⟩
    · intro t impl h; cases h
    · intro _; exact ⟨rfl, rfl, hnext⟩
  | trait t =>
    simp only []
    cases himp : t.impl with
    | none =>
      simp only []
      refine ⟨_, _, _, rfl, htypes, ?_, ?_⟩
      · intro t' impl h h'
        cases h
        rw [himp] at h'
        cases h'
      · intro _; exact ⟨rfl, rfl, hnext⟩
    | some impl =>
      have hsome := hfound t impl hitem himp
      simp only []
      cases hassoc : env.lookup_associated_trait_impl impl.hirid with
      | none => rw [hassoc] at hsome; cases hsome
      | some a =>
        simp only []
        refine ⟨_, _, _, rfl, htypes, ?_, ?_⟩
        · intro t' impl' h h'
          cases h
          rw [himp] at h'
          cases h'
          refine ⟨a, hassoc, rfl, by rw [hnext], by rw [hnext]; rfl, ?_, ?_⟩
          · show st2.next_hir_id ≠ c.ty.ty_ref
            rw [hnext]
            exact fun h => Nat.lt_irrefl _ (h ▸ hfresh)
          · show st2.next_hir_id + 1 = st.next_hir_id + 1
            rw [hnext]
        · intro hn
          have := hn t rfl
          rw [himp] at this
          cases this

/-- C24, on the sample program: the probe of `R` for `foo` finds the one
candidate of the trait `T`, whose impl block `impl T for R` is known; the turn
hands on the candidate's type under the fresh id 5000 instead of 200, calls
`setup_associated_types` and moves the counter to 5001. -/
theorem resolve_segment_single_candidate_witness :
    resolve_segment (Sample.env [] Sample.probed_T) 900 20 (Sample.state [(10, Sample.tyR)])
        Sample.tyR Sample.tyR (Sample.segment "foo" 905 25)
      = some (SegmentOutcome.next 1200 Sample.tyR
          { Sample.fndef 200 [] with ty_ref := 5000 }
          { Sample.trait_foo_probed with
            trace := Sample.trait_foo_probed.trace
              ++ [Event.setup_associated_types { trait_defid := 1, impl_hirid := 60 }]
            next_hir_id := 5001 })
    ∧ ∃ id ty S, resolve_segment (Sample.env [] Sample.probed_T) 900 20
          (Sample.state [(10, Sample.tyR)]) Sample.tyR Sample.tyR
          (Sample.segment "foo" 905 25)
        = some (segment_generics (Sample.env [] Sample.probed_T) 900 20
            (Sample.segment "foo" 905 25) id Sample.tyR ty S)
      ∧ S.types = (Sample.state [(10, Sample.tyR)]).types
      ∧ (∀ t impl, Sample.trait_foo_candidate.item = Candidate.trait t → t.impl = some impl →
          ∃ assoc, (Sample.env [] Sample.probed_T).lookup_associated_trait_impl impl.hirid
              = some assoc
            ∧ S.trace = Sample.trait_foo_probed.trace ++ [Event.setup_associated_types assoc]
            ∧ ty = (Sample.trait_foo_candidate.ty.clone).set_ty_ref
                (Sample.state [(10, Sample.tyR)]).next_hir_id
            ∧ ty = { Sample.trait_foo_candidate.ty with
                ty_ref := (Sample.state [(10, Sample.tyR)]).next_hir_id }
            ∧ ty.ty_ref ≠ Sample.trait_foo_candidate.ty.ty_ref
            ∧ S.next_hir_id = (Sample.state [(10, Sample.tyR)]).next_hir_id + 1)
      ∧ ((∀ t, Sample.trait_foo_candidate.item = Candidate.trait t → t.impl = none) →
          ty = Sample.trait_foo_candidate.ty ∧ S = Sample.trait_foo_probed
            ∧ S.next_hir_id = (Sample.state [(10, Sample.tyR)]).next_hir_id) :=
  ⟨by rfl,
    resolve_segment_single_candidate (Sample.env [] Sample.probed_T) 900 20
      (Sample.state [(10, Sample.tyR)]) Sample.trait_foo_probed Sample.tyR Sample.tyR
      (Sample.segment "foo" 905 25) Sample.trait_foo_candidate (by rfl) (by rfl)
      (fun t impl h1 h2 => by cases h1; cases h2; rfl) (by decide)⟩

/-- C25: the code on the path `m::y` of the sample program, where `m` is a
module and nothing is recorded for the segment `y`. The turn for `m` advances
`*offset` to 1 and leaves `root_tyty` null; the turn for `y` finds no target
and, `*offset` being no longer 0, returns `root_tyty`: `resolve_root_path`
returns the null pointer for a path of two segments, the assertion
`root != nullptr` of `visit (TypePath)` fails, and `Resolve` returns no type
node (and no diagnostic). -/
theorem resolve_root_path_null_after_module_prefix :
    (Sample.root_env [] Sample.probed_none).lookup_module 0 500 = true
    ∧ segment_ref_node_id (Sample.root_env [] Sample.probed_none) Sample.module_state
        (Sample.segment "m" 909 29) = some 1500
    ∧ (Sample.root_env [] Sample.probed_none).lookup_node_to_hir 0 1500 = some 500
    ∧ segment_ref_node_id (Sample.root_env [] Sample.probed_none) Sample.module_state
        (Sample.segment "y" 908 28) = some UNKNOWN_NODEID
    ∧ resolve_root_path (Sample.root_env [] Sample.probed_none) Sample.module_state
        (Sample.path 900 [Sample.segment "m" 909 29, Sample.segment "y" 908 28])
        UNKNOWN_NODEID
      = { root := none, offset := 1, root_resolved_node_id := UNKNOWN_NODEID
          st := Sample.module_state }
    ∧ Resolve (Sample.root_env [] Sample.probed_none) Sample.module_state
        (TypeExpr.TypePath
          (Sample.path 900 [Sample.segment "m" 909 29, Sample.segment "y" 908 28])) none
      = none := by
  refine ⟨by rfl, by rfl, by rfl, by rfl, by rfl, by rfl⟩

/-- C26: the code on the qualified path `<R>::foo` of the sample program,
without `as` clause, where `R` resolves to the struct `R` and `foo` is the
inherent function of `R`. The call of `resolve_segments` is given `translated`,
which is still null, in the place of `root`: the walk reads through the null
pointer and `Resolve` returns no type node. Given `root`, the same call returns
the type of `foo`. -/
theorem visit_QualifiedPathInType_passes_null_receiver :
    Sample.plain_qual_path.trait = none
    ∧ Resolve (Sample.ty_env Sample.foo_items Sample.probed_none) Sample.plain_qual_state
        (TypeExpr.TypePath (Sample.path 900 [Sample.segment "R" 901 21])) none
      = some (Sample.tyR.set_ref 900,
          Sample.plain_qual_state.insert_type (Sample.mapping 900) (Sample.tyR.set_ref 900))
    ∧ (Sample.tyR.set_ref 900).kind ≠ TypeKind.ERROR
    ∧ visit_QualifiedPathInType (Sample.ty_env Sample.foo_items Sample.probed_none)
        (Sample.plain_qual_state.insert_type (Sample.mapping 900) (Sample.tyR.set_ref 900))
        Sample.plain_qual_path (Sample.mapping 900) (Sample.tyR.set_ref 900)
      = none
    ∧ Resolve (Sample.ty_env Sample.foo_items Sample.probed_none) Sample.plain_qual_state
        (TypeExpr.QualifiedPathInType Sample.plain_qual_path
          (TypeExpr.TypePath (Sample.path 900 [Sample.segment "R" 901 21]))) none
      = none
    ∧ (resolve_segments (Sample.ty_env Sample.foo_items Sample.probed_none)
        (Sample.plain_qual_state.insert_type (Sample.mapping 900) (Sample.tyR.set_ref 900))
        1010 920 Sample.plain_qual_path.segments 0 (Sample.tyR.set_ref 900)
        (Sample.mapping 920) 30).map (fun r => r.1)
      = some (Sample.fndef 100 []) := by
  refine ⟨by rfl, by rfl, by decide, by rfl, by rfl, by rfl⟩

/-- C27: the code on the probe of the struct `R` for `foo` on the sample
program, where `R` has the inherent function `foo`, declared at the location
14, and the probed trait `T`, declared at the location 6, has a function `foo`.
The two candidates are constructed with the locations 14 and 6, but the
constructors of `PathProbeCandidate` do not initialise the member `locus` from
their argument: both candidates carry the unknown location. -/
theorem Probe_candidates_drop_location :
    (Probe (Sample.env Sample.foo_items Sample.probed_T) Sample.foo_state Sample.tyR "foo"
        true true true).map (fun r => r.1.map (fun c => (c.type, c.locus)))
      = some [(CandidateType.IMPL_FUNC, UNKNOWN_LOCATION),
              (CandidateType.TRAIT_FUNC, UNKNOWN_LOCATION)]
    ∧ (Sample.item "foo" 100 14).locus = 14
    ∧ Sample.traitT.locus = 6
    ∧ UNKNOWN_LOCATION ≠ 14 ∧ UNKNOWN_LOCATION ≠ 6
    ∧ PathProbeCandidate.of_impl CandidateType.IMPL_FUNC (Sample.fndef 100 []) 14
        { impl_item := ImplItem.Function (Sample.item "foo" 100 14)
          parent := some Sample.implR }
      = { type := CandidateType.IMPL_FUNC, ty := Sample.fndef 100 []
          locus := UNKNOWN_LOCATION
          item := Candidate.impl { impl_item := ImplItem.Function (Sample.item "foo" 100 14)
                                   parent := some Sample.implR } } := by
  refine ⟨by rfl, by rfl, by rfl, by decide, by decide, by rfl⟩

end Resolver
end Rust
